import Mathlib

/-!
# Phobos: raid1 layout engine and local resource scheduler

Shallow embedding of `src/layout-modules/raid1.c`, of the scheduler of
`src/lrs/lrs_sched.c`, of the encoders and decoders of `src/dss/dss.c` and of
the serializer of `src/serializer/srl_tlc.c`, followed by the theorems settled
on it.

Conventions of the embedding.

* C structures become Lean structures with the field names of the source.
* `GArray` and `GQueue` become `List` (head of the queue first, tail last);
  the `GHashTable` of media to release becomes an association list.
* Memory allocation is assumed to succeed (`-ENOMEM` paths are not taken).
* Calls into adapters, the state index and the data I/O are passed in as
  explicit outcomes, so every theorem holds whatever those calls answer.
* `size_t` values are natural numbers; where the source can wrap, the
  arithmetic is written modulo `2 ^ 64`.
-/

namespace Phobos

/-! ## Error numbers (positive values of `errno.h`, Linux) -/

def EPERM : Int := 1
def ENOENT : Int := 2
def EIO : Int := 5
def ENXIO : Int := 6
def EBADF : Int := 9
def EAGAIN : Int := 11
def ENOMEM : Int := 12
def EBUSY : Int := 16
def ENODEV : Int := 19
def EINVAL : Int := 22
def ENOSPC : Int := 28
def ERANGE : Int := 34
def EPROTO : Int := 71

/-- Width of `size_t` on the supported platforms. -/
def SIZE_MAX1 : Nat := 2 ^ 64

/-- Width of `unsigned int`. -/
def UINT_MAX1 : Nat := 2 ^ 32

/-! ## Shared data model -/

/-- Resource identifier `struct pho_id`. -/
structure pho_id where
  family : Nat
  name : String
deriving DecidableEq, Repr

/-- Extent state `enum extent_state`. -/
inductive extent_state where
  | PHO_EXT_ST_PENDING
  | PHO_EXT_ST_SYNC
  | PHO_EXT_ST_ORPHAN
deriving DecidableEq, Repr

/-- The fields of `struct extent` used by the layout module (the address is
filled by the I/O adapter and never read by raid1). -/
structure extent where
  layout_idx : Nat
  size : Nat
  media : pho_id
deriving DecidableEq, Repr

/-- The fields of `struct layout_info` used by the layout module.
`repl_count_attr` is the numeric value of the `repl_count` module attribute as
`strtoul` reads it (`none` when the attribute is absent, `some 0` for a string
that holds no number). -/
structure layout_info where
  repl_count_attr : Option Nat
  ext_count : Nat
  extents : List extent
  state : extent_state
deriving DecidableEq, Repr

/-! ## Protocol messages (`pho_req_t`, `pho_resp_t`) -/

/-- Request kinds carried by an error response. -/
inductive pho_request_kind where
  | RQ_WRITE
  | RQ_READ
  | RQ_RELEASE
  | RQ_FORMAT
  | RQ_NOTIFY
deriving DecidableEq, Repr

structure pho_req_write_elt where
  size : Nat
  tags : List String
deriving DecidableEq, Repr

structure pho_req_release_elt where
  med_id : pho_id
  rc : Int
  size_written : Nat
  to_sync : Bool
deriving DecidableEq, Repr

/-- Notify operations `PHO_NTFY_OP_*`. -/
inductive notify_op where
  | PHO_NTFY_OP_INVAL
  | PHO_NTFY_OP_DEVICE_ADD
  | PHO_NTFY_OP_DEVICE_LOCK
  | PHO_NTFY_OP_DEVICE_UNLOCK
deriving DecidableEq, Repr

/-- Body of a request: the one sub-message that is set. `other` stands for a
request with none of the fields the scheduler knows. -/
inductive pho_req_body where
  | walloc (family : Nat) (media : List pho_req_write_elt)
  | ralloc (n_required : Nat) (med_ids : List pho_id)
  | release (media : List pho_req_release_elt)
  | format (med_id : pho_id) (fs : Nat) (unlock : Bool)
  | notify (op : notify_op) (rsrc_id : pho_id)
  | other
deriving DecidableEq, Repr

structure pho_req where
  id : Nat
  body : pho_req_body
deriving DecidableEq, Repr

structure pho_resp_write_elt where
  med_id : pho_id
  avail_size : Nat
  root_path : String
  fs_type : Nat
  addr_type : Nat
deriving DecidableEq, Repr

structure pho_resp_read_elt where
  med_id : pho_id
  root_path : String
  fs_type : Nat
  addr_type : Nat
deriving DecidableEq, Repr

/-- Body of a response: the one sub-message that is set; `unset` is a response
whose content was freed or never allocated. -/
inductive pho_resp_body where
  | walloc (media : List pho_resp_write_elt)
  | ralloc (media : List pho_resp_read_elt)
  | release (med_ids : List pho_id)
  | format (med_id : pho_id)
  | notify (rsrc_id : pho_id)
  | error (rc : Int) (req_kind : pho_request_kind)
  | unset
deriving DecidableEq, Repr

structure pho_resp where
  req_id : Nat
  body : pho_resp_body
deriving DecidableEq, Repr

/-! ## raid1 encoder state -/

/-- Private state `struct raid1_encoder`. `to_release_media` maps a medium
name to its reference count. -/
structure raid1_encoder where
  repl_count : Nat
  to_write : Nat
  cur_extent_idx : Nat
  requested_alloc : Bool
  written_extents : List extent
  to_release_media : List (String × Nat)
  n_released_media : Nat
deriving DecidableEq, Repr

/-- The fields of `struct pho_encoder` and of its transfer descriptor that the
raid1 module reads or writes. -/
structure pho_encoder where
  is_decoder : Bool
  done : Bool
  xd_rc : Int
  xd_fd : Int
  layout : layout_info
  priv_enc : raid1_encoder
deriving DecidableEq, Repr

/-- Outcome of the data I/O of one chunk, as seen by
`multiple_enc_write_chunk`: `setup_rc` is the first failure while getting the
I/O adapters and building the extent attributes (the code then leaves without
touching the release request), `rc` the first failure among open, write and
close of the replicas, `iod_size` the bytes that went through replica `i`
when the I/O failed. -/
structure chunk_io where
  setup_rc : Int
  rc : Int
  iod_size : Nat → Nat

/-- A chunk I/O where every call succeeds. -/
def chunk_io_ok : chunk_io := ⟨0, 0, fun _ => 0⟩

/-! ## raid1 write path -/

/-- `g_hash_table_lookup` on the table of media to release. -/
def release_lookup (tbl : List (String × Nat)) (media_id : String) : Option Nat :=
  match tbl with
  | [] => none
  | (k, v) :: rest => if k = media_id then some v else release_lookup rest media_id

/-- `++(*to_release_refcount)` on the entry of `media_id`. -/
def release_incr (tbl : List (String × Nat)) (media_id : String) : List (String × Nat) :=
  match tbl with
  | [] => []
  | (k, v) :: rest =>
    if k = media_id then (k, v + 1) :: rest else (k, v) :: release_incr rest media_id

/-- `--(*to_release_refcount)` on the entry of `media_id`. -/
def release_decr (tbl : List (String × Nat)) (media_id : String) : List (String × Nat) :=
  match tbl with
  | [] => []
  | (k, v) :: rest =>
    if k = media_id then (k, v - 1) :: rest else (k, v) :: release_decr rest media_id

/-- `g_hash_table_remove`: no entry is left for `media_id`. -/
def release_remove (tbl : List (String × Nat)) (media_id : String) : List (String × Nat) :=
  match tbl with
  | [] => []
  | (k, v) :: rest =>
    if k = media_id then release_remove rest media_id
    else (k, v) :: release_remove rest media_id

/-- `add_new_to_release_media`: insert `media_id` with a reference count of 1. -/
def add_new_to_release_media (raid1 : raid1_encoder) (media_id : String) : raid1_encoder :=
  { raid1 with to_release_media := raid1.to_release_media ++ [(media_id, 1)] }

/-- `add_written_extent`: append the extent and count one more release to
wait for on its medium. -/
def add_written_extent (raid1 : raid1_encoder) (e : extent) : raid1_encoder :=
  let raid1 := { raid1 with written_extents := raid1.written_extents ++ [e] }
  match release_lookup raid1.to_release_media e.media.name with
  | some _ =>
    { raid1 with to_release_media := release_incr raid1.to_release_media e.media.name }
  | none => add_new_to_release_media raid1 e.media.name

/-- `layout_repl_count`: the replica count of a layout, read from its module
attribute with `strtoul` and stored in an `unsigned int`. -/
def layout_repl_count (layout : layout_info) : Except Int Nat :=
  match layout.repl_count_attr with
  | none => .error (-EINVAL)
  | some v =>
    if SIZE_MAX1 ≤ v then .error (-ERANGE)
    else if v % UINT_MAX1 = 0 then .error (-EINVAL)
    else .ok (v % UINT_MAX1)

/-- `set_extent_info`. -/
def set_extent_info (medium : pho_resp_write_elt) (layout_idx : Nat) (extent_size : Nat) :
    extent :=
  { layout_idx := layout_idx, size := extent_size, media := medium.med_id }

/-- The loop of `multiple_enc_write_chunk` that limits the write size by the
smallest available space of the media. -/
def limit_extent_size (extent_size : Nat) (media : List pho_resp_write_elt) : Nat :=
  match media with
  | [] => extent_size
  | m :: rest =>
    limit_extent_size (if m.avail_size < extent_size then m.avail_size else extent_size) rest

/-- The loop of `multiple_enc_write_chunk` that prepares the extents:
`extent[i]` is on `media[i]` with index `cur_extent_idx * repl_count + i`. -/
def prepare_extents (raid1 : raid1_encoder) (media : List pho_resp_write_elt)
    (extent_size : Nat) (i : Nat) : List extent :=
  match media with
  | [] => []
  | m :: rest =>
    set_extent_info m (raid1.cur_extent_idx * raid1.repl_count + i) extent_size ::
      prepare_extents raid1 rest extent_size (i + 1)

/-- The loop of `multiple_enc_write_chunk` that adds all written extents. -/
def add_written_extents (raid1 : raid1_encoder) (extents : List extent) : raid1_encoder :=
  match extents with
  | [] => raid1
  | e :: rest => add_written_extents (add_written_extent raid1 e) rest

/-- The loop of `multiple_enc_write_chunk` that updates the release request. -/
def update_release_elts (elts : List pho_req_release_elt) (rc : Int) (written : Nat → Nat)
    (i : Nat) : List pho_req_release_elt :=
  match elts with
  | [] => []
  | e :: rest =>
    { e with rc := rc, size_written := written i } :: update_release_elts rest rc written (i + 1)

/-- `multiple_enc_write_chunk`: write one extent per medium of `wresp`, all of
the same size, and fill the release request. Returns the return code, the
encoder and the release elements. -/
def multiple_enc_write_chunk (enc : pho_encoder) (wresp : List pho_resp_write_elt)
    (rreq : List pho_req_release_elt) (io : chunk_io) :
    Int × pho_encoder × List pho_req_release_elt :=
  let raid1 := enc.priv_enc
  if wresp.length ≠ raid1.repl_count then (-EINVAL, enc, rreq)
  else if enc.xd_fd < 0 then (-EBADF, enc, rreq)
  else if io.setup_rc ≠ 0 then (io.setup_rc, enc, rreq)
  else
    let extent_size := limit_extent_size raid1.to_write wresp
    let extents := prepare_extents raid1 wresp extent_size 0
    let rc := io.rc
    let raid1 := if rc = 0 then { raid1 with to_write := raid1.to_write - extent_size } else raid1
    let rreq := update_release_elts rreq rc
      (fun i => if rc = 0 then extent_size else io.iod_size i) 0
    let raid1 := if rc = 0 then add_written_extents raid1 extents else raid1
    (rc, { enc with priv_enc := raid1 }, rreq)

/-! ## raid1 read path -/

/-- Wrapping subtraction on `size_t`. -/
def size_sub (a b : Nat) : Nat := (a + SIZE_MAX1 - b % SIZE_MAX1) % SIZE_MAX1

/-- Wrapping addition on `size_t`. -/
def size_add (a b : Nat) : Nat := (a + b) % SIZE_MAX1

/-- Outcome of the loop of `simple_dec_read_chunk` that looks for the extent
of the current split stored on the medium named `name`. -/
inductive find_result where
  | found (e : extent)
  | not_ordered
  | no_match
deriving DecidableEq, Repr

/-- The loop of `simple_dec_read_chunk` over the replicas `i .. repl_count - 1`
of the current split (`fuel` is the number of replicas left). An index past
the end of the extent array reads an unspecified extent, which the model
treats as an ordering failure. -/
def find_extent (raid1 : raid1_encoder) (extents : List extent) (name : String)
    (i : Nat) (fuel : Nat) : find_result :=
  match fuel with
  | 0 => .no_match
  | fuel + 1 =>
    let extent_index := raid1.cur_extent_idx * raid1.repl_count + i
    match extents[extent_index]? with
    | none => .not_ordered
    | some candidate_extent =>
      if candidate_extent.layout_idx ≠ extent_index then .not_ordered
      else if name = candidate_extent.media.name then .found candidate_extent
      else find_extent raid1 extents name (i + 1) fuel

/-- Outcome of the data I/O of one read: `adapter_rc` for `get_io_adapter`,
`key_rc` for `build_extent_key`, `get_rc` for `ioa_get`. -/
structure read_io where
  adapter_rc : Int
  key_rc : Int
  get_rc : Int
deriving DecidableEq, Repr

/-- A read I/O where every call succeeds. -/
def read_io_ok : read_io := ⟨0, 0, 0⟩

/-- `simple_dec_read_chunk`: read the extent of the current split from
`medium`. -/
def simple_dec_read_chunk (dec : pho_encoder) (medium : pho_resp_read_elt) (io : read_io) :
    Int × pho_encoder :=
  let raid1 := dec.priv_enc
  match find_extent raid1 dec.layout.extents medium.med_id.name 0 raid1.repl_count with
  | .not_ordered => (-EINVAL, dec)
  | .no_match => (-EINVAL, dec)
  | .found e =>
    if io.adapter_rc ≠ 0 then (io.adapter_rc, dec)
    else if dec.xd_fd < 0 then (-EBADF, dec)
    else if io.key_rc ≠ 0 then (io.key_rc, dec)
    else
      let rc := io.get_rc
      let raid1 :=
        if rc = 0 then
          { raid1 with to_write := size_sub raid1.to_write e.size,
                       cur_extent_idx := raid1.cur_extent_idx + 1 }
        else raid1
      let dec := { dec with priv_enc := raid1 }
      let dec := if raid1.to_write = 0 then { dec with done := true } else dec
      (rc, dec)

/-! ## Release responses -/

/-- `mark_written_medium_released`: a release was received for `medium`. -/
def mark_written_medium_released (raid1 : raid1_encoder) (medium : String) :
    Int × raid1_encoder :=
  match release_lookup raid1.to_release_media medium with
  | none => (-EINVAL, raid1)
  | some refcount =>
    let raid1 := { raid1 with n_released_media := raid1.n_released_media + 1 }
    if refcount = 1 then
      (0, { raid1 with to_release_media := release_remove raid1.to_release_media medium })
    else
      (0, { raid1 with to_release_media := release_decr raid1.to_release_media medium })

/-- The loop of `raid1_enc_handle_release_resp` over the released media; `rc`
keeps the first failure. -/
def mark_all_released (raid1 : raid1_encoder) (med_ids : List pho_id) (rc : Int) :
    Int × raid1_encoder :=
  match med_ids with
  | [] => (rc, raid1)
  | m :: rest =>
    let r := mark_written_medium_released raid1 m.name
    mark_all_released r.2 rest (if r.1 ≠ 0 ∧ rc = 0 then r.1 else rc)

/-- `raid1_enc_handle_release_resp`: remember the released media and mark the
encoder done when everything was written and every release was received. On
completion the array of written extents moves into the layout and the table
of media to release is destroyed. -/
def raid1_enc_handle_release_resp (enc : pho_encoder) (rel_resp : List pho_id) :
    Int × pho_encoder :=
  let r := mark_all_released enc.priv_enc rel_resp 0
  let rc := r.1
  let raid1 := r.2
  if raid1.to_write = 0 ∧ raid1.written_extents.length > 0 ∧
      raid1.written_extents.length = raid1.n_released_media then
    let layout := { enc.layout with ext_count := raid1.written_extents.length,
                                    extents := raid1.written_extents,
                                    state := extent_state.PHO_EXT_ST_SYNC }
    let raid1 := { raid1 with written_extents := [], n_released_media := 0,
                              to_release_media := [] }
    (0, { enc with layout := layout, priv_enc := raid1, done := true })
  else (rc, { enc with priv_enc := raid1 })

/-! ## Requests emitted by the encoder -/

/-- `raid1_enc_next_write_req`: ask for `repl_count` media, each with room for
all that remains to write. `family` and `tags` come from the transfer. -/
def raid1_enc_next_write_req (enc : pho_encoder) (family : Nat) (tags : List String) : pho_req :=
  { id := 0,
    body := .walloc family
      (List.replicate enc.priv_enc.repl_count { size := enc.priv_enc.to_write, tags := tags }) }

/-- The media of the current split, for `raid1_dec_next_read_req`. -/
def split_media (extents : List extent) (cur_extent_idx repl_count : Nat) : List pho_id :=
  ((extents.drop (cur_extent_idx * repl_count)).take repl_count).map (fun e => e.media)

/-- `raid1_dec_next_read_req`: one medium is required among the copies of the
current split. -/
def raid1_dec_next_read_req (dec : pho_encoder) : pho_req :=
  { id := 0,
    body := .ralloc 1
      (split_media dec.layout.extents dec.priv_enc.cur_extent_idx dec.priv_enc.repl_count) }

/-- The release request built for a write allocation response, before the
I/O: every medium is to be synced. -/
def release_elts_of_walloc (media : List pho_resp_write_elt) : List pho_req_release_elt :=
  media.map (fun m => { med_id := m.med_id, rc := 0, size_written := 0, to_sync := true })

/-- Outcome of the data I/O of one step of the encoder or decoder. -/
structure step_io where
  chunk : chunk_io
  read : read_io

/-- A step I/O where every call succeeds. -/
def step_io_ok : step_io := ⟨chunk_io_ok, read_io_ok⟩

/-- `raid1_enc_handle_resp`: handle one response of the scheduler; returns the
return code, the encoder and the requests appended. -/
def raid1_enc_handle_resp (enc : pho_encoder) (resp : pho_resp) (io : step_io) :
    Int × pho_encoder × List pho_req :=
  match resp.body with
  | .error rc _ => (0, { enc with xd_rc := rc, done := true }, [])
  | .walloc media =>
    let enc := { enc with priv_enc := { enc.priv_enc with requested_alloc := false } }
    if enc.is_decoder then (-EINVAL, enc, [])
    else if media.length ≠ enc.priv_enc.repl_count then (-EINVAL, enc, [])
    else
      let r := multiple_enc_write_chunk enc media (release_elts_of_walloc media) io.chunk
      (r.1, r.2.1, [{ id := 0, body := .release r.2.2 }])
  | .ralloc media =>
    let enc := { enc with priv_enc := { enc.priv_enc with requested_alloc := false } }
    if ¬ enc.is_decoder then (-EINVAL, enc, [])
    else
      match media with
      | [m] =>
        let r := simple_dec_read_chunk enc m io.read
        (r.1, r.2,
          [{ id := 0,
             body := .release [{ med_id := m.med_id, rc := r.1, size_written := 0,
                                 to_sync := false }] }])
      | _ => (-EINVAL, enc, [])
  | .release med_ids =>
    if ¬ enc.is_decoder then
      let r := raid1_enc_handle_release_resp enc med_ids
      (r.1, r.2, [])
    else (0, enc, [])
  | _ => (-EPROTO, enc, [])

/-- `no_more_alloc`. -/
def no_more_alloc (enc : pho_encoder) : Bool :=
  if enc.done then true
  else if enc.priv_enc.to_write > 0 then false
  else if enc.is_decoder then true
  else if enc.priv_enc.written_extents.length > 0 then true
  else false

/-- `raid1_encoder_step`: handle a possible response, then emit the next
allocation request when one is needed. -/
def raid1_encoder_step (enc : pho_encoder) (resp : Option pho_resp) (io : step_io)
    (family : Nat) (tags : List String) : Int × pho_encoder × List pho_req :=
  let r : Int × pho_encoder × List pho_req :=
    match resp with
    | some resp => raid1_enc_handle_resp enc resp io
    | none => (0, enc, [])
  let rc := r.1
  let enc := r.2.1
  let reqs := r.2.2
  if rc ≠ 0 ∨ enc.priv_enc.requested_alloc = true ∨ no_more_alloc enc = true then
    (rc, enc, reqs)
  else
    let req := if enc.is_decoder then raid1_dec_next_read_req enc
               else raid1_enc_next_write_req enc family tags
    (0, { enc with priv_enc := { enc.priv_enc with requested_alloc := true } }, reqs ++ [req])

/-! ## Creation of encoders and decoders -/

/-- `layout_raid1_encode`: build an encoder for a put of `size` bytes.
`string_repl_count` is the numeric value of the `repl_count` string of the put
parameters or, failing that, of the configuration. -/
def layout_raid1_encode (size : Int) (string_repl_count : Option Nat) (xd_fd : Int) :
    Except Int pho_encoder :=
  match string_repl_count with
  | none => .error (-EINVAL)
  | some v =>
    let layout : layout_info :=
      { repl_count_attr := some v, ext_count := 0, extents := [],
        state := extent_state.PHO_EXT_ST_PENDING }
    match layout_repl_count layout with
    | .error rc => .error rc
    | .ok repl_count =>
      if size < 0 then .error (-EINVAL)
      else
        .ok { is_decoder := false, done := false, xd_rc := 0, xd_fd := xd_fd, layout := layout,
              priv_enc := { repl_count := repl_count, to_write := size.toNat,
                            cur_extent_idx := 0, requested_alloc := false,
                            written_extents := [], to_release_media := [],
                            n_released_media := 0 } }

/-- The loop of `layout_raid1_decode` that adds the size of the first copy of
every split `i .. i + fuel - 1`. -/
def decode_size (extents : List extent) (repl_count : Nat) (i fuel : Nat) (acc : Nat) : Nat :=
  match fuel with
  | 0 => acc
  | fuel + 1 =>
    decode_size extents repl_count (i + 1) fuel
      (size_add acc (extents[i * repl_count]?.map (fun e => e.size) |>.getD 0))

/-- `layout_raid1_decode`: build a decoder for `layout`. Returns the return
code together with the decoder (`none` when the private state was not
reached). -/
def layout_raid1_decode (layout : layout_info) (is_decoder : Bool) (xd_fd : Int) :
    Int × Option pho_encoder :=
  if ¬ is_decoder then (-EINVAL, none)
  else
    match layout_repl_count layout with
    | .error rc => (rc, none)
    | .ok repl_count =>
      if layout.ext_count % repl_count ≠ 0 then (-EINVAL, none)
      else
        let to_write := decode_size layout.extents repl_count 0 (layout.ext_count / repl_count) 0
        let dec : pho_encoder :=
          { is_decoder := true, done := false, xd_rc := 0, xd_fd := xd_fd, layout := layout,
            priv_enc := { repl_count := repl_count, to_write := to_write, cur_extent_idx := 0,
                          requested_alloc := false, written_extents := [],
                          to_release_media := [], n_released_media := 0 } }
        if to_write = 0 then
          let dec := { dec with done := true }
          if xd_fd < 0 then (-EBADF, some dec) else (0, some dec)
        else (0, some dec)

/-- Drive an encoder or decoder through a list of events (a possible response
and the outcome of the data I/O it triggers). A done encoder is never stepped
again: its private arrays are gone. -/
def raid1_run (enc : pho_encoder) (events : List (Option pho_resp × step_io))
    (family : Nat) (tags : List String) : pho_encoder :=
  match events with
  | [] => enc
  | ev :: rest =>
    if enc.done then enc
    else raid1_run (raid1_encoder_step enc ev.1 ev.2 family tags).2.1 rest family tags

/-! ## raid1 locate -/

/-- Possible locations of an object split: `struct split_location`
(`nb_hosts` is the length of `hostnames`). -/
structure split_location where
  unlocked_media : Bool
  repl_count : Nat
  hostnames : List String
deriving DecidableEq, Repr

/-- A candidate host and its score: `struct one_location`. -/
structure one_location where
  hostname : String
  nb_fitted_split : Nat
  nb_unreachable_split : Nat
deriving DecidableEq, Repr

/-- Possible locations of an object: `struct object_location` (`nb_hosts` is
the length of `hosts`). -/
structure object_location where
  all_splits_have_unlocked_media : Bool
  split_count : Nat
  repl_count : Nat
  hosts : List one_location
  splits : List split_location
deriving DecidableEq, Repr

/-- `init_split_location`. -/
def init_split_location (repl_count : Nat) : split_location :=
  { unlocked_media := false, repl_count := repl_count, hostnames := [] }

/-- `init_object_location`. -/
def init_object_location (split_count repl_count : Nat) : object_location :=
  { all_splits_have_unlocked_media := true, split_count := split_count,
    repl_count := repl_count, hosts := [],
    splits := List.replicate split_count (init_split_location repl_count) }

/-- `add_host_split_location`. -/
def add_host_split_location (split : split_location) (hostname : String) : split_location :=
  { split with hostnames := split.hostnames ++ [hostname] }

/-- Apply `f` to the split of index `i`. -/
def update_split (splits : List split_location) (i : Nat)
    (f : split_location → split_location) : List split_location :=
  match splits, i with
  | [], _ => []
  | s :: rest, 0 => f s :: rest
  | s :: rest, i + 1 => s :: update_split rest i f

/-- The second loop of `add_host_object_location`: the first host named
`hostname` fits one more split; `none` when the host is not known yet. -/
def fit_known_host (hosts : List one_location) (hostname : String) :
    Option (List one_location) :=
  match hosts with
  | [] => none
  | h :: rest =>
    if h.hostname = hostname then
      some ({ h with nb_fitted_split := h.nb_fitted_split + 1 } :: rest)
    else (fit_known_host rest hostname).map (fun l => h :: l)

/-- `add_host_object_location`: `hostname` holds a medium of the split
`split_index`. -/
def add_host_object_location (ol : object_location) (hostname : String) (split_index : Nat) :
    object_location :=
  match ol.splits[split_index]? with
  | none => ol
  | some split =>
    if hostname ∈ split.hostnames then ol
    else
      match fit_known_host ol.hosts hostname with
      | some hosts =>
        { ol with hosts := hosts,
                  splits := update_split ol.splits split_index
                    (fun s => add_host_split_location s hostname) }
      | none =>
        { ol with hosts := ol.hosts ++ [{ hostname := hostname, nb_fitted_split := 1,
                                          nb_unreachable_split := 0 }],
                  splits := update_split ol.splits split_index
                    (fun s => add_host_split_location s hostname) }

/-- The loop of `get_best_object_location` over the hosts, for one split with
no unlocked medium: a host that holds no medium of the split cannot reach it. -/
def count_unreachable (split : split_location) (hosts : List one_location) :
    List one_location :=
  hosts.map (fun host =>
    if host.hostname ∈ split.hostnames then host
    else { host with nb_unreachable_split := host.nb_unreachable_split + 1 })

/-- The loop of `get_best_object_location` over the splits. -/
def update_unreachable (splits : List split_location) (hosts : List one_location) :
    List one_location :=
  match splits with
  | [] => hosts
  | split :: rest =>
    update_unreachable rest
      (if split.unlocked_media then hosts else count_unreachable split hosts)

/-- The test of `get_best_object_location` that makes `candidate` replace
`best`. -/
def better_location (best candidate : one_location) : Bool :=
  decide (best.nb_unreachable_split > candidate.nb_unreachable_split) ||
  (decide (best.nb_unreachable_split = candidate.nb_unreachable_split) &&
   decide (best.nb_fitted_split < candidate.nb_fitted_split))

/-- The selection loop of `get_best_object_location`: `best` is the host of
index `best_index`, `candidates` are the hosts of index `i` and after. -/
def pick_best (best_index : Nat) (best : one_location) (i : Nat)
    (candidates : List one_location) : Nat × one_location :=
  match candidates with
  | [] => (best_index, best)
  | candidate :: rest =>
    if better_location best candidate then pick_best i candidate (i + 1) rest
    else pick_best best_index best (i + 1) rest

/-- `get_best_object_location`: update the scores, then return the best
hostname if there is any candidate. -/
def get_best_object_location (ol : object_location) :
    Int × Option String × object_location :=
  match ol.hosts with
  | [] => (0, none, ol)
  | _ :: _ =>
    let hosts := update_unreachable (ol.splits.take ol.split_count) ol.hosts
    let ol := { ol with hosts := hosts }
    match hosts with
    | [] => (0, none, ol)
    | first :: rest => (0, some (pick_best 0 first 1 rest).2.hostname, ol)

/-- Result of `layout_raid1_locate`: a return code of 0 with a hostname or
`NULL`, a failure, or a failed assertion. -/
inductive locate_result where
  | ok (hostname : Option String)
  | err (rc : Int)
  | assert_failed
deriving DecidableEq, Repr

/-- The extents `split_index * repl_count ≤ i < (split_index + 1) * repl_count`,
`i < ext_count` of a layout. -/
def split_extents (layout : layout_info) (repl_count split_index : Nat) : List extent :=
  ((layout.extents.take layout.ext_count).drop (split_index * repl_count)).take repl_count

/-- The inner loop of `layout_raid1_locate` over the extents of one split.
`dss_medium_locate` answers a return code and, on success, the hostname that
holds the lock of the medium (`none` for an unlocked medium). -/
def locate_split_extents (dss_medium_locate : pho_id → Int × Option String)
    (ol : object_location) (split_index : Nat) (exts : List extent) (enodev : Bool) :
    object_location × Bool :=
  match exts with
  | [] => (ol, enodev)
  | e :: rest =>
    let r := dss_medium_locate e.media
    if r.1 ≠ 0 then locate_split_extents dss_medium_locate ol split_index rest enodev
    else
      match r.2 with
      | some extent_hostname =>
        locate_split_extents dss_medium_locate
          (add_host_object_location ol extent_hostname split_index) split_index rest false
      | none =>
        locate_split_extents dss_medium_locate
          { ol with splits := update_split ol.splits split_index
                      (fun s => { s with unlocked_media := true }) }
          split_index rest false

/-- Whether the split of index `i` has an unlocked medium. -/
def split_unlocked (ol : object_location) (i : Nat) : Bool :=
  match ol.splits[i]? with
  | some s => s.unlocked_media
  | none => false

/-- The outer loop of `layout_raid1_locate` over the splits
`split_index .. split_index + fuel - 1`; fails with `-ENODEV` on the first
split with no medium. -/
def locate_splits (dss_medium_locate : pho_id → Int × Option String) (layout : layout_info)
    (repl_count : Nat) (ol : object_location) (split_index fuel : Nat) :
    Except Int object_location :=
  match fuel with
  | 0 => .ok ol
  | fuel + 1 =>
    let r := locate_split_extents dss_medium_locate ol split_index
      (split_extents layout repl_count split_index) true
    if r.2 then .error (-ENODEV)
    else
      let ol := r.1
      let ol := if split_unlocked ol split_index then ol
                else { ol with all_splits_have_unlocked_media := false }
      locate_splits dss_medium_locate layout repl_count ol (split_index + 1) fuel

/-- `layout_raid1_locate`: the best host to read the object from. -/
def layout_raid1_locate (dss_medium_locate : pho_id → Int × Option String)
    (layout : layout_info) : locate_result :=
  match layout_repl_count layout with
  | .error rc => .err rc
  | .ok repl_count =>
    if layout.ext_count % repl_count ≠ 0 then .assert_failed
    else
      let nb_split := layout.ext_count / repl_count
      match locate_splits dss_medium_locate layout repl_count
          (init_object_location nb_split repl_count) 0 nb_split with
      | .error rc => .err rc
      | .ok ol =>
        let r := get_best_object_location ol
        if r.1 ≠ 0 ∨ r.2.1.isSome then
          (if r.1 ≠ 0 then .err r.1 else .ok r.2.1)
        else if r.2.2.all_splits_have_unlocked_media then .ok none
        else .assert_failed

/-! ## Local resource scheduler: devices -/

/-- Operational status of a device, `enum dev_op_status`. -/
inductive dev_op_status where
  | PHO_DEV_OP_ST_FAILED
  | PHO_DEV_OP_ST_EMPTY
  | PHO_DEV_OP_ST_LOADED
  | PHO_DEV_OP_ST_MOUNTED
  | PHO_DEV_OP_ST_UNSPEC
deriving DecidableEq, Repr, Inhabited

/-- Administrative status of a resource, `enum rsc_adm_status`. -/
inductive rsc_adm_status where
  | PHO_RSC_ADM_ST_LOCKED
  | PHO_RSC_ADM_ST_UNLOCKED
  | PHO_RSC_ADM_ST_FAILED
deriving DecidableEq, Repr, Inhabited

/-- Filesystem status of a medium, `enum fs_status`. -/
inductive fs_status where
  | PHO_FS_STATUS_BLANK
  | PHO_FS_STATUS_EMPTY
  | PHO_FS_STATUS_USED
  | PHO_FS_STATUS_FULL
deriving DecidableEq, Repr, Inhabited

/-- Kind of a library address, `enum med_location`. -/
inductive med_location where
  | MED_LOC_UNKNOWN
  | MED_LOC_DRIVE
  | MED_LOC_SLOT
  | MED_LOC_ARM
  | MED_LOC_IMPEXP
deriving DecidableEq, Repr, Inhabited

/-- A lock of the state index, `struct pho_lock`. -/
structure pho_lock where
  hostname : String
  owner : Int
deriving DecidableEq, Repr, Inhabited

/-- Usage counters of a medium, `struct media_stats`. -/
structure media_stats where
  nb_obj : Nat
  logc_spc_used : Nat
  phys_spc_used : Nat
  phys_spc_free : Nat
deriving DecidableEq, Repr, Inhabited

/-- The fields of `struct media_info` read by the scheduler (`model` is
`rsc.model`). -/
structure media_info where
  id : pho_id
  adm_status : rsc_adm_status
  addr_type : Nat
  fs_type : Nat
  fs_stat : fs_status
  fs_label : String
  stats : media_stats
  tags : List String
  flag_put : Bool
  flag_get : Bool
  lock : Option pho_lock
  model : String := ""
deriving DecidableEq, Repr

/-- The fields of `struct dev_descr` read by the scheduler: `dev_id`,
`dev_lock` and `model` come from `dss_dev_info`, `lia_type` from
`lib_dev_info.ldi_addr`. -/
structure dev_descr where
  dev_id : pho_id
  dev_lock : Option pho_lock
  lia_type : med_location
  op_status : dev_op_status
  dev_path : String
  dss_media_info : Option media_info
  mnt_path : String
  ongoing_io : Bool
  model : String := ""
deriving DecidableEq, Repr

/-- The devices of a scheduler together with the state `world` of what lies
outside of it (state index, library, filesystems). -/
structure lrs_devs (ω : Type) where
  devices : List dev_descr
  world : ω

/-- The loop of `search_loaded_media`: index of the first loaded or mounted
device, at position `i` or after, whose medium is named `name`. -/
def search_loaded_from (devices : List dev_descr) (name : String) (i : Nat) : Option Nat :=
  match devices with
  | [] => none
  | dev :: rest =>
    if dev.op_status ≠ .PHO_DEV_OP_ST_MOUNTED ∧ dev.op_status ≠ .PHO_DEV_OP_ST_LOADED then
      search_loaded_from rest name (i + 1)
    else
      match dev.dss_media_info with
      | none => search_loaded_from rest name (i + 1)
      | some media =>
        if name = media.id.name then some i else search_loaded_from rest name (i + 1)

/-- `search_loaded_media`: the device where the medium `name` is loaded. -/
def search_loaded_media (devices : List dev_descr) (name : String) : Option Nat :=
  search_loaded_from devices name 0

/-- Apply `f` to the device of index `i`. -/
def update_dev (devices : List dev_descr) (i : Nat) (f : dev_descr → dev_descr) :
    List dev_descr :=
  match devices, i with
  | [], _ => []
  | d :: rest, 0 => f d :: rest
  | d :: rest, i + 1 => d :: update_dev rest i f

/-- The rollback statement of the allocation handlers: the device that holds
the medium `name` is not busy any more (`assert(dev != NULL)` in the source). -/
def end_ongoing_io (devices : List dev_descr) (name : String) : List dev_descr :=
  match search_loaded_media devices name with
  | none => devices
  | some i => update_dev devices i (fun d => { d with ongoing_io := false })

/-- Outcome of the library calls of one `sched_load_media`, and of the unlock
of the medium on failure. -/
structure lib_outcome where
  open_rc : Int
  lookup_rc : Int
  media_lia_type : med_location
  move_rc : Int
  close_rc : Int
  unlock_rc : Int
deriving DecidableEq, Repr

/-- `sched_load_media`: load `media` into the empty drive `dev`. Returns the
return code, the device and the medium (its lock is cleaned when the medium
was released after a failure). -/
def sched_load_media (dev : dev_descr) (media : media_info) (lib : lib_outcome) :
    Int × dev_descr × media_info :=
  let fail (rc : Int) : Int × dev_descr × media_info :=
    (rc, { dev with ongoing_io := false },
      if lib.unlock_rc = 0 then { media with lock := none } else media)
  if dev.op_status ≠ .PHO_DEV_OP_ST_EMPTY then fail (-EAGAIN)
  else if dev.dss_media_info.isSome then fail (-EAGAIN)
  else if lib.open_rc ≠ 0 then fail lib.open_rc
  else
    let rc : Int :=
      if lib.lookup_rc ≠ 0 then lib.lookup_rc
      else if lib.move_rc = -EINVAL ∧ lib.media_lia_type = .MED_LOC_DRIVE ∧
          dev.lia_type = .MED_LOC_DRIVE then -EBUSY
      else lib.move_rc
    let dev := if rc = 0 then
        { dev with op_status := .PHO_DEV_OP_ST_LOADED, dss_media_info := some media }
      else dev
    let rc := if lib.close_rc ≠ 0 then (if rc ≠ 0 then rc else lib.close_rc) else rc
    if rc ≠ 0 then
      (rc, { dev with ongoing_io := false },
        if lib.unlock_rc = 0 then { media with lock := none } else media)
    else (0, dev, media)

/-! ## Local resource scheduler: request handlers -/

/-- The functions of the scheduler that prepare devices and media, taken as
parameters: each maps the devices and the outside world to a return code and
their new state. `init_req_id` is the value that the allocators of
`pho_srl_lrs.h` leave in the `req_id` field of a response they initialise
(they receive the response only, never the request). The device answered by
`sched_write_prepare` and `sched_read_prepare` is given by its index. -/
structure sched_ops (ω : Type) where
  init_req_id : Nat
  sched_write_prepare : lrs_devs ω → Nat → List String → List Nat → Nat →
    Int × lrs_devs ω × Nat
  sched_read_prepare : lrs_devs ω → pho_id → Int × lrs_devs ω × Nat
  sched_format : lrs_devs ω → pho_id → Nat → Bool → Int × lrs_devs ω
  sched_device_add : lrs_devs ω → Nat → String → Int × lrs_devs ω
  sched_device_lock : lrs_devs ω → String → Int × lrs_devs ω
  sched_device_unlock : lrs_devs ω → String → Int × lrs_devs ω
  sched_io_complete : lrs_devs ω → media_info → Nat → Int → String → Int × lrs_devs ω

/-- Content of a response after `pho_srl_response_free`: the sub-messages
are gone, the identifier stays. -/
def pho_srl_response_free (resp : pho_resp) : pho_resp :=
  { resp with body := .unset }

/-- Content of a response after `pho_srl_response_error_alloc` (declared in
`pho_srl_lrs.h`): the response is initialised, with an error sub-message that
the caller fills. -/
def pho_srl_response_error_alloc (init_req_id : Nat) : pho_resp :=
  { req_id := init_req_id, body := .error 0 .RQ_WRITE }

/-- An element of a write response as `pho_srl_response_write_alloc` leaves it. -/
def empty_write_elt : pho_resp_write_elt :=
  { med_id := ⟨0, ""⟩, avail_size := 0, root_path := "", fs_type := 0, addr_type := 0 }

/-- An element of a read response as `pho_srl_response_read_alloc` leaves it. -/
def empty_read_elt : pho_resp_read_elt :=
  { med_id := ⟨0, ""⟩, root_path := "", fs_type := 0, addr_type := 0 }

/-- The element of a write response built from the prepared device. -/
def write_elt_of_dev (dev : Option dev_descr) : pho_resp_write_elt :=
  match dev with
  | none => empty_write_elt
  | some d =>
    match d.dss_media_info with
    | none => { empty_write_elt with root_path := d.mnt_path }
    | some m =>
      { med_id := m.id, avail_size := m.stats.phys_spc_free, root_path := d.mnt_path,
        fs_type := m.fs_type, addr_type := m.addr_type }

/-- The allocation loop of `sched_handle_write_alloc` over the media
`i, i + 1, ..` of the request; `done` are the response elements already
built, `devs` the devices already selected. Returns the return code, the
state and the elements built (their number is `n_media_acquired`). -/
def write_alloc_loop {ω : Type} (ops : sched_ops ω) (st : lrs_devs ω)
    (media : List pho_req_write_elt) (devs : List Nat) (done : List pho_resp_write_elt)
    (i : Nat) : Int × lrs_devs ω × List pho_resp_write_elt :=
  match media with
  | [] => (0, st, done)
  | m :: rest =>
    let r := ops.sched_write_prepare st m.size m.tags devs i
    if r.1 ≠ 0 then (r.1, r.2.1, done)
    else
      write_alloc_loop ops r.2.1 rest (devs ++ [r.2.2])
        (done ++ [write_elt_of_dev r.2.1.devices[r.2.2]?]) (i + 1)

/-- The rollback loop of the allocation handlers over the names of the media
acquired. -/
def rollback_media (devices : List dev_descr) (names : List String) : List dev_descr :=
  match names with
  | [] => devices
  | n :: rest => rollback_media (end_ongoing_io devices n) rest

/-- `sched_handle_write_alloc`. Returns the return code, the state and the
response. -/
def sched_handle_write_alloc {ω : Type} (ops : sched_ops ω) (st : lrs_devs ω) (req : pho_req)
    (media : List pho_req_write_elt) : Int × lrs_devs ω × pho_resp :=
  let resp : pho_resp :=
    { req_id := ops.init_req_id, body := .walloc (List.replicate media.length empty_write_elt) }
  let resp := { resp with req_id := req.id }
  let r := write_alloc_loop ops st media [] [] 0
  let rc := r.1
  let st := r.2.1
  if rc ≠ 0 then
    let names := r.2.2.map (fun e => e.med_id.name)
    let st := { st with devices := rollback_media st.devices names }
    let resp := pho_srl_response_free resp
    if rc ≠ -EAGAIN then
      let resp := pho_srl_response_error_alloc ops.init_req_id
      (0, st, { resp with body := .error rc .RQ_WRITE })
    else (rc, st, resp)
  else (0, st, { resp with body := .walloc r.2.2 })

/-- The element of a read response built from the prepared device and the
requested medium. -/
def read_elt_of_dev (dev : Option dev_descr) (med_id : pho_id) : pho_resp_read_elt :=
  match dev with
  | none => { empty_read_elt with med_id := med_id }
  | some d =>
    match d.dss_media_info with
    | none => { empty_read_elt with med_id := med_id, root_path := d.mnt_path }
    | some m =>
      { med_id := med_id, root_path := d.mnt_path, fs_type := m.fs_type,
        addr_type := m.addr_type }

/-- The selection loop of `sched_handle_read_alloc` over the candidate media;
`selected` are the response elements already built, `rc` the last return
code. -/
def read_alloc_loop {ω : Type} (ops : sched_ops ω) (st : lrs_devs ω) (n_required : Nat)
    (med_ids : List pho_id) (selected : List pho_resp_read_elt) (rc : Int) :
    Int × lrs_devs ω × List pho_resp_read_elt :=
  match med_ids with
  | [] => (rc, st, selected)
  | m :: rest =>
    let r := ops.sched_read_prepare st m
    if r.1 ≠ 0 then read_alloc_loop ops r.2.1 n_required rest selected r.1
    else
      let selected := selected ++ [read_elt_of_dev r.2.1.devices[r.2.2]? m]
      if selected.length = n_required then (0, r.2.1, selected)
      else read_alloc_loop ops r.2.1 n_required rest selected 0

/-- The media of a read response: the elements selected, then the elements
left as allocated. -/
def read_resp_media (n_required : Nat) (selected : List pho_resp_read_elt) :
    List pho_resp_read_elt :=
  selected ++ List.replicate (n_required - selected.length) empty_read_elt

/-- `sched_handle_read_alloc`. -/
def sched_handle_read_alloc {ω : Type} (ops : sched_ops ω) (st : lrs_devs ω)
    (n_required : Nat) (med_ids : List pho_id) : Int × lrs_devs ω × pho_resp :=
  let resp : pho_resp :=
    { req_id := ops.init_req_id,
      body := .ralloc (List.replicate n_required empty_read_elt) }
  let r := read_alloc_loop ops st n_required med_ids [] 0
  let rc := r.1
  let st := r.2.1
  if rc ≠ 0 then
    let names := r.2.2.map (fun e => e.med_id.name)
    let st := { st with devices := rollback_media st.devices names }
    let resp := pho_srl_response_free resp
    if rc ≠ -EAGAIN then
      let resp := pho_srl_response_error_alloc ops.init_req_id
      (0, st, { resp with body := .error rc .RQ_READ })
    else (rc, st, resp)
  else (0, st, { resp with body := .ralloc (read_resp_media n_required r.2.2) })

/-- `sched_handle_format`. -/
def sched_handle_format {ω : Type} (ops : sched_ops ω) (st : lrs_devs ω) (req : pho_req)
    (med_id : pho_id) (fs : Nat) (unlock : Bool) : Int × lrs_devs ω × pho_resp :=
  let resp : pho_resp := { req_id := ops.init_req_id, body := .format ⟨0, ""⟩ }
  let r := ops.sched_format st med_id fs unlock
  let rc := r.1
  if rc ≠ 0 then
    let resp := pho_srl_response_free resp
    if rc ≠ -EAGAIN then
      let resp := pho_srl_response_error_alloc ops.init_req_id
      (0, r.2, { resp with req_id := req.id, body := .error rc .RQ_FORMAT })
    else (rc, r.2, resp)
  else (0, r.2, { resp with req_id := req.id, body := .format med_id })

/-- `sched_handle_notify`. -/
def sched_handle_notify {ω : Type} (ops : sched_ops ω) (st : lrs_devs ω) (req : pho_req)
    (op : notify_op) (rsrc_id : pho_id) : Int × lrs_devs ω × pho_resp :=
  let resp : pho_resp := { req_id := ops.init_req_id, body := .notify ⟨0, ""⟩ }
  let r : Int × lrs_devs ω :=
    match op with
    | .PHO_NTFY_OP_DEVICE_ADD => ops.sched_device_add st rsrc_id.family rsrc_id.name
    | .PHO_NTFY_OP_DEVICE_LOCK => ops.sched_device_lock st rsrc_id.name
    | .PHO_NTFY_OP_DEVICE_UNLOCK => ops.sched_device_unlock st rsrc_id.name
    | .PHO_NTFY_OP_INVAL => (-EINVAL, st)
  let rc := r.1
  if rc ≠ 0 then
    let resp := pho_srl_response_free resp
    if rc ≠ -EAGAIN then
      let resp := pho_srl_response_error_alloc ops.init_req_id
      (0, r.2, { resp with req_id := req.id, body := .error rc .RQ_NOTIFY })
    else (rc, r.2, resp)
  else (0, r.2, { resp with req_id := req.id, body := .notify rsrc_id })

/-! ## Local resource scheduler: queues and the scheduling pass -/

/-- A request and the socket it came from, `struct req_container`. -/
structure req_container where
  socket_id : Int
  req : pho_req
deriving DecidableEq, Repr

/-- A response and the socket it goes to, `struct resp_container`. -/
structure resp_container where
  socket_id : Int
  resp : pho_resp
deriving DecidableEq, Repr

/-- The state of `struct lrs_sched`: devices, outside world and the three
queues, each listed from its head to its tail. -/
structure lrs_sched (ω : Type) where
  devs : lrs_devs ω
  req_queue : List req_container
  release_queue : List req_container
  response_queue : List resp_container

/-- `g_queue_push_tail`. -/
def g_queue_push_tail {α : Type} (queue : List α) (data : α) : List α :=
  queue ++ [data]

/-- `g_queue_push_head`. -/
def g_queue_push_head {α : Type} (queue : List α) (data : α) : List α :=
  data :: queue

/-- `g_queue_pop_tail`: the last element, if any, and the queue without it. -/
def g_queue_pop_tail {α : Type} (queue : List α) : Option α × List α :=
  (queue.getLast?, queue.dropLast)

/-- `pho_request_is_release`. -/
def pho_request_is_release (req : pho_req) : Bool :=
  match req.body with
  | .release _ => true
  | _ => false

/-- `sched_request_enqueue` (the container and its request are not `NULL`). -/
def sched_request_enqueue {ω : Type} (sched : lrs_sched ω) (reqc : req_container) :
    Int × lrs_sched ω :=
  if pho_request_is_release reqc.req then
    (0, { sched with release_queue := g_queue_push_tail sched.release_queue reqc })
  else
    (0, { sched with req_queue := g_queue_push_tail sched.req_queue reqc })

/-- `sched_handle_medium_release`: flush the medium if asked and mark the I/O
of its device as ended. -/
def sched_handle_medium_release {ω : Type} (ops : sched_ops ω) (st : lrs_devs ω)
    (medium : pho_req_release_elt) : Int × lrs_devs ω :=
  match search_loaded_media st.devices medium.med_id.name with
  | none => (-ENOENT, st)
  | some i =>
    match st.devices[i]? with
    | none => (-ENOENT, st)
    | some dev =>
      let r : Int × lrs_devs ω :=
        if medium.to_sync then
          match dev.dss_media_info with
          | some m => ops.sched_io_complete st m medium.size_written medium.rc dev.mnt_path
          | none => (0, st)
        else (0, st)
      let devices := update_dev r.2.devices i (fun d => { d with ongoing_io := false })
      (r.1, { r.2 with devices := devices })

/-- `sched_handle_media_release`: release every medium of the request and
keep the first failure (`rc` is the failure met so far). -/
def sched_handle_media_release {ω : Type} (ops : sched_ops ω) (st : lrs_devs ω)
    (media : List pho_req_release_elt) (rc : Int) : Int × lrs_devs ω :=
  match media with
  | [] => (rc, st)
  | m :: rest =>
    let r := sched_handle_medium_release ops st m
    sched_handle_media_release ops r.2 rest (if rc ≠ 0 then rc else r.1)

/-- `to_sync_media_per_release`: the media of a release request that are to
be synced. -/
def to_sync_media (media : List pho_req_release_elt) : List pho_req_release_elt :=
  media.filter (fun m => m.to_sync)

/-- The loop of `sched_handle_release_reqs`: `pending` lists the release queue
from its tail, in the order `g_queue_pop_tail` pops it. Returns the return
code, the state, the requests left in the queue and the response queue. -/
def release_loop {ω : Type} (ops : sched_ops ω) (st : lrs_devs ω)
    (pending : List req_container) (response_queue : List resp_container) :
    Int × lrs_devs ω × List req_container × List resp_container :=
  match pending with
  | [] => (0, st, [], response_queue)
  | reqc :: rest =>
    let media : List pho_req_release_elt :=
      match reqc.req.body with
      | .release media => media
      | _ => []
    let r := sched_handle_media_release ops st media 0
    let rc := r.1
    let n_media := (to_sync_media media).length
    if n_media = 0 then
      if rc ≠ 0 then (rc, r.2, rest, response_queue)
      else release_loop ops r.2 rest response_queue
    else
      let resp : pho_resp :=
        if rc ≠ 0 then
          { pho_srl_response_error_alloc ops.init_req_id with body := .error rc .RQ_RELEASE }
        else
          { req_id := reqc.req.id,
            body := .release ((to_sync_media media).map (fun m => m.med_id)) }
      release_loop ops r.2 rest
        (g_queue_push_tail response_queue { socket_id := reqc.socket_id, resp := resp })

/-- The dispatch of `sched_responses_get` on the kind of the request. A
request of an unknown kind leaves the response as `malloc` returned it. -/
def sched_dispatch {ω : Type} (ops : sched_ops ω) (st : lrs_devs ω) (req : pho_req) :
    Int × lrs_devs ω × pho_resp :=
  match req.body with
  | .walloc _ media => sched_handle_write_alloc ops st req media
  | .ralloc n_required med_ids => sched_handle_read_alloc ops st n_required med_ids
  | .format med_id fs unlock => sched_handle_format ops st req med_id fs unlock
  | .notify op rsrc_id => sched_handle_notify ops st req op rsrc_id
  | _ => (-EPROTO, st, { req_id := ops.init_req_id, body := .unset })

/-- The request loop of `sched_responses_get`: `pending` lists the request
queue from its tail, in the order `g_queue_pop_tail` pops it; `rc` is the
return code of the previous iteration. On `-EAGAIN` the request goes back to
the tail of the queue, its response slot is removed and the loop stops with
0. Returns the return code, the state, the requests left in the queue (from
the tail) and the response array. -/
def request_loop {ω : Type} (ops : sched_ops ω) (st : lrs_devs ω)
    (pending : List req_container) (resp_array : List resp_container) (rc : Int) :
    Int × lrs_devs ω × List req_container × List resp_container :=
  match pending with
  | [] => (rc, st, [], resp_array)
  | reqc :: rest =>
    let r := sched_dispatch ops st reqc.req
    if r.1 = -EAGAIN then (0, r.2.1, reqc :: rest, resp_array)
    else
      request_loop ops r.2.1 rest
        (resp_array ++ [{ socket_id := reqc.socket_id, resp := r.2.2 }]) r.1

/-- `sched_responses_get`: one pass of the scheduler. Returns the return code,
the scheduler and the responses handed to the caller (none on failure). -/
def sched_responses_get {ω : Type} (ops : sched_ops ω) (sched : lrs_sched ω) :
    Int × lrs_sched ω × List resp_container :=
  let rel := release_loop ops sched.devs sched.release_queue.reverse sched.response_queue
  let sched := { sched with devs := rel.2.1, release_queue := rel.2.2.1.reverse,
                            response_queue := rel.2.2.2 }
  if rel.1 ≠ 0 then (rel.1, sched, [])
  else
    let r := request_loop ops sched.devs sched.req_queue.reverse [] 0
    let sched := { sched with devs := r.2.1, req_queue := r.2.2.1.reverse }
    if r.1 ≠ 0 then (r.1, sched, []) else (0, sched, r.2.2.2)

/-! ## Scenarios -/

/-- A put of `size` bytes with the replica count `string_repl_count`, driven
through `events`. -/
def raid1_put (size : Int) (string_repl_count : Option Nat) (xd_fd : Int)
    (events : List (Option pho_resp × step_io)) (family : Nat) (tags : List String) :
    Except Int pho_encoder :=
  match layout_raid1_encode size string_repl_count xd_fd with
  | .error rc => .error rc
  | .ok enc => .ok (raid1_run enc events family tags)

/-- A write allocation response element for the medium `name` of the family
`dir` with `avail_size` bytes available. -/
def dir_medium (name : String) (avail_size : Nat) : pho_resp_write_elt :=
  { med_id := ⟨1, name⟩, avail_size := avail_size, root_path := "/mnt/" ++ name,
    fs_type := 0, addr_type := 0 }

/-- The responses of the scheduler to a put of 3 bytes on two copies when the
first two media offered have 2 bytes available: the object is split in two. -/
def two_split_events : List (Option pho_resp × step_io) :=
  [ (none, step_io_ok),
    (some ⟨0, .walloc [dir_medium "a" 2, dir_medium "b" 2]⟩, step_io_ok),
    (some ⟨0, .release [⟨1, "a"⟩, ⟨1, "b"⟩]⟩, step_io_ok),
    (some ⟨0, .walloc [dir_medium "c" 2, dir_medium "d" 2]⟩, step_io_ok),
    (some ⟨0, .release [⟨1, "c"⟩, ⟨1, "d"⟩]⟩, step_io_ok) ]

/-- The layout that the two-split put above produces. -/
def two_split_layout : layout_info :=
  match raid1_put 3 (some 2) 5 two_split_events 1 [] with
  | .ok enc => enc.layout
  | .error _ => { repl_count_attr := none, ext_count := 0, extents := [],
                  state := .PHO_EXT_ST_PENDING }

/-- A read allocation response for the medium `name` of the family `dir`. -/
def dir_read_medium (name : String) : pho_resp_read_elt :=
  { med_id := ⟨1, name⟩, root_path := "/mnt/" ++ name, fs_type := 0, addr_type := 0 }

/-- The decoder built for the layout of the two-split put, after its first
split was read from the medium `a`. -/
def two_split_decoder_after_first_read : Option pho_encoder :=
  match (layout_raid1_decode two_split_layout true 5).2 with
  | none => none
  | some dec =>
    some (raid1_run dec
      [(none, step_io_ok), (some ⟨0, .ralloc [dir_read_medium "a"]⟩, step_io_ok)] 1 [])

/-- A directory medium named `name` with 100 bytes free. -/
def test_medium (name : String) : media_info :=
  { id := ⟨1, name⟩, adm_status := .PHO_RSC_ADM_ST_UNLOCKED, addr_type := 0, fs_type := 0,
    fs_stat := .PHO_FS_STATUS_USED, fs_label := name, stats := ⟨0, 0, 0, 100⟩, tags := [],
    flag_put := true, flag_get := true, lock := none }

/-- A device with the medium `/tmp/test.pho.1` mounted. -/
def test_device : dev_descr :=
  { dev_id := ⟨1, "dev0"⟩, dev_lock := none, lia_type := .MED_LOC_DRIVE,
    op_status := .PHO_DEV_OP_ST_MOUNTED, dev_path := "/tmp/test.pho.1",
    dss_media_info := some (test_medium "/tmp/test.pho.1"), mnt_path := "/tmp/test.pho.1",
    ongoing_io := false }

/-- Preparation functions for a scheduler with the one device above, as the
tests of `test_bad_comm.c` meet them: a write with tags finds no medium
(`-ENOSPC`), a read of another medium finds none (`-ENXIO`), everything else
succeeds. The world is the log of the media formatted, in the order of the
calls. -/
def test_ops : sched_ops (List String) :=
  { init_req_id := 0
    sched_write_prepare := fun st _ tags _ _ =>
      if tags = [] then (0, st, 0) else (-ENOSPC, st, 0)
    sched_read_prepare := fun st id =>
      if id.name = "/tmp/test.pho.1" then (0, st, 0) else (- ENXIO, st, 0)
    sched_format := fun st id _ _ => (0, { st with world := st.world ++ [id.name] })
    sched_device_add := fun st _ _ => (0, st)
    sched_device_lock := fun st _ => (0, st)
    sched_device_unlock := fun st _ => (0, st)
    sched_io_complete := fun st _ _ _ _ => (0, st) }

/-- A scheduler with the one device above and empty queues. -/
def test_sched : lrs_sched (List String) :=
  { devs := { devices := [test_device], world := [] }, req_queue := [], release_queue := [],
    response_queue := [] }

/-- A format request with identifier `id` for the medium `name`, received on
the socket `socket_id`. -/
def format_request (socket_id : Int) (id : Nat) (name : String) : req_container :=
  { socket_id := socket_id, req := { id := id, body := .format ⟨1, name⟩ 0 false } }

/-- The scheduler after request A (socket 10, identifier 0, medium `mA`) then
request B (socket 11, identifier 1, medium `mB`) were enqueued. -/
def sched_after_A_then_B : lrs_sched (List String) :=
  (sched_request_enqueue (sched_request_enqueue test_sched (format_request 10 0 "mA")).2
    (format_request 11 1 "mB")).2

/-- An empty drive, and a medium that the library reports in another drive. -/
def empty_drive : dev_descr :=
  { dev_id := ⟨2, "drive1"⟩, dev_lock := none, lia_type := .MED_LOC_DRIVE,
    op_status := .PHO_DEV_OP_ST_EMPTY, dev_path := "/dev/st1", dss_media_info := none,
    mnt_path := "", ongoing_io := true }

/-- The library refuses to move a medium from one drive to another. -/
def drive_to_drive_refused : lib_outcome :=
  { open_rc := 0, lookup_rc := 0, media_lia_type := .MED_LOC_DRIVE, move_rc := -EINVAL,
    close_rc := 0, unlock_rc := 0 }

/-- Preparation functions of a scheduler whose write preparation ends in
`sched_load_media` with the refused move above: `sched_get_write_res` and
`sched_write_prepare` hand the return code of `sched_load_media` back
unchanged. -/
def busy_ops : sched_ops Unit :=
  { init_req_id := 0
    sched_write_prepare := fun st _ _ _ _ =>
      ((sched_load_media empty_drive (test_medium "T00001") drive_to_drive_refused).1, st, 0)
    sched_read_prepare := fun st _ => (0, st, 0)
    sched_format := fun st _ _ _ => (0, st)
    sched_device_add := fun st _ _ => (0, st)
    sched_device_lock := fun st _ => (0, st)
    sched_device_unlock := fun st _ => (0, st)
    sched_io_complete := fun st _ _ _ _ => (0, st) }

/-- A scheduler with no device and one write allocation request pending. -/
def busy_sched : lrs_sched Unit :=
  { devs := { devices := [], world := () },
    req_queue := [{ socket_id := 4, req := { id := 9, body := .walloc 2 [⟨10, []⟩] } }],
    release_queue := [], response_queue := [] }

/-! ## Notions used to state the properties -/

/-- Number of releases still awaited for the medium `m`: its reference count
in the table, 0 when it has no entry. -/
def refcount (tbl : List (String × Nat)) (m : String) : Nat :=
  (release_lookup tbl m).getD 0

/-- No entry of the table holds a reference count of zero (the assertion of
`mark_written_medium_released`). -/
def table_positive (tbl : List (String × Nat)) : Prop :=
  ∀ m, release_lookup tbl m ≠ some 0

/-- The extents of `l` come in groups of `r`, and the extents of one group
(one split) have the same size. -/
def splits_uniform (r : Nat) (l : List extent) : Prop :=
  l.length % r = 0 ∧
  ∀ i j e1 e2, l[i]? = some e1 → l[j]? = some e2 → i / r = j / r → e1.size = e2.size

/-- The names of the media that a release response acknowledges for the
encoder: those for which `mark_written_medium_released` succeeds. -/
def acked_by (raid1 : raid1_encoder) (med_ids : List pho_id) : List String :=
  match med_ids with
  | [] => []
  | m :: rest =>
    let r := mark_written_medium_released raid1 m.name
    (if r.1 = 0 then [m.name] else []) ++ acked_by r.2 rest

/-- The names of the media that the response `resp` acknowledges for the
encoder `enc`. -/
def step_acked (enc : pho_encoder) (resp : Option pho_resp) : List String :=
  match resp with
  | some resp =>
    match resp.body with
    | .release med_ids => if enc.is_decoder then [] else acked_by enc.priv_enc med_ids
    | _ => []
  | none => []

/-- The names of the media acknowledged to an encoder along a run, one entry
per acknowledgement. -/
def raid1_run_acked (enc : pho_encoder) (events : List (Option pho_resp × step_io))
    (family : Nat) (tags : List String) : List String :=
  match events with
  | [] => []
  | ev :: rest =>
    if enc.done then []
    else
      step_acked enc ev.1 ++
        raid1_run_acked (raid1_encoder_step enc ev.1 ev.2 family tags).2.1 rest family tags

/-- The encoder with its `requested_alloc` flag set to `b`. -/
def with_requested_alloc (enc : pho_encoder) (b : Bool) : pho_encoder :=
  { enc with priv_enc := { enc.priv_enc with requested_alloc := b } }

/-- A response that is not an error response. -/
def not_error (resp : Option pho_resp) : Prop :=
  ∀ r, resp = some r → ∀ rc kind, r.body ≠ .error rc kind

/-- Shape of an encoder along a put with `r` copies on the descriptor `fd`:
extents are written and kept in groups of `r` of identical size. -/
def write_inv (r : Nat) (fd : Int) (enc : pho_encoder) : Prop :=
  enc.is_decoder = false ∧ enc.priv_enc.repl_count = r ∧ enc.xd_fd = fd ∧
  splits_uniform r enc.priv_enc.written_extents ∧ splits_uniform r enc.layout.extents ∧
  enc.layout.ext_count = enc.layout.extents.length

/-- The encoder that `layout_raid1_encode` builds for a put of `to_write`
bytes on `r` copies with the descriptor `fd`. -/
def fresh_encoder (attr : Option Nat) (fd : Int) (r to_write : Nat) : pho_encoder :=
  { is_decoder := false, done := false, xd_rc := 0, xd_fd := fd,
    layout := { repl_count_attr := attr, ext_count := 0, extents := [],
                state := .PHO_EXT_ST_PENDING },
    priv_enc := { repl_count := r, to_write := to_write, cur_extent_idx := 0,
                  requested_alloc := false, written_extents := [], to_release_media := [],
                  n_released_media := 0 } }

/-- First step of a put: the encoder `enc0` is stepped with no response. -/
def put_first_step (enc0 : pho_encoder) (io : step_io) (family : Nat) (tags : List String) :
    Int × pho_encoder × List pho_req :=
  raid1_encoder_step enc0 none io family tags

/-- Second step of a put: the write allocation response `media` arrives. -/
def put_write_step (enc0 : pho_encoder) (media : List pho_resp_write_elt) (id : Nat)
    (io1 io2 : step_io) (family : Nat) (tags : List String) :
    Int × pho_encoder × List pho_req :=
  raid1_encoder_step (put_first_step enc0 io1 family tags).2.1
    (some { req_id := id, body := .walloc media }) io2 family tags

/-- Third step of a put: the release response for the media of `media`
arrives. -/
def put_release_step (enc0 : pho_encoder) (media : List pho_resp_write_elt) (id2 id3 : Nat)
    (io1 io2 io3 : step_io) (family : Nat) (tags : List String) :
    Int × pho_encoder × List pho_req :=
  raid1_encoder_step (put_write_step enc0 media id2 io1 io2 family tags).2.1
    (some { req_id := id3, body := .release (media.map (fun m => m.med_id)) }) io3 family tags

/-- Accounting of the releases along a put, `acks` being the names of the
media acknowledged so far. -/
def release_inv (enc : pho_encoder) (acks : List String) : Prop :=
  enc.is_decoder = false ∧
  (enc.done = false →
    table_positive enc.priv_enc.to_release_media ∧
    enc.priv_enc.n_released_media = acks.length ∧
    ∀ m, (enc.priv_enc.written_extents.map (fun e => e.media.name)).count m =
      refcount enc.priv_enc.to_release_media m + acks.count m) ∧
  (enc.done = true →
    enc.layout.state = extent_state.PHO_EXT_ST_SYNC ∧ enc.priv_enc.to_write = 0 ∧
    0 < enc.layout.extents.length ∧
    ∀ m, (enc.layout.extents.map (fun e => e.media.name)).count m = acks.count m)

/-! ## Notions used to state the locate properties -/

/-- The hostname that the state index reports as the lock owner of the medium
of the extent `e`, when the medium is found and locked. -/
def located_host (dss_medium_locate : pho_id → Int × Option String) (e : extent) :
    Option String :=
  if (dss_medium_locate e.media).1 = 0 then (dss_medium_locate e.media).2 else none

/-- The medium of the extent `e` is found and unlocked. -/
def located_unlocked (dss_medium_locate : pho_id → Int × Option String) (e : extent) : Bool :=
  decide ((dss_medium_locate e.media).1 = 0) && (dss_medium_locate e.media).2.isNone

/-- The medium of the extent `e` is found. -/
def located (dss_medium_locate : pho_id → Int × Option String) (e : extent) : Bool :=
  decide ((dss_medium_locate e.media).1 = 0)

/-- The set `H_s`: the hostnames that hold the lock of a medium of the split
`s`, listed in the order of the extents. -/
def split_hosts (dss_medium_locate : pho_id → Int × Option String) (layout : layout_info)
    (r s : Nat) : List String :=
  (split_extents layout r s).filterMap (located_host dss_medium_locate)

/-- The split `s` has an unlocked medium. -/
def split_has_unlocked (dss_medium_locate : pho_id → Int × Option String)
    (layout : layout_info) (r s : Nat) : Bool :=
  (split_extents layout r s).any (located_unlocked dss_medium_locate)

/-- The hostnames reported for the extents of the splits `0 .. n - 1`, in the
order of the extents (discovery order). -/
def reported_hosts (dss_medium_locate : pho_id → Int × Option String) (layout : layout_info)
    (r : Nat) : Nat → List String
  | 0 => []
  | n + 1 => reported_hosts dss_medium_locate layout r n ++
      split_hosts dss_medium_locate layout r n

/-- Number of splits `s < n` that satisfy `q`. -/
def count_splits (q : Nat → Bool) : Nat → Nat
  | 0 => 0
  | n + 1 => count_splits q n + (if q n then 1 else 0)

/-- Number of splits, among the first `n`, fitted to the host `h`: `h` holds
the lock of one of their media. -/
def host_fitted_splits (dss_medium_locate : pho_id → Int × Option String)
    (layout : layout_info) (r n : Nat) (h : String) : Nat :=
  count_splits (fun s => decide (h ∈ split_hosts dss_medium_locate layout r s)) n

/-- Number of splits, among the first `n`, that the host `h` cannot reach: no
medium of the split is unlocked and `h` holds the lock of none. -/
def host_unreachable_splits (dss_medium_locate : pho_id → Int × Option String)
    (layout : layout_info) (r n : Nat) (h : String) : Nat :=
  count_splits (fun s => !split_has_unlocked dss_medium_locate layout r s &&
    decide (h ∉ split_hosts dss_medium_locate layout r s)) n

/-- In the list `l`, `a` appears for the first time no later than `b` does. -/
def appears_before (l : List String) (a b : String) : Prop :=
  ∃ pre post, l = pre ++ a :: post ∧ b ∉ pre

/-- The host named `h` fits one more split. -/
def bump_fitted (h : String) (x : one_location) : one_location :=
  if x.hostname = h then { x with nb_fitted_split := x.nb_fitted_split + 1 } else x

/-- Number of the splits of `splits` that hold the host `name`. -/
def fitted_in (splits : List split_location) (name : String) : Nat :=
  splits.countP (fun sp => decide (name ∈ sp.hostnames))

/-- Number of the splits of `splits` with no unlocked medium that do not hold
the host `name`. -/
def unreachable_in (splits : List split_location) (name : String) : Nat :=
  splits.countP (fun sp => !sp.unlocked_media && decide (name ∉ sp.hostnames))

/-- State of the scan of `layout_raid1_locate` over `n` splits: `reported`
lists the hostnames met so far and `seen s` gives, for the split `s`, the
hostnames met and whether an unlocked medium was met. -/
def scan_inv (n : Nat) (ol : object_location) (reported : List String)
    (seen : Nat → List String × Bool) : Prop :=
  ol.splits.length = n ∧ ol.split_count = n ∧
  (∀ s, s < n → ∃ sp, ol.splits[s]? = some sp ∧
    (∀ h, h ∈ sp.hostnames ↔ h ∈ (seen s).1) ∧ sp.unlocked_media = (seen s).2) ∧
  List.Pairwise (appears_before reported) (ol.hosts.map (fun x => x.hostname)) ∧
  (∀ x, x ∈ ol.hosts.map (fun x => x.hostname) ↔ x ∈ reported) ∧
  (ol.hosts.map (fun x => x.hostname)).Nodup ∧
  (∀ host ∈ ol.hosts, host.nb_unreachable_split = 0 ∧
    host.nb_fitted_split = fitted_in ol.splits host.hostname) ∧
  (∀ s, s < n → ∀ h ∈ (seen s).1, h ∈ reported)

/-- The host `x` with `k` more unreachable splits. -/
def add_unreachable (k : Nat) (x : one_location) : one_location :=
  { x with nb_unreachable_split := x.nb_unreachable_split + k }

/-- A layout of two splits on two copies: the media `m0`, `m1` hold the first
split, the media `m2`, `m3` the second. -/
def locate_example_layout : layout_info :=
  { repl_count_attr := some 2, ext_count := 4,
    extents := [⟨0, 5, ⟨1, "m0"⟩⟩, ⟨1, 5, ⟨1, "m1"⟩⟩, ⟨2, 3, ⟨1, "m2"⟩⟩, ⟨3, 3, ⟨1, "m3"⟩⟩],
    state := .PHO_EXT_ST_SYNC }

/-- Answers of the state index: `hostA` holds `m0`, `hostB` holds `m1` and
`m2`, and `m3` is not found. -/
def locate_example_dss (id : pho_id) : Int × Option String :=
  if id.name = "m0" then (0, some "hostA")
  else if id.name = "m1" then (0, some "hostB")
  else if id.name = "m2" then (0, some "hostB")
  else (-ENOENT, none)

/-! ## Scenarios of the scheduler pass -/

/-- The release request of `test_bad_release`: identifier 0, one medium
`/tmp/not/a/med` to be synced, received on the socket 7. -/
def bad_release_request : req_container :=
  { socket_id := 7,
    req := { id := 0, body := .release [⟨⟨1, "/tmp/not/a/med"⟩, 0, 0, true⟩] } }

/-- Preparation functions of a scheduler with the device `test_device`: the
read preparation of the medium loaded in it marks the device busy, the read
preparation of any other medium fails with `-ENXIO`. -/
def read_ops : sched_ops Unit :=
  { init_req_id := 0
    sched_write_prepare := fun st _ _ _ _ => (-ENOSPC, st, 0)
    sched_read_prepare := fun st id =>
      let devices := update_dev st.devices 0 (fun d => { d with ongoing_io := true })
      if id.name = "/tmp/test.pho.1" then (0, { st with devices := devices }, 0)
      else (- ENXIO, st, 0)
    sched_format := fun st _ _ _ => (0, st)
    sched_device_add := fun st _ _ => (0, st)
    sched_device_lock := fun st _ => (0, st)
    sched_device_unlock := fun st _ => (0, st)
    sched_io_complete := fun st _ _ _ _ => (0, st) }

/-- The device `test_device` alone, with no state outside of it. -/
def test_sched_unit : lrs_devs Unit :=
  { devices := [test_device], world := () }

/-- The value that `layout_raid1_locate` leaves in `*hostname`: it is set to
`NULL` on entry and written by `get_best_object_location` only. -/
def locate_hostname (res : locate_result) : Option String :=
  match res with
  | .ok hostname => hostname
  | .err _ => none
  | .assert_failed => none

/-- Answers of the state index: `hostA` holds `m0`, `m1` is unlocked, `m2`
and `m3` are not found. -/
def locate_lost_split_dss (id : pho_id) : Int × Option String :=
  if id.name = "m0" then (0, some "hostA")
  else if id.name = "m1" then (0, none)
  else (-ENOENT, none)

/-- A layout on two copies with no extent. -/
def locate_empty_layout : layout_info :=
  { repl_count_attr := some 2, ext_count := 0, extents := [], state := .PHO_EXT_ST_SYNC }

/-! ## Local resource scheduler: selection of a device -/

/-- A device selection function, `device_select_func_t`: from the required
size, the current device and the device selected so far, the return code
(negative on error, 0 to stop the search, positive to go on) and whether the
current device was stored as the selected one. `none` stands for the
dereference of a `NULL` `dss_media_info`. -/
abbrev device_select_func_t := Nat → dev_descr → Option dev_descr → Option (Int × Bool)

/-- The configuration read by the scheduler: the device selection policy
(`get_dev_policy`, `none` for a missing or unknown name), the drive types
that can write a tape model (`rw_drive_types_for_tape`) and the drive models
of a drive type (`drive_models_by_type`), each with its return code and its
comma-separated list. `tags_in` is declared outside of these sources and
taken as given. -/
structure lrs_cfg where
  policy : Option device_select_func_t
  rw_drive_types_for_tape : String → Int × List String
  drive_models_by_type : String → Int × List String
  tags_in : List String → List String → Bool

/-- The loop of `tape_drive_compat` over the drive types that can write the
tape. -/
def tape_drive_compat_loop (cfg : lrs_cfg) (drive : dev_descr) (drive_types : List String) :
    Int × Bool :=
  match drive_types with
  | [] => (0, false)
  | drive_type :: rest =>
    let models := cfg.drive_models_by_type drive_type
    if models.1 ≠ 0 then (models.1, false)
    else if drive.model ∈ models.2 then (0, true)
    else tape_drive_compat_loop cfg drive rest

/-- `tape_drive_compat`: the return code and whether `drive` can write
`tape`. -/
def tape_drive_compat (cfg : lrs_cfg) (tape : media_info) (drive : dev_descr) : Int × Bool :=
  let rw_drives := cfg.rw_drive_types_for_tape tape.model
  if rw_drives.1 ≠ 0 then (rw_drives.1, false)
  else tape_drive_compat_loop cfg drive rw_drives.2

/-- `select_first_fit`. -/
def select_first_fit : device_select_func_t := fun required_size dev_curr _ =>
  match dev_curr.dss_media_info with
  | none => some (1, false)
  | some m => if m.stats.phys_spc_free ≥ required_size then some (0, true) else some (1, false)

/-- `select_best_fit`. -/
def select_best_fit : device_select_func_t := fun required_size dev_curr dev_selected =>
  match dev_curr.dss_media_info with
  | none => some (1, false)
  | some m =>
    if m.stats.phys_spc_free < required_size then some (1, false)
    else
      match dev_selected with
      | none => some (if required_size = m.stats.phys_spc_free then 0 else 1, true)
      | some sel =>
        match sel.dss_media_info with
        | none => none
        | some ms =>
          if m.stats.phys_spc_free < ms.stats.phys_spc_free then
            some (if required_size = m.stats.phys_spc_free then 0 else 1, true)
          else some (1, false)

/-- `select_any`. -/
def select_any : device_select_func_t := fun _ _ dev_selected =>
  match dev_selected with
  | none => some (0, true)
  | some _ => some (1, false)

/-- `select_drive_to_free`. -/
def select_drive_to_free : device_select_func_t := fun _ dev_curr dev_selected =>
  if dev_curr.op_status = .PHO_DEV_OP_ST_FAILED ∨ dev_curr.ongoing_io = true then some (1, false)
  else if dev_curr.op_status = .PHO_DEV_OP_ST_EMPTY then some (1, false)
  else
    match dev_selected with
    | none => some (1, true)
    | some sel =>
      match dev_curr.dss_media_info, sel.dss_media_info with
      | some m, some ms =>
        if m.stats.phys_spc_free < ms.stats.phys_spc_free then some (1, true)
        else some (1, false)
      | _, _ => none

/-- The tests of `dev_picker` that exclude a loaded medium from a write: it
is not administratively unlocked, it is full, its put flag is false or it
lacks a requested tag. -/
def medium_not_writable (cfg : lrs_cfg) (m : media_info) (media_tags : List String) : Bool :=
  decide (m.adm_status ≠ .PHO_RSC_ADM_ST_UNLOCKED) ||
  decide (m.fs_stat = .PHO_FS_STATUS_FULL) ||
  !m.flag_put ||
  (decide (media_tags.length > 0) && !cfg.tags_in m.tags media_tags)

/-- What one iteration of the loop of `dev_picker` decides: go on with the
next device, stop the search, or a `NULL` dereference. -/
inductive picker_step where
  | next (selected : Option Nat)
  | stop (selected : Option Nat)
  | fault
deriving DecidableEq, Repr

/-- The call of the selection function in `dev_picker` for the device `itr`
of index `i`; `selected` is the index of the device selected so far. -/
def dev_picker_select (devices : List dev_descr) (select_func : device_select_func_t)
    (required_size : Nat) (itr : dev_descr) (i : Nat) (selected : Option Nat) : picker_step :=
  match select_func required_size itr (selected.bind (fun s => devices[s]?)) with
  | none => .fault
  | some (rc, stored) =>
    let selected := if stored then some i else selected
    if rc < 0 then .stop none
    else if rc = 0 then .stop selected
    else .next selected

/-- One iteration of the loop of `dev_picker`, for the device `itr` of index
`i`. -/
def dev_picker_step (cfg : lrs_cfg) (devices : List dev_descr) (op_st : dev_op_status)
    (select_func : device_select_func_t) (required_size : Nat) (media_tags : List String)
    (pmedia : Option media_info) (is_write : Bool) (itr : dev_descr) (i : Nat)
    (selected : Option Nat) : picker_step :=
  if itr.ongoing_io then .next selected
  else if itr.op_status = .PHO_DEV_OP_ST_FAILED ∨
      (op_st ≠ .PHO_DEV_OP_ST_UNSPEC ∧ itr.op_status ≠ op_st) then .next selected
  else if is_write = true ∧
      (itr.dss_media_info.any (fun m => medium_not_writable cfg m media_tags)) = true then
    .next selected
  else
    match pmedia with
    | some tape =>
      let compat := tape_drive_compat cfg tape itr
      if compat.1 ≠ 0 then .stop none
      else if compat.2 = false then .next selected
      else dev_picker_select devices select_func required_size itr i selected
    | none => dev_picker_select devices select_func required_size itr i selected

/-- The loop of `dev_picker` over the devices `rest`, the first of which has
the index `i`. -/
def dev_picker_loop (cfg : lrs_cfg) (devices : List dev_descr) (op_st : dev_op_status)
    (select_func : device_select_func_t) (required_size : Nat) (media_tags : List String)
    (pmedia : Option media_info) (is_write : Bool) (rest : List dev_descr) (i : Nat)
    (selected : Option Nat) : Option (Option Nat) :=
  match rest with
  | [] => some selected
  | itr :: rest =>
    match dev_picker_step cfg devices op_st select_func required_size media_tags pmedia
        is_write itr i selected with
    | .fault => none
    | .stop selected => some selected
    | .next selected =>
      dev_picker_loop cfg devices op_st select_func required_size media_tags pmedia is_write
        rest (i + 1) selected

/-- `dev_picker`: the devices, where the device picked is marked busy, and the
index of the device picked, if any. `none` stands for the dereference of a
`NULL` pointer. -/
def dev_picker (cfg : lrs_cfg) (devices : List dev_descr) (op_st : dev_op_status)
    (select_func : device_select_func_t) (required_size : Nat) (media_tags : List String)
    (pmedia : Option media_info) (is_write : Bool) : Option (List dev_descr × Option Nat) :=
  match dev_picker_loop cfg devices op_st select_func required_size media_tags pmedia is_write
      devices 0 none with
  | none => none
  | some none => some (devices, none)
  | some (some i) =>
    some (update_dev devices i (fun d => { d with ongoing_io := true }), some i)

/-- Free space of the medium loaded in `dev` (0 when there is none). -/
def dev_free_space (dev : dev_descr) : Nat :=
  match dev.dss_media_info with
  | some m => m.stats.phys_spc_free
  | none => 0

/-- The device `dev` can serve a write of `required_size` bytes with the tags
`media_tags` among the devices of status `op_st`: it is idle, not failed, in
the requested status, and its medium is administratively unlocked, not full,
open to puts, carries the tags and has the space. -/
def fits_write (cfg : lrs_cfg) (op_st : dev_op_status) (required_size : Nat)
    (media_tags : List String) (dev : dev_descr) : Bool :=
  !dev.ongoing_io && decide (dev.op_status ≠ .PHO_DEV_OP_ST_FAILED) &&
  (decide (op_st = .PHO_DEV_OP_ST_UNSPEC) || decide (dev.op_status = op_st)) &&
  match dev.dss_media_info with
  | none => false
  | some m =>
    decide (m.adm_status = .PHO_RSC_ADM_ST_UNLOCKED) &&
    decide (m.fs_stat ≠ .PHO_FS_STATUS_FULL) && m.flag_put &&
    (decide (media_tags.length = 0) || cfg.tags_in m.tags media_tags) &&
    decide (required_size ≤ m.stats.phys_spc_free)

/-- A configuration with the policy `best_fit`, where the drives of model
`LTO5-drive` write the tapes of model `LTO5` and a medium carries the tags
requested when each is in its list. -/
def test_cfg : lrs_cfg :=
  { policy := some select_best_fit
    rw_drive_types_for_tape := fun model => if model = "LTO5" then (0, ["LTO5_drive"]) else (0, [])
    drive_models_by_type := fun t => if t = "LTO5_drive" then (0, ["LTO5-drive"]) else (0, [])
    tags_in := fun haystack needle => needle.all (fun t => haystack.contains t) }

/-- A mounted drive named `name` that holds a tape named `tape` with `free`
bytes free. -/
def tape_drive (name tape : String) (free : Nat) (busy : Bool) : dev_descr :=
  { dev_id := ⟨2, name⟩, dev_lock := none, lia_type := .MED_LOC_DRIVE,
    op_status := .PHO_DEV_OP_ST_MOUNTED, dev_path := "/dev/" ++ name,
    dss_media_info := some { test_medium tape with id := ⟨2, tape⟩, model := "LTO5",
                                                   stats := ⟨0, 0, 0, free⟩ },
    mnt_path := "/mnt/" ++ name, ongoing_io := busy, model := "LTO5-drive" }

/-- State of the search of `dev_picker` with `select_best_fit` after the
devices of index below `n`: no device fits so far, or `s` is the first of the
fitting devices with the least free space. -/
def best_fit_inv (cfg : lrs_cfg) (devices : List dev_descr) (op_st : dev_op_status)
    (required_size : Nat) (media_tags : List String) (n : Nat) (selected : Option Nat) : Prop :=
  match selected with
  | none =>
    ∀ j d, j < n → devices[j]? = some d →
      fits_write cfg op_st required_size media_tags d = false
  | some s =>
    ∃ dev, devices[s]? = some dev ∧ s < n ∧
      fits_write cfg op_st required_size media_tags dev = true ∧
      ∀ j d, j < n → devices[j]? = some d →
        fits_write cfg op_st required_size media_tags d = true →
        dev_free_space dev ≤ dev_free_space d ∧ (j < s → dev_free_space dev < dev_free_space d)

/-! ## Local resource scheduler: freeing a drive -/

/-- Outcome of the adapter, library and state index calls made while a device
is emptied: `get_fs_adapter`, `ldm_fs_umount`, `wrap_lib_open`,
`ldm_lib_media_move`, `ldm_lib_close` and the `dss_unlock` of the medium and
of the device. -/
structure empty_outcome where
  fs_adapter_rc : Int
  umount_rc : Int
  lib_open_rc : Int
  move_rc : Int
  lib_close_rc : Int
  medium_unlock_rc : Int
  device_unlock_rc : Int
deriving DecidableEq, Repr

/-- `sched_medium_release` on the medium of a device: the lock is cleaned
when the state index unlocked the medium. -/
def release_loaded_medium (dev : dev_descr) (io : empty_outcome) : Option media_info :=
  dev.dss_media_info.map (fun m => if io.medium_unlock_rc = 0 then { m with lock := none } else m)

/-- `sched_device_release`: the lock is cleaned when the state index unlocked
the device. -/
def sched_device_release (dev : dev_descr) (io : empty_outcome) : dev_descr :=
  if io.device_unlock_rc = 0 then { dev with dev_lock := none } else dev

/-- `sched_umount`. -/
def sched_umount (dev : dev_descr) (io : empty_outcome) : Int × dev_descr :=
  let rc := if io.fs_adapter_rc ≠ 0 then io.fs_adapter_rc else io.umount_rc
  if rc ≠ 0 then
    let dev := { dev with op_status := .PHO_DEV_OP_ST_FAILED, ongoing_io := false }
    let dev := { dev with dss_media_info := release_loaded_medium dev io }
    (rc, sched_device_release dev io)
  else (0, { dev with op_status := .PHO_DEV_OP_ST_LOADED, mnt_path := "" })

/-- `sched_unload_medium`. -/
def sched_unload_medium (dev : dev_descr) (io : empty_outcome) : Int × dev_descr :=
  let moved : Int × dev_descr :=
    if io.lib_open_rc ≠ 0 then (io.lib_open_rc, dev)
    else
      let dev := if io.move_rc = 0 then { dev with op_status := .PHO_DEV_OP_ST_EMPTY } else dev
      (if io.move_rc ≠ 0 then io.move_rc else io.lib_close_rc, dev)
  let rc := if moved.1 ≠ 0 then moved.1 else io.medium_unlock_rc
  let dev := { moved.2 with dss_media_info := none }
  if rc ≠ 0 then (rc, sched_device_release { dev with op_status := .PHO_DEV_OP_ST_FAILED } io)
  else (0, dev)

/-- `sched_empty_dev`. -/
def sched_empty_dev (dev : dev_descr) (io : empty_outcome) : Int × dev_descr :=
  let r : Int × dev_descr :=
    if dev.op_status = .PHO_DEV_OP_ST_MOUNTED then sched_umount dev io else (0, dev)
  if r.1 ≠ 0 then r
  else if r.2.op_status = .PHO_DEV_OP_ST_LOADED then sched_unload_medium r.2 io
  else (0, r.2)

/-- The inner loop of `compatible_drive_exists` for the device `dev` of index
`i`. It compares the name of `dev` with the name of `selected_devs[i]` at each
of its `n_selected_devs` turns. `selected_devs` is the value `*devs` that
`sched_get_write_res` passes: the address, inside the array of devices, of the
first device selected, so `selected_devs[i]` is the device `i` places after
it. `none` stands for a read through `NULL` or past the end of the array. -/
def is_already_selected (devices : List dev_descr) (dev : dev_descr) (i : Nat)
    (selected_devs : Option Nat) (n_selected_devs : Nat) : Option Bool :=
  if n_selected_devs = 0 then some false
  else
    match selected_devs with
    | none => none
    | some first =>
      match devices[first + i]? with
      | none => none
      | some d => some (decide (dev.dev_id.name = d.dev_id.name))

/-- The loop of `compatible_drive_exists` over the devices `rest`, the first
of which has the index `i`. -/
def compatible_drive_exists_loop (cfg : lrs_cfg) (devices : List dev_descr)
    (pmedia : Option media_info) (selected_devs : Option Nat) (n_selected_devs : Nat)
    (rest : List dev_descr) (i : Nat) : Option Bool :=
  match rest with
  | [] => some false
  | dev :: rest =>
    if dev.op_status = .PHO_DEV_OP_ST_FAILED then
      compatible_drive_exists_loop cfg devices pmedia selected_devs n_selected_devs rest (i + 1)
    else
      match is_already_selected devices dev i selected_devs n_selected_devs with
      | none => none
      | some true =>
        compatible_drive_exists_loop cfg devices pmedia selected_devs n_selected_devs rest
          (i + 1)
      | some false =>
        match pmedia with
        | some tape =>
          if (tape_drive_compat cfg tape dev).1 = 0 ∧ (tape_drive_compat cfg tape dev).2 = true
          then some true
          else
            compatible_drive_exists_loop cfg devices pmedia selected_devs n_selected_devs rest
              (i + 1)
        | none =>
          compatible_drive_exists_loop cfg devices pmedia selected_devs n_selected_devs rest
            (i + 1)

/-- `compatible_drive_exists`. -/
def compatible_drive_exists (cfg : lrs_cfg) (devices : List dev_descr)
    (pmedia : Option media_info) (selected_devs : Option Nat) (n_selected_devs : Nat) :
    Option Bool :=
  compatible_drive_exists_loop cfg devices pmedia selected_devs n_selected_devs devices 0

/-- `sched_free_one_device`: the return code, the devices and the index of the
device emptied. `io` gives the outcome of the calls made to empty a device.
The loop of the source has no bound: `fuel` bounds the number of devices that
the model tries to empty, and `none` stands for its exhaustion or for an
invalid read. -/
def sched_free_one_device (cfg : lrs_cfg) (io : dev_descr → empty_outcome)
    (devices : List dev_descr) (pmedia : Option media_info) (selected_devs : Option Nat)
    (n_selected_devs : Nat) (fuel : Nat) : Option (Int × List dev_descr × Option Nat) :=
  match fuel with
  | 0 => none
  | fuel + 1 =>
    match dev_picker cfg devices .PHO_DEV_OP_ST_UNSPEC select_drive_to_free 0 [] pmedia
        false with
    | none => none
    | some (devices, none) =>
      match compatible_drive_exists cfg devices pmedia selected_devs n_selected_devs with
      | none => none
      | some true => some (-EAGAIN, devices, none)
      | some false => some (-ENODEV, devices, none)
    | some (devices, some i) =>
      match devices[i]? with
      | none => none
      | some tmp_dev =>
        let r := sched_empty_dev tmp_dev (io tmp_dev)
        let devices := update_dev devices i (fun _ => r.2)
        if r.1 ≠ 0 then
          sched_free_one_device cfg io devices pmedia selected_devs n_selected_devs fuel
        else some (0, devices, some i)

/-- Every call made to empty a device succeeds. -/
def empty_io_ok : dev_descr → empty_outcome := fun _ => ⟨0, 0, 0, 0, 0, 0, 0⟩

/-- Two mounted `LTO5` drives: `d0`, selected for the request being served,
and `d1`, busy with the I/O of another request. -/
def two_busy_drives : List dev_descr :=
  [tape_drive "d0" "t0" 50 true, tape_drive "d1" "t1" 20 true]

/-- An `LTO5` tape named `t2`, in no drive. -/
def spare_tape : media_info :=
  { test_medium "t2" with id := ⟨2, "t2"⟩, model := "LTO5" }

/-! ## Local resource scheduler: completion of an I/O -/

/-- The bits of the `fields` argument of `dss_media_set` that the scheduler
sets on a release. -/
structure media_fields where
  nb_obj_add : Bool
  logc_spc_used_add : Bool
  phys_spc_used : Bool
  phys_spc_free : Bool
  fs_status : Bool
deriving DecidableEq, Repr

/-- The space of a filesystem, `struct ldm_fs_space`. -/
structure ldm_fs_space where
  spc_used : Nat
  spc_avail : Nat
deriving DecidableEq, Repr

/-- Outcome of the adapter and state index calls of `sched_io_complete`:
`get_io_adapter`, `ioa_medium_sync`, `get_fs_adapter`, `ldm_fs_df` and
`dss_media_set`. -/
structure sync_outcome where
  io_adapter_rc : Int
  sync_rc : Int
  fs_adapter_rc : Int
  df_rc : Int
  spc : ldm_fs_space
  set_rc : Int
deriving DecidableEq, Repr

/-- `sched_media_update`: the return code, the medium information as the
function leaves it and the fields handed to `dss_media_set`, when it is
called. -/
def sched_media_update (media : media_info) (size_written : Nat) (media_rc : Int)
    (is_full : Bool) (io : sync_outcome) : Int × media_info × Option media_fields :=
  if ¬ (size_written ≠ 0 ∨ media.fs_stat = .PHO_FS_STATUS_EMPTY ∨ is_full = true ∨
      media.stats.phys_spc_free = 0) then (0, media, none)
  else if io.fs_adapter_rc ≠ 0 then (io.fs_adapter_rc, media, none)
  else if io.df_rc ≠ 0 then (io.df_rc, media, none)
  else
    let fields : media_fields := ⟨false, false, false, false, false⟩
    let s1 : media_info × media_fields :=
      if size_written ≠ 0 then
        let stats := { media.stats with nb_obj := 1, phys_spc_used := io.spc.spc_used,
                                             phys_spc_free := io.spc.spc_avail }
        let fields := { fields with nb_obj_add := true, phys_spc_used := true,
                                    phys_spc_free := true }
        if media_rc = 0 then
          ({ media with stats := { stats with logc_spc_used := size_written } },
           { fields with logc_spc_used_add := true })
        else ({ media with stats := stats }, fields)
      else (media, fields)
    let s2 : media_info × media_fields :=
      if s1.1.fs_stat = .PHO_FS_STATUS_EMPTY then
        ({ s1.1 with fs_stat := .PHO_FS_STATUS_USED }, { s1.2 with fs_status := true })
      else s1
    let s3 : media_info × media_fields :=
      if is_full = true ∨ s2.1.stats.phys_spc_free = 0 then
        ({ s2.1 with fs_stat := .PHO_FS_STATUS_FULL }, { s2.2 with fs_status := true })
      else s2
    (io.set_rc, s3.1, some s3.2)

/-- `sched_io_complete`: the return code, the medium information as the
function leaves it and the fields handed to `dss_media_set`, when it is
called. `is_medium_global_error` is declared outside of these sources and
taken as given. -/
def sched_io_complete (is_medium_global_error : Int → Bool) (media : media_info)
    (size_written : Nat) (media_rc : Int) (io : sync_outcome) :
    Int × media_info × Option media_fields :=
  if io.io_adapter_rc ≠ 0 then (io.io_adapter_rc, media, none)
  else if io.sync_rc ≠ 0 then (io.sync_rc, media, none)
  else
    let is_full := is_medium_global_error media_rc || is_medium_global_error io.sync_rc
    sched_media_update media size_written media_rc is_full io

/-- Modelled from the spec: the update of a medium row by `dss_media_set` with
a mask of fields, which is not in these sources. The spec gives the update of
the row as `nb_obj += Δ`, `logical_used += Δ`, `phys_used`, `phys_free` and
the `fs_status` transition: the fields `NB_OBJ_ADD` and `LOGC_SPC_USED_ADD`
add the value of the medium information to the row, the other fields copy it. -/
def dss_media_set_update (row : media_info) (media : media_info)
    (fields : media_fields) : media_info :=
  { row with
    fs_stat := if fields.fs_status then media.fs_stat else row.fs_stat
    stats :=
      { nb_obj := if fields.nb_obj_add then row.stats.nb_obj + media.stats.nb_obj
                  else row.stats.nb_obj
        logc_spc_used :=
          if fields.logc_spc_used_add then
            row.stats.logc_spc_used + media.stats.logc_spc_used
          else row.stats.logc_spc_used
        phys_spc_used :=
          if fields.phys_spc_used then media.stats.phys_spc_used
          else row.stats.phys_spc_used
        phys_spc_free :=
          if fields.phys_spc_free then media.stats.phys_spc_free
          else row.stats.phys_spc_free } }

/-- The row of a medium in the state index after a call of
`sched_io_complete`: it is updated when `dss_media_set` was called and
succeeded. -/
def row_after_sync (row : media_info) (r : Int × media_info × Option media_fields) :
    media_info :=
  match r.2.2 with
  | some fields => if r.1 = 0 then dss_media_set_update row r.2.1 fields else row
  | none => row

/-- `sched_io_complete` on a scheduler whose outside world is the table of
the media of the state index: the device that holds the medium sees the
medium information as the function leaves it, and the row of the medium is
updated. `io` gives the outcome of the calls for a mount path. -/
def sched_io_complete_op (is_medium_global_error : Int → Bool)
    (io : String → sync_outcome) (st : lrs_devs (List media_info)) (media : media_info)
    (size_written : Nat) (media_rc : Int) (fsroot : String) :
    Int × lrs_devs (List media_info) :=
  let r := sched_io_complete is_medium_global_error media size_written media_rc
    (io fsroot)
  let devices :=
    match search_loaded_media st.devices media.id.name with
    | some i => update_dev st.devices i (fun d => { d with dss_media_info := some r.2.1 })
    | none => st.devices
  let world := st.world.map (fun row =>
    if row.id = media.id then row_after_sync row r else row)
  (r.1, { devices := devices, world := world })

/-- The row of a medium in the state index after the sync of a release. -/
def synced_row (is_medium_global_error : Int → Bool) (row media : media_info)
    (size_written : Nat) (media_rc : Int) (io : sync_outcome) : media_info :=
  row_after_sync row (sched_io_complete is_medium_global_error media size_written media_rc io)

/-- The media errors that fill a medium: `-ENOSPC`. -/
def test_global_error (rc : Int) : Bool := decide (rc = -ENOSPC)

/-- A sync where every call succeeds and the filesystem reports `used` bytes
used and `avail` bytes free. -/
def sync_ok (used avail : Nat) : sync_outcome :=
  { io_adapter_rc := 0, sync_rc := 0, fs_adapter_rc := 0, df_rc := 0, spc := ⟨used, avail⟩,
    set_rc := 0 }

/-- The statistics that `sched_media_update` leaves in the medium information
when it updates the state index. -/
def updated_stats (media : media_info) (size_written : Nat) (media_rc : Int)
    (io : sync_outcome) : media_stats :=
  if size_written ≠ 0 then
    { nb_obj := 1,
      logc_spc_used := if media_rc = 0 then size_written else media.stats.logc_spc_used,
      phys_spc_used := io.spc.spc_used, phys_spc_free := io.spc.spc_avail }
  else media.stats

/-- The filesystem status that `sched_media_update` leaves in the medium
information when it updates the state index. -/
def updated_fs_status (media : media_info) (size_written : Nat) (media_rc : Int)
    (is_full : Bool) (io : sync_outcome) : fs_status :=
  if is_full = true ∨ (updated_stats media size_written media_rc io).phys_spc_free = 0 then
    .PHO_FS_STATUS_FULL
  else if media.fs_stat = .PHO_FS_STATUS_EMPTY then .PHO_FS_STATUS_USED
  else media.fs_stat

/-- The fields that `sched_media_update` hands to `dss_media_set`. -/
def updated_fields (media : media_info) (size_written : Nat) (media_rc : Int)
    (is_full : Bool) (io : sync_outcome) : media_fields :=
  { nb_obj_add := decide (size_written ≠ 0),
    logc_spc_used_add := decide (size_written ≠ 0 ∧ media_rc = 0),
    phys_spc_used := decide (size_written ≠ 0),
    phys_spc_free := decide (size_written ≠ 0),
    fs_status := decide (media.fs_stat = .PHO_FS_STATUS_EMPTY ∨ is_full = true ∨
      (updated_stats media size_written media_rc io).phys_spc_free = 0) }

/-- Preparation functions of a scheduler whose outside world is the table of
the media of the state index: releases end in `sched_io_complete`, no other
request is prepared. -/
def release_ops (is_medium_global_error : Int → Bool) (io : String → sync_outcome) :
    sched_ops (List media_info) :=
  { init_req_id := 0
    sched_write_prepare := fun st _ _ _ _ => (-EAGAIN, st, 0)
    sched_read_prepare := fun st _ => (-EAGAIN, st, 0)
    sched_format := fun st _ _ _ => (-EAGAIN, st)
    sched_device_add := fun st _ _ => (-EAGAIN, st)
    sched_device_lock := fun st _ => (-EAGAIN, st)
    sched_device_unlock := fun st _ => (-EAGAIN, st)
    sched_io_complete := sched_io_complete_op is_medium_global_error io }

/-- A scheduler with the device `test_device`, busy with a write, and the row
of its medium in the state index. -/
def release_scene : lrs_devs (List media_info) :=
  { devices := [{ test_device with ongoing_io := true }],
    world := [test_medium "/tmp/test.pho.1"] }

/-- The release of the medium of `test_device` after a write of 10 bytes that
succeeded, to be synced. -/
def written_release : pho_req_release_elt :=
  { med_id := ⟨1, "/tmp/test.pho.1"⟩, rc := 0, size_written := 10, to_sync := true }

/-- The state after the release `medium` was handled once. -/
def released_once {ω : Type} (ops : sched_ops ω) (st : lrs_devs ω)
    (medium : pho_req_release_elt) : lrs_devs ω :=
  (sched_handle_medium_release ops st medium).2

/-- The state after the release `medium` was handled twice. -/
def released_twice {ω : Type} (ops : sched_ops ω) (st : lrs_devs ω)
    (medium : pho_req_release_elt) : lrs_devs ω :=
  (sched_handle_medium_release ops (released_once ops st medium) medium).2

/-- One more object of `size` bytes in the statistics of a row. -/
def count_object (row : media_info) (size : Nat) : media_info :=
  { row with stats := { row.stats with nb_obj := row.stats.nb_obj + 1,
                                       logc_spc_used := row.stats.logc_spc_used + size } }

/-- The device `d` once the release of its medium is handled: it holds the
medium information `m` and is not busy. -/
def released_device (m : media_info) (d : dev_descr) : dev_descr :=
  { d with dss_media_info := some m, ongoing_io := false }

/-- The state after the release `medium`, to be synced, of the medium `m`
loaded in the device `dev` of index `i`: the device holds the medium
information that `sched_io_complete` leaves and is not busy, and the row of
the medium is updated. -/
def synced_state (is_medium_global_error : Int → Bool) (io : String → sync_outcome)
    (st : lrs_devs (List media_info)) (medium : pho_req_release_elt) (i : Nat)
    (dev : dev_descr) (m : media_info) : lrs_devs (List media_info) :=
  let r := sched_io_complete is_medium_global_error m medium.size_written medium.rc
    (io dev.mnt_path)
  { devices := update_dev st.devices i (released_device r.2.1),
    world := st.world.map (fun row => if row.id = m.id then row_after_sync row r else row) }

/-- The array `devs` of `sched_handle_write_alloc` when the allocation loop
ends: the indices of the devices that `sched_write_prepare` selected, in the
order of the media of the request. -/
def write_alloc_devs {ω : Type} (ops : sched_ops ω) (st : lrs_devs ω)
    (media : List pho_req_write_elt) (devs : List Nat) (i : Nat) : List Nat :=
  match media with
  | [] => devs
  | m :: rest =>
    let r := ops.sched_write_prepare st m.size m.tags devs i
    if r.1 ≠ 0 then devs
    else write_alloc_devs ops r.2.1 rest (devs ++ [r.2.2]) (i + 1)

/-- The device `d'` is the device `d`, or the device `d` with its busy flag
cleared. -/
def same_but_idle (d d' : dev_descr) : Prop :=
  d' = d ∨ d' = { d with ongoing_io := false }

/-- Preparation functions of a scheduler with the device `test_device`: the
write preparation of the first medium of a request selects the device and
marks it busy, the write preparation of a second medium finds no space. -/
def rollback_ops : sched_ops Unit :=
  { init_req_id := 0
    sched_write_prepare := fun st _ _ _ i =>
      let devices := update_dev st.devices 0 (fun d => { d with ongoing_io := true })
      if i = 0 then (0, { st with devices := devices }, 0) else (-ENOSPC, st, 0)
    sched_read_prepare := fun st _ => (- ENXIO, st, 0)
    sched_format := fun st _ _ _ => (0, st)
    sched_device_add := fun st _ _ => (0, st)
    sched_device_lock := fun st _ => (0, st)
    sched_device_unlock := fun st _ => (0, st)
    sched_io_complete := fun st _ _ _ _ => (0, st) }

/-! ## Local resource scheduler: resources for a write -/

/-- Outcome of the calls of `sched_mount`: `get_fs_adapter`, `ldm_fs_mounted`
with the mount path it reports, `basename` of the device path, `mount_point`,
`ldm_fs_mount`, and the calls of the unload that follows a failure. -/
structure mount_outcome where
  fs_adapter_rc : Int
  mounted_rc : Int
  mounted_path : String
  basename : Option String
  mount_point : Option String
  mount_rc : Int
  unload : empty_outcome
deriving DecidableEq, Repr

/-- What `sched_fill_dev_info`, which only queries the adapters and the state
index, leaves in a device descriptor, with its return code. -/
structure dev_probe where
  rc : Int
  dev_lock : Option pho_lock
  lia_type : med_location
  op_status : dev_op_status
  dev_path : String
  dss_media_info : Option media_info
  mnt_path : String
deriving DecidableEq, Repr

/-- The world outside of the scheduler, as the write path meets it. Every
answer depends on the state `ω` of that world, which the load of the device
states may change (`after_load`). `family` is `sched->family`,
`mount_is_writable` the answer of `sched_mount_is_writable`, which only queries
the filesystem, and `media_set_rc` the return code of `dss_media_set`;
`pho_id_equal` is declared outside of these sources and taken as given. -/
structure lrs_env (ω : Type) where
  cfg : lrs_cfg
  family : Nat
  lib_open_rc : ω → Int
  lib_close_rc : ω → Int
  fill_dev_info : ω → dev_descr → dev_probe
  after_load : ω → ω
  mount_io : ω → dev_descr → mount_outcome
  empty_io : ω → dev_descr → empty_outcome
  load_io : ω → dev_descr → media_info → lib_outcome
  filter_build_rc : ω → Int
  dss_media_get : ω → Nat → List String → Int × List media_info
  check_renew_lock : ω → media_info → Int × Option pho_lock
  take_and_update_lock : ω → media_info → Int × Option pho_lock
  mount_is_writable : ω → String → Nat → Bool
  media_set_rc : ω → media_info → Int
  pho_id_equal : pho_id → pho_id → Bool

/-- The descriptor of a device after `sched_fill_dev_info`, and after the
failure branch of `sched_load_dev_state` when the probe failed. -/
def apply_probe (dev : dev_descr) (p : dev_probe) : dev_descr :=
  { dev with
    dev_lock := p.dev_lock
    lia_type := p.lia_type
    op_status := if p.rc ≠ 0 then .PHO_DEV_OP_ST_FAILED else p.op_status
    dev_path := p.dev_path
    dss_media_info := p.dss_media_info
    mnt_path := p.mnt_path }

/-- `sched_load_dev_state`. -/
def sched_load_dev_state {ω : Type} (env : lrs_env ω) (st : lrs_devs ω) : Int × lrs_devs ω :=
  if st.devices.length = 0 then (- ENXIO, st)
  else if env.lib_open_rc st.world ≠ 0 then (env.lib_open_rc st.world, st)
  else
    let devices := st.devices.map (fun dev => apply_probe dev (env.fill_dev_info st.world dev))
    let clean_devices := st.devices.any (fun dev => (env.fill_dev_info st.world dev).rc = 0)
    let st : lrs_devs ω := { devices := devices, world := env.after_load st.world }
    if env.lib_close_rc st.world ≠ 0 then (env.lib_close_rc st.world, st)
    else if clean_devices = false then (- ENXIO, st)
    else (0, st)

/-- `sched_mount`. -/
def sched_mount (dev : dev_descr) (io : mount_outcome) : Int × dev_descr :=
  let failed (rc : Int) (dev : dev_descr) : Int × dev_descr :=
    let u := sched_unload_medium dev io.unload
    let dev :=
      if u.1 = 0 then
        sched_device_release { u.2 with op_status := .PHO_DEV_OP_ST_FAILED } io.unload
      else u.2
    (rc, { dev with ongoing_io := false })
  if io.fs_adapter_rc ≠ 0 then failed io.fs_adapter_rc dev
  else if io.mounted_rc = 0 then
    (0, { dev with op_status := .PHO_DEV_OP_ST_MOUNTED, mnt_path := io.mounted_path })
  else
    match io.basename with
    | none => (-EINVAL, { dev with mnt_path := io.mounted_path })
    | some _ =>
      let dev := { dev with mnt_path := io.mounted_path }
      match io.mount_point with
      | none => failed (-ENOMEM) dev
      | some mnt_root =>
        if io.mount_rc ≠ 0 then failed io.mount_rc dev
        else (0, { dev with op_status := .PHO_DEV_OP_ST_MOUNTED, mnt_path := mnt_root })

/-- `medium_in_devices`: `devs` holds the indices of the devices selected.
`pho_id_equal` is declared outside of these sources and taken as given. -/
def medium_in_devices (pho_id_equal : pho_id → pho_id → Bool) (devices : List dev_descr)
    (medium : media_info) (devs : List Nat) : Bool :=
  devs.any (fun k =>
    match devices[k]? with
    | some d =>
      match d.dss_media_info with
      | some m => pho_id_equal medium.id m.id
      | none => false
    | none => false)

/-- State of the loop of `sched_select_media`: the candidates, whose locks the
loop may renew, the space seen and the best candidates so far. -/
structure select_state where
  pmedia_res : List media_info
  avail_size : Nat
  split_media_best : Option Nat
  whole_media_best : Option Nat
deriving DecidableEq, Repr

/-- Free space of the candidate of index `k` (0 when there is none). -/
def candidate_free (pmedia_res : List media_info) (k : Option Nat) : Nat :=
  match k.bind (fun k => pmedia_res[k]?) with
  | some m => m.stats.phys_spc_free
  | none => 0

/-- Replace the lock of the candidate of index `i`. -/
def set_candidate_lock (pmedia_res : List media_info) (i : Nat) (lock : Option pho_lock) :
    List media_info :=
  match pmedia_res, i with
  | [], _ => []
  | m :: rest, 0 => { m with lock := lock } :: rest
  | m :: rest, i + 1 => m :: set_candidate_lock rest i lock

/-- One iteration of the loop of `sched_select_media`, for the candidate
`curr` of index `i`. `avail_size` is a `size_t`: the sum wraps modulo
`2 ^ 64`. -/
def select_media_step {ω : Type} (env : lrs_env ω) (st : lrs_devs ω) (required_size : Nat)
    (devs : List Nat) (s : select_state) (curr : media_info) (i : Nat) : select_state :=
  if medium_in_devices env.pho_id_equal st.devices curr devs then s
  else
    let s := { s with avail_size := (s.avail_size + curr.stats.phys_spc_free) % SIZE_MAX1 }
    let renew := env.check_renew_lock st.world curr
    let s := if curr.lock.isSome then
        { s with pmedia_res := set_candidate_lock s.pmedia_res i renew.2 }
      else s
    let in_use : Bool :=
      match search_loaded_media st.devices curr.id.name with
      | some k => (st.devices[k]?).any (fun d => d.ongoing_io)
      | none => false
    if curr.lock.isSome = true ∧ (renew.1 ≠ 0 ∨ in_use = true) then s
    else
      let s :=
        if s.split_media_best.isNone = true ∨
            curr.stats.phys_spc_free > candidate_free s.pmedia_res s.split_media_best then
          { s with split_media_best := some i }
        else s
      if curr.stats.phys_spc_free < required_size then s
      else if s.whole_media_best.isNone = true ∨
          curr.stats.phys_spc_free < candidate_free s.pmedia_res s.whole_media_best then
        { s with whole_media_best := some i }
      else s

/-- The loop of `sched_select_media` over the candidates of index `i` and
after. -/
def select_media_loop {ω : Type} (env : lrs_env ω) (st : lrs_devs ω) (required_size : Nat)
    (devs : List Nat) (s : select_state) (i fuel : Nat) : select_state :=
  match fuel with
  | 0 => s
  | fuel + 1 =>
    match s.pmedia_res[i]? with
    | none => s
    | some curr =>
      select_media_loop env st required_size devs
        (select_media_step env st required_size devs s curr i) (i + 1) fuel

/-- The part of `sched_select_media` from the label `lock_race_retry`: the
return code and the medium chosen. The source jumps back to the label each
time the lock of the medium chosen cannot be taken; `fuel` bounds the number
of these jumps and `none` stands for its exhaustion. -/
def select_media_retry {ω : Type} (env : lrs_env ω) (st : lrs_devs ω) (required_size : Nat)
    (devs : List Nat) (pmedia_res : List media_info) (fuel : Nat) :
    Option (Int × Option media_info) :=
  match fuel with
  | 0 => none
  | fuel + 1 =>
    let s := select_media_loop env st required_size devs
      { pmedia_res := pmedia_res, avail_size := 0, split_media_best := none,
        whole_media_best := none } 0 pmedia_res.length
    if s.avail_size < required_size then some (-ENOSPC, none)
    else
      let chosen : Option Nat :=
        if s.whole_media_best.isSome then s.whole_media_best else s.split_media_best
      match chosen.bind (fun k => (s.pmedia_res[k]?).map (fun m => (k, m))) with
      | none => some (-EAGAIN, none)
      | some (k, chosen_media) =>
        if chosen_media.lock.isNone then
          let taken := env.take_and_update_lock st.world chosen_media
          if taken.1 ≠ 0 then
            select_media_retry env st required_size devs
              (set_candidate_lock s.pmedia_res k taken.2) fuel
          else some (0, some { chosen_media with lock := taken.2 })
        else some (0, some chosen_media)

/-- `sched_select_media`. -/
def sched_select_media {ω : Type} (env : lrs_env ω) (st : lrs_devs ω) (required_size : Nat)
    (tags : List String) (devs : List Nat) (fuel : Nat) : Option (Int × Option media_info) :=
  if env.filter_build_rc st.world ≠ 0 then some (env.filter_build_rc st.world, none)
  else
    let got := env.dss_media_get st.world env.family tags
    if got.1 ≠ 0 then some (got.1, none)
    else select_media_retry env st required_size devs got.2 fuel

/-- The call `sched_mount(sched, dev)` for the device of index `k`: the return
code, the state and the index; `none` when there is no such device. -/
def mount_device {ω : Type} (env : lrs_env ω) (st : lrs_devs ω) (k : Nat) :
    Option (Int × lrs_devs ω × Option Nat) :=
  match st.devices[k]? with
  | none => none
  | some dev =>
    let r := sched_mount dev (env.mount_io st.world dev)
    some (r.1, { st with devices := update_dev st.devices k (fun _ => r.2) }, some k)

/-- Steps 4 and 5 of `sched_get_write_res`: load `pmedia` into the device of
index `k`, then mount it. -/
def load_and_mount {ω : Type} (env : lrs_env ω) (st : lrs_devs ω) (k : Nat)
    (pmedia : media_info) : Option (Int × lrs_devs ω × Option Nat) :=
  match st.devices[k]? with
  | none => none
  | some dev =>
    let r := sched_load_media dev pmedia (env.load_io st.world dev pmedia)
    let st : lrs_devs ω := { st with devices := update_dev st.devices k (fun _ => r.2.1) }
    if r.1 ≠ 0 then some (r.1, st, some k) else mount_device env st k

/-- The steps of `sched_get_write_res` that follow the selection of the
medium `pmedia`. -/
def get_write_res_for {ω : Type} (env : lrs_env ω) (st : lrs_devs ω) (devs : List Nat)
    (pmedia : media_info) (fuel : Nat) : Option (Int × lrs_devs ω × Option Nat) :=
  match search_loaded_media st.devices pmedia.id.name with
  | some k =>
    let st : lrs_devs ω :=
      { st with devices := update_dev st.devices k (fun d => { d with ongoing_io := true }) }
    if (st.devices[k]?).any (fun d => d.op_status ≠ .PHO_DEV_OP_ST_MOUNTED) then
      mount_device env st k
    else some (0, st, some k)
  | none =>
    match dev_picker env.cfg st.devices .PHO_DEV_OP_ST_EMPTY select_any 0 [] (some pmedia)
        true with
    | none => none
    | some (devices, some k) => load_and_mount env { st with devices := devices } k pmedia
    | some (devices, none) =>
      match sched_free_one_device env.cfg (env.empty_io st.world) devices (some pmedia)
          devs.head? devs.length fuel with
      | none => none
      | some (rc, devices, none) => some (rc, { st with devices := devices }, none)
      | some (_, devices, some k) =>
        load_and_mount env { st with devices := devices } k pmedia

/-- `sched_get_write_res`: the return code, the state and the index of the
device stored in `devs[new_dev_index]`; `devs` holds the indices of the
devices already selected, so `new_dev_index` is its length. -/
def sched_get_write_res {ω : Type} (env : lrs_env ω) (st : lrs_devs ω) (size : Nat)
    (tags : List String) (devs : List Nat) (fuel : Nat) :
    Option (Int × lrs_devs ω × Option Nat) :=
  let loaded := sched_load_dev_state env st
  if loaded.1 ≠ 0 then some (loaded.1, loaded.2, none)
  else
    let st := loaded.2
    match env.cfg.policy with
    | none => some (-EINVAL, st, none)
    | some dev_select_policy =>
      match dev_picker env.cfg st.devices .PHO_DEV_OP_ST_MOUNTED dev_select_policy size tags
          none true with
      | none => none
      | some (devices, some k) => some (0, { st with devices := devices }, some k)
      | some (_, none) =>
        match dev_picker env.cfg st.devices .PHO_DEV_OP_ST_LOADED dev_select_policy size tags
            none true with
        | none => none
        | some (devices, some k) => mount_device env { st with devices := devices } k
        | some (_, none) =>
          match sched_select_media env st size tags devs fuel with
          | none => none
          | some (rc, none) => some (rc, st, none)
          | some (rc, some pmedia) =>
            if rc ≠ 0 then some (rc, st, none)
            else get_write_res_for env st devs pmedia fuel

/-- `sched_write_prepare`: the return code, the state and the index of the
device acquired. The source tries again each time the medium acquired is
mounted read-only; `fuel` bounds the number of tries, and the loops below, and
`none` stands for its exhaustion or for an invalid read. -/
def sched_write_prepare {ω : Type} (env : lrs_env ω) (st : lrs_devs ω) (write_size : Nat)
    (tags : List String) (devs : List Nat) (fuel : Nat) :
    Option (Int × lrs_devs ω × Nat) :=
  match fuel with
  | 0 => none
  | fuel + 1 =>
    match sched_get_write_res env st write_size tags devs (fuel + 1) with
    | none => none
    | some (rc, st, new_dev_index) =>
      if rc ≠ 0 then some (rc, st, 0)
      else
        match new_dev_index with
        | none => none
        | some k =>
          match (st.devices[k]?).bind (fun d => d.dss_media_info.map (fun m => (d, m))) with
          | none => none
          | some (new_dev, media) =>
            if env.mount_is_writable st.world new_dev.mnt_path media.fs_type then
              some (0, st, k)
            else
              let media := { media with fs_stat := .PHO_FS_STATUS_FULL }
              let new_dev := { new_dev with dss_media_info := some media, ongoing_io := false }
              let st : lrs_devs ω :=
                { st with devices := update_dev st.devices k (fun _ => new_dev) }
              if env.media_set_rc st.world media ≠ 0 then
                some (env.media_set_rc st.world media, st, 0)
              else sched_write_prepare env st write_size tags devs fuel

/-- Bad address. -/
def EFAULT : Int := 14

/-- `sched_write_prepare` as the allocation loop of the handler calls it. When
the model has no result, the loop sees the failure `-EFAULT`. -/
def write_prepare_op {ω : Type} (env : lrs_env ω) (fuel : Nat) :
    lrs_devs ω → Nat → List String → List Nat → Nat → Int × lrs_devs ω × Nat :=
  fun st write_size tags devs _ =>
    match sched_write_prepare env st write_size tags devs fuel with
    | some r => r
    | none => (-EFAULT, st, 0)


/-! ## Notions used to state the distinctness of the media of a write -/

/-- The identifier of the medium that the device holds, loaded or mounted. -/
def loaded_medium (d : dev_descr) : Option pho_id :=
  if d.op_status = .PHO_DEV_OP_ST_MOUNTED ∨ d.op_status = .PHO_DEV_OP_ST_LOADED then
    d.dss_media_info.map (fun m => m.id)
  else none

/-- The devices show a consistent library: every medium held by a device is
of the family of the scheduler, and no medium is held by two devices. -/
def devices_consistent (family : Nat) (devices : List dev_descr) : Prop :=
  (∀ (i : Nat) (d : dev_descr) (id : pho_id), devices[i]? = some d →
    loaded_medium d = some id → id.family = family) ∧
  (∀ (i j : Nat) (d d' : dev_descr) (id : pho_id), devices[i]? = some d →
    devices[j]? = some d' → loaded_medium d = some id → loaded_medium d' = some id → i = j)

/-- The device of index `k` is busy and holds the medium `id`. -/
def booked (devices : List dev_descr) (k : Nat) (id : pho_id) : Prop :=
  ∃ d, devices[k]? = some d ∧ d.ongoing_io = true ∧ loaded_medium d = some id

/-- From `devices` to `devices'`, the devices of `devs` are untouched and no
device holds a medium that it did not hold. -/
def devices_step (devs : List Nat) (devices devices' : List dev_descr) : Prop :=
  (∀ j ∈ devs, devices'[j]? = devices[j]?) ∧
  (∀ (i : Nat) (d' : dev_descr) (id : pho_id), devices'[i]? = some d' →
    loaded_medium d' = some id → ∃ d, devices[i]? = some d ∧ loaded_medium d = some id)

/-- What a successful `sched_get_write_res` leaves, from the devices as they
were loaded: a consistent library, a device `k` out of `devs`, busy and
mounted, and the devices of `devs` untouched. -/
def write_res_ok (family : Nat) (devs : List Nat) (devices devices' : List dev_descr)
    (k : Nat) : Prop :=
  devices_consistent family devices' ∧ k ∉ devs ∧
  (∀ j ∈ devs, devices'[j]? = devices[j]?) ∧
  ∃ d, devices'[k]? = some d ∧ d.ongoing_io = true ∧
    d.op_status = .PHO_DEV_OP_ST_MOUNTED

/-- Invariant of the loop of `sched_select_media` over the candidates `l0`:
the candidates keep their identifiers, and the best candidates so far are not
media of the devices `devs`. -/
def select_inv (pho_id_equal : pho_id → pho_id → Bool) (devices : List dev_descr)
    (devs : List Nat) (l0 : List media_info) (s : select_state) : Prop :=
  s.pmedia_res.map (fun m => m.id) = l0.map (fun m => m.id) ∧
  (∀ k, s.split_media_best = some k →
    ∃ m0, l0[k]? = some m0 ∧ medium_in_devices pho_id_equal devices m0 devs = false) ∧
  (∀ k, s.whole_media_best = some k →
    ∃ m0, l0[k]? = some m0 ∧ medium_in_devices pho_id_equal devices m0 devs = false)

/-- What `sched_fill_dev_info` leaves when the adapters and the state index
report the device as its descriptor shows it. -/
def keep_probe (d : dev_descr) : dev_probe :=
  { rc := 0, dev_lock := d.dev_lock, lia_type := d.lia_type, op_status := d.op_status,
    dev_path := d.dev_path, dss_media_info := d.dss_media_info, mnt_path := d.mnt_path }

/-- An empty `LTO5` drive named `name`. -/
def empty_tape_drive (name : String) : dev_descr :=
  { dev_id := ⟨2, name⟩, dev_lock := none, lia_type := .MED_LOC_DRIVE,
    op_status := .PHO_DEV_OP_ST_EMPTY, dev_path := "/dev/" ++ name, dss_media_info := none,
    mnt_path := "", ongoing_io := false, model := "LTO5-drive" }

/-- The tape `t0` as the state index lists it, locked by this host. -/
def locked_tape : media_info :=
  { test_medium "t0" with
    id := ⟨2, "t0"⟩, model := "LTO5", stats := ⟨0, 0, 0, 50⟩, lock := some ⟨"host", 1⟩ }

/-- A quiet tape library: every call succeeds, the devices are reported as
their descriptors show them, drives mount under `/mnt`, and the state index
lists the tapes `t0` and `t2` as candidates for a write. -/
def quiet_env : lrs_env Unit :=
  { cfg := test_cfg
    family := 2
    lib_open_rc := fun _ => 0
    lib_close_rc := fun _ => 0
    fill_dev_info := fun _ d => keep_probe d
    after_load := fun w => w
    mount_io := fun _ d =>
      ⟨0, -ENOENT, "", some d.dev_id.name, some ("/mnt/" ++ d.dev_id.name), 0,
        ⟨0, 0, 0, 0, 0, 0, 0⟩⟩
    empty_io := fun _ => empty_io_ok
    load_io := fun _ _ _ => ⟨0, 0, .MED_LOC_SLOT, 0, 0, 0⟩
    filter_build_rc := fun _ => 0
    dss_media_get := fun _ _ _ => (0, [locked_tape, spare_tape])
    check_renew_lock := fun _ m => (0, m.lock)
    take_and_update_lock := fun _ _ => (0, some ⟨"host", 1⟩)
    mount_is_writable := fun _ _ _ => true
    media_set_rc := fun _ _ => 0
    pho_id_equal := fun a b => decide (a = b) }

/-- Preparation functions of a scheduler of the quiet library: the write
preparation is `sched_write_prepare`, the others are not called by a write
allocation. -/
def quiet_ops : sched_ops Unit :=
  { init_req_id := 0
    sched_write_prepare := write_prepare_op quiet_env 2
    sched_read_prepare := fun st _ => (- ENXIO, st, 0)
    sched_format := fun st _ _ _ => (0, st)
    sched_device_add := fun st _ _ => (0, st)
    sched_device_lock := fun st _ => (0, st)
    sched_device_unlock := fun st _ => (0, st)
    sched_io_complete := fun st _ _ _ _ => (0, st) }

/-- The drive `d0` with the tape `t0` mounted and the empty drive `d1`. -/
def quiet_state : lrs_devs Unit :=
  { devices := [tape_drive "d0" "t0" 50 false, empty_tape_drive "d1"], world := () }

/-- A write request for two media of 10 bytes. -/
def two_media_request : List pho_req_write_elt :=
  [{ size := 10, tags := [] }, { size := 10, tags := [] }]

/-! ## Local resource scheduler: locks of the state index -/

/-- Operation already in progress. -/
def EALREADY : Int := 114

/-- A call of the scheduler to the lock functions of the state index, for the
item at hand; `dss_unlock` carries its `force_unlock` flag. -/
inductive dss_lock_call where
  | dss_unlock (force_unlock : Bool)
  | dss_lock
  | dss_lock_status
deriving DecidableEq, Repr

/-- Outcome of the lock functions of the state index, which are declared
outside of these sources, for the item at hand: the return code of
`dss_unlock` by its `force_unlock` flag, the return code of `dss_lock`, and the
return code of `dss_lock_status` with the lock it reports. -/
structure dss_lock_outcome where
  unlock_rc : Bool → Int
  lock_rc : Int
  status_rc : Int
  status_lock : Option pho_lock

/-- `take_and_update_lock`: the return code, the lock (`none` for a cleaned
lock) and the calls made to the state index. -/
def take_and_update_lock (dss : dss_lock_outcome) :
    Int × Option pho_lock × List dss_lock_call :=
  let rc := dss.lock_rc
  if dss.status_rc ≠ 0 then
    if rc = 0 then
      (dss.status_rc, some ⟨"error_on_hostname", 0⟩,
        [.dss_lock, .dss_lock_status, .dss_unlock false])
    else (rc, some ⟨"error_on_hostname", 0⟩, [.dss_lock, .dss_lock_status])
  else (rc, dss.status_lock, [.dss_lock, .dss_lock_status])

/-- `check_renew_owner`, for a scheduler of owner `lock_owner`. -/
def check_renew_owner (lock_owner : Int) (dss : dss_lock_outcome) (lock : pho_lock) :
    Int × Option pho_lock × List dss_lock_call :=
  if lock.owner ≠ lock_owner then
    if dss.unlock_rc true ≠ 0 then (dss.unlock_rc true, some lock, [.dss_unlock true])
    else
      let r := take_and_update_lock dss
      (r.1, r.2.1, .dss_unlock true :: r.2.2)
  else (0, some lock, [])

/-- `check_renew_lock`, for a scheduler of host `lock_hostname` and owner
`lock_owner`, on a lock that has a hostname (its callers test it). -/
def check_renew_lock (lock_hostname : String) (lock_owner : Int) (dss : dss_lock_outcome)
    (lock : pho_lock) : Int × Option pho_lock × List dss_lock_call :=
  if lock.hostname ≠ lock_hostname then (-EALREADY, some lock, [])
  else check_renew_owner lock_owner dss lock

/-- A state index where every lock call succeeds and that reports the item
locked by the process 42 of `host`. -/
def quiet_lock_dss : dss_lock_outcome :=
  { unlock_rc := fun _ => 0, lock_rc := 0, status_rc := 0,
    status_lock := some ⟨"host", 42⟩ }

/-! ## Scenarios of a failed transition -/

/-- An empty drive locked by the process 42 of `host`, busy with the request
being served. -/
def locked_empty_drive : dev_descr :=
  { dev_id := ⟨2, "d1"⟩, dev_lock := some ⟨"host", 42⟩, lia_type := .MED_LOC_DRIVE,
    op_status := .PHO_DEV_OP_ST_EMPTY, dev_path := "/dev/d1", dss_media_info := none,
    mnt_path := "", ongoing_io := true, model := "LTO5-drive" }

/-- The library finds the medium in a slot and fails to move it (`-EIO`);
every other call succeeds. -/
def move_failed : lib_outcome :=
  { open_rc := 0, lookup_rc := 0, media_lia_type := .MED_LOC_SLOT, move_rc := - EIO,
    close_rc := 0, unlock_rc := 0 }

/-! ## State index: errors of the database -/

/-- File exists. -/
def EEXIST : Int := 17

/-- Communication error on send. -/
def ECOMM : Int := 70

/-- Too many users. -/
def EUSERS : Int := 87

/-- Whether `strncmp(a, b, n) == 0`, for C strings given by their characters
before the terminating NUL. -/
def strncmp_eq (a b : List Char) (n : Nat) : Bool :=
  match n with
  | 0 => true
  | n + 1 =>
    match a, b with
    | [], [] => true
    | [], _ :: _ => false
    | _ :: _, [] => false
    | x :: a, y :: b => if x = y then strncmp_eq a b n else false

/-- The table `sqlerr_map`: an SQL error code or class and the negated errno
it maps to. -/
def sqlerr_map : List (List Char × Int) :=
  [(['0', '0', '0', '0', '0'], 0),
   (['2', '2'], -EINVAL),
   (['2', '3'], -EEXIST),
   (['4', '2'], -EINVAL),
   (['5', '3', '1', '0', '0'], -ENOSPC),
   (['5', '3', '2', '0', '0'], -ENOMEM),
   (['5', '3', '3', '0', '0'], -EUSERS),
   (['5', '3'], - EIO),
   ([], -ECOMM)]

/-- The loop of `psql_state2errno` over the entries of the table; `none`
stands for `UNREACHED()`. -/
def psql_state2errno_loop (sqlstate : List Char) (map : List (List Char × Int)) :
    Option Int :=
  match map with
  | [] => none
  | (pfx, errcode) :: rest =>
    if strncmp_eq pfx sqlstate pfx.length = true then some errcode
    else psql_state2errno_loop sqlstate rest

/-- `psql_state2errno`, from the SQL state of the result (`none` when
`PQresultErrorField` has none). -/
def psql_state2errno (sqlstate : Option (List Char)) : Option Int :=
  match sqlstate with
  | none => some 0
  | some s => psql_state2errno_loop s sqlerr_map

/-- The string `s` starts with `p`. -/
def starts_with (p s : List Char) : Bool :=
  match p, s with
  | [], _ => true
  | _ :: _, [] => false
  | x :: p, y :: s => decide (x = y) && starts_with p s

/-! ## State index: statistics of a medium as JSON -/

/-- A member value of a JSON object of jansson, as far as the functions below
look at it: a string, or a value of another type. -/
inductive json_value where
  | string (value : List Char)
  | other
deriving DecidableEq, Repr

/-- A JSON text once parsed by jansson: an object with its members, or a value
of another type. -/
inductive json_root where
  | object (members : List (String × json_value))
  | other
deriving DecidableEq, Repr

/-- `json_object_get`: the value of the member `key`, if any. -/
def json_object_get (members : List (String × json_value)) (key : String) :
    Option json_value :=
  match members with
  | [] => none
  | (k, v) :: rest => if k = key then some v else json_object_get rest key

/-- `json_object_set_new`: set the member `key`, which replaces its former
value if it has one. The call is taken to succeed. -/
def json_object_set_new (members : List (String × json_value)) (key : String)
    (value : json_value) : List (String × json_value) :=
  match members with
  | [] => [(key, value)]
  | (k, v) :: rest =>
    if k = key then (k, value) :: rest else (k, v) :: json_object_set_new rest key value

/-- What `snprintf(buffer, sizeof(buffer), "%zu", n)` leaves in a buffer of
32 bytes: the decimal digits of `n`, cut to 31 characters. -/
def snprintf_zu (n : Nat) : List Char :=
  (Nat.toDigits 10 n).take 31

/-- The value of a decimal digit. -/
def digit_value (c : Char) : Option Nat :=
  if 48 ≤ c.toNat ∧ c.toNat ≤ 57 then some (c.toNat - 48) else none

/-- The digits read by `strtoull` in base 10: the value of the longest run of
digits, after `acc`. -/
def strtoull_digits (s : List Char) (acc : Nat) : Nat :=
  match s with
  | [] => acc
  | c :: rest =>
    match digit_value c with
    | some d => strtoull_digits rest (acc * 10 + d)
    | none => acc

/-- `isspace` in the C locale. -/
def isspace (c : Char) : Bool :=
  decide (c.toNat = 32) || (decide (9 ≤ c.toNat) && decide (c.toNat ≤ 13))

/-- `strtoull(s, NULL, 10)`: white space is skipped, a sign is read, then the
digits; a value that does not fit 64 bits gives `ULLONG_MAX`, a minus sign
negates modulo `2 ^ 64`. -/
def strtoull (s : List Char) : Nat :=
  let s := s.dropWhile isspace
  let signed : Bool × List Char :=
    match s with
    | c :: rest =>
      if c = '-' then (true, rest) else if c = '+' then (false, rest) else (false, s)
    | [] => (false, s)
  let v := strtoull_digits signed.2 0
  if v ≥ SIZE_MAX1 then SIZE_MAX1 - 1
  else if signed.1 then (SIZE_MAX1 - v) % SIZE_MAX1 else v

/-- `json_dict2uint64`: the value read and the error counter, which was `err`
at the call. -/
def json_dict2uint64 (obj : List (String × json_value)) (key : String) (err : Nat) :
    Nat × Nat :=
  match json_object_get obj key with
  | none => (0, err + 1)
  | some .other => (0, err + 1)
  | some (.string val) => (strtoull val, err)

/-- `dss_media_stats_decode`: the return code and the statistics; `json_loads`
is the parser of jansson. -/
def dss_media_stats_decode (json_loads : List Char → Option json_root) (stats : media_stats)
    (json : List Char) : Int × media_stats :=
  match json_loads json with
  | none => (-EINVAL, stats)
  | some .other => (-EINVAL, stats)
  | some (.object root) =>
    let nb_obj := json_dict2uint64 root "nb_obj" 0
    let logc_spc_used := json_dict2uint64 root "logc_spc_used" nb_obj.2
    let phys_spc_used := json_dict2uint64 root "phys_spc_used" logc_spc_used.2
    let phys_spc_free := json_dict2uint64 root "phys_spc_free" phys_spc_used.2
    let stats : media_stats :=
      { nb_obj := nb_obj.1, logc_spc_used := logc_spc_used.1,
        phys_spc_used := phys_spc_used.1, phys_spc_free := phys_spc_free.1 }
    if phys_spc_free.2 > 0 then (-EINVAL, stats) else (0, stats)

/-- The JSON object that `dss_media_stats_encode` builds. -/
def media_stats_json (stats : media_stats) : List (String × json_value) :=
  let root : List (String × json_value) := []
  let root := json_object_set_new root "nb_obj" (.string (snprintf_zu stats.nb_obj))
  let root := json_object_set_new root "logc_spc_used"
    (.string (snprintf_zu stats.logc_spc_used))
  let root := json_object_set_new root "phys_spc_used"
    (.string (snprintf_zu stats.phys_spc_used))
  json_object_set_new root "phys_spc_free" (.string (snprintf_zu stats.phys_spc_free))

/-- `dss_media_stats_encode`: the text, if any, and the error counter;
`json_dumps` is the printer of jansson. The allocations and the four
`json_object_set_new` are taken to succeed. -/
def dss_media_stats_encode (json_dumps : json_root → Option (List Char))
    (stats : media_stats) : Option (List Char) × Nat :=
  (json_dumps (.object (media_stats_json stats)), 0)

/-- The statistics used as an example. -/
def example_stats : media_stats :=
  { nb_obj := 3, logc_spc_used := 4096, phys_spc_used := 8192,
    phys_spc_free := 18446744073709551615 }

/-! ## Serializer of the library controller protocol -/

/-- Modelled from the spec: every message carries a one-byte protocol version.
The size in bytes of the protocol version, `PHO_TLC_PROTOCOL_VERSION_SIZE`, is
declared outside of these sources; `pho_srl_lrs.h` gives 1 to its like
`PHO_PROTOCOL_VERSION_SIZE`. -/
def PHO_TLC_PROTOCOL_VERSION_SIZE : Nat := 1

/-- A buffer `struct pho_buff`: its bytes and the size recorded. -/
structure pho_buff where
  size : Nat
  buff : List Nat
deriving DecidableEq, Repr

/-- The value of a byte read through a `char`, which is signed. -/
def char_value (byte : Nat) : Int :=
  if byte % 256 < 128 then (byte % 256 : Nat) else ((byte % 256 : Nat) : Int) - 256

/-- `pho_srl_tlc_request_pack`. `version` is `PHO_TLC_PROTOCOL_VERSION`,
declared outside of these sources; `pack` is the packer that protobuf-c
generates, which writes the `pho_tlc_request__get_packed_size(req)` bytes of
the body. -/
def pho_srl_tlc_request_pack {α : Type} (version : Nat) (pack : α → List Nat) (req : α) :
    pho_buff :=
  { size := (pack req).length + PHO_TLC_PROTOCOL_VERSION_SIZE,
    buff := version % 256 :: pack req }

/-- `pho_srl_tlc_request_unpack`: the request, `none` for `NULL`, and whether
the body was handed to `unpack`, the unpacker that protobuf-c generates. The
outer `none` stands for the read of the first byte of a buffer that has
none. -/
def pho_srl_tlc_request_unpack {α : Type} (version : Nat) (unpack : List Nat → Option α)
    (buf : pho_buff) : Option (Option α × Bool) :=
  match buf.buff with
  | [] => none
  | first :: _ =>
    if char_value first ≠ (version : Int) then some (none, false)
    else
      some (unpack ((buf.buff.drop PHO_TLC_PROTOCOL_VERSION_SIZE).take
        (buf.size - PHO_TLC_PROTOCOL_VERSION_SIZE)), true)

/-- A packer and an unpacker for messages that are their own bytes. -/
def bytes_pack (m : List Nat) : List Nat := m

/-- The unpacker that goes with `bytes_pack`. -/
def bytes_unpack (b : List Nat) : Option (List Nat) := some b

/-! ## Notions used to state the choice of a medium for a write -/

/-- The medium named `name` is loaded in a device that is busy. -/
def loaded_in_busy_device (devices : List dev_descr) (name : String) : Bool :=
  match search_loaded_media devices name with
  | some k => (devices[k]?).any (fun d => d.ongoing_io)
  | none => false

/-- The medium `m` is not booked for the allocation being served. -/
def select_free {ω : Type} (env : lrs_env ω) (st : lrs_devs ω) (devs : List Nat)
    (m : media_info) : Bool :=
  !medium_in_devices env.pho_id_equal st.devices m devs

/-- The medium `m` can be used now: it is not booked, and it is unlocked, or
its lock belongs to this daemon (`check_renew_lock` returns 0) and it is not
loaded in a busy device. -/
def select_usable {ω : Type} (env : lrs_env ω) (st : lrs_devs ω) (devs : List Nat)
    (m : media_info) : Bool :=
  select_free env st devs m &&
    (m.lock.isNone ||
      (decide ((env.check_renew_lock st.world m).1 = 0) &&
        !loaded_in_busy_device st.devices m.id.name))

/-- Sum of the free space of the media of `l` that are not booked. -/
def select_total {ω : Type} (env : lrs_env ω) (st : lrs_devs ω) (devs : List Nat)
    (l : List media_info) : Nat :=
  (l.map (fun m => if select_free env st devs m then m.stats.phys_spc_free else 0)).sum

/-- The sum of the free space of the media of `l` that are not booked, as the
`size_t` variable `avail_size` holds it: modulo `2 ^ 64`. -/
def select_avail {ω : Type} (env : lrs_env ω) (st : lrs_devs ω) (devs : List Nat)
    (l : List media_info) : Nat :=
  select_total env st devs l % SIZE_MAX1

/-- The medium `mk` of index `k` is the whole-fit choice among the first `n`
media of `l`: it is usable, it holds `required_size`, no usable medium that
holds `required_size` has less free space, and those before it have more. -/
def whole_fit_choice (usable : media_info → Bool) (required_size : Nat) (l : List media_info)
    (n k : Nat) (mk : media_info) : Prop :=
  l[k]? = some mk ∧ k < n ∧ usable mk = true ∧ required_size ≤ mk.stats.phys_spc_free ∧
  ∀ (j : Nat) (m : media_info), j < n → l[j]? = some m → usable m = true →
    required_size ≤ m.stats.phys_spc_free →
    mk.stats.phys_spc_free ≤ m.stats.phys_spc_free ∧
      (j < k → mk.stats.phys_spc_free < m.stats.phys_spc_free)

/-- No usable medium among the first `n` media of `l` holds `required_size`. -/
def no_whole_fit (usable : media_info → Bool) (required_size : Nat) (l : List media_info)
    (n : Nat) : Prop :=
  ∀ (j : Nat) (m : media_info), j < n → l[j]? = some m → usable m = true →
    m.stats.phys_spc_free < required_size

/-- The medium `mk` of index `k` is the split choice among the first `n` media
of `l`: it is usable, no usable medium has more free space, and those before
it have less. -/
def split_choice (usable : media_info → Bool) (l : List media_info) (n k : Nat)
    (mk : media_info) : Prop :=
  l[k]? = some mk ∧ k < n ∧ usable mk = true ∧
  ∀ (j : Nat) (m : media_info), j < n → l[j]? = some m → usable m = true →
    m.stats.phys_spc_free ≤ mk.stats.phys_spc_free ∧
      (j < k → m.stats.phys_spc_free < mk.stats.phys_spc_free)

/-- State of the loop of `sched_select_media` after the first `n` of the
candidates `l`: the candidates differ from `l` by their locks only, and only
before `n`; the space seen is the free space of the media that are not
booked, modulo `2 ^ 64`; the best candidates are the whole-fit and the split
choices. -/
def select_pass_inv {ω : Type} (env : lrs_env ω) (st : lrs_devs ω) (devs : List Nat)
    (required_size : Nat) (l : List media_info) (n : Nat) (s : select_state) : Prop :=
  s.pmedia_res.length = l.length ∧
  (∀ (i : Nat) (m m' : media_info), l[i]? = some m → s.pmedia_res[i]? = some m' →
    m'.stats = m.stats ∧ m'.id = m.id ∧ (n ≤ i → m' = m)) ∧
  s.avail_size = select_avail env st devs (l.take n) ∧
  (match s.whole_media_best with
   | none => no_whole_fit (select_usable env st devs) required_size l n
   | some k => ∃ mk, whole_fit_choice (select_usable env st devs) required_size l n k mk) ∧
  (match s.split_media_best with
   | none => ∀ (j : Nat) (m : media_info), j < n → l[j]? = some m →
       select_usable env st devs m = false
   | some k => ∃ mk, split_choice (select_usable env st devs) l n k mk)

/-- The candidate `m` as the loop of `sched_select_media` leaves it: the lock
of a medium that is not booked and is locked is the one `check_renew_lock`
has written. -/
def renew_candidate {ω : Type} (env : lrs_env ω) (st : lrs_devs ω) (devs : List Nat)
    (m : media_info) : media_info :=
  if select_free env st devs m = true ∧ m.lock.isSome = true then
    { m with lock := (env.check_renew_lock st.world m).2 }
  else m

/-- Three candidates of a write of 30 bytes: `t0` with 50 bytes free, `t1`
with 40 and `t2` with 100, all unlocked. -/
def three_candidates : List media_info :=
  [{ spare_tape with id := ⟨2, "t0"⟩, stats := ⟨0, 0, 0, 50⟩ },
   { spare_tape with id := ⟨2, "t1"⟩, stats := ⟨0, 0, 0, 40⟩ },
   spare_tape]

/-- The quiet library where the state index lists the three candidates. -/
def three_candidates_env : lrs_env Unit :=
  { quiet_env with dss_media_get := fun _ _ _ => (0, three_candidates) }

/-- Two unlocked candidates whose free space adds up to `2 ^ 64`. -/
def wrapping_candidates : List media_info :=
  [{ spare_tape with id := ⟨2, "t0"⟩, stats := ⟨0, 0, 0, 18446744073709551615⟩ },
   { spare_tape with id := ⟨2, "t1"⟩, stats := ⟨0, 0, 0, 1⟩ }]

/-- The quiet library where the state index lists the two candidates above. -/
def wrapping_candidates_env : lrs_env Unit :=
  { quiet_env with dss_media_get := fun _ _ _ => (0, wrapping_candidates) }

/-! ## Local resource scheduler: states of a device -/

/-- `mount_point`: the mount prefix of the configuration followed by the
identifier `id` of the drive; there is no mount point without a prefix. -/
def mount_point (mnt_cfg : Option String) (id : String) : Option String :=
  mnt_cfg.map (fun pre => pre ++ id)

/-- The invariant of the state of a device: a mounted or loaded device has a
medium, a mounted device has a mount path, an empty device has no medium. -/
def dev_state_inv (dev : dev_descr) : Prop :=
  ((dev.op_status = .PHO_DEV_OP_ST_MOUNTED ∨ dev.op_status = .PHO_DEV_OP_ST_LOADED) →
    dev.dss_media_info.isSome = true) ∧
  (dev.op_status = .PHO_DEV_OP_ST_MOUNTED → dev.mnt_path ≠ "") ∧
  (dev.op_status = .PHO_DEV_OP_ST_EMPTY → dev.dss_media_info = none)

/-- The drive `d0` with the tape `t0` loaded and not mounted, busy with the
request served. -/
def loaded_tape_drive : dev_descr :=
  { tape_drive "d0" "t0" 50 true with
    op_status := .PHO_DEV_OP_ST_LOADED, mnt_path := "" }

/-! ## raid1 write protocol: allocation requests -/

/-- The request is a write allocation request. -/
def is_write_alloc (req : pho_req) : Bool :=
  match req.body with
  | .walloc _ _ => true
  | _ => false

/-- The response, if any, is a write allocation response. -/
def is_write_alloc_resp (resp : Option pho_resp) : Bool :=
  match resp with
  | some resp =>
    match resp.body with
    | .walloc _ => true
    | _ => false
  | none => false

/-- The requests that the encoder emits along a run, in order. As in
`raid1_run`, a done encoder is never stepped again. -/
def raid1_run_requests (enc : pho_encoder) (events : List (Option pho_resp × step_io))
    (family : Nat) (tags : List String) : List pho_req :=
  match events with
  | [] => []
  | ev :: rest =>
    if enc.done then []
    else
      (raid1_encoder_step enc ev.1 ev.2 family tags).2.2 ++
        raid1_run_requests (raid1_encoder_step enc ev.1 ev.2 family tags).2.1 rest family tags

/-- An event of a put on `r` copies where the data I/O succeeds: a write
allocation response offers `r` media, each with room for one byte at least,
and no read allocation response comes to an encoder. -/
def write_event_ok (r : Nat) (ev : Option pho_resp × step_io) : Bool :=
  decide (ev.2.chunk.setup_rc = 0) && decide (ev.2.chunk.rc = 0) &&
    match ev.1 with
    | none => true
    | some resp =>
      match resp.body with
      | .walloc media =>
        decide (media.length = r) && media.all (fun m => decide (1 ≤ m.avail_size))
      | .ralloc _ => false
      | _ => true

/-- Number of write allocation requests that the encoder counts as not
answered yet: 1 when `requested_alloc` is set. -/
def outstanding_alloc (enc : pho_encoder) : Nat :=
  if enc.priv_enc.requested_alloc then 1 else 0

/-- Shape of an encoder along a put on `r` copies, as far as allocations go:
when nothing is left to write the encoder is done or has written extents, and
an allocation is requested only while something is left to write. -/
def alloc_inv (r : Nat) (enc : pho_encoder) : Prop :=
  enc.is_decoder = false ∧ enc.priv_enc.repl_count = r ∧ 0 ≤ enc.xd_fd ∧
  (enc.priv_enc.to_write = 0 →
    enc.done = true ∨ 0 < enc.priv_enc.written_extents.length) ∧
  (enc.priv_enc.requested_alloc = true → 0 < enc.priv_enc.to_write)

/-- A medium offered by a write allocation response, with `avail` bytes free. -/
def offered_medium (name : String) (avail : Nat) : pho_resp_write_elt :=
  { med_id := ⟨1, name⟩, avail_size := avail, root_path := "/mnt/" ++ name, fs_type := 0,
    addr_type := 0 }

/-- A put of 3 bytes on 2 copies: the first allocation offers media with 2
bytes free, the second media with 5 bytes free, then both releases are
acknowledged. -/
def two_round_put : List (Option pho_resp × step_io) :=
  [(none, step_io_ok),
   (some ⟨0, .walloc [offered_medium "m0" 2, offered_medium "m1" 2]⟩, step_io_ok),
   (some ⟨0, .walloc [offered_medium "m2" 5, offered_medium "m3" 5]⟩, step_io_ok),
   (some ⟨0, .release [⟨1, "m0"⟩, ⟨1, "m1"⟩]⟩, step_io_ok),
   (some ⟨0, .release [⟨1, "m2"⟩, ⟨1, "m3"⟩]⟩, step_io_ok)]

/-! ## State index: extents of a layout -/

/-- The extents numbered as `dss_layout_extents_decode` numbers them:
`layout_idx` is the position in the array, from `i` on. -/
def reindex (extents : List extent) (i : Nat) : List extent :=
  match extents with
  | [] => []
  | e :: rest => { e with layout_idx := i } :: reindex rest (i + 1)

/-- C2 (code defect). A put of 3 bytes on two copies, served by media with 2
bytes available, completes with four extents whose `layout_idx` are
`0, 1, 0, 1`: the encoder never advances `cur_extent_idx`, so the extents of
the second split repeat the indices of the first instead of carrying
`s * r + c`. -/
theorem two_split_put_repeats_layout_idx :
    (raid1_put 3 (some 2) 5 two_split_events 1 []).map
        (fun enc => (enc.done, enc.layout.ext_count,
          enc.layout.extents.map (fun e => (e.layout_idx, e.size)))) =
      .ok (true, 4, [(0, 2), (1, 2), (0, 1), (1, 1)]) := by
  rfl

/-- The layout of the two-split put, handed to the decoder as the encoder
leaves it in memory, is accepted by `layout_raid1_decode` with 3 bytes to read
and its first split is read, but reading the second split through the medium
of either copy fails the ordering check of `simple_dec_read_chunk` with
`-EINVAL`. A reader does not get the layout that way: the state index numbers
the extents it loads by their position. -/
theorem two_split_layout_not_readable :
    (layout_raid1_decode two_split_layout true 5).1 = 0 ∧
    (layout_raid1_decode two_split_layout true 5).2.map (fun dec => dec.priv_enc.to_write) =
      some 3 ∧
    two_split_decoder_after_first_read.map
        (fun dec => (dec.done, dec.priv_enc.cur_extent_idx, dec.priv_enc.to_write,
          (simple_dec_read_chunk dec (dir_read_medium "c") read_io_ok).1,
          (simple_dec_read_chunk dec (dir_read_medium "d") read_io_ok).1,
          (simple_dec_read_chunk dec (dir_read_medium "c") read_io_ok).2.done)) =
      some (false, 1, 1, -EINVAL, -EINVAL, false) := by
  decide

/-! ### Table of media to release -/

theorem lookup_incr_same (tbl : List (String × Nat)) (m : String) (v : Nat)
    (h : release_lookup tbl m = some v) :
    release_lookup (release_incr tbl m) m = some (v + 1) := by
  induction tbl with
  | nil => simp [release_lookup] at h
  | cons kv rest ih =>
    obtain ⟨k, w⟩ := kv
    by_cases hk : k = m
    · simp [release_lookup, release_incr, hk] at h ⊢
      exact h
    · simp [release_lookup, release_incr, hk] at h ⊢
      exact ih h

theorem lookup_incr_other (tbl : List (String × Nat)) (m m' : String) (h : m' ≠ m) :
    release_lookup (release_incr tbl m) m' = release_lookup tbl m' := by
  induction tbl with
  | nil => simp [release_lookup, release_incr]
  | cons kv rest ih =>
    obtain ⟨k, w⟩ := kv
    by_cases hk : k = m
    · subst hk
      have hk' : ¬ k = m' := fun e => h e.symm
      simp [release_lookup, release_incr, hk']
    · by_cases hk2 : k = m'
      · subst hk2
        simp [release_lookup, release_incr, hk]
      · simp [release_lookup, release_incr, hk, hk2, ih]

theorem lookup_decr_same (tbl : List (String × Nat)) (m : String) (v : Nat)
    (h : release_lookup tbl m = some v) :
    release_lookup (release_decr tbl m) m = some (v - 1) := by
  induction tbl with
  | nil => simp [release_lookup] at h
  | cons kv rest ih =>
    obtain ⟨k, w⟩ := kv
    by_cases hk : k = m
    · simp [release_lookup, release_decr, hk] at h ⊢
      rw [h]
    · simp [release_lookup, release_decr, hk] at h ⊢
      exact ih h

theorem lookup_decr_other (tbl : List (String × Nat)) (m m' : String) (h : m' ≠ m) :
    release_lookup (release_decr tbl m) m' = release_lookup tbl m' := by
  induction tbl with
  | nil => simp [release_lookup, release_decr]
  | cons kv rest ih =>
    obtain ⟨k, w⟩ := kv
    by_cases hk : k = m
    · subst hk
      have hk' : ¬ k = m' := fun e => h e.symm
      simp [release_lookup, release_decr, hk']
    · by_cases hk2 : k = m'
      · subst hk2
        simp [release_lookup, release_decr, hk]
      · simp [release_lookup, release_decr, hk, hk2, ih]

theorem lookup_remove_same (tbl : List (String × Nat)) (m : String) :
    release_lookup (release_remove tbl m) m = none := by
  induction tbl with
  | nil => simp [release_lookup, release_remove]
  | cons kv rest ih =>
    obtain ⟨k, w⟩ := kv
    by_cases hk : k = m
    · simp [release_remove, hk, ih]
    · simp [release_lookup, release_remove, hk, ih]

theorem lookup_remove_other (tbl : List (String × Nat)) (m m' : String) (h : m' ≠ m) :
    release_lookup (release_remove tbl m) m' = release_lookup tbl m' := by
  induction tbl with
  | nil => simp [release_lookup, release_remove]
  | cons kv rest ih =>
    obtain ⟨k, w⟩ := kv
    by_cases hk : k = m
    · subst hk
      have hk' : ¬ k = m' := fun e => h e.symm
      simp [release_lookup, release_remove, hk', ih]
    · by_cases hk2 : k = m'
      · subst hk2
        simp [release_lookup, release_remove, hk]
      · simp [release_lookup, release_remove, hk, hk2, ih]

theorem lookup_append_same (tbl : List (String × Nat)) (m : String) (v : Nat)
    (h : release_lookup tbl m = none) :
    release_lookup (tbl ++ [(m, v)]) m = some v := by
  induction tbl with
  | nil => simp [release_lookup]
  | cons kv rest ih =>
    obtain ⟨k, w⟩ := kv
    by_cases hk : k = m
    · simp [release_lookup, hk] at h
    · simp [release_lookup, hk] at h ⊢
      exact ih h

theorem lookup_append_other (tbl : List (String × Nat)) (m m' : String) (v : Nat)
    (h : m' ≠ m) :
    release_lookup (tbl ++ [(m, v)]) m' = release_lookup tbl m' := by
  induction tbl with
  | nil =>
    have hk' : ¬ m = m' := fun e => h e.symm
    simp [release_lookup, hk']
  | cons kv rest ih =>
    obtain ⟨k, w⟩ := kv
    by_cases hk2 : k = m'
    · simp [release_lookup, hk2]
    · simp [release_lookup, hk2, ih]

/-! ### Written extents and awaited releases -/

theorem add_written_extent_some (raid1 : raid1_encoder) (e : extent) (v : Nat)
    (h : release_lookup raid1.to_release_media e.media.name = some v) :
    add_written_extent raid1 e =
      { raid1 with written_extents := raid1.written_extents ++ [e],
                   to_release_media := release_incr raid1.to_release_media e.media.name } := by
  simp [add_written_extent, h]

theorem add_written_extent_none (raid1 : raid1_encoder) (e : extent)
    (h : release_lookup raid1.to_release_media e.media.name = none) :
    add_written_extent raid1 e =
      { raid1 with written_extents := raid1.written_extents ++ [e],
                   to_release_media := raid1.to_release_media ++ [(e.media.name, 1)] } := by
  simp [add_written_extent, h, add_new_to_release_media]

theorem add_written_extent_frame (raid1 : raid1_encoder) (e : extent) :
    (add_written_extent raid1 e).written_extents = raid1.written_extents ++ [e] ∧
    (add_written_extent raid1 e).to_write = raid1.to_write ∧
    (add_written_extent raid1 e).repl_count = raid1.repl_count ∧
    (add_written_extent raid1 e).cur_extent_idx = raid1.cur_extent_idx ∧
    (add_written_extent raid1 e).requested_alloc = raid1.requested_alloc ∧
    (add_written_extent raid1 e).n_released_media = raid1.n_released_media := by
  cases hl : release_lookup raid1.to_release_media e.media.name with
  | none => simp [add_written_extent_none _ _ hl]
  | some v => simp [add_written_extent_some _ _ v hl]

theorem add_written_extent_refcount (raid1 : raid1_encoder) (e : extent) (m : String) :
    refcount (add_written_extent raid1 e).to_release_media m =
      refcount raid1.to_release_media m + (if m = e.media.name then 1 else 0) := by
  cases hv : release_lookup raid1.to_release_media e.media.name with
  | some v =>
    rw [add_written_extent_some _ _ v hv]
    by_cases hm : m = e.media.name
    · subst hm
      simp [refcount, lookup_incr_same _ _ v hv, hv]
    · simp [refcount, lookup_incr_other _ _ _ hm, hm]
  | none =>
    rw [add_written_extent_none _ _ hv]
    by_cases hm : m = e.media.name
    · subst hm
      simp [refcount, lookup_append_same _ _ 1 hv, hv]
    · simp [refcount, lookup_append_other _ _ _ 1 hm, hm]

theorem add_written_extent_positive (raid1 : raid1_encoder) (e : extent)
    (h : table_positive raid1.to_release_media) :
    table_positive (add_written_extent raid1 e).to_release_media := by
  intro m
  cases hv : release_lookup raid1.to_release_media e.media.name with
  | some v =>
    rw [add_written_extent_some _ _ v hv]
    by_cases hm : m = e.media.name
    · subst hm
      simp [lookup_incr_same _ _ v hv]
    · simpa [lookup_incr_other _ _ _ hm] using h m
  | none =>
    rw [add_written_extent_none _ _ hv]
    by_cases hm : m = e.media.name
    · subst hm
      simp [lookup_append_same _ _ 1 hv]
    · simpa [lookup_append_other _ _ _ 1 hm] using h m

theorem add_written_extents_frame (extents : List extent) :
    ∀ raid1 : raid1_encoder,
    (add_written_extents raid1 extents).written_extents = raid1.written_extents ++ extents ∧
    (add_written_extents raid1 extents).to_write = raid1.to_write ∧
    (add_written_extents raid1 extents).repl_count = raid1.repl_count ∧
    (add_written_extents raid1 extents).cur_extent_idx = raid1.cur_extent_idx ∧
    (add_written_extents raid1 extents).requested_alloc = raid1.requested_alloc ∧
    (add_written_extents raid1 extents).n_released_media = raid1.n_released_media := by
  induction extents with
  | nil => intro raid1; simp [add_written_extents]
  | cons e rest ih =>
    intro raid1
    have h1 := add_written_extent_frame raid1 e
    have h2 := ih (add_written_extent raid1 e)
    simp only [add_written_extents]
    obtain ⟨a1, a2, a3, a4, a5, a6⟩ := h1
    obtain ⟨b1, b2, b3, b4, b5, b6⟩ := h2
    refine ⟨?_, ?_, ?_, ?_, ?_, ?_⟩
    · rw [b1, a1]; simp
    · rw [b2, a2]
    · rw [b3, a3]
    · rw [b4, a4]
    · rw [b5, a5]
    · rw [b6, a6]

theorem add_written_extents_refcount (extents : List extent) :
    ∀ (raid1 : raid1_encoder) (m : String),
    refcount (add_written_extents raid1 extents).to_release_media m =
      refcount raid1.to_release_media m + (extents.map (fun e => e.media.name)).count m := by
  induction extents with
  | nil => intro raid1 m; simp [add_written_extents]
  | cons e rest ih =>
    intro raid1 m
    simp only [add_written_extents, List.map_cons]
    rw [ih, add_written_extent_refcount, List.count_cons]
    by_cases hm : m = e.media.name
    · subst hm; simp; omega
    · have hm' : ¬ e.media.name = m := fun h => hm h.symm
      simp [hm, hm']

theorem add_written_extents_positive (extents : List extent) :
    ∀ raid1 : raid1_encoder, table_positive raid1.to_release_media →
      table_positive (add_written_extents raid1 extents).to_release_media := by
  induction extents with
  | nil => intro raid1 h; simpa [add_written_extents] using h
  | cons e rest ih =>
    intro raid1 h
    simp only [add_written_extents]
    exact ih _ (add_written_extent_positive raid1 e h)

theorem refcount_eq_zero_iff (tbl : List (String × Nat)) (m : String)
    (h : table_positive tbl) : refcount tbl m = 0 ↔ release_lookup tbl m = none := by
  unfold refcount
  cases hl : release_lookup tbl m with
  | none => simp
  | some v =>
    have := h m
    rw [hl] at this
    simp at this ⊢
    exact this

/-- Effect of one release on the encoder when the medium is awaited. -/
theorem mark_released_awaited (raid1 : raid1_encoder) (a : String)
    (hpos : table_positive raid1.to_release_media)
    (h : 0 < refcount raid1.to_release_media a) :
    (mark_written_medium_released raid1 a).1 = 0 ∧
    (mark_written_medium_released raid1 a).2.n_released_media = raid1.n_released_media + 1 ∧
    (mark_written_medium_released raid1 a).2.written_extents = raid1.written_extents ∧
    (mark_written_medium_released raid1 a).2.to_write = raid1.to_write ∧
    (mark_written_medium_released raid1 a).2.repl_count = raid1.repl_count ∧
    (mark_written_medium_released raid1 a).2.cur_extent_idx = raid1.cur_extent_idx ∧
    (mark_written_medium_released raid1 a).2.requested_alloc = raid1.requested_alloc ∧
    table_positive (mark_written_medium_released raid1 a).2.to_release_media ∧
    ∀ m, refcount (mark_written_medium_released raid1 a).2.to_release_media m =
      refcount raid1.to_release_media m - (if m = a then 1 else 0) := by
  unfold refcount at h
  cases hl : release_lookup raid1.to_release_media a with
  | none => simp [hl] at h
  | some v =>
    simp [hl] at h
    by_cases hv : v = 1
    · subst hv
      simp only [mark_written_medium_released, hl, if_true, true_and]
      refine ⟨?_, ?_⟩
      · intro m
        by_cases hm : m = a
        · subst hm; simp [lookup_remove_same]
        · simpa [lookup_remove_other _ _ _ hm] using hpos m
      · intro m
        by_cases hm : m = a
        · subst hm; simp [refcount, lookup_remove_same, hl]
        · simp [refcount, lookup_remove_other _ _ _ hm, hm]
    · simp only [mark_written_medium_released, hl, hv, if_false, true_and]
      refine ⟨?_, ?_⟩
      · intro m
        by_cases hm : m = a
        · subst hm
          simp [lookup_decr_same _ _ v hl]
          omega
        · simpa [lookup_decr_other _ _ _ hm] using hpos m
      · intro m
        by_cases hm : m = a
        · subst hm; simp [refcount, lookup_decr_same _ _ v hl, hl]
        · simp [refcount, lookup_decr_other _ _ _ hm, hm]

/-- Effect of one release on the encoder when the medium is not awaited. -/
theorem mark_released_unknown (raid1 : raid1_encoder) (a : String)
    (hpos : table_positive raid1.to_release_media)
    (h : refcount raid1.to_release_media a = 0) :
    mark_written_medium_released raid1 a = (-EINVAL, raid1) := by
  have hl := (refcount_eq_zero_iff _ _ hpos).1 h
  simp [mark_written_medium_released, hl]

/-! ### One chunk of the write path -/

theorem limit_extent_size_le (media : List pho_resp_write_elt) :
    ∀ n, limit_extent_size n media ≤ n := by
  induction media with
  | nil => intro n; simp [limit_extent_size]
  | cons m rest ih =>
    intro n
    simp only [limit_extent_size]
    split
    · exact Nat.le_trans (ih _) (by omega)
    · exact ih _

theorem limit_extent_size_le_avail (media : List pho_resp_write_elt) :
    ∀ n, ∀ m ∈ media, limit_extent_size n media ≤ m.avail_size := by
  induction media with
  | nil => intro n m hm; simp at hm
  | cons a rest ih =>
    intro n m hm
    simp only [limit_extent_size]
    rcases List.mem_cons.1 hm with h | h
    · subst h
      split
      · exact limit_extent_size_le rest _
      · exact Nat.le_trans (limit_extent_size_le rest _) (by omega)
    · exact ih _ m h

theorem limit_extent_size_attained (media : List pho_resp_write_elt) :
    ∀ n, limit_extent_size n media = n ∨
      ∃ m ∈ media, limit_extent_size n media = m.avail_size := by
  induction media with
  | nil => intro n; simp [limit_extent_size]
  | cons a rest ih =>
    intro n
    simp only [limit_extent_size]
    split
    · rcases ih a.avail_size with h | ⟨m, hm, h⟩
      · exact Or.inr ⟨a, List.mem_cons_self _ _, h⟩
      · exact Or.inr ⟨m, List.mem_cons_of_mem _ hm, h⟩
    · rcases ih n with h | ⟨m, hm, h⟩
      · exact Or.inl h
      · exact Or.inr ⟨m, List.mem_cons_of_mem _ hm, h⟩

theorem prepare_extents_length (raid1 : raid1_encoder) (media : List pho_resp_write_elt)
    (sz : Nat) : ∀ i, (prepare_extents raid1 media sz i).length = media.length := by
  induction media with
  | nil => intro i; simp [prepare_extents]
  | cons a rest ih => intro i; simp [prepare_extents, ih]

theorem prepare_extents_size (raid1 : raid1_encoder) (media : List pho_resp_write_elt)
    (sz : Nat) : ∀ i, ∀ e ∈ prepare_extents raid1 media sz i, e.size = sz := by
  induction media with
  | nil => intro i e he; simp [prepare_extents] at he
  | cons a rest ih =>
    intro i e he
    simp only [prepare_extents, List.mem_cons] at he
    rcases he with h | h
    · subst h; simp [set_extent_info]
    · exact ih _ e h

theorem prepare_extents_media (raid1 : raid1_encoder) (media : List pho_resp_write_elt)
    (sz : Nat) : ∀ i, (prepare_extents raid1 media sz i).map (fun e => e.media) =
      media.map (fun m => m.med_id) := by
  induction media with
  | nil => intro i; simp [prepare_extents]
  | cons a rest ih => intro i; simp [prepare_extents, ih, set_extent_info]

/-- The chunk is written: return code 0. -/
theorem write_chunk_ok (enc : pho_encoder) (wresp : List pho_resp_write_elt)
    (rreq : List pho_req_release_elt) (io : chunk_io)
    (hlen : wresp.length = enc.priv_enc.repl_count) (hfd : 0 ≤ enc.xd_fd)
    (hs : io.setup_rc = 0) (hr : io.rc = 0) :
    (multiple_enc_write_chunk enc wresp rreq io).1 = 0 ∧
    (multiple_enc_write_chunk enc wresp rreq io).2.1 =
      { enc with
        priv_enc :=
          add_written_extents
            { enc.priv_enc with
              to_write :=
                enc.priv_enc.to_write - limit_extent_size enc.priv_enc.to_write wresp }
            (prepare_extents enc.priv_enc wresp
              (limit_extent_size enc.priv_enc.to_write wresp) 0) } ∧
    (multiple_enc_write_chunk enc wresp rreq io).2.2 =
      update_release_elts rreq 0
        (fun _ => limit_extent_size enc.priv_enc.to_write wresp) 0 := by
  have hfd' : ¬ enc.xd_fd < 0 := by omega
  simp [multiple_enc_write_chunk, hlen, hfd', hs, hr]

/-- The chunk is not written: the encoder is unchanged. -/
theorem write_chunk_failed (enc : pho_encoder) (wresp : List pho_resp_write_elt)
    (rreq : List pho_req_release_elt) (io : chunk_io)
    (h : ¬ (wresp.length = enc.priv_enc.repl_count ∧ 0 ≤ enc.xd_fd ∧ io.setup_rc = 0 ∧
      io.rc = 0)) :
    (multiple_enc_write_chunk enc wresp rreq io).1 ≠ 0 ∧
    (multiple_enc_write_chunk enc wresp rreq io).2.1 = enc := by
  have e1 : (-EINVAL : Int) ≠ 0 := by decide
  have e2 : (-EBADF : Int) ≠ 0 := by decide
  unfold multiple_enc_write_chunk
  by_cases h1 : wresp.length = enc.priv_enc.repl_count
  · by_cases h2 : enc.xd_fd < 0
    · simp [h1, h2, e2]
    · by_cases h3 : io.setup_rc = 0
      · have h4 : ¬ io.rc = 0 := fun h4 => h ⟨h1, by omega, h3, h4⟩
        simp [h1, h2, h3, h4]
      · simp [h1, h2, h3]
  · simp [h1, e1]

/-! ### Splits of identical size -/

theorem splits_uniform_nil (r : Nat) : splits_uniform r [] := by
  constructor
  · simp
  · intro i j e1 e2 h1; simp at h1

theorem splits_uniform_append (r : Nat) (hr : 0 < r) (l new : List extent) (sz : Nat)
    (hl : splits_uniform r l) (hn : new.length = r) (hs : ∀ e ∈ new, e.size = sz) :
    splits_uniform r (l ++ new) := by
  obtain ⟨hmod, hsame⟩ := hl
  constructor
  · rw [List.length_append, hn, Nat.add_mod, hmod]; simp
  · intro i j e1 e2 h1 h2 hij
    obtain ⟨k, hk⟩ : ∃ k, l.length = r * k := ⟨l.length / r, by
      have := Nat.div_add_mod l.length r
      rw [hmod] at this; omega⟩
    by_cases hi : i < l.length
    · by_cases hj : j < l.length
      · rw [List.getElem?_append_left hi] at h1
        rw [List.getElem?_append_left hj] at h2
        exact hsame i j e1 e2 h1 h2 hij
      · exfalso
        have h3 : i / r < k := by
          rw [Nat.div_lt_iff_lt_mul hr]; rw [Nat.mul_comm]; omega
        have h4 : k ≤ j / r := by
          rw [Nat.le_div_iff_mul_le hr]; rw [Nat.mul_comm]; omega
        omega
    · by_cases hj : j < l.length
      · exfalso
        have h3 : j / r < k := by
          rw [Nat.div_lt_iff_lt_mul hr]; rw [Nat.mul_comm]; omega
        have h4 : k ≤ i / r := by
          rw [Nat.le_div_iff_mul_le hr]; rw [Nat.mul_comm]; omega
        omega
      · rw [List.getElem?_append_right (by omega)] at h1 h2
        rw [hs e1 (List.getElem?_mem h1), hs e2 (List.getElem?_mem h2)]

/-! ### Release responses -/

theorem mark_all_released_spec (med_ids : List pho_id) :
    ∀ (raid1 : raid1_encoder) (rc : Int), table_positive raid1.to_release_media →
      table_positive (mark_all_released raid1 med_ids rc).2.to_release_media ∧
      (mark_all_released raid1 med_ids rc).2.n_released_media =
        raid1.n_released_media + (acked_by raid1 med_ids).length ∧
      (mark_all_released raid1 med_ids rc).2.written_extents = raid1.written_extents ∧
      (mark_all_released raid1 med_ids rc).2.to_write = raid1.to_write ∧
      (mark_all_released raid1 med_ids rc).2.repl_count = raid1.repl_count ∧
      (mark_all_released raid1 med_ids rc).2.cur_extent_idx = raid1.cur_extent_idx ∧
      (mark_all_released raid1 med_ids rc).2.requested_alloc = raid1.requested_alloc ∧
      ∀ m, refcount (mark_all_released raid1 med_ids rc).2.to_release_media m +
          (acked_by raid1 med_ids).count m = refcount raid1.to_release_media m := by
  induction med_ids with
  | nil => intro raid1 rc h; simp [mark_all_released, acked_by, h]
  | cons a rest ih =>
    intro raid1 rc hpos
    by_cases h0 : refcount raid1.to_release_media a.name = 0
    · have hm := mark_released_unknown raid1 a.name hpos h0
      have e1 : (-EINVAL : Int) ≠ 0 := by decide
      simp only [mark_all_released, acked_by, hm, e1, if_false, List.nil_append]
      exact ih raid1 _ hpos
    · obtain ⟨h1, h2, h3, h4, h5, h6, h7, h8, h9⟩ :=
        mark_released_awaited raid1 a.name hpos (Nat.pos_of_ne_zero h0)
      obtain ⟨i1, i2, i3, i4, i5, i6, i7, i8⟩ :=
        ih (mark_written_medium_released raid1 a.name).2 rc h8
      have hrc : (if (0 : Int) ≠ 0 ∧ rc = 0 then (0 : Int) else rc) = rc := by simp
      simp only [mark_all_released, acked_by, h1, if_true, hrc]
      refine ⟨i1, ?_, ?_, ?_, ?_, ?_, ?_, ?_⟩
      · rw [i2, h2]; simp; omega
      · rw [i3, h3]
      · rw [i4, h4]
      · rw [i5, h5]
      · rw [i6, h6]
      · rw [i7, h7]
      · intro m
        have := i8 m
        rw [h9 m] at this
        rw [List.singleton_append, List.count_cons]
        by_cases hm : m = a.name
        · subst hm
          simp at this ⊢
          omega
        · have hm' : ¬ a.name = m := fun h => hm h.symm
          simp [hm] at this
          simp [hm']
          omega

/-- When every medium named is awaited often enough, every release is
accepted. -/
theorem mark_all_released_awaited (med_ids : List pho_id) :
    ∀ (raid1 : raid1_encoder) (rc : Int), table_positive raid1.to_release_media →
      (∀ m, (med_ids.map (fun i => i.name)).count m ≤ refcount raid1.to_release_media m) →
      (mark_all_released raid1 med_ids rc).1 = rc ∧
      acked_by raid1 med_ids = med_ids.map (fun i => i.name) := by
  induction med_ids with
  | nil => intro raid1 rc _ _; simp [mark_all_released, acked_by]
  | cons a rest ih =>
    intro raid1 rc hpos hc
    have hpos_a : 0 < refcount raid1.to_release_media a.name := by
      have := hc a.name
      simp at this
      omega
    obtain ⟨h1, h2, h3, h4, h5, h6, h7, h8, h9⟩ :=
      mark_released_awaited raid1 a.name hpos hpos_a
    have hc' : ∀ m, (rest.map (fun i => i.name)).count m ≤
        refcount (mark_written_medium_released raid1 a.name).2.to_release_media m := by
      intro m
      have := hc m
      rw [h9 m]
      rw [List.map_cons, List.count_cons] at this
      by_cases hm : m = a.name
      · subst hm
        simp at this ⊢
        omega
      · have hm' : ¬ a.name = m := fun h => hm h.symm
        simp [hm'] at this
        simp [hm]
        exact this
    obtain ⟨j1, j2⟩ := ih (mark_written_medium_released raid1 a.name).2 rc h8 hc'
    have hrc : (if (0 : Int) ≠ 0 ∧ rc = 0 then (0 : Int) else rc) = rc := by simp
    simp only [mark_all_released, acked_by, h1, if_true, List.map_cons, hrc]
    constructor
    · exact j1
    · rw [j2]; simp

/-! ### Steps and runs of the encoder -/

theorem handle_resp_cases (enc : pho_encoder) (hdec : enc.is_decoder = false)
    (resp : pho_resp) (io : step_io) :
    ∃ b : Bool, ∃ h : pho_encoder,
      (raid1_enc_handle_resp enc resp io).2.1 = with_requested_alloc h b ∧
      ((h = enc ∧ ∀ ids, resp.body ≠ .release ids) ∨
       (∃ rc kind, resp.body = .error rc kind ∧ h = { enc with xd_rc := rc, done := true }) ∨
       (∃ media, resp.body = .walloc media ∧
          h = (multiple_enc_write_chunk (with_requested_alloc enc false) media
                (release_elts_of_walloc media) io.chunk).2.1) ∨
       (∃ ids, resp.body = .release ids ∧ h = (raid1_enc_handle_release_resp enc ids).2)) := by
  cases hb : resp.body with
  | error rc kind =>
    refine ⟨enc.priv_enc.requested_alloc, _, ?_, Or.inr (Or.inl ⟨rc, kind, rfl, rfl⟩)⟩
    simp [raid1_enc_handle_resp, hb, with_requested_alloc]
  | walloc media =>
    by_cases hl : media.length = enc.priv_enc.repl_count
    · refine ⟨(multiple_enc_write_chunk (with_requested_alloc enc false) media
                (release_elts_of_walloc media) io.chunk).2.1.priv_enc.requested_alloc, _, ?_,
                Or.inr (Or.inr (Or.inl ⟨media, rfl, rfl⟩))⟩
      simp [raid1_enc_handle_resp, hb, with_requested_alloc, hdec, hl]
    · refine ⟨false, enc, ?_, Or.inl ⟨rfl, by simp⟩⟩
      simp [raid1_enc_handle_resp, hb, with_requested_alloc, hdec, hl]
  | ralloc media =>
    refine ⟨false, enc, ?_, Or.inl ⟨rfl, by simp⟩⟩
    simp [raid1_enc_handle_resp, hb, with_requested_alloc, hdec]
  | release ids =>
    refine ⟨(raid1_enc_handle_release_resp enc ids).2.priv_enc.requested_alloc, _, ?_,
      Or.inr (Or.inr (Or.inr ⟨ids, rfl, rfl⟩))⟩
    simp [raid1_enc_handle_resp, hb, with_requested_alloc, hdec]
  | format _ =>
    exact ⟨enc.priv_enc.requested_alloc, enc,
      by simp [raid1_enc_handle_resp, hb, with_requested_alloc], Or.inl ⟨rfl, by simp⟩⟩
  | notify _ =>
    exact ⟨enc.priv_enc.requested_alloc, enc,
      by simp [raid1_enc_handle_resp, hb, with_requested_alloc], Or.inl ⟨rfl, by simp⟩⟩
  | unset =>
    exact ⟨enc.priv_enc.requested_alloc, enc,
      by simp [raid1_enc_handle_resp, hb, with_requested_alloc], Or.inl ⟨rfl, by simp⟩⟩

theorem with_requested_alloc_twice (h : pho_encoder) (b c : Bool) :
    with_requested_alloc (with_requested_alloc h b) c = with_requested_alloc h c := by
  simp [with_requested_alloc]

/-- What a step does to an encoder: the effect of the response, then possibly
a change of the `requested_alloc` flag. -/
theorem encoder_step_cases (enc : pho_encoder) (hdec : enc.is_decoder = false)
    (resp : Option pho_resp) (io : step_io) (family : Nat) (tags : List String) :
    ∃ b : Bool, ∃ h : pho_encoder,
      (raid1_encoder_step enc resp io family tags).2.1 = with_requested_alloc h b ∧
      ((h = enc ∧ ∀ r ids, resp = some r → r.body ≠ .release ids) ∨
       (∃ r rc kind, resp = some r ∧ r.body = .error rc kind ∧
          h = { enc with xd_rc := rc, done := true }) ∨
       (∃ r media, resp = some r ∧ r.body = .walloc media ∧
          h = (multiple_enc_write_chunk (with_requested_alloc enc false) media
                (release_elts_of_walloc media) io.chunk).2.1) ∨
       (∃ r ids, resp = some r ∧ r.body = .release ids ∧
          h = (raid1_enc_handle_release_resp enc ids).2)) := by
  have key : ∃ b : Bool, ∃ h : pho_encoder,
      (match resp with
        | some resp => raid1_enc_handle_resp enc resp io
        | none => ((0 : Int), enc, ([] : List pho_req))).2.1 = with_requested_alloc h b ∧
      ((h = enc ∧ ∀ r ids, resp = some r → r.body ≠ .release ids) ∨
       (∃ r rc kind, resp = some r ∧ r.body = .error rc kind ∧
          h = { enc with xd_rc := rc, done := true }) ∨
       (∃ r media, resp = some r ∧ r.body = .walloc media ∧
          h = (multiple_enc_write_chunk (with_requested_alloc enc false) media
                (release_elts_of_walloc media) io.chunk).2.1) ∨
       (∃ r ids, resp = some r ∧ r.body = .release ids ∧
          h = (raid1_enc_handle_release_resp enc ids).2)) := by
    cases resp with
    | none =>
      exact ⟨enc.priv_enc.requested_alloc, enc, by simp [with_requested_alloc],
        Or.inl ⟨rfl, by simp⟩⟩
    | some r =>
      obtain ⟨b, h, h1, h2⟩ := handle_resp_cases enc hdec r io
      refine ⟨b, h, h1, ?_⟩
      rcases h2 with ⟨h2, h3⟩ | ⟨rc, kind, e1, e2⟩ | ⟨media, e1, e2⟩ | ⟨ids, e1, e2⟩
      · refine Or.inl ⟨h2, ?_⟩
        intro r' ids hr'
        injection hr' with hr'
        subst hr'
        exact h3 ids
      · exact Or.inr (Or.inl ⟨r, rc, kind, rfl, e1, e2⟩)
      · exact Or.inr (Or.inr (Or.inl ⟨r, media, rfl, e1, e2⟩))
      · exact Or.inr (Or.inr (Or.inr ⟨r, ids, rfl, e1, e2⟩))
  obtain ⟨b, h, h1, h2⟩ := key
  unfold raid1_encoder_step
  simp only []
  split
  · exact ⟨b, h, h1, h2⟩
  · refine ⟨true, h, ?_, h2⟩
    simp only [h1]
    simp [with_requested_alloc]

theorem run_induction (P : pho_encoder → Prop) (family : Nat) (tags : List String)
    (hstep : ∀ enc resp io, P enc → enc.done = false →
      P (raid1_encoder_step enc resp io family tags).2.1) :
    ∀ (events : List (Option pho_resp × step_io)) (enc : pho_encoder),
      P enc → P (raid1_run enc events family tags) := by
  intro events
  induction events with
  | nil => intro enc h; simpa [raid1_run] using h
  | cons ev rest ih =>
    intro enc h
    by_cases hd : enc.done = true
    · simpa [raid1_run, hd] using h
    · simp only [raid1_run, hd]
      exact ih _ (hstep enc ev.1 ev.2 h (by simpa using hd))

theorem run_acked_induction (Q : pho_encoder → List String → Prop) (family : Nat)
    (tags : List String) (allowed : Option pho_resp → Prop)
    (hstep : ∀ enc acc resp io, Q enc acc → enc.done = false → allowed resp →
      Q (raid1_encoder_step enc resp io family tags).2.1 (acc ++ step_acked enc resp)) :
    ∀ (events : List (Option pho_resp × step_io)) (enc : pho_encoder) (acc : List String),
      (∀ ev ∈ events, allowed ev.1) → Q enc acc →
      Q (raid1_run enc events family tags) (acc ++ raid1_run_acked enc events family tags) := by
  intro events
  induction events with
  | nil => intro enc acc _ h; simpa [raid1_run, raid1_run_acked] using h
  | cons ev rest ih =>
    intro enc acc hall h
    by_cases hd : enc.done = true
    · simpa [raid1_run, raid1_run_acked, hd] using h
    · simp only [raid1_run, raid1_run_acked, hd]
      have h1 := hstep enc acc ev.1 ev.2 h (by simpa using hd)
        (hall ev (List.mem_cons_self _ _))
      have h2 := ih _ _ (fun e he => hall e (List.mem_cons_of_mem _ he)) h1
      simpa [List.append_assoc] using h2

/-! ### Invariant of the write path -/

theorem layout_raid1_encode_ok (size : Int) (attr : Option Nat) (fd : Int) (enc0 : pho_encoder)
    (h0 : layout_raid1_encode size attr fd = .ok enc0) :
    0 ≤ size ∧ 0 < enc0.priv_enc.repl_count ∧
    enc0 = fresh_encoder attr fd enc0.priv_enc.repl_count size.toNat := by
  unfold layout_raid1_encode at h0
  cases attr with
  | none => simp at h0
  | some v =>
    simp only [layout_repl_count] at h0
    by_cases h1 : SIZE_MAX1 ≤ v
    · simp [h1] at h0
    · by_cases h2 : v % UINT_MAX1 = 0
      · simp [h1, h2] at h0
      · by_cases h3 : size < 0
        · simp [h1, h2, h3] at h0
        · simp only [h1, h2, h3, if_false] at h0
          injection h0 with h0
          subst h0
          refine ⟨by omega, ?_, rfl⟩
          simp only
          omega

theorem mark_released_frame (raid1 : raid1_encoder) (a : String) :
    (mark_written_medium_released raid1 a).2.written_extents = raid1.written_extents ∧
    (mark_written_medium_released raid1 a).2.to_write = raid1.to_write ∧
    (mark_written_medium_released raid1 a).2.repl_count = raid1.repl_count ∧
    (mark_written_medium_released raid1 a).2.cur_extent_idx = raid1.cur_extent_idx := by
  cases hl : release_lookup raid1.to_release_media a with
  | none => simp [mark_written_medium_released, hl]
  | some v =>
    by_cases hv : v = 1
    · simp [mark_written_medium_released, hl, hv]
    · simp [mark_written_medium_released, hl, hv]

theorem mark_all_released_frame (med_ids : List pho_id) :
    ∀ (raid1 : raid1_encoder) (rc : Int),
      (mark_all_released raid1 med_ids rc).2.written_extents = raid1.written_extents ∧
      (mark_all_released raid1 med_ids rc).2.to_write = raid1.to_write ∧
      (mark_all_released raid1 med_ids rc).2.repl_count = raid1.repl_count ∧
      (mark_all_released raid1 med_ids rc).2.cur_extent_idx = raid1.cur_extent_idx := by
  induction med_ids with
  | nil => intro raid1 rc; simp [mark_all_released]
  | cons a rest ih =>
    intro raid1 rc
    obtain ⟨h1, h2, h3, h4⟩ := mark_released_frame raid1 a.name
    obtain ⟨i1, i2, i3, i4⟩ := ih (mark_written_medium_released raid1 a.name).2
      (if (mark_written_medium_released raid1 a.name).1 ≠ 0 ∧ rc = 0 then
        (mark_written_medium_released raid1 a.name).1 else rc)
    simp only [mark_all_released]
    exact ⟨i1.trans h1, i2.trans h2, i3.trans h3, i4.trans h4⟩

theorem write_inv_requested_alloc (r : Nat) (fd : Int) (enc : pho_encoder) (b : Bool)
    (h : write_inv r fd enc) : write_inv r fd (with_requested_alloc enc b) := by
  simpa [write_inv, with_requested_alloc] using h

theorem write_inv_chunk (r : Nat) (hr : 0 < r) (fd : Int) (enc : pho_encoder)
    (media : List pho_resp_write_elt) (rreq : List pho_req_release_elt) (io : chunk_io)
    (h : write_inv r fd enc) :
    write_inv r fd (multiple_enc_write_chunk enc media rreq io).2.1 := by
  by_cases hok : media.length = enc.priv_enc.repl_count ∧ 0 ≤ enc.xd_fd ∧ io.setup_rc = 0 ∧
      io.rc = 0
  · obtain ⟨h1, h2, h3, h4⟩ := hok
    rw [(write_chunk_ok enc media rreq io h1 h2 h3 h4).2.1]
    obtain ⟨a1, a2, a3, a4, a5, a6⟩ := h
    obtain ⟨f1, f2, f3, f4, f5, f6⟩ := add_written_extents_frame
      (prepare_extents enc.priv_enc media
        (limit_extent_size enc.priv_enc.to_write media) 0)
      { enc.priv_enc with
        to_write := enc.priv_enc.to_write - limit_extent_size enc.priv_enc.to_write media }
    refine ⟨a1, ?_, a3, ?_, a5, a6⟩
    · simp only [f3]; exact a2
    · simp only [f1]
      exact splits_uniform_append r hr _ _ _ a4
        (by rw [prepare_extents_length, h1, a2]) (prepare_extents_size _ _ _ 0)
  · rw [(write_chunk_failed enc media rreq io hok).2]
    exact h

theorem write_inv_release (r : Nat) (fd : Int) (enc : pho_encoder) (ids : List pho_id)
    (h : write_inv r fd enc) : write_inv r fd (raid1_enc_handle_release_resp enc ids).2 := by
  obtain ⟨a1, a2, a3, a4, a5, a6⟩ := h
  obtain ⟨f1, f2, f3, f4⟩ := mark_all_released_frame ids enc.priv_enc 0
  unfold raid1_enc_handle_release_resp
  simp only []
  split
  · refine ⟨a1, ?_, a3, ?_, ?_, ?_⟩
    · simp only [f3]; exact a2
    · exact splits_uniform_nil r
    · simp only [f1]; exact a4
    · simp
  · refine ⟨a1, ?_, a3, ?_, a5, a6⟩
    · simp only [f3]; exact a2
    · simp only [f1]; exact a4

theorem write_inv_step (r : Nat) (hr : 0 < r) (fd : Int) (family : Nat) (tags : List String)
    (enc : pho_encoder) (resp : Option pho_resp) (io : step_io) (h : write_inv r fd enc) :
    write_inv r fd (raid1_encoder_step enc resp io family tags).2.1 := by
  obtain ⟨b, e, h1, h2⟩ := encoder_step_cases enc h.1 resp io family tags
  rw [h1]
  apply write_inv_requested_alloc
  rcases h2 with ⟨h2, _⟩ | ⟨_, rc, kind, _, _, h2⟩ | ⟨_, media, _, _, h2⟩ | ⟨_, ids, _, _, h2⟩
  · rw [h2]; exact h
  · rw [h2]; exact h
  · rw [h2]
    exact write_inv_chunk r hr fd _ _ _ _ (write_inv_requested_alloc r fd enc false h)
  · rw [h2]; exact write_inv_release r fd enc ids h

theorem write_inv_run (size : Int) (attr : Option Nat) (fd : Int) (enc0 : pho_encoder)
    (h0 : layout_raid1_encode size attr fd = .ok enc0)
    (events : List (Option pho_resp × step_io)) (family : Nat) (tags : List String) :
    write_inv enc0.priv_enc.repl_count fd (raid1_run enc0 events family tags) := by
  obtain ⟨_, hr, he⟩ := layout_raid1_encode_ok size attr fd enc0 h0
  apply run_induction (write_inv enc0.priv_enc.repl_count fd) family tags
  · intro enc resp io h _
    exact write_inv_step _ hr fd family tags enc resp io h
  · rw [he]
    exact ⟨rfl, rfl, rfl, splits_uniform_nil _, splits_uniform_nil _, rfl⟩

/-! ### Steps of a put -/

theorem update_release_elts_zero (media : List pho_resp_write_elt) :
    ∀ i, update_release_elts (release_elts_of_walloc media) 0 (fun _ => 0) i =
      release_elts_of_walloc media := by
  induction media with
  | nil => intro i; simp [release_elts_of_walloc, update_release_elts]
  | cons a rest ih =>
    intro i
    have := ih (i + 1)
    simp only [release_elts_of_walloc, List.map_cons, update_release_elts] at this ⊢
    rw [this]

theorem limit_extent_size_zero (media : List pho_resp_write_elt) :
    limit_extent_size 0 media = 0 :=
  Nat.le_zero.1 (limit_extent_size_le media 0)

/-- A step of an encoder on a write allocation response with the expected
number of media. -/
theorem step_walloc (enc : pho_encoder) (hdec : enc.is_decoder = false) (id : Nat)
    (media : List pho_resp_write_elt) (io : step_io) (family : Nat) (tags : List String)
    (hlen : media.length = enc.priv_enc.repl_count)
    (hrc : (multiple_enc_write_chunk (with_requested_alloc enc false) media
      (release_elts_of_walloc media) io.chunk).1 = 0)
    (hnm : no_more_alloc (multiple_enc_write_chunk (with_requested_alloc enc false) media
      (release_elts_of_walloc media) io.chunk).2.1 = true) :
    raid1_encoder_step enc (some ⟨id, .walloc media⟩) io family tags =
      (0, (multiple_enc_write_chunk (with_requested_alloc enc false) media
          (release_elts_of_walloc media) io.chunk).2.1,
        [⟨0, .release (multiple_enc_write_chunk (with_requested_alloc enc false) media
          (release_elts_of_walloc media) io.chunk).2.2⟩]) := by
  simp only [with_requested_alloc, hdec] at hrc hnm ⊢
  simp [raid1_encoder_step, raid1_enc_handle_resp, hdec, hlen, hrc, hnm]

/-- A release response that completes the put. -/
theorem release_resp_done (enc : pho_encoder) (ids : List pho_id)
    (hw : (mark_all_released enc.priv_enc ids 0).2.to_write = 0)
    (hl : 0 < (mark_all_released enc.priv_enc ids 0).2.written_extents.length)
    (hn : (mark_all_released enc.priv_enc ids 0).2.written_extents.length =
      (mark_all_released enc.priv_enc ids 0).2.n_released_media) :
    raid1_enc_handle_release_resp enc ids =
      (0, { enc with
            layout := { enc.layout with
                        ext_count := (mark_all_released enc.priv_enc ids 0).2.written_extents.length,
                        extents := (mark_all_released enc.priv_enc ids 0).2.written_extents,
                        state := extent_state.PHO_EXT_ST_SYNC },
            priv_enc := { (mark_all_released enc.priv_enc ids 0).2 with
                          written_extents := [], n_released_media := 0,
                          to_release_media := [] },
            done := true }) := by
  unfold raid1_enc_handle_release_resp
  simp only []
  rw [if_pos ⟨hw, hl, hn⟩]

/-- A release response that does not complete the put. -/
theorem release_resp_not_done (enc : pho_encoder) (ids : List pho_id)
    (h : ¬ ((mark_all_released enc.priv_enc ids 0).2.to_write = 0 ∧
      0 < (mark_all_released enc.priv_enc ids 0).2.written_extents.length ∧
      (mark_all_released enc.priv_enc ids 0).2.written_extents.length =
        (mark_all_released enc.priv_enc ids 0).2.n_released_media)) :
    raid1_enc_handle_release_resp enc ids =
      ((mark_all_released enc.priv_enc ids 0).1,
        { enc with priv_enc := (mark_all_released enc.priv_enc ids 0).2 }) := by
  unfold raid1_enc_handle_release_resp
  simp only []
  rw [if_neg h]

/-- A step of an encoder on a release response that completes the put. -/
theorem step_release_done (enc : pho_encoder) (hdec : enc.is_decoder = false) (id : Nat)
    (ids : List pho_id) (io : step_io) (family : Nat) (tags : List String)
    (hw : (mark_all_released enc.priv_enc ids 0).2.to_write = 0)
    (hl : 0 < (mark_all_released enc.priv_enc ids 0).2.written_extents.length)
    (hn : (mark_all_released enc.priv_enc ids 0).2.written_extents.length =
      (mark_all_released enc.priv_enc ids 0).2.n_released_media) :
    raid1_encoder_step enc (some ⟨id, .release ids⟩) io family tags =
      (0, (raid1_enc_handle_release_resp enc ids).2, []) ∧
    (raid1_enc_handle_release_resp enc ids).2.done = true := by
  have hh := release_resp_done enc ids hw hl hn
  constructor
  · simp only [raid1_encoder_step, raid1_enc_handle_resp, hdec]
    simp [hh, no_more_alloc]
  · rw [hh]

/-! ### Accounting of the releases -/

theorem step_acked_not_release (enc : pho_encoder) (resp : Option pho_resp)
    (h : ∀ r ids, resp = some r → r.body ≠ .release ids) : step_acked enc resp = [] := by
  cases resp with
  | none => rfl
  | some r =>
    cases hb : r.body with
    | release ids => exact absurd hb (h r ids rfl)
    | _ => simp [step_acked, hb]

theorem count_eq_of_le_of_length (w a : List String)
    (hle : ∀ m, a.count m ≤ w.count m) (hlen : w.length = a.length) :
    ∀ m, w.count m = a.count m := by
  have h1 : (a : Multiset String) ≤ (w : Multiset String) := by
    rw [Multiset.le_iff_count]
    intro m
    simpa using hle m
  have h2 : (a : Multiset String) = (w : Multiset String) :=
    Multiset.eq_of_le_of_card_le h1 (by simp [hlen])
  intro m
  have := congrArg (Multiset.count m) h2
  simpa using this.symm

theorem write_chunk_done (enc : pho_encoder) (media : List pho_resp_write_elt)
    (rreq : List pho_req_release_elt) (io : chunk_io) :
    (multiple_enc_write_chunk enc media rreq io).2.1.done = enc.done ∧
    (multiple_enc_write_chunk enc media rreq io).2.1.is_decoder = enc.is_decoder ∧
    (multiple_enc_write_chunk enc media rreq io).2.1.layout = enc.layout := by
  by_cases hok : media.length = enc.priv_enc.repl_count ∧ 0 ≤ enc.xd_fd ∧ io.setup_rc = 0 ∧
      io.rc = 0
  · obtain ⟨h1, h2, h3, h4⟩ := hok
    rw [(write_chunk_ok enc media rreq io h1 h2 h3 h4).2.1]
    simp
  · rw [(write_chunk_failed enc media rreq io hok).2]
    simp

theorem release_inv_requested_alloc (enc : pho_encoder) (acks : List String) (b : Bool)
    (h : release_inv enc acks) : release_inv (with_requested_alloc enc b) acks := by
  simpa [release_inv, with_requested_alloc] using h

theorem release_inv_chunk (enc : pho_encoder) (acks : List String)
    (media : List pho_resp_write_elt) (rreq : List pho_req_release_elt) (io : chunk_io)
    (hd : enc.done = false) (h : release_inv enc acks) :
    release_inv (multiple_enc_write_chunk enc media rreq io).2.1 acks := by
  by_cases hok : media.length = enc.priv_enc.repl_count ∧ 0 ≤ enc.xd_fd ∧ io.setup_rc = 0 ∧
      io.rc = 0
  · obtain ⟨h1, h2, h3, h4⟩ := hok
    rw [(write_chunk_ok enc media rreq io h1 h2 h3 h4).2.1]
    obtain ⟨a1, a2, _⟩ := h
    obtain ⟨p1, p2, p3⟩ := a2 hd
    obtain ⟨f1, f2, f3, f4, f5, f6⟩ := add_written_extents_frame
      (prepare_extents enc.priv_enc media
        (limit_extent_size enc.priv_enc.to_write media) 0)
      { enc.priv_enc with
        to_write := enc.priv_enc.to_write - limit_extent_size enc.priv_enc.to_write media }
    refine ⟨a1, fun _ => ⟨?_, ?_, ?_⟩, fun hc => ?_⟩
    · exact add_written_extents_positive _ _ p1
    · simp only [f6]; exact p2
    · intro m
      simp only [f1]
      rw [add_written_extents_refcount]
      simp only [List.map_append, List.count_append]
      have := p3 m
      omega
    · simp [hd] at hc
  · rw [(write_chunk_failed enc media rreq io hok).2]
    exact h

theorem release_inv_release (enc : pho_encoder) (acks : List String) (ids : List pho_id)
    (hd : enc.done = false) (h : release_inv enc acks) :
    release_inv (raid1_enc_handle_release_resp enc ids).2
      (acks ++ acked_by enc.priv_enc ids) := by
  obtain ⟨a1, a2, _⟩ := h
  obtain ⟨p1, p2, p3⟩ := a2 hd
  obtain ⟨n1, n2, n3, n4, _, _, _, n8⟩ := mark_all_released_spec ids enc.priv_enc 0 p1
  have hcount : ∀ m, (enc.priv_enc.written_extents.map (fun e => e.media.name)).count m =
      refcount (mark_all_released enc.priv_enc ids 0).2.to_release_media m +
        (acks ++ acked_by enc.priv_enc ids).count m := by
    intro m
    have := p3 m
    have := n8 m
    simp only [List.count_append]
    omega
  by_cases hc : (mark_all_released enc.priv_enc ids 0).2.to_write = 0 ∧
      0 < (mark_all_released enc.priv_enc ids 0).2.written_extents.length ∧
      (mark_all_released enc.priv_enc ids 0).2.written_extents.length =
        (mark_all_released enc.priv_enc ids 0).2.n_released_media
  · rw [release_resp_done enc ids hc.1 hc.2.1 hc.2.2]
    refine ⟨a1, fun hx => by simp at hx, fun _ => ⟨rfl, hc.1, hc.2.1, ?_⟩⟩
    simp only [n3]
    apply count_eq_of_le_of_length
    · intro m
      have := hcount m
      omega
    · have := hc.2.2
      rw [n3, n2, p2] at this
      simp [this]
  · rw [release_resp_not_done enc ids hc]
    refine ⟨a1, fun _ => ⟨n1, ?_, ?_⟩, fun hx => ?_⟩
    · simp only [n2, p2, List.length_append]
    · intro m
      simp only [n3]
      exact hcount m
    · simp [hd] at hx

theorem release_inv_step (family : Nat) (tags : List String) (enc : pho_encoder)
    (acks : List String) (resp : Option pho_resp) (io : step_io)
    (h : release_inv enc acks) (hd : enc.done = false) (hne : not_error resp) :
    release_inv (raid1_encoder_step enc resp io family tags).2.1
      (acks ++ step_acked enc resp) := by
  obtain ⟨b, e, h1, h2⟩ := encoder_step_cases enc h.1 resp io family tags
  rw [h1]
  apply release_inv_requested_alloc
  rcases h2 with ⟨h2, h3⟩ | ⟨r, rc, kind, hr, hb, _⟩ | ⟨r, media, hr, hb, h2⟩ |
    ⟨r, ids, hr, hb, h2⟩
  · rw [h2, step_acked_not_release enc resp h3]; simpa using h
  · exact absurd hb (hne r hr rc kind)
  · have hs : step_acked enc resp = [] := by
      apply step_acked_not_release
      intro r' ids hr'
      rw [hr] at hr'
      injection hr' with hr'
      subst hr'
      rw [hb]; simp
    rw [h2, hs, List.append_nil]
    exact release_inv_chunk _ acks media _ _ (by simpa [with_requested_alloc] using hd)
      (release_inv_requested_alloc enc acks false h)
  · have hs : step_acked enc resp = acked_by enc.priv_enc ids := by
      rw [hr]; simp [step_acked, hb, h.1]
    rw [h2, hs]
    exact release_inv_release enc acks ids hd h


theorem release_inv_run (size : Int) (attr : Option Nat) (fd : Int) (enc0 : pho_encoder)
    (h0 : layout_raid1_encode size attr fd = .ok enc0)
    (events : List (Option pho_resp × step_io)) (family : Nat) (tags : List String)
    (hev : ∀ ev ∈ events, not_error ev.1) :
    release_inv (raid1_run enc0 events family tags)
      (raid1_run_acked enc0 events family tags) := by
  obtain ⟨_, _, he⟩ := layout_raid1_encode_ok size attr fd enc0 h0
  have := run_acked_induction release_inv family tags not_error
    (fun enc acc resp io h hd ha => release_inv_step family tags enc acc resp io h hd ha)
    events enc0 [] hev
    (by
      rw [he]
      refine ⟨rfl, fun _ => ⟨?_, rfl, ?_⟩, fun hx => ?_⟩
      · intro m; simp [fresh_encoder, release_lookup]
      · intro m; simp [fresh_encoder, refcount, release_lookup]
      · simp [fresh_encoder] at hx)
  simpa using this

theorem two_split_events_not_error : ∀ ev ∈ two_split_events, not_error ev.1 := by
  intro ev hev r hr rc kind
  simp only [two_split_events, List.mem_cons, List.mem_singleton, List.not_mem_nil,
    or_false] at hev
  rcases hev with rfl | rfl | rfl | rfl | rfl <;> simp at hr <;> subst hr <;> simp

/-! ### Scan of the splits and choice of the host -/

theorem update_split_length (f : split_location → split_location) :
    ∀ (l : List split_location) (k : Nat), (update_split l k f).length = l.length := by
  intro l
  induction l with
  | nil => intro k; simp [update_split]
  | cons a rest ih =>
    intro k
    cases k with
    | zero => simp [update_split]
    | succ k => simp [update_split, ih]

theorem update_split_get_same (f : split_location → split_location) :
    ∀ (l : List split_location) (k : Nat), (update_split l k f)[k]? = l[k]?.map f := by
  intro l
  induction l with
  | nil => intro k; simp [update_split]
  | cons a rest ih =>
    intro k
    cases k with
    | zero => simp [update_split]
    | succ k => simp [update_split, ih]

theorem update_split_get_other (f : split_location → split_location) :
    ∀ (l : List split_location) (k s : Nat), s ≠ k → (update_split l k f)[s]? = l[s]? := by
  intro l
  induction l with
  | nil => intro k s _; simp [update_split]
  | cons a rest ih =>
    intro k s hs
    cases k with
    | zero =>
      cases s with
      | zero => exact absurd rfl hs
      | succ s => simp [update_split]
    | succ k =>
      cases s with
      | zero => simp [update_split]
      | succ s => simp [update_split]; exact ih k s (by omega)

theorem fit_known_host_none (h : String) :
    ∀ hosts : List one_location,
      fit_known_host hosts h = none ↔ h ∉ hosts.map (fun x => x.hostname) := by
  intro hosts
  induction hosts with
  | nil => simp [fit_known_host]
  | cons a rest ih =>
    by_cases ha : a.hostname = h
    · simp [fit_known_host, ha]
    · have ha' : ¬ h = a.hostname := fun e => ha e.symm
      simp [fit_known_host, ha, ha'] at ih ⊢
      exact ih

theorem map_bump_fitted_absent (h : String) (l : List one_location)
    (hl : h ∉ l.map (fun x => x.hostname)) : l.map (bump_fitted h) = l := by
  induction l with
  | nil => rfl
  | cons a rest ih =>
    simp only [List.map_cons, List.mem_cons, not_or] at hl
    have ha : ¬ a.hostname = h := fun e => hl.1 e.symm
    simp [bump_fitted, ha]
    exact ih hl.2

theorem fit_known_host_some (h : String) :
    ∀ hosts hosts' : List one_location, (hosts.map (fun x => x.hostname)).Nodup →
      fit_known_host hosts h = some hosts' → hosts' = hosts.map (bump_fitted h) := by
  intro hosts
  induction hosts with
  | nil => intro hosts' _ hf; simp [fit_known_host] at hf
  | cons a rest ih =>
    intro hosts' hnd hf
    simp only [List.map_cons, List.nodup_cons] at hnd
    by_cases ha : a.hostname = h
    · simp only [fit_known_host, ha, if_true] at hf
      injection hf with hf
      subst hf
      have hrest : rest.map (bump_fitted h) = rest :=
        map_bump_fitted_absent h rest (by rw [← ha]; exact hnd.1)
      simp [bump_fitted, ha, hrest]
    · simp only [fit_known_host, ha, if_false] at hf
      cases hr : fit_known_host rest h with
      | none => simp [hr] at hf
      | some rest' =>
        simp only [hr, Option.map_some'] at hf
        injection hf with hf
        subst hf
        rw [ih rest' hnd.2 hr]
        simp [bump_fitted, ha]

theorem map_hostname_bump (h : String) (l : List one_location) :
    (l.map (bump_fitted h)).map (fun x => x.hostname) = l.map (fun x => x.hostname) := by
  induction l with
  | nil => rfl
  | cons a rest ih =>
    simp only [List.map_cons, ih]
    by_cases ha : a.hostname = h <;> simp [bump_fitted, ha]

theorem fitted_in_add_other (h name : String) (hne : name ≠ h) :
    ∀ (l : List split_location) (k : Nat),
      fitted_in (update_split l k (fun s => add_host_split_location s h)) name =
        fitted_in l name := by
  intro l
  induction l with
  | nil => intro k; simp [update_split]
  | cons a rest ih =>
    intro k
    cases k with
    | zero =>
      simp [update_split, fitted_in, List.countP_cons, add_host_split_location, hne]
    | succ k =>
      have := ih k
      simp only [fitted_in] at this
      simp [update_split, fitted_in, List.countP_cons, this]

theorem fitted_in_add_same (h : String) :
    ∀ (l : List split_location) (k : Nat) (sp : split_location), l[k]? = some sp →
      h ∉ sp.hostnames →
      fitted_in (update_split l k (fun s => add_host_split_location s h)) h =
        fitted_in l h + 1 := by
  intro l
  induction l with
  | nil => intro k sp hk; simp at hk
  | cons a rest ih =>
    intro k sp hk hn
    cases k with
    | zero =>
      simp at hk
      subst hk
      simp [update_split, fitted_in, List.countP_cons, add_host_split_location, hn]
    | succ k =>
      simp at hk
      have := ih k sp hk hn
      simp only [fitted_in] at this
      simp [update_split, fitted_in, List.countP_cons, this]
      omega

theorem fitted_in_unlocked (name : String) :
    ∀ (l : List split_location) (k : Nat),
      fitted_in (update_split l k (fun s => { s with unlocked_media := true })) name =
        fitted_in l name := by
  intro l
  induction l with
  | nil => intro k; simp [update_split]
  | cons a rest ih =>
    intro k
    cases k with
    | zero => simp [update_split, fitted_in, List.countP_cons]
    | succ k =>
      have := ih k
      simp only [fitted_in] at this
      simp [update_split, fitted_in, List.countP_cons, this]

theorem fitted_in_zero (name : String) (l : List split_location)
    (h : ∀ (s : Nat) (sp : split_location), l[s]? = some sp → name ∉ sp.hostnames) :
    fitted_in l name = 0 := by
  simp only [fitted_in, List.countP_eq_zero]
  intro sp hsp
  obtain ⟨s, hs⟩ := List.getElem?_of_mem hsp
  simpa using h s sp hs

theorem appears_before_append (l more : List String) (a b : String)
    (h : appears_before l a b) : appears_before (l ++ more) a b := by
  obtain ⟨pre, post, h1, h2⟩ := h
  exact ⟨pre, post ++ more, by rw [h1]; simp, h2⟩

theorem scan_inv_congr (n : Nat) (ol : object_location) (reported : List String)
    (seen seen' : Nat → List String × Bool) (h : ∀ s, s < n → seen' s = seen s)
    (hi : scan_inv n ol reported seen) : scan_inv n ol reported seen' := by
  obtain ⟨a1, a2, a3, a4, a5, a6, a7, a8⟩ := hi
  refine ⟨a1, a2, ?_, a4, a5, a6, a7, ?_⟩
  · intro s hs
    rw [h s hs]
    exact a3 s hs
  · intro s hs
    rw [h s hs]
    exact a8 s hs

theorem scan_inv_add_host (n : Nat) (ol : object_location) (reported : List String)
    (seen : Nat → List String × Bool) (h : String) (k : Nat) (hk : k < n)
    (hi : scan_inv n ol reported seen) :
    scan_inv n (add_host_object_location ol h k) (reported ++ [h])
      (Function.update seen k ((seen k).1 ++ [h], (seen k).2)) := by
  obtain ⟨a1, a2, a3, a4, a5, a6, a7, a8⟩ := hi
  obtain ⟨sp, hsp, hmem, hunl⟩ := a3 k hk
  have hseen : ∀ s, s < n → ∀ x ∈ (Function.update seen k ((seen k).1 ++ [h], (seen k).2) s).1,
      x ∈ reported ++ [h] := by
    intro s hs x hx
    by_cases hsk : s = k
    · subst hsk
      simp only [Function.update_same, List.mem_append, List.mem_singleton] at hx
      rcases hx with hx | hx
      · exact List.mem_append_left _ (a8 s hs x hx)
      · simp [hx]
    · rw [Function.update_noteq hsk] at hx
      exact List.mem_append_left _ (a8 s hs x hx)
  unfold add_host_object_location
  rw [hsp]
  simp only []
  by_cases hin : h ∈ sp.hostnames
  · -- the host is already counted for this split
    rw [if_pos hin]
    have hR : h ∈ reported := a8 k hk h ((hmem h).1 hin)
    refine ⟨a1, a2, ?_, ?_, ?_, a6, a7, hseen⟩
    · intro s hs
      by_cases hsk : s = k
      · subst hsk
        refine ⟨sp, hsp, ?_, by simpa using hunl⟩
        intro x
        simp only [Function.update_same, List.mem_append, List.mem_singleton]
        constructor
        · intro hx; exact Or.inl ((hmem x).1 hx)
        · rintro (hx | hx)
          · exact (hmem x).2 hx
          · rw [hx]; exact hin
      · rw [Function.update_noteq hsk]
        exact a3 s hs
    · exact a4.imp (fun hab => appears_before_append _ _ _ _ hab)
    · intro x
      rw [a5 x]
      simp only [List.mem_append, List.mem_singleton]
      constructor
      · exact Or.inl
      · rintro (hx | hx)
        · exact hx
        · rw [hx]; exact hR
  · rw [if_neg hin]
    have hsplits : ∀ s, s < n → ∃ sp',
        (update_split ol.splits k (fun s => add_host_split_location s h))[s]? = some sp' ∧
        (∀ x, x ∈ sp'.hostnames ↔
          x ∈ (Function.update seen k ((seen k).1 ++ [h], (seen k).2) s).1) ∧
        sp'.unlocked_media = (Function.update seen k ((seen k).1 ++ [h], (seen k).2) s).2 := by
      intro s hs
      by_cases hsk : s = k
      · subst hsk
        refine ⟨add_host_split_location sp h, ?_, ?_, ?_⟩
        · rw [update_split_get_same, hsp]; rfl
        · intro x
          simp only [Function.update_same, add_host_split_location, List.mem_append,
            List.mem_singleton]
          rw [hmem x]
        · simpa [add_host_split_location] using hunl
      · rw [Function.update_noteq hsk, update_split_get_other _ _ _ _ hsk]
        exact a3 s hs
    cases hf : fit_known_host ol.hosts h with
    | some hosts' =>
      -- a host already known fits one more split
      have hknown : h ∈ ol.hosts.map (fun x => x.hostname) := by
        by_contra hc
        rw [(fit_known_host_none h ol.hosts).2 hc] at hf
        exact Option.noConfusion hf
      have hR : h ∈ reported := (a5 h).1 hknown
      have hh := fit_known_host_some h ol.hosts hosts' a6 hf
      subst hh
      simp only []
      refine ⟨by rw [update_split_length]; exact a1, a2, hsplits, ?_, ?_, ?_, ?_, hseen⟩
      · rw [map_hostname_bump]
        exact a4.imp (fun hab => appears_before_append _ _ _ _ hab)
      · intro x
        rw [map_hostname_bump, a5 x]
        simp only [List.mem_append, List.mem_singleton]
        constructor
        · exact Or.inl
        · rintro (hx | hx)
          · exact hx
          · rw [hx]; exact hR
      · rw [map_hostname_bump]; exact a6
      · intro host hhost
        obtain ⟨x, hx, hxe⟩ := List.mem_map.1 hhost
        obtain ⟨u1, u2⟩ := a7 x hx
        by_cases hxh : x.hostname = h
        · have : host = { x with nb_fitted_split := x.nb_fitted_split + 1 } := by
            rw [← hxe]; simp [bump_fitted, hxh]
          subst this
          simp only []
          refine ⟨u1, ?_⟩
          rw [hxh, fitted_in_add_same h ol.splits k sp hsp hin, u2, hxh]
        · have : host = x := by
            rw [← hxe]; simp [bump_fitted, hxh]
          subst this
          refine ⟨u1, ?_⟩
          rw [fitted_in_add_other h _ hxh, u2]
    | none =>
      -- a new host
      have hnew : h ∉ ol.hosts.map (fun x => x.hostname) := (fit_known_host_none h ol.hosts).1 hf
      have hR : h ∉ reported := fun hc => hnew ((a5 h).2 hc)
      simp only []
      refine ⟨by rw [update_split_length]; exact a1, a2, hsplits, ?_, ?_, ?_, ?_, hseen⟩
      · rw [List.map_append, List.pairwise_append]
        refine ⟨a4.imp (fun hab => appears_before_append _ _ _ _ hab), by simp, ?_⟩
        intro a ha b hb
        simp only [List.map_cons, List.map_nil, List.mem_singleton] at hb
        subst hb
        obtain ⟨pre, post, hpp⟩ := List.append_of_mem ((a5 a).1 ha)
        refine ⟨pre, post ++ [b], by rw [hpp]; simp, ?_⟩
        intro hc
        exact hR (by rw [hpp]; exact List.mem_append_left _ hc)
      · intro x
        simp only [List.map_append, List.mem_append, List.map_cons, List.map_nil,
          List.mem_singleton]
        rw [← a5 x]
      · rw [List.map_append, List.nodup_append]
        refine ⟨a6, by simp, ?_⟩
        intro a ha hb
        simp only [List.map_cons, List.map_nil, List.mem_singleton] at hb
        subst hb
        exact hnew ha
      · intro host hhost
        rcases List.mem_append.1 hhost with hx | hx
        · obtain ⟨u1, u2⟩ := a7 host hx
          have hne : host.hostname ≠ h := by
            intro hc
            exact hnew (List.mem_map.2 ⟨host, hx, hc⟩)
          refine ⟨u1, ?_⟩
          rw [fitted_in_add_other h _ hne, u2]
        · simp only [List.mem_singleton] at hx
          subst hx
          refine ⟨rfl, ?_⟩
          show 1 = fitted_in (update_split ol.splits k (fun s => add_host_split_location s h)) h
          rw [fitted_in_add_same h ol.splits k sp hsp hin, fitted_in_zero h ol.splits]
          intro s sp' hs' hc
          have hs : s < n := by
            rw [← a1]
            exact (List.getElem?_eq_some_iff.1 hs').1
          obtain ⟨sp'', h1, h2, _⟩ := a3 s hs
          rw [hs'] at h1
          injection h1 with h1
          subst h1
          exact hR (a8 s hs h ((h2 h).1 hc))

theorem scan_inv_unlocked (n : Nat) (ol : object_location) (reported : List String)
    (seen : Nat → List String × Bool) (k : Nat) (hk : k < n)
    (hi : scan_inv n ol reported seen) :
    scan_inv n
      { ol with splits := update_split ol.splits k (fun s => { s with unlocked_media := true }) }
      reported (Function.update seen k ((seen k).1, true)) := by
  obtain ⟨a1, a2, a3, a4, a5, a6, a7, a8⟩ := hi
  obtain ⟨sp, hsp, hmem, hunl⟩ := a3 k hk
  refine ⟨by simp only [update_split_length]; exact a1, a2, ?_, a4, a5, a6, ?_, ?_⟩
  · intro s hs
    by_cases hsk : s = k
    · subst hsk
      refine ⟨{ sp with unlocked_media := true }, ?_, ?_, ?_⟩
      · simp only [update_split_get_same, hsp]; rfl
      · intro x; simp only [Function.update_same]; exact hmem x
      · simp
    · simp only [Function.update_noteq hsk, update_split_get_other _ _ _ _ hsk]
      exact a3 s hs
  · intro host hhost
    obtain ⟨u1, u2⟩ := a7 host hhost
    refine ⟨u1, ?_⟩
    simp only [fitted_in_unlocked]
    exact u2
  · intro s hs x hx
    by_cases hsk : s = k
    · subst hsk
      simp only [Function.update_same] at hx
      exact a8 s hs x hx
    · rw [Function.update_noteq hsk] at hx
      exact a8 s hs x hx

/-- The inner loop of the scan over the extents of the split `k`. -/
theorem scan_inv_split (dss : pho_id → Int × Option String) (n k : Nat) (hk : k < n) :
    ∀ (exts : List extent) (ol : object_location) (reported : List String)
      (seen : Nat → List String × Bool) (enodev : Bool),
      scan_inv n ol reported seen →
      scan_inv n (locate_split_extents dss ol k exts enodev).1
        (reported ++ exts.filterMap (located_host dss))
        (Function.update seen k ((seen k).1 ++ exts.filterMap (located_host dss),
          (seen k).2 || exts.any (located_unlocked dss))) ∧
      (locate_split_extents dss ol k exts enodev).2 =
        (enodev && !(exts.any (located dss))) := by
  intro exts
  induction exts with
  | nil =>
    intro ol reported seen enodev hi
    simp only [locate_split_extents, List.filterMap_nil, List.append_nil, List.any_nil,
      Bool.or_false, Bool.not_false, Bool.and_true, and_true]
    exact scan_inv_congr n ol reported seen _ (by
      intro s _
      by_cases hsk : s = k
      · subst hsk; simp
      · simp [Function.update_noteq hsk]) hi
  | cons e rest ih =>
    intro ol reported seen enodev hi
    by_cases hrc : (dss e.media).1 = 0
    · cases hh : (dss e.media).2 with
      | some h =>
        have hl : located_host dss e = some h := by simp [located_host, hrc, hh]
        have hu : located_unlocked dss e = false := by simp [located_unlocked, hh]
        have hlo : located dss e = true := by simp [located, hrc]
        obtain ⟨i1, i2⟩ := ih _ _ _ false (scan_inv_add_host n ol reported seen h k hk hi)
        simp only [locate_split_extents, hrc, hh, ne_eq, not_true_eq_false, if_false,
          List.filterMap_cons, hl, List.any_cons, hu, hlo, Bool.false_or, Bool.true_or,
          Bool.not_true, Bool.and_false]
        refine ⟨?_, by simpa using i2⟩
        have i1' := scan_inv_congr n _ _ _
          (Function.update seen k ((seen k).1 ++ h :: rest.filterMap (located_host dss),
            (seen k).2 || rest.any (located_unlocked dss))) (by
          intro s _
          by_cases hsk : s = k
          · subst hsk; simp
          · simp [Function.update_noteq hsk]) i1
        simpa using i1'
      | none =>
        have hl : located_host dss e = none := by simp [located_host, hh]
        have hu : located_unlocked dss e = true := by simp [located_unlocked, hrc, hh]
        have hlo : located dss e = true := by simp [located, hrc]
        obtain ⟨i1, i2⟩ := ih _ _ _ false (scan_inv_unlocked n ol reported seen k hk hi)
        simp only [locate_split_extents, hrc, hh, ne_eq, not_true_eq_false, if_false,
          List.filterMap_cons, hl, List.any_cons, hu, hlo, Bool.true_or,
          Bool.not_true, Bool.and_false, Bool.or_true]
        refine ⟨?_, by simpa using i2⟩
        exact scan_inv_congr n _ _ _ _ (by
          intro s _
          by_cases hsk : s = k
          · subst hsk; simp
          · simp [Function.update_noteq hsk]) i1
    · have hl : located_host dss e = none := by simp [located_host, hrc]
      have hu : located_unlocked dss e = false := by simp [located_unlocked, hrc]
      have hlo : located dss e = false := by simp [located, hrc]
      obtain ⟨i1, i2⟩ := ih ol reported seen enodev hi
      simp only [locate_split_extents, hrc, ne_eq, not_false_eq_true, if_true,
        List.filterMap_cons, hl, List.any_cons, hu, hlo, Bool.false_or]
      exact ⟨i1, i2⟩

theorem scan_inv_flag (n : Nat) (ol : object_location) (reported : List String)
    (seen : Nat → List String × Bool) (b : Bool) (hi : scan_inv n ol reported seen) :
    scan_inv n { ol with all_splits_have_unlocked_media := b } reported seen := hi

/-- The outer loop of the scan, when every split has a medium that is
found. -/
theorem scan_inv_splits (dss : pho_id → Int × Option String) (layout : layout_info)
    (r n : Nat)
    (hloc : ∀ s, s < n → ∃ e ∈ split_extents layout r s, located dss e = true) :
    ∀ (fuel k : Nat) (ol : object_location), k + fuel = n →
      scan_inv n ol (reported_hosts dss layout r k)
        (fun s => if s < k then (split_hosts dss layout r s, split_has_unlocked dss layout r s)
          else ([], false)) →
      ∃ ol', locate_splits dss layout r ol k fuel = .ok ol' ∧
        scan_inv n ol' (reported_hosts dss layout r n)
          (fun s => (split_hosts dss layout r s, split_has_unlocked dss layout r s)) := by
  intro fuel
  induction fuel with
  | zero =>
    intro k ol hk hi
    have hkn : k = n := by omega
    subst hkn
    refine ⟨ol, rfl, ?_⟩
    exact scan_inv_congr k ol _ _ _ (by intro s hs; simp [hs]) hi
  | succ fuel ih =>
    intro k ol hk hi
    have hkn : k < n := by omega
    obtain ⟨i1, i2⟩ := scan_inv_split dss n k hkn (split_extents layout r k) ol _ _ true hi
    have hany : (split_extents layout r k).any (located dss) = true := by
      obtain ⟨e, he, hl⟩ := hloc k hkn
      exact List.any_eq_true.2 ⟨e, he, hl⟩
    rw [hany] at i2
    simp only [Bool.not_true, Bool.and_false] at i2
    have i3 := scan_inv_congr n _ _ _
      (fun s => if s < k + 1 then
          (split_hosts dss layout r s, split_has_unlocked dss layout r s)
        else ([], false)) (by
        intro s _
        by_cases hsk : s = k
        · subst hsk
          simp [split_hosts, split_has_unlocked]
        · rw [Function.update_noteq hsk]
          by_cases hlt : s < k
          · have : s < k + 1 := by omega
            simp [hlt, this]
          · have : ¬ s < k + 1 := by omega
            simp [hlt, this]) i1
    simp only [locate_splits, i2]
    simp only [Bool.false_eq_true, if_false]
    split
    · exact ih (k + 1) _ (by omega) i3
    · exact ih (k + 1) _ (by omega) (scan_inv_flag n _ _ _ false i3)

theorem scan_inv_init (n r : Nat) :
    scan_inv n (init_object_location n r) [] (fun _ => ([], false)) := by
  refine ⟨by simp [init_object_location], rfl, ?_, by simp [init_object_location], ?_,
    by simp [init_object_location], ?_, ?_⟩
  · intro s hs
    refine ⟨init_split_location r, ?_, by simp [init_split_location], rfl⟩
    simp [init_object_location, List.getElem?_replicate, hs]
  · intro x; simp [init_object_location]
  · intro host hhost; simp [init_object_location] at hhost
  · intro s _ h hh; simp at hh

theorem update_unreachable_spec :
    ∀ (splits : List split_location) (hosts : List one_location),
      update_unreachable splits hosts =
        hosts.map (fun x => add_unreachable (unreachable_in splits x.hostname) x) := by
  intro splits
  induction splits with
  | nil =>
    intro hosts
    simp [update_unreachable, unreachable_in, add_unreachable]
  | cons sp rest ih =>
    intro hosts
    simp only [update_unreachable]
    rw [ih]
    by_cases hu : sp.unlocked_media = true
    · simp only [hu, if_true]
      apply List.map_congr_left
      intro x _
      simp [unreachable_in, List.countP_cons, hu]
    · simp only [hu, Bool.false_eq_true, if_false, count_unreachable, List.map_map]
      apply List.map_congr_left
      intro x _
      simp only [Function.comp]
      by_cases hx : x.hostname ∈ sp.hostnames
      · simp [unreachable_in, List.countP_cons, hx, add_unreachable]
      · simp [unreachable_in, List.countP_cons, hx, hu, add_unreachable]
        omega

theorem better_location_iff (a b : one_location) :
    better_location a b = true ↔
      (b.nb_unreachable_split < a.nb_unreachable_split ∨
        (a.nb_unreachable_split = b.nb_unreachable_split ∧
          a.nb_fitted_split < b.nb_fitted_split)) := by
  simp [better_location]

theorem better_location_false_iff (a b : one_location) :
    better_location a b = false ↔
      (a.nb_unreachable_split < b.nb_unreachable_split ∨
        (a.nb_unreachable_split = b.nb_unreachable_split ∧
          b.nb_fitted_split ≤ a.nb_fitted_split)) := by
  rw [← Bool.not_eq_true, better_location_iff]
  omega

/-- The selection loop returns a host that is strictly better than the hosts
before it and at least as good as the hosts after it. -/
theorem pick_best_spec :
    ∀ (cands pre mid : List one_location) (best : one_location) (bi i : Nat),
      (∀ c ∈ pre, better_location c best = true) →
      (∀ c ∈ mid, better_location best c = false) →
      ∃ pre' post', pre ++ best :: (mid ++ cands) = pre' ++ (pick_best bi best i cands).2 :: post' ∧
        (∀ c ∈ pre', better_location c (pick_best bi best i cands).2 = true) ∧
        (∀ c ∈ post', better_location (pick_best bi best i cands).2 c = false) := by
  intro cands
  induction cands with
  | nil =>
    intro pre mid best bi i h1 h2
    exact ⟨pre, mid, by simp [pick_best], by simpa [pick_best] using h1,
      by simpa [pick_best] using h2⟩
  | cons c rest ih =>
    intro pre mid best bi i h1 h2
    by_cases hb : better_location best c = true
    · simp only [pick_best, hb, if_true]
      obtain ⟨pre', post', e1, e2, e3⟩ := ih (pre ++ best :: mid) [] c i (i + 1)
        (by
          intro x hx
          rw [better_location_iff] at hb ⊢
          rcases List.mem_append.1 hx with hx | hx
          · have := (better_location_iff _ _).1 (h1 x hx)
            omega
          · rcases List.mem_cons.1 hx with hx | hx
            · subst hx; exact hb
            · have := (better_location_false_iff _ _).1 (h2 x hx)
              omega)
        (by intro x hx; simp at hx)
      refine ⟨pre', post', ?_, e2, e3⟩
      rw [← e1]; simp
    · simp only [pick_best, hb, Bool.false_eq_true, if_false]
      obtain ⟨pre', post', e1, e2, e3⟩ := ih pre (mid ++ [c]) best bi (i + 1) h1
        (by
          intro x hx
          rcases List.mem_append.1 hx with hx | hx
          · exact h2 x hx
          · simp only [List.mem_singleton] at hx
            subst hx
            simpa using hb)
      refine ⟨pre', post', ?_, e2, e3⟩
      rw [← e1]; simp

theorem countP_eq_count_splits (p : split_location → Bool) (q : Nat → Bool)
    (l : List split_location)
    (h : ∀ (s : Nat) (sp : split_location), l[s]? = some sp → p sp = q s) :
    l.countP p = count_splits q l.length := by
  induction l using List.reverseRecOn with
  | nil => rfl
  | append_singleton l a ih =>
    rw [List.countP_append, List.length_append]
    simp only [List.length_singleton, count_splits, List.countP_cons, List.countP_nil,
      Nat.zero_add]
    rw [ih]
    · have := h l.length a (by simp)
      rw [this]
    · intro s sp hs
      apply h s sp
      rw [List.getElem?_append_left]
      · exact hs
      · exact (List.getElem?_eq_some_iff.1 hs).1

theorem get_best_spec (ol : object_location) (hne : ol.hosts ≠ []) :
    ∃ first rest,
      (ol.hosts.map (fun x => add_unreachable
        (unreachable_in (ol.splits.take ol.split_count) x.hostname) x)) = first :: rest ∧
      (get_best_object_location ol).1 = 0 ∧
      (get_best_object_location ol).2.1 = some (pick_best 0 first 1 rest).2.hostname := by
  cases hh : ol.hosts with
  | nil => exact absurd hh hne
  | cons a l =>
    refine ⟨_, _, List.map_cons _ _ _, ?_, ?_⟩
    · simp [get_best_object_location, hh, update_unreachable_spec]
    · simp [get_best_object_location, hh, update_unreachable_spec]

theorem appears_before_self (l : List String) (a : String) (h : a ∈ l) :
    appears_before l a a := by
  obtain ⟨pre, post, h1, h2⟩ := List.eq_append_cons_of_mem h
  exact ⟨pre, post, h1, h2⟩

/-! ### Scheduler pass -/

theorem request_loop_append {ω : Type} (ops : sched_ops ω) (served more : List req_container) :
    ∀ (st : lrs_devs ω) (arr : List resp_container) (rc : Int),
      (request_loop ops st served arr rc).2.2.1 = [] →
      request_loop ops st (served ++ more) arr rc =
        request_loop ops (request_loop ops st served arr rc).2.1 more
          (request_loop ops st served arr rc).2.2.2 (request_loop ops st served arr rc).1 := by
  induction served with
  | nil => intro st arr rc _; simp [request_loop]
  | cons reqc rest ih =>
    intro st arr rc h
    by_cases hb : (sched_dispatch ops st reqc.req).1 = -EAGAIN
    · simp [request_loop, hb] at h
    · simp only [request_loop, hb, if_false, List.cons_append] at h ⊢
      exact ih _ _ _ h

theorem request_loop_length {ω : Type} (ops : sched_ops ω) (served : List req_container) :
    ∀ (st : lrs_devs ω) (arr : List resp_container) (rc : Int),
      (request_loop ops st served arr rc).2.2.1 = [] →
      (request_loop ops st served arr rc).2.2.2.length = arr.length + served.length := by
  induction served with
  | nil => intro st arr rc _; simp [request_loop]
  | cons reqc rest ih =>
    intro st arr rc h
    by_cases hb : (sched_dispatch ops st reqc.req).1 = -EAGAIN
    · simp [request_loop, hb] at h
    · simp only [request_loop, hb, if_false] at h ⊢
      rw [ih _ _ _ h]
      simp
      omega

/-- C7 (code defect). Request A is enqueued before request B and both are
served in one pass with no would-block. `sched_request_enqueue` pushes at the
tail of the queue and `sched_responses_get` pops from the same tail, so B is
handled first (the log of the formatted media reads `mB, mA`) and the
response to B precedes the response to A in the returned array. -/
theorem later_request_is_served_first :
    sched_after_A_then_B.req_queue = [format_request 10 0 "mA", format_request 11 1 "mB"] ∧
    (sched_responses_get test_ops sched_after_A_then_B).1 = 0 ∧
    (sched_responses_get test_ops sched_after_A_then_B).2.1.devs.world = ["mB", "mA"] ∧
    (sched_responses_get test_ops sched_after_A_then_B).2.2 =
      [ { socket_id := 11, resp := { req_id := 1, body := .format ⟨1, "mB"⟩ } },
        { socket_id := 10, resp := { req_id := 0, body := .format ⟨1, "mA"⟩ } } ] := by
  decide

/-- C8. In a pass whose release phase succeeds, let the request queue hold,
in the order the pass pops them, the requests `served`, then `reqc`, then
`rest`. If the requests of `served` are all served and handling `reqc` then
returns `-EAGAIN`, the pass returns 0 with exactly the responses built for
`served` (none for `reqc`), and the queue it leaves is the former queue
without the served requests: `reqc` is at the tail, where the next pass pops
first, and the requests of `rest` keep their places. -/
theorem eagain_requeues_and_stops {ω : Type} (ops : sched_ops ω) (sched : lrs_sched ω)
    (served rest : List req_container) (reqc : req_container)
    (hrel : (release_loop ops sched.devs sched.release_queue.reverse
      sched.response_queue).1 = 0)
    (hq : sched.req_queue = rest.reverse ++ [reqc] ++ served.reverse)
    (hserved : (request_loop ops
      (release_loop ops sched.devs sched.release_queue.reverse sched.response_queue).2.1
      served [] 0).2.2.1 = [])
    (hblock : (sched_dispatch ops (request_loop ops
      (release_loop ops sched.devs sched.release_queue.reverse sched.response_queue).2.1
      served [] 0).2.1 reqc.req).1 = -EAGAIN) :
    (sched_responses_get ops sched).1 = 0 ∧
    (sched_responses_get ops sched).2.2 = (request_loop ops
      (release_loop ops sched.devs sched.release_queue.reverse sched.response_queue).2.1
      served [] 0).2.2.2 ∧
    (sched_responses_get ops sched).2.2.length = served.length ∧
    (sched_responses_get ops sched).2.1.req_queue = rest.reverse ++ [reqc] ∧
    sched.req_queue = (sched_responses_get ops sched).2.1.req_queue ++ served.reverse ∧
    g_queue_pop_tail (sched_responses_get ops sched).2.1.req_queue =
      (some reqc, rest.reverse) := by
  have hrev : sched.req_queue.reverse = served ++ reqc :: rest := by
    rw [hq]; simp
  have hlen := request_loop_length ops served _ [] 0 hserved
  have hloop : request_loop ops
      (release_loop ops sched.devs sched.release_queue.reverse sched.response_queue).2.1
      (served ++ reqc :: rest) [] 0 =
      (0, (sched_dispatch ops (request_loop ops
        (release_loop ops sched.devs sched.release_queue.reverse sched.response_queue).2.1
        served [] 0).2.1 reqc.req).2.1, reqc :: rest, (request_loop ops
        (release_loop ops sched.devs sched.release_queue.reverse sched.response_queue).2.1
        served [] 0).2.2.2) := by
    rw [request_loop_append ops served (reqc :: rest) _ [] 0 hserved]
    simp [request_loop, hblock]
  simp only [sched_responses_get, hrel, hrev, hloop]
  simp [g_queue_pop_tail, hq]
  simpa using hlen

/-- Witness for C8: request A (a format, served) was enqueued last and a
write allocation whose preparation would block was enqueued before it. -/
theorem eagain_requeues_and_stops_witness :
    (sched_responses_get
        { test_ops with sched_write_prepare := fun st _ _ _ _ => (-EAGAIN, st, 0) }
        { test_sched with req_queue :=
            [format_request 12 2 "mC", ⟨11, ⟨1, .walloc 1 [⟨10, []⟩]⟩⟩,
             format_request 10 0 "mA"] }).2.1.req_queue =
      [format_request 12 2 "mC", ⟨11, ⟨1, .walloc 1 [⟨10, []⟩]⟩⟩] :=
  (eagain_requeues_and_stops
    { test_ops with sched_write_prepare := fun st _ _ _ _ => (-EAGAIN, st, 0) }
    { test_sched with req_queue :=
        [format_request 12 2 "mC", ⟨11, ⟨1, .walloc 1 [⟨10, []⟩]⟩⟩,
         format_request 10 0 "mA"] }
    [format_request 10 0 "mA"] [format_request 12 2 "mC"] ⟨11, ⟨1, .walloc 1 [⟨10, []⟩]⟩⟩
    (by decide) (by decide) (by decide) (by decide)).2.2.2.1

/-- C9 (code defect). When the preparation of the first medium of a write
allocation ends with `-EBUSY`, the pass answers the request with an error
response that carries `-EBUSY` and drops it from the queue: only `-EAGAIN`
is requeued. -/
theorem busy_is_answered_to_client {ω : Type} (ops : sched_ops ω) (sched : lrs_sched ω)
    (socket_id : Int) (id family : Nat) (m : pho_req_write_elt) (rest : List pho_req_write_elt)
    (hrel : sched.release_queue = [])
    (hq : sched.req_queue = [⟨socket_id, ⟨id, .walloc family (m :: rest)⟩⟩])
    (hbusy : (ops.sched_write_prepare sched.devs m.size m.tags [] 0).1 = -EBUSY) :
    (sched_responses_get ops sched).1 = 0 ∧
    (sched_responses_get ops sched).2.1.req_queue = [] ∧
    (sched_responses_get ops sched).2.2 =
      [⟨socket_id, ⟨ops.init_req_id, .error (-EBUSY) .RQ_WRITE⟩⟩] := by
  have h1 : (-EBUSY : Int) ≠ 0 := by decide
  have h2 : (-EBUSY : Int) ≠ -EAGAIN := by decide
  have h3 : EAGAIN ≠ 0 := by decide
  simp [sched_responses_get, hrel, hq, release_loop, request_loop, sched_dispatch,
    sched_handle_write_alloc, write_alloc_loop, hbusy, h1, h2, h3, rollback_media,
    pho_srl_response_error_alloc]

/-- Witness for C9: the write preparation ends in `sched_load_media`, where
the library refuses a move from drive to drive. -/
theorem busy_is_answered_to_client_witness :
    (sched_load_media empty_drive (test_medium "T00001") drive_to_drive_refused).1 = -EBUSY ∧
    (sched_responses_get busy_ops busy_sched).2.1.req_queue = [] ∧
    (sched_responses_get busy_ops busy_sched).2.2 =
      [⟨4, ⟨0, .error (-EBUSY) .RQ_WRITE⟩⟩] :=
  ⟨by decide,
   (busy_is_answered_to_client busy_ops busy_sched 4 9 2 ⟨10, []⟩ [] rfl rfl (by decide)).2⟩

/-- C10 (code defect). With the requests of `test_bad_mget` and
`test_bad_mput`: the read allocation request of identifier 1 for a medium
that does not exist is answered with an error response of identifier 0, the
read allocation request of identifier 5 that succeeds is answered with a
response of identifier 0, and the write allocation request of identifier 1
that fails is answered with an error response of identifier 0.
`sched_handle_read_alloc` never copies the identifier and the error path of
`sched_handle_write_alloc` loses it; kind and code of the errors are right. -/
theorem read_and_failed_write_lose_req_id :
    (sched_dispatch test_ops test_sched.devs ⟨1, .ralloc 1 [⟨1, "/not/a/dir"⟩]⟩).2.2 =
      ⟨0, .error (- ENXIO) .RQ_READ⟩ ∧
    (sched_dispatch test_ops test_sched.devs ⟨5, .ralloc 1 [⟨1, "/tmp/test.pho.1"⟩]⟩).2.2 =
      ⟨0, .ralloc [⟨⟨1, "/tmp/test.pho.1"⟩, "/tmp/test.pho.1", 0, 0⟩]⟩ ∧
    (sched_dispatch test_ops test_sched.devs ⟨1, .walloc 1 [⟨1, ["invalid-tag"]⟩]⟩).2.2 =
      ⟨0, .error (-ENOSPC) .RQ_WRITE⟩ := by
  decide

/-- C4. Let an encoder with `r` copies be in any state reached from its
creation, and let a write allocation response offer `r` media. The chunk size
is the minimum of `to_write` and of the `avail_size` of the media. When the
encoder is not done: the chunk is written (return code 0) exactly when the
descriptor is valid and the I/O succeeds; then exactly `r` extents of that
size are appended and `to_write` decreases by that size; otherwise no extent
is appended and `to_write` is unchanged. In every reachable state the written
extents, and the extents of the layout, come in groups of `r` of identical
size. -/
theorem write_chunk_appends_equal_extents (size : Int) (attr : Option Nat) (fd : Int)
    (enc0 : pho_encoder) (events : List (Option pho_resp × step_io)) (family : Nat)
    (tags : List String) (wresp : List pho_resp_write_elt) (rreq : List pho_req_release_elt)
    (io : chunk_io)
    (h0 : layout_raid1_encode size attr fd = .ok enc0)
    (hlen : wresp.length = enc0.priv_enc.repl_count) :
    (limit_extent_size (raid1_run enc0 events family tags).priv_enc.to_write wresp ≤
        (raid1_run enc0 events family tags).priv_enc.to_write ∧
      (∀ m ∈ wresp,
        limit_extent_size (raid1_run enc0 events family tags).priv_enc.to_write wresp ≤
          m.avail_size) ∧
      (limit_extent_size (raid1_run enc0 events family tags).priv_enc.to_write wresp =
          (raid1_run enc0 events family tags).priv_enc.to_write ∨
        ∃ m ∈ wresp,
          limit_extent_size (raid1_run enc0 events family tags).priv_enc.to_write wresp =
            m.avail_size)) ∧
    ((raid1_run enc0 events family tags).done = false →
      ((multiple_enc_write_chunk (raid1_run enc0 events family tags) wresp rreq io).1 = 0 ↔
        (0 ≤ fd ∧ io.setup_rc = 0 ∧ io.rc = 0)) ∧
      ((multiple_enc_write_chunk (raid1_run enc0 events family tags) wresp rreq io).1 = 0 →
        ∃ new : List extent,
          (multiple_enc_write_chunk (raid1_run enc0 events family tags) wresp rreq
              io).2.1.priv_enc.written_extents =
            (raid1_run enc0 events family tags).priv_enc.written_extents ++ new ∧
          new.length = enc0.priv_enc.repl_count ∧
          (∀ e ∈ new, e.size =
            limit_extent_size (raid1_run enc0 events family tags).priv_enc.to_write wresp) ∧
          new.map (fun e => e.media) = wresp.map (fun m => m.med_id) ∧
          (multiple_enc_write_chunk (raid1_run enc0 events family tags) wresp rreq
              io).2.1.priv_enc.to_write =
            (raid1_run enc0 events family tags).priv_enc.to_write -
              limit_extent_size (raid1_run enc0 events family tags).priv_enc.to_write wresp) ∧
      ((multiple_enc_write_chunk (raid1_run enc0 events family tags) wresp rreq io).1 ≠ 0 →
        (multiple_enc_write_chunk (raid1_run enc0 events family tags) wresp rreq io).2.1 =
          raid1_run enc0 events family tags) ∧
      splits_uniform enc0.priv_enc.repl_count
        (multiple_enc_write_chunk (raid1_run enc0 events family tags) wresp rreq
          io).2.1.priv_enc.written_extents) ∧
    splits_uniform enc0.priv_enc.repl_count
      (raid1_run enc0 events family tags).priv_enc.written_extents ∧
    splits_uniform enc0.priv_enc.repl_count (raid1_run enc0 events family tags).layout.extents ∧
    (raid1_run enc0 events family tags).layout.ext_count =
      (raid1_run enc0 events family tags).layout.extents.length := by
  have hinv := write_inv_run size attr fd enc0 h0 events family tags
  obtain ⟨_, hr, _⟩ := layout_raid1_encode_ok size attr fd enc0 h0
  generalize raid1_run enc0 events family tags = enc at hinv ⊢
  obtain ⟨a1, a2, a3, a4, a5, a6⟩ := hinv
  have hlen' : wresp.length = enc.priv_enc.repl_count := by rw [a2]; exact hlen
  refine ⟨⟨limit_extent_size_le _ _, limit_extent_size_le_avail _ _,
    limit_extent_size_attained _ _⟩, ?_, a4, a5, a6⟩
  intro _
  have hiff : (multiple_enc_write_chunk enc wresp rreq io).1 = 0 ↔
      (0 ≤ fd ∧ io.setup_rc = 0 ∧ io.rc = 0) := by
    constructor
    · intro h
      by_contra hc
      have hc' : ¬ (wresp.length = enc.priv_enc.repl_count ∧ 0 ≤ enc.xd_fd ∧
          io.setup_rc = 0 ∧ io.rc = 0) := by
        rw [a3]; exact fun x => hc x.2
      exact (write_chunk_failed enc wresp rreq io hc').1 h
    · intro ⟨h1, h2, h3⟩
      exact (write_chunk_ok enc wresp rreq io hlen' (by rw [a3]; exact h1) h2 h3).1
  refine ⟨hiff, ?_, ?_, ?_⟩
  · intro h
    obtain ⟨h1, h2, h3⟩ := hiff.1 h
    have hok := (write_chunk_ok enc wresp rreq io hlen' (by rw [a3]; exact h1) h2 h3).2.1
    obtain ⟨f1, f2, _⟩ := add_written_extents_frame
      (prepare_extents enc.priv_enc wresp
        (limit_extent_size enc.priv_enc.to_write wresp) 0)
      { enc.priv_enc with
        to_write := enc.priv_enc.to_write - limit_extent_size enc.priv_enc.to_write wresp }
    refine ⟨prepare_extents enc.priv_enc wresp
      (limit_extent_size enc.priv_enc.to_write wresp) 0, ?_, ?_,
      prepare_extents_size _ _ _ 0, prepare_extents_media _ _ _ 0, ?_⟩
    · rw [hok]; exact f1
    · rw [prepare_extents_length]; exact hlen
    · rw [hok]; exact f2
  · intro h
    have hc' : ¬ (wresp.length = enc.priv_enc.repl_count ∧ 0 ≤ enc.xd_fd ∧
        io.setup_rc = 0 ∧ io.rc = 0) := by
      rw [a3]; exact fun x => h (hiff.2 x.2)
    exact (write_chunk_failed enc wresp rreq io hc').2
  · exact (write_inv_chunk enc0.priv_enc.repl_count hr fd enc wresp rreq io
      ⟨a1, a2, a3, a4, a5, a6⟩).2.2.2.1

/-- Witness for C4: the put of 3 bytes on 2 copies that is split in two. -/
theorem write_chunk_appends_equal_extents_witness :
    layout_raid1_encode 3 (some 2) 5 = .ok (fresh_encoder (some 2) 5 2 3) ∧
    splits_uniform 2 (raid1_run (fresh_encoder (some 2) 5 2 3) two_split_events 1 []).layout.extents ∧
    (raid1_run (fresh_encoder (some 2) 5 2 3) two_split_events 1 []).layout.ext_count = 4 :=
  ⟨rfl,
   (write_chunk_appends_equal_extents 3 (some 2) 5 (fresh_encoder (some 2) 5 2 3) two_split_events 1 []
      [dir_medium "a" 2, dir_medium "b" 2] [] chunk_io_ok rfl rfl).2.2.2.1,
   (write_chunk_appends_equal_extents 3 (some 2) 5 (fresh_encoder (some 2) 5 2 3) two_split_events 1 []
      [dir_medium "a" 2, dir_medium "b" 2] [] chunk_io_ok rfl rfl).2.2.2.2⟩

/-- C5. A put of size 0 on `r` copies: the first step issues one write
allocation request for `r` media of size 0; on the response, with a valid
descriptor and a successful I/O, the encoder writes `r` extents of size 0 on
the media offered and issues the release request only, no further allocation;
once the release response names those media the encoder is done, its layout
is synced and holds exactly those `r` extents of size 0. -/
theorem zero_size_put (attr : Option Nat) (fd : Int) (enc0 : pho_encoder)
    (media : List pho_resp_write_elt) (id2 id3 : Nat) (io1 io2 io3 : step_io) (family : Nat)
    (tags : List String)
    (h0 : layout_raid1_encode 0 attr fd = .ok enc0) (hfd : 0 ≤ fd)
    (hlen : media.length = enc0.priv_enc.repl_count)
    (hio : io2.chunk.setup_rc = 0 ∧ io2.chunk.rc = 0) :
    (put_first_step enc0 io1 family tags).1 = 0 ∧
    (put_first_step enc0 io1 family tags).2.2 =
      [⟨0, .walloc family (List.replicate enc0.priv_enc.repl_count ⟨0, tags⟩)⟩] ∧
    (put_write_step enc0 media id2 io1 io2 family tags).1 = 0 ∧
    (put_write_step enc0 media id2 io1 io2 family tags).2.2 =
      [⟨0, .release (media.map (fun m => ⟨m.med_id, 0, 0, true⟩))⟩] ∧
    (put_write_step enc0 media id2 io1 io2 family tags).2.1.done = false ∧
    (put_write_step enc0 media id2 io1 io2 family tags).2.1.priv_enc.written_extents.map
        (fun e => (e.size, e.media)) = media.map (fun m => (0, m.med_id)) ∧
    (put_release_step enc0 media id2 id3 io1 io2 io3 family tags).1 = 0 ∧
    (put_release_step enc0 media id2 id3 io1 io2 io3 family tags).2.2 = [] ∧
    (put_release_step enc0 media id2 id3 io1 io2 io3 family tags).2.1.done = true ∧
    (put_release_step enc0 media id2 id3 io1 io2 io3 family tags).2.1.layout.state =
      extent_state.PHO_EXT_ST_SYNC ∧
    (put_release_step enc0 media id2 id3 io1 io2 io3 family tags).2.1.layout.ext_count =
      enc0.priv_enc.repl_count ∧
    (put_release_step enc0 media id2 id3 io1 io2 io3 family tags).2.1.layout.extents.map
        (fun e => (e.size, e.media)) = media.map (fun m => (0, m.med_id)) := by
  obtain ⟨_, hr, he⟩ := layout_raid1_encode_ok 0 attr fd enc0 h0
  -- facts on the fresh encoder
  have c1 : enc0.is_decoder = false := by rw [he]; rfl
  have c2 : enc0.done = false := by rw [he]; rfl
  have c3 : enc0.priv_enc.to_write = 0 := by rw [he]; rfl
  have c4 : enc0.priv_enc.written_extents = [] := by rw [he]; rfl
  have c5 : enc0.priv_enc.to_release_media = [] := by rw [he]; rfl
  have c6 : enc0.priv_enc.n_released_media = 0 := by rw [he]; rfl
  have c7 : enc0.priv_enc.requested_alloc = false := by rw [he]; rfl
  have c8 : enc0.xd_fd = fd := by rw [he]; rfl
  -- first step
  have s1 : put_first_step enc0 io1 family tags =
      (0, with_requested_alloc enc0 true,
        [⟨0, .walloc family (List.replicate enc0.priv_enc.repl_count ⟨0, tags⟩)⟩]) := by
    simp [put_first_step, raid1_encoder_step, no_more_alloc, raid1_enc_next_write_req,
      with_requested_alloc, c1, c2, c3, c4, c7]
  -- second step
  obtain ⟨w1, w2, w3⟩ := write_chunk_ok (with_requested_alloc enc0 false) media
    (release_elts_of_walloc media) io2.chunk (by simpa [with_requested_alloc] using hlen)
    (by simpa [with_requested_alloc, c8] using hfd) hio.1 hio.2
  have hlim : limit_extent_size (with_requested_alloc enc0 false).priv_enc.to_write media = 0 := by
    simp [with_requested_alloc, c3, limit_extent_size_zero]
  rw [hlim] at w2 w3
  rw [update_release_elts_zero] at w3
  obtain ⟨f1, f2, f3, f4, f5, f6⟩ := add_written_extents_frame
    (prepare_extents (with_requested_alloc enc0 false).priv_enc media 0 0)
    { (with_requested_alloc enc0 false).priv_enc with
      to_write := (with_requested_alloc enc0 false).priv_enc.to_write - 0 }
  have hexts : (multiple_enc_write_chunk (with_requested_alloc enc0 false) media
      (release_elts_of_walloc media) io2.chunk).2.1.priv_enc.written_extents =
      prepare_extents (with_requested_alloc enc0 false).priv_enc media 0 0 := by
    rw [w2]; simp only []; rw [f1]; simp [with_requested_alloc, c4]
  have hlen2 : (multiple_enc_write_chunk (with_requested_alloc enc0 false) media
      (release_elts_of_walloc media) io2.chunk).2.1.priv_enc.written_extents.length =
      enc0.priv_enc.repl_count := by
    rw [hexts, prepare_extents_length, hlen]
  have htw : (multiple_enc_write_chunk (with_requested_alloc enc0 false) media
      (release_elts_of_walloc media) io2.chunk).2.1.priv_enc.to_write = 0 := by
    rw [w2]; simp only []; rw [f2]; simp [with_requested_alloc, c3]
  have hdone2 : (multiple_enc_write_chunk (with_requested_alloc enc0 false) media
      (release_elts_of_walloc media) io2.chunk).2.1.done = false := by
    rw [w2]; simp [with_requested_alloc, c2]
  have hdec2 : (multiple_enc_write_chunk (with_requested_alloc enc0 false) media
      (release_elts_of_walloc media) io2.chunk).2.1.is_decoder = false := by
    rw [w2]; simp [with_requested_alloc, c1]
  have hnm : no_more_alloc (multiple_enc_write_chunk (with_requested_alloc enc0 false) media
      (release_elts_of_walloc media) io2.chunk).2.1 = true := by
    simp [no_more_alloc, hdone2, htw, hdec2, hlen2, hr]
  have s2 : put_write_step enc0 media id2 io1 io2 family tags =
      (0, (multiple_enc_write_chunk (with_requested_alloc enc0 false) media
            (release_elts_of_walloc media) io2.chunk).2.1,
        [⟨0, .release (release_elts_of_walloc media)⟩]) := by
    have := step_walloc (with_requested_alloc enc0 true) (by simpa [with_requested_alloc] using c1)
      id2 media io2 family tags (by simpa [with_requested_alloc] using hlen)
      (by rw [with_requested_alloc_twice]; exact w1)
      (by rw [with_requested_alloc_twice]; exact hnm)
    rw [with_requested_alloc_twice, w3] at this
    simp only [put_write_step, s1]
    exact this
  -- third step
  have htbl : (multiple_enc_write_chunk (with_requested_alloc enc0 false) media
      (release_elts_of_walloc media) io2.chunk).2.1.priv_enc.to_release_media =
      (add_written_extents
        { (with_requested_alloc enc0 false).priv_enc with
          to_write := (with_requested_alloc enc0 false).priv_enc.to_write - 0 }
        (prepare_extents (with_requested_alloc enc0 false).priv_enc media 0 0)).to_release_media := by
    rw [w2]
  have hpos : table_positive (multiple_enc_write_chunk (with_requested_alloc enc0 false) media
      (release_elts_of_walloc media) io2.chunk).2.1.priv_enc.to_release_media := by
    rw [htbl]
    apply add_written_extents_positive
    intro m
    simp [with_requested_alloc, c5, release_lookup]
  have href : ∀ m, refcount (multiple_enc_write_chunk (with_requested_alloc enc0 false) media
      (release_elts_of_walloc media) io2.chunk).2.1.priv_enc.to_release_media m =
      ((media.map (fun m => m.med_id)).map (fun i => i.name)).count m := by
    intro m
    rw [htbl, add_written_extents_refcount]
    have : (prepare_extents (with_requested_alloc enc0 false).priv_enc media 0 0).map
        (fun e => e.media.name) = (media.map (fun m => m.med_id)).map (fun i => i.name) := by
      rw [← prepare_extents_media (with_requested_alloc enc0 false).priv_enc media 0 0]
      simp
    rw [this]
    simp [with_requested_alloc, c5, refcount, release_lookup]
  obtain ⟨m1, m2⟩ := mark_all_released_awaited (media.map (fun m => m.med_id))
    (multiple_enc_write_chunk (with_requested_alloc enc0 false) media
      (release_elts_of_walloc media) io2.chunk).2.1.priv_enc 0 hpos
    (fun m => by rw [href m])
  obtain ⟨_, n2, n3, n4, _⟩ := mark_all_released_spec (media.map (fun m => m.med_id))
    (multiple_enc_write_chunk (with_requested_alloc enc0 false) media
      (release_elts_of_walloc media) io2.chunk).2.1.priv_enc 0 hpos
  have hn6 : (multiple_enc_write_chunk (with_requested_alloc enc0 false) media
      (release_elts_of_walloc media) io2.chunk).2.1.priv_enc.n_released_media = 0 := by
    rw [w2]; simp only []; rw [f6]; simp [with_requested_alloc, c6]
  rw [m2, hn6] at n2
  simp only [List.length_map, Nat.zero_add] at n2
  obtain ⟨s3, d3⟩ := step_release_done (multiple_enc_write_chunk (with_requested_alloc enc0 false)
      media (release_elts_of_walloc media) io2.chunk).2.1 hdec2 id3
    (media.map (fun m => m.med_id)) io3 family tags (by rw [n4, htw])
    (by rw [n3, hlen2]; exact hr) (by rw [n3, hlen2, n2, hlen])
  have hh := release_resp_done (multiple_enc_write_chunk (with_requested_alloc enc0 false)
      media (release_elts_of_walloc media) io2.chunk).2.1
    (media.map (fun m => m.med_id)) (by rw [n4, htw])
    (by rw [n3, hlen2]; exact hr) (by rw [n3, hlen2, n2, hlen])
  have s3' : put_release_step enc0 media id2 id3 io1 io2 io3 family tags =
      (0, (raid1_enc_handle_release_resp (multiple_enc_write_chunk
        (with_requested_alloc enc0 false) media (release_elts_of_walloc media)
        io2.chunk).2.1 (media.map (fun m => m.med_id))).2, []) := by
    simp only [put_release_step, s2]
    exact s3
  have hmap : (prepare_extents (with_requested_alloc enc0 false).priv_enc media 0 0).map
      (fun e => (e.size, e.media)) = media.map (fun m => (0, m.med_id)) := by
    have hs := prepare_extents_size (with_requested_alloc enc0 false).priv_enc media 0 0
    have hm := prepare_extents_media (with_requested_alloc enc0 false).priv_enc media 0 0
    have : (prepare_extents (with_requested_alloc enc0 false).priv_enc media 0 0).map
        (fun e => (e.size, e.media)) =
        (prepare_extents (with_requested_alloc enc0 false).priv_enc media 0 0).map
        (fun e => (0, e.media)) := by
      apply List.map_congr_left
      intro e he'
      rw [hs e he']
    rw [this]
    have h2 : (fun e : extent => ((0 : Nat), e.media)) = (fun i => ((0 : Nat), i)) ∘ (fun e => e.media) := rfl
    rw [h2, ← List.map_map, hm, List.map_map]
    rfl
  refine ⟨by rw [s1], by rw [s1], by rw [s2], ?_, by rw [s2]; exact hdone2, ?_, by rw [s3'],
    by rw [s3'], by rw [s3']; exact d3, ?_, ?_, ?_⟩
  · rw [s2]; simp [release_elts_of_walloc]
  · rw [s2]; simp only []; rw [hexts]; exact hmap
  · rw [s3']; simp only []; rw [hh]
  · rw [s3']; simp only []; rw [hh]; simp only []; rw [n3, hlen2]
  · rw [s3']; simp only []; rw [hh]; simp only []; rw [n3, hexts]; exact hmap

/-- Witness for C5: a put of size 0 on 2 copies, served by the media `a` and
`b`. -/
theorem zero_size_put_witness :
    layout_raid1_encode 0 (some 2) 5 = .ok (fresh_encoder (some 2) 5 2 0) ∧
    (put_release_step (fresh_encoder (some 2) 5 2 0) [dir_medium "a" 10, dir_medium "b" 10]
        1 2 step_io_ok step_io_ok step_io_ok 1 []).2.1.layout.extents.map
          (fun e => (e.size, e.media)) = [(0, ⟨1, "a"⟩), (0, ⟨1, "b"⟩)] :=
  ⟨rfl,
   (zero_size_put (some 2) 5 (fresh_encoder (some 2) 5 2 0)
      [dir_medium "a" 10, dir_medium "b" 10] 1 2 step_io_ok step_io_ok step_io_ok 1 []
      rfl (by decide) rfl ⟨rfl, rfl⟩).2.2.2.2.2.2.2.2.2.2.2⟩

/-- C6. Along a put that receives no error response: a step marks the
encoder done exactly when its response is a release response after whose
media are marked nothing remains to write, at least one extent is written and
the number of released media equals the number of written extents; the layout
is then synced and holds the written extents. While the encoder is not done,
each medium has as many written extents as releases awaited plus releases
acknowledged; once it is done, each medium was acknowledged exactly as many
times as it holds extents of the layout. -/
theorem done_only_when_all_released (size : Int) (attr : Option Nat) (fd : Int)
    (enc0 : pho_encoder) (events : List (Option pho_resp × step_io)) (family : Nat)
    (tags : List String) (resp : Option pho_resp) (io : step_io)
    (h0 : layout_raid1_encode size attr fd = .ok enc0)
    (hev : ∀ ev ∈ events, not_error ev.1) (hresp : not_error resp) :
    ((raid1_run enc0 events family tags).done = false →
      ((raid1_encoder_step (raid1_run enc0 events family tags) resp io family
          tags).2.1.done = true ↔
        ∃ r ids, resp = some r ∧ r.body = .release ids ∧
          (mark_all_released (raid1_run enc0 events family tags).priv_enc ids 0).2.to_write
            = 0 ∧
          0 < (mark_all_released (raid1_run enc0 events family tags).priv_enc ids
            0).2.written_extents.length ∧
          (mark_all_released (raid1_run enc0 events family tags).priv_enc ids
            0).2.written_extents.length =
          (mark_all_released (raid1_run enc0 events family tags).priv_enc ids
            0).2.n_released_media) ∧
      ((raid1_encoder_step (raid1_run enc0 events family tags) resp io family
          tags).2.1.done = true →
        (raid1_encoder_step (raid1_run enc0 events family tags) resp io family
          tags).2.1.layout.state = extent_state.PHO_EXT_ST_SYNC ∧
        (raid1_encoder_step (raid1_run enc0 events family tags) resp io family
          tags).2.1.layout.extents =
          (raid1_run enc0 events family tags).priv_enc.written_extents) ∧
      (raid1_run enc0 events family tags).priv_enc.n_released_media =
        (raid1_run_acked enc0 events family tags).length ∧
      ∀ m, ((raid1_run enc0 events family tags).priv_enc.written_extents.map
          (fun e => e.media.name)).count m =
        refcount (raid1_run enc0 events family tags).priv_enc.to_release_media m +
          (raid1_run_acked enc0 events family tags).count m) ∧
    ((raid1_run enc0 events family tags).done = true →
      (raid1_run enc0 events family tags).layout.state = extent_state.PHO_EXT_ST_SYNC ∧
      (raid1_run enc0 events family tags).priv_enc.to_write = 0 ∧
      0 < (raid1_run enc0 events family tags).layout.extents.length ∧
      ∀ m, ((raid1_run enc0 events family tags).layout.extents.map
          (fun e => e.media.name)).count m =
        (raid1_run_acked enc0 events family tags).count m) := by
  have hinv := release_inv_run size attr fd enc0 h0 events family tags hev
  generalize raid1_run enc0 events family tags = enc at hinv ⊢
  generalize raid1_run_acked enc0 events family tags = acks at hinv ⊢
  obtain ⟨a1, a2, a3⟩ := hinv
  refine ⟨fun hd => ?_, a3⟩
  obtain ⟨p1, p2, p3⟩ := a2 hd
  have hiff : (raid1_encoder_step enc resp io family tags).2.1.done = true ↔
      ∃ r ids, resp = some r ∧ r.body = .release ids ∧
        (mark_all_released enc.priv_enc ids 0).2.to_write = 0 ∧
        0 < (mark_all_released enc.priv_enc ids 0).2.written_extents.length ∧
        (mark_all_released enc.priv_enc ids 0).2.written_extents.length =
          (mark_all_released enc.priv_enc ids 0).2.n_released_media := by
    constructor
    · intro hdone
      obtain ⟨b, e, h1, h2⟩ := encoder_step_cases enc a1 resp io family tags
      rw [h1] at hdone
      have hdone' : e.done = true := by simpa [with_requested_alloc] using hdone
      rcases h2 with ⟨h2, _⟩ | ⟨r, rc, kind, hr, hb, _⟩ | ⟨r, media, hr, hb, h2⟩ |
        ⟨r, ids, hr, hb, h2⟩
      · rw [h2, hd] at hdone'; simp at hdone'
      · exact absurd hb (hresp r hr rc kind)
      · rw [h2, (write_chunk_done _ _ _ _).1] at hdone'
        simp [with_requested_alloc, hd] at hdone'
      · by_cases hc : (mark_all_released enc.priv_enc ids 0).2.to_write = 0 ∧
            0 < (mark_all_released enc.priv_enc ids 0).2.written_extents.length ∧
            (mark_all_released enc.priv_enc ids 0).2.written_extents.length =
              (mark_all_released enc.priv_enc ids 0).2.n_released_media
        · exact ⟨r, ids, hr, hb, hc⟩
        · rw [h2, release_resp_not_done enc ids hc] at hdone'
          simp [hd] at hdone'
    · rintro ⟨r, ids, hr, hb, hc1, hc2, hc3⟩
      have hr' : resp = some ⟨r.req_id, .release ids⟩ := by
        rw [hr, ← hb]
      rw [hr', (step_release_done enc a1 r.req_id ids io family tags hc1 hc2 hc3).1]
      exact (step_release_done enc a1 r.req_id ids io family tags hc1 hc2 hc3).2
  refine ⟨hiff, ?_, p2, p3⟩
  intro hdone
  obtain ⟨r, ids, hr, hb, hc1, hc2, hc3⟩ := hiff.1 hdone
  have hr' : resp = some ⟨r.req_id, .release ids⟩ := by
    rw [hr, ← hb]
  obtain ⟨n3, _⟩ := mark_all_released_frame ids enc.priv_enc 0
  rw [hr', (step_release_done enc a1 r.req_id ids io family tags hc1 hc2 hc3).1]
  simp only []
  rw [release_resp_done enc ids hc1 hc2 hc3]
  exact ⟨rfl, n3⟩

/-- Witness for C6: the put of 3 bytes on 2 copies that is split in two ends
done, each of its four media acknowledged once. -/
theorem done_only_when_all_released_witness :
    (raid1_run (fresh_encoder (some 2) 5 2 3) two_split_events 1 []).done = true ∧
    ∀ m, ((raid1_run (fresh_encoder (some 2) 5 2 3) two_split_events 1 []).layout.extents.map
        (fun e => e.media.name)).count m =
      (raid1_run_acked (fresh_encoder (some 2) 5 2 3) two_split_events 1 []).count m :=
  ⟨by decide,
   ((done_only_when_all_released 3 (some 2) 5 (fresh_encoder (some 2) 5 2 3) two_split_events
      1 [] none step_io_ok rfl two_split_events_not_error
      (fun r hr => by simp at hr)).2 (by decide)).2.2.2⟩

/-- C1. For a layout with a valid replica count `r` whose extent count is a
multiple of `r`, when every split has a medium that the state index finds and
at least one medium is locked by a host: `layout_raid1_locate` returns a
host `best` among the hosts reported, no reported host has fewer unreachable
splits, among the hosts with as few unreachable splits none has more fitted
splits, and `best` is discovered no later than any host that ties with it on
both counts. The result is a function of the layout and of the answers of
`dss_medium_locate` only. -/
theorem locate_returns_best_host (dss : pho_id → Int × Option String) (layout : layout_info)
    (r : Nat)
    (hrep : layout_repl_count layout = .ok r) (hmod : layout.ext_count % r = 0)
    (hloc : ∀ s, s < layout.ext_count / r →
      ∃ e ∈ split_extents layout r s, located dss e = true)
    (hcand : reported_hosts dss layout r (layout.ext_count / r) ≠ []) :
    ∃ best, layout_raid1_locate dss layout = .ok (some best) ∧
      best ∈ reported_hosts dss layout r (layout.ext_count / r) ∧
      ∀ h ∈ reported_hosts dss layout r (layout.ext_count / r),
        host_unreachable_splits dss layout r (layout.ext_count / r) best ≤
          host_unreachable_splits dss layout r (layout.ext_count / r) h ∧
        (host_unreachable_splits dss layout r (layout.ext_count / r) best =
            host_unreachable_splits dss layout r (layout.ext_count / r) h →
          host_fitted_splits dss layout r (layout.ext_count / r) h ≤
            host_fitted_splits dss layout r (layout.ext_count / r) best) ∧
        (host_unreachable_splits dss layout r (layout.ext_count / r) best =
            host_unreachable_splits dss layout r (layout.ext_count / r) h →
          host_fitted_splits dss layout r (layout.ext_count / r) h =
            host_fitted_splits dss layout r (layout.ext_count / r) best →
          appears_before (reported_hosts dss layout r (layout.ext_count / r)) best h) := by
  generalize hn : layout.ext_count / r = n at hloc hcand ⊢
  obtain ⟨ol, hol, hinv⟩ := scan_inv_splits dss layout r n hloc n 0
    (init_object_location n r) (by omega)
    (scan_inv_congr n _ _ _ _ (by intro s _; simp) (scan_inv_init n r))
  obtain ⟨a1, a2, a3, a4, a5, a6, a7, a8⟩ := hinv
  have hne : ol.hosts ≠ [] := by
    intro hc
    obtain ⟨x, hx⟩ := List.exists_mem_of_ne_nil _ hcand
    have := (a5 x).2 hx
    rw [hc] at this
    simp at this
  have htake : ol.splits.take ol.split_count = ol.splits := by
    rw [a2, ← a1]; exact List.take_length _
  obtain ⟨first, rest, hmap, g1, g2⟩ := get_best_spec ol hne
  rw [htake] at hmap
  -- scores of the hosts
  have hfit : ∀ name, fitted_in ol.splits name = host_fitted_splits dss layout r n name := by
    intro name
    unfold fitted_in host_fitted_splits
    rw [countP_eq_count_splits _
      (fun s => decide (name ∈ split_hosts dss layout r s)) ol.splits, a1]
    intro s sp hs
    have hsn : s < n := by rw [← a1]; exact (List.getElem?_eq_some_iff.1 hs).1
    obtain ⟨sp', h1, h2, _⟩ := a3 s hsn
    rw [hs] at h1
    injection h1 with h1
    subst h1
    simp only [decide_eq_decide]
    exact h2 name
  have hunr : ∀ name,
      unreachable_in ol.splits name = host_unreachable_splits dss layout r n name := by
    intro name
    unfold unreachable_in host_unreachable_splits
    rw [countP_eq_count_splits _
      (fun s => !split_has_unlocked dss layout r s &&
        decide (name ∉ split_hosts dss layout r s)) ol.splits, a1]
    intro s sp hs
    have hsn : s < n := by rw [← a1]; exact (List.getElem?_eq_some_iff.1 hs).1
    obtain ⟨sp', h1, h2, h3⟩ := a3 s hsn
    rw [hs] at h1
    injection h1 with h1
    subst h1
    simp only [] at h3
    rw [h3]
    congr 1
    simp only [decide_eq_decide]
    exact not_congr (h2 name)
  have hscore : ∀ c ∈ first :: rest,
      c.hostname ∈ reported_hosts dss layout r n ∧
      c.nb_unreachable_split = host_unreachable_splits dss layout r n c.hostname ∧
      c.nb_fitted_split = host_fitted_splits dss layout r n c.hostname := by
    intro c hc
    rw [← hmap] at hc
    obtain ⟨x, hx, hxc⟩ := List.mem_map.1 hc
    obtain ⟨u1, u2⟩ := a7 x hx
    subst hxc
    refine ⟨(a5 _).1 (List.mem_map.2 ⟨x, hx, rfl⟩), ?_, ?_⟩
    · simp only [add_unreachable, u1, Nat.zero_add]
      exact hunr _
    · simp only [add_unreachable, u2]
      exact hfit _
  have hnames : (first :: rest).map (fun x => x.hostname) =
      ol.hosts.map (fun x => x.hostname) := by
    rw [← hmap, List.map_map]
    rfl
  obtain ⟨pre, post, hdec, hpre, hpost⟩ := pick_best_spec rest [] [] first 0 1
    (by intro c hc; simp at hc) (by intro c hc; simp at hc)
  simp only [List.nil_append] at hdec
  have hbmem : (pick_best 0 first 1 rest).2 ∈ first :: rest := by
    rw [hdec]; simp
  obtain ⟨b1, b2, b3⟩ := hscore _ hbmem
  refine ⟨(pick_best 0 first 1 rest).2.hostname, ?_, b1, ?_⟩
  · have hmod' : ¬ layout.ext_count % r ≠ 0 := by simpa using hmod
    simp only [layout_raid1_locate, hrep, hmod', if_false, hn, hol, g1, g2]
    simp
  · intro h hh
    obtain ⟨c, hc, hch⟩ := List.mem_map.1 ((a5 h).2 hh)
    have hc' : add_unreachable (unreachable_in ol.splits c.hostname) c ∈ first :: rest := by
      rw [← hmap]; exact List.mem_map.2 ⟨c, hc, rfl⟩
    obtain ⟨c1, c2, c3⟩ := hscore _ hc'
    have hcn : (add_unreachable (unreachable_in ol.splits c.hostname) c).hostname = h := hch
    rw [hcn] at c2 c3
    rw [← b2, ← b3, ← c2, ← c3]
    rw [hdec] at hc'
    rcases List.mem_append.1 hc' with hin | hin
    · have := (better_location_iff _ _).1 (hpre _ hin)
      refine ⟨by omega, by omega, by omega⟩
    · rcases List.mem_cons.1 hin with hin | hin
      · rw [← hin]
        refine ⟨Nat.le_refl _, fun _ => Nat.le_refl _, fun _ _ => ?_⟩
        rw [← hcn, hin]
        exact appears_before_self _ _ b1
      · have := (better_location_false_iff _ _).1 (hpost _ hin)
        refine ⟨by omega, by omega, fun _ _ => ?_⟩
        have hpw := a4
        rw [← hnames, hdec, List.map_append, List.map_cons, List.pairwise_append] at hpw
        have := (List.pairwise_cons.1 hpw.2.1).1 _ (List.mem_map.2 ⟨_, hin, rfl⟩)
        rw [hcn] at this
        exact this

/-- Witness for C1: `hostA` is discovered first, but `hostB` reaches both
splits and is returned. -/
theorem locate_returns_best_host_witness :
    layout_raid1_locate locate_example_dss locate_example_layout = .ok (some "hostB") ∧
    ∃ best, layout_raid1_locate locate_example_dss locate_example_layout = .ok (some best) ∧
      best ∈ reported_hosts locate_example_dss locate_example_layout 2 2 :=
  ⟨by decide,
   (locate_returns_best_host locate_example_dss locate_example_layout 2 rfl rfl
      (by decide) (by decide)).imp (fun _ hb => ⟨hb.1, hb.2.1⟩)⟩

/-! ### Responses of a pass -/

/-- C12 (code defect). A read allocation that requires 2 media among the
candidates `a` then `b`: when the preparation of `a` fails and the
preparation of `b` succeeds, the return code kept is the one of the last
preparation, so the handler answers with a positive response that names `b`
only (its second element is left as allocated) and rolls nothing back: the
state is the one the preparation of `b` left. -/
theorem read_alloc_partial_is_positive {ω : Type} (ops : sched_ops ω) (st : lrs_devs ω)
    (a b : pho_id)
    (ha : (ops.sched_read_prepare st a).1 ≠ 0)
    (hb : (ops.sched_read_prepare (ops.sched_read_prepare st a).2.1 b).1 = 0) :
    (sched_handle_read_alloc ops st 2 [a, b]).1 = 0 ∧
    (sched_handle_read_alloc ops st 2 [a, b]).2.2.body =
      .ralloc [read_elt_of_dev
        ((ops.sched_read_prepare (ops.sched_read_prepare st a).2.1 b).2.1.devices[
          (ops.sched_read_prepare (ops.sched_read_prepare st a).2.1 b).2.2]?) b,
        empty_read_elt] ∧
    (sched_handle_read_alloc ops st 2 [a, b]).2.1.devices =
      (ops.sched_read_prepare (ops.sched_read_prepare st a).2.1 b).2.1.devices := by
  simp [sched_handle_read_alloc, read_alloc_loop, ha, hb, read_resp_media]

/-- Witness for C12: the medium `/not/a/dir` cannot be prepared, the medium
`/tmp/test.pho.1` is; the response is positive with one medium out of the 2
required and the device stays busy. -/
theorem read_alloc_partial_is_positive_witness :
    (sched_handle_read_alloc read_ops test_sched_unit 2
        [⟨1, "/not/a/dir"⟩, ⟨1, "/tmp/test.pho.1"⟩]).2.2.body =
      .ralloc [⟨⟨1, "/tmp/test.pho.1"⟩, "/tmp/test.pho.1", 0, 0⟩, empty_read_elt] ∧
    (sched_handle_read_alloc read_ops test_sched_unit 2
        [⟨1, "/not/a/dir"⟩, ⟨1, "/tmp/test.pho.1"⟩]).2.1.devices.map (fun d => d.ongoing_io) =
      [true] :=
  ⟨(read_alloc_partial_is_positive read_ops test_sched_unit ⟨1, "/not/a/dir"⟩
      ⟨1, "/tmp/test.pho.1"⟩ (by decide) (by decide)).2.1.trans (by decide),
   by decide⟩

/-! ### Splits with no medium and splits with an unlocked medium -/

theorem add_host_flag (ol : object_location) (h : String) (k : Nat) :
    (add_host_object_location ol h k).all_splits_have_unlocked_media =
      ol.all_splits_have_unlocked_media := by
  unfold add_host_object_location
  split
  · rfl
  · split
    · rfl
    · split <;> rfl

theorem locate_split_enodev (dss : pho_id → Int × Option String) (k : Nat) :
    ∀ (exts : List extent) (ol : object_location) (enodev : Bool),
      (locate_split_extents dss ol k exts enodev).2 = (enodev && !(exts.any (located dss))) ∧
      (locate_split_extents dss ol k exts enodev).1.all_splits_have_unlocked_media =
        ol.all_splits_have_unlocked_media := by
  intro exts
  induction exts with
  | nil => intro ol enodev; simp [locate_split_extents]
  | cons e rest ih =>
    intro ol enodev
    by_cases hrc : (dss e.media).1 = 0
    · cases hh : (dss e.media).2 with
      | some h =>
        obtain ⟨i1, i2⟩ := ih (add_host_object_location ol h k) false
        simp only [locate_split_extents, hrc, hh, ne_eq, not_true_eq_false, if_false]
        refine ⟨?_, by rw [i2, add_host_flag]⟩
        rw [i1]; simp [located, hrc]
      | none =>
        obtain ⟨i1, i2⟩ := ih (object_location.mk ol.all_splits_have_unlocked_media
          ol.split_count ol.repl_count ol.hosts
          (update_split ol.splits k (fun s => { s with unlocked_media := true }))) false
        simp only [locate_split_extents, hrc, hh, ne_eq, not_true_eq_false, if_false]
        refine ⟨?_, by rw [i2]⟩
        rw [i1]; simp [located, hrc]
    · obtain ⟨i1, i2⟩ := ih ol enodev
      simp only [locate_split_extents, hrc, ne_eq, not_false_eq_true, if_true]
      refine ⟨?_, i2⟩
      rw [i1]; simp [located, hrc]

theorem locate_splits_enodev (dss : pho_id → Int × Option String) (layout : layout_info)
    (r : Nat) :
    ∀ (fuel k : Nat) (ol : object_location),
      (∃ s, k ≤ s ∧ s < k + fuel ∧ ∀ e ∈ split_extents layout r s, located dss e = false) →
      locate_splits dss layout r ol k fuel = .error (-ENODEV) := by
  intro fuel
  induction fuel with
  | zero => intro k ol ⟨s, h1, h2, _⟩; omega
  | succ fuel ih =>
    intro k ol ⟨s, h1, h2, h3⟩
    have i1 := (locate_split_enodev dss k (split_extents layout r k) ol true).1
    by_cases hany : (split_extents layout r k).any (located dss) = true
    · rw [hany] at i1
      simp only [Bool.not_true, Bool.and_false] at i1
      have hsk : s ≠ k := by
        intro hc
        subst hc
        obtain ⟨e, he, hl⟩ := List.any_eq_true.1 hany
        rw [h3 e he] at hl
        exact absurd hl (by decide)
      simp only [locate_splits, i1, Bool.false_eq_true, if_false]
      exact ih (k + 1) _ ⟨s, by omega, by omega, h3⟩
    · have hany' : (split_extents layout r k).any (located dss) = false := by
        simpa using hany
      rw [hany'] at i1
      simp only [Bool.not_false, Bool.and_true] at i1
      simp [locate_splits, i1]

theorem split_hosts_reported (dss : pho_id → Int × Option String) (layout : layout_info)
    (r : Nat) (s : Nat) (h : String) (hh : h ∈ split_hosts dss layout r s) :
    ∀ n, s < n → h ∈ reported_hosts dss layout r n := by
  intro n
  induction n with
  | zero => intro hs; omega
  | succ n ih =>
    intro hs
    simp only [reported_hosts, List.mem_append]
    by_cases hsn : s = n
    · subst hsn; exact Or.inr hh
    · exact Or.inl (ih (by omega))

theorem unlocked_of_no_host (dss : pho_id → Int × Option String) (layout : layout_info)
    (r n : Nat)
    (hloc : ∀ s, s < n → ∃ e ∈ split_extents layout r s, located dss e = true)
    (hnone : reported_hosts dss layout r n = []) :
    ∀ s, s < n → split_has_unlocked dss layout r s = true := by
  intro s hs
  obtain ⟨e, he, hl⟩ := hloc s hs
  have hrc : (dss e.media).1 = 0 := by simpa [located] using hl
  have hno : (dss e.media).2 = none := by
    cases hh : (dss e.media).2 with
    | none => rfl
    | some h =>
      have hm : h ∈ split_hosts dss layout r s := by
        simp only [split_hosts, List.mem_filterMap]
        exact ⟨e, he, by simp [located_host, hrc, hh]⟩
      have := split_hosts_reported dss layout r s h hm n hs
      rw [hnone] at this
      simp at this
  simp only [split_has_unlocked, List.any_eq_true]
  exact ⟨e, he, by simp [located_unlocked, hrc, hno]⟩

/-- The outer loop of the scan keeps the flag `all_splits_have_unlocked_media`
when every split has an unlocked medium. -/
theorem scan_flag_splits (dss : pho_id → Int × Option String) (layout : layout_info)
    (r n : Nat)
    (hloc : ∀ s, s < n → ∃ e ∈ split_extents layout r s, located dss e = true)
    (hun : ∀ s, s < n → split_has_unlocked dss layout r s = true) :
    ∀ (fuel k : Nat) (ol : object_location), k + fuel = n →
      scan_inv n ol (reported_hosts dss layout r k)
        (fun s => if s < k then (split_hosts dss layout r s, split_has_unlocked dss layout r s)
          else ([], false)) →
      ol.all_splits_have_unlocked_media = true →
      ∃ ol', locate_splits dss layout r ol k fuel = .ok ol' ∧
        scan_inv n ol' (reported_hosts dss layout r n)
          (fun s => (split_hosts dss layout r s, split_has_unlocked dss layout r s)) ∧
        ol'.all_splits_have_unlocked_media = true := by
  intro fuel
  induction fuel with
  | zero =>
    intro k ol hk hi hf
    have hkn : k = n := by omega
    subst hkn
    refine ⟨ol, rfl, ?_, hf⟩
    exact scan_inv_congr k ol _ _ _ (by intro s hs; simp [hs]) hi
  | succ fuel ih =>
    intro k ol hk hi hf
    have hkn : k < n := by omega
    obtain ⟨i1, i2⟩ := scan_inv_split dss n k hkn (split_extents layout r k) ol _ _ true hi
    have hflag := (locate_split_enodev dss k (split_extents layout r k) ol true).2
    have hany : (split_extents layout r k).any (located dss) = true := by
      obtain ⟨e, he, hl⟩ := hloc k hkn
      exact List.any_eq_true.2 ⟨e, he, hl⟩
    rw [hany] at i2
    simp only [Bool.not_true, Bool.and_false] at i2
    have i3 := scan_inv_congr n _ _ _
      (fun s => if s < k + 1 then
          (split_hosts dss layout r s, split_has_unlocked dss layout r s)
        else ([], false)) (by
        intro s _
        by_cases hsk : s = k
        · subst hsk
          simp [split_hosts, split_has_unlocked]
        · rw [Function.update_noteq hsk]
          by_cases hlt : s < k
          · have : s < k + 1 := by omega
            simp [hlt, this]
          · have : ¬ s < k + 1 := by omega
            simp [hlt, this]) i1
    have hsu : split_unlocked
        (locate_split_extents dss ol k (split_extents layout r k) true).1 k = true := by
      obtain ⟨sp, hsp, _, hsp2⟩ := i3.2.2.1 k hkn
      simp only [split_unlocked, hsp, hsp2]
      simp [hun k hkn]
    simp only [locate_splits, i2, Bool.false_eq_true, if_false, hsu, if_true]
    exact ih (k + 1) _ (by omega) i3 (by rw [hflag]; exact hf)

theorem hosts_nil_of_reported_nil (n : Nat) (ol : object_location)
    (seen : Nat → List String × Bool) (hi : scan_inv n ol [] seen) : ol.hosts = [] := by
  cases hh : ol.hosts with
  | nil => rfl
  | cons a l =>
    have := (hi.2.2.2.2.1 a.hostname).1 (by simp [hh])
    simp at this

/-- When every split has a medium that is found, `layout_raid1_locate`
returns 0: with a hostname when a medium is locked by a host, and otherwise
with `NULL`, every split having an unlocked medium. -/
theorem locate_ok_of_located (dss : pho_id → Int × Option String) (layout : layout_info)
    (r : Nat)
    (hrep : layout_repl_count layout = .ok r) (hmod : layout.ext_count % r = 0)
    (hloc : ∀ s, s < layout.ext_count / r →
      ∃ e ∈ split_extents layout r s, located dss e = true) :
    (reported_hosts dss layout r (layout.ext_count / r) ≠ [] →
      ∃ h, layout_raid1_locate dss layout = .ok (some h)) ∧
    (reported_hosts dss layout r (layout.ext_count / r) = [] →
      layout_raid1_locate dss layout = .ok none ∧
      ∀ s, s < layout.ext_count / r → split_has_unlocked dss layout r s = true) := by
  generalize hn : layout.ext_count / r = n at hloc ⊢
  have hinit := scan_inv_congr n _ _ _
    (fun s => if s < 0 then (split_hosts dss layout r s, split_has_unlocked dss layout r s)
      else ([], false)) (by intro s _; simp) (scan_inv_init n r)
  constructor
  · intro hcand
    obtain ⟨ol, hol, hinv⟩ := scan_inv_splits dss layout r n hloc n 0
      (init_object_location n r) (by omega) hinit
    have hne : ol.hosts ≠ [] := by
      intro hc
      obtain ⟨x, hx⟩ := List.exists_mem_of_ne_nil _ hcand
      have := (hinv.2.2.2.2.1 x).2 hx
      rw [hc] at this
      simp at this
    obtain ⟨first, rest, _, g1, g2⟩ := get_best_spec ol hne
    refine ⟨(pick_best 0 first 1 rest).2.hostname, ?_⟩
    simp [layout_raid1_locate, hrep, hmod, hn, hol, g1, g2]
  · intro hnone
    have hun := unlocked_of_no_host dss layout r n hloc hnone
    refine ⟨?_, hun⟩
    obtain ⟨ol, hol, hinv, hflag⟩ := scan_flag_splits dss layout r n hloc hun n 0
      (init_object_location n r) (by omega) hinit rfl
    rw [hnone] at hinv
    have hh := hosts_nil_of_reported_nil n ol _ hinv
    simp [layout_raid1_locate, hrep, hmod, hn, hol, get_best_object_location, hh, hflag]

theorem locate_enodev_of_lost_split (dss : pho_id → Int × Option String)
    (layout : layout_info) (r : Nat)
    (hrep : layout_repl_count layout = .ok r) (hmod : layout.ext_count % r = 0)
    (hlost : ∃ s, s < layout.ext_count / r ∧
      ∀ e ∈ split_extents layout r s, located dss e = false) :
    layout_raid1_locate dss layout = .err (-ENODEV) := by
  obtain ⟨s, hs, hl⟩ := hlost
  have := locate_splits_enodev dss layout r (layout.ext_count / r) 0
    (init_object_location (layout.ext_count / r) r) ⟨s, by omega, by omega, hl⟩
  simp [layout_raid1_locate, hrep, hmod, this]

theorem located_or_lost (dss : pho_id → Int × Option String) (layout : layout_info)
    (r n : Nat) :
    (∀ s, s < n → ∃ e ∈ split_extents layout r s, located dss e = true) ∨
    (∃ s, s < n ∧ ∀ e ∈ split_extents layout r s, located dss e = false) := by
  by_cases h : ∃ s, s < n ∧ ∀ e ∈ split_extents layout r s, located dss e = false
  · exact Or.inr h
  · left
    intro s hs
    by_contra hc
    apply h
    refine ⟨s, hs, ?_⟩
    intro e he
    cases hl : located dss e with
    | false => rfl
    | true => exact absurd ⟨e, he, hl⟩ hc

/-- C17. For a layout with a valid replica count `r` whose extent count is a
multiple of `r`: `layout_raid1_locate` fails with `-ENODEV` if and only if
some split has no medium that the state index finds (the lookup fails for
every extent of the split), and the hostname it leaves is then `NULL`. -/
theorem locate_enodev_iff (dss : pho_id → Int × Option String) (layout : layout_info)
    (r : Nat)
    (hrep : layout_repl_count layout = .ok r) (hmod : layout.ext_count % r = 0) :
    (layout_raid1_locate dss layout = .err (-ENODEV) ↔
      ∃ s, s < layout.ext_count / r ∧
        ∀ e ∈ split_extents layout r s, located dss e = false) ∧
    (layout_raid1_locate dss layout = .err (-ENODEV) →
      locate_hostname (layout_raid1_locate dss layout) = none) := by
  refine ⟨⟨?_, locate_enodev_of_lost_split dss layout r hrep hmod⟩, ?_⟩
  · intro herr
    rcases located_or_lost dss layout r (layout.ext_count / r) with hloc | hlost
    · obtain ⟨h1, h2⟩ := locate_ok_of_located dss layout r hrep hmod hloc
      by_cases hc : reported_hosts dss layout r (layout.ext_count / r) = []
      · rw [(h2 hc).1] at herr
        exact absurd herr (by simp)
      · obtain ⟨h, hh⟩ := h1 hc
        rw [hh] at herr
        exact absurd herr (by simp)
    · exact hlost
  · intro herr
    rw [herr]
    rfl

/-- Witness for C17: the second split of the layout has no medium that is
found. -/
theorem locate_enodev_iff_witness :
    layout_raid1_locate locate_lost_split_dss locate_example_layout = .err (-ENODEV) :=
  (locate_enodev_iff locate_lost_split_dss locate_example_layout 2 rfl rfl).1.2
    ⟨1, by decide, by decide⟩

/-- C18. For a layout with a valid replica count `r` whose extent count is a
multiple of `r`, `layout_raid1_locate` never reaches the branch that must
not occur; when no split fails with `-ENODEV` and no medium is locked by a
host, every split has an unlocked medium and the function returns 0 with a
`NULL` hostname. -/
theorem locate_never_asserts (dss : pho_id → Int × Option String) (layout : layout_info)
    (r : Nat)
    (hrep : layout_repl_count layout = .ok r) (hmod : layout.ext_count % r = 0) :
    layout_raid1_locate dss layout ≠ .assert_failed ∧
    ((∀ s, s < layout.ext_count / r →
        ∃ e ∈ split_extents layout r s, located dss e = true) →
      reported_hosts dss layout r (layout.ext_count / r) = [] →
      (∀ s, s < layout.ext_count / r → split_has_unlocked dss layout r s = true) ∧
      layout_raid1_locate dss layout = .ok none) := by
  constructor
  · rcases located_or_lost dss layout r (layout.ext_count / r) with hloc | hlost
    · obtain ⟨h1, h2⟩ := locate_ok_of_located dss layout r hrep hmod hloc
      by_cases hc : reported_hosts dss layout r (layout.ext_count / r) = []
      · rw [(h2 hc).1]; simp
      · obtain ⟨h, hh⟩ := h1 hc
        rw [hh]; simp
    · rw [locate_enodev_of_lost_split dss layout r hrep hmod hlost]; simp
  · intro hloc hnone
    obtain ⟨_, h2⟩ := locate_ok_of_located dss layout r hrep hmod hloc
    exact ⟨(h2 hnone).2, (h2 hnone).1⟩

/-- Witness for C18: a layout with no split, and a layout whose media are
all unlocked. -/
theorem locate_never_asserts_witness :
    layout_raid1_locate locate_example_dss locate_empty_layout = .ok none ∧
    layout_raid1_locate (fun _ => (0, none)) locate_example_layout = .ok none :=
  ⟨((locate_never_asserts locate_example_dss locate_empty_layout 2 rfl rfl).2
      (by decide) (by decide)).2,
   ((locate_never_asserts (fun _ => (0, none)) locate_example_layout 2 rfl rfl).2
      (by decide) (by decide)).2⟩

/-! ### Choice of a device for a write -/

theorem best_fit_step_spec (cfg : lrs_cfg) (devices : List dev_descr) (op_st : dev_op_status)
    (required_size : Nat) (media_tags : List String) (itr : dev_descr) (i : Nat)
    (selected : Option Nat) :
    dev_picker_step cfg devices op_st select_best_fit required_size media_tags none true
        itr i selected =
      if fits_write cfg op_st required_size media_tags itr = true then
        dev_picker_select devices select_best_fit required_size itr i selected
      else .next selected := by
  unfold dev_picker_step fits_write
  by_cases hb : itr.ongoing_io = true
  · simp [hb]
  · by_cases hs : itr.op_status = .PHO_DEV_OP_ST_FAILED ∨
        (op_st ≠ .PHO_DEV_OP_ST_UNSPEC ∧ itr.op_status ≠ op_st)
    · rw [if_neg hb, if_pos hs]
      rcases hs with hs | ⟨hs1, hs2⟩
      · simp [hs]
      · simp [hs1, hs2]
    · rw [if_neg hb, if_neg hs]
      have hs' : itr.op_status ≠ .PHO_DEV_OP_ST_FAILED ∧
          (op_st = .PHO_DEV_OP_ST_UNSPEC ∨ itr.op_status = op_st) := by
        constructor
        · intro hc; exact hs (Or.inl hc)
        · by_contra hc
          push_neg at hc
          exact hs (Or.inr hc)
      cases hm : itr.dss_media_info with
      | none =>
        simp [dev_picker_select, select_best_fit, hm]
      | some m =>
        by_cases hw : medium_not_writable cfg m media_tags = true
        · have : ¬ (m.adm_status = .PHO_RSC_ADM_ST_UNLOCKED ∧
              m.fs_stat ≠ .PHO_FS_STATUS_FULL ∧ m.flag_put = true ∧
              (media_tags.length = 0 ∨ cfg.tags_in m.tags media_tags = true)) := by
            intro ⟨c1, c2, c3, c4⟩
            simp [medium_not_writable, c1, c2, c3] at hw
            rcases c4 with c4 | c4
            · omega
            · simp [c4] at hw
          simp only [Option.any_some, hw, and_self, if_true]
          rw [if_neg]
          intro hc
          apply this
          simp at hc
          refine ⟨hc.2.1.1.1.1, hc.2.1.1.1.2, hc.2.1.1.2, ?_⟩
          rcases hc.2.1.2 with h | h
          · left; simp [h]
          · right; exact h
        · have hw' : medium_not_writable cfg m media_tags = false := by simpa using hw
          have hw2 : m.adm_status = .PHO_RSC_ADM_ST_UNLOCKED ∧
              m.fs_stat ≠ .PHO_FS_STATUS_FULL ∧ m.flag_put = true ∧
              (media_tags.length = 0 ∨ cfg.tags_in m.tags media_tags = true) := by
            simp only [medium_not_writable, Bool.or_eq_false_iff, decide_eq_false_iff_not,
              Bool.not_eq_false', Bool.and_eq_false_iff, ne_eq, not_not] at hw'
            obtain ⟨⟨⟨c1, c2⟩, c3⟩, c4⟩ := hw'
            refine ⟨c1, c2, c3, ?_⟩
            rcases c4 with c4 | c4
            · left; simpa using c4
            · right; simpa using c4
          simp only [Option.any_some, hw', Bool.false_eq_true, and_false, if_false]
          by_cases hfree : m.stats.phys_spc_free < required_size
          · have : ¬ required_size ≤ m.stats.phys_spc_free := by omega
            simp [dev_picker_select, select_best_fit, hm, hfree, this]
          · have : required_size ≤ m.stats.phys_spc_free := by omega
            rw [if_pos]
            simp only [Bool.and_eq_true, Bool.not_eq_true', decide_eq_true_eq,
              Bool.or_eq_true]
            refine ⟨⟨⟨?_, hs'.1⟩, hs'.2⟩, ⟨⟨⟨hw2.1, hw2.2.1⟩, hw2.2.2.1⟩, hw2.2.2.2⟩, this⟩
            simpa using hb

theorem fits_write_media (cfg : lrs_cfg) (op_st : dev_op_status) (required_size : Nat)
    (media_tags : List String) (d : dev_descr)
    (h : fits_write cfg op_st required_size media_tags d = true) :
    ∃ m, d.dss_media_info = some m ∧ required_size ≤ m.stats.phys_spc_free ∧
      dev_free_space d = m.stats.phys_spc_free := by
  unfold fits_write at h
  cases hm : d.dss_media_info with
  | none => simp [hm] at h
  | some m =>
    simp [hm] at h
    exact ⟨m, rfl, h.2.2, by simp [dev_free_space, hm]⟩

theorem best_fit_inv_skip (cfg : lrs_cfg) (devices : List dev_descr) (op_st : dev_op_status)
    (required_size : Nat) (media_tags : List String) (n : Nat) (selected : Option Nat)
    (itr : dev_descr) (hidx : devices[n]? = some itr)
    (hf : ¬ fits_write cfg op_st required_size media_tags itr = true)
    (hi : best_fit_inv cfg devices op_st required_size media_tags n selected) :
    best_fit_inv cfg devices op_st required_size media_tags (n + 1) selected := by
  cases selected with
  | none =>
    intro j d hj hd
    by_cases hjn : j = n
    · subst hjn
      rw [hidx] at hd
      cases hd
      simpa using hf
    · exact hi j d (by omega) hd
  | some s =>
    obtain ⟨dev, h1, h2, h3, h4⟩ := hi
    refine ⟨dev, h1, by omega, h3, ?_⟩
    intro j d hj hd hfd
    by_cases hjn : j = n
    · subst hjn
      rw [hidx] at hd
      cases hd
      exact absurd hfd hf
    · exact h4 j d (by omega) hd hfd

theorem best_fit_inv_first (cfg : lrs_cfg) (devices : List dev_descr) (op_st : dev_op_status)
    (required_size : Nat) (media_tags : List String) (n : Nat)
    (itr : dev_descr) (hidx : devices[n]? = some itr)
    (hf : fits_write cfg op_st required_size media_tags itr = true)
    (hi : best_fit_inv cfg devices op_st required_size media_tags n none) :
    best_fit_inv cfg devices op_st required_size media_tags (n + 1) (some n) := by
  refine ⟨itr, hidx, by omega, hf, ?_⟩
  intro j d hj hd hfd
  by_cases hjn : j = n
  · subst hjn
    rw [hidx] at hd
    cases hd
    exact ⟨le_refl _, fun h => absurd h (by omega)⟩
  · have := hi j d (by omega) hd
    rw [this] at hfd
    exact absurd hfd (by decide)

theorem best_fit_inv_better (cfg : lrs_cfg) (devices : List dev_descr) (op_st : dev_op_status)
    (required_size : Nat) (media_tags : List String) (n s : Nat)
    (itr dev : dev_descr) (hidx : devices[n]? = some itr) (hs : devices[s]? = some dev)
    (hf : fits_write cfg op_st required_size media_tags itr = true)
    (hlt : dev_free_space itr < dev_free_space dev)
    (hi : best_fit_inv cfg devices op_st required_size media_tags n (some s)) :
    best_fit_inv cfg devices op_st required_size media_tags (n + 1) (some n) := by
  obtain ⟨dev', h1, h2, h3, h4⟩ := hi
  rw [hs] at h1
  cases h1
  refine ⟨itr, hidx, by omega, hf, ?_⟩
  intro j d hj hd hfd
  by_cases hjn : j = n
  · subst hjn
    rw [hidx] at hd
    cases hd
    exact ⟨le_refl _, fun h => absurd h (by omega)⟩
  · have := (h4 j d (by omega) hd hfd).1
    exact ⟨by omega, fun _ => by omega⟩

theorem best_fit_inv_keep (cfg : lrs_cfg) (devices : List dev_descr) (op_st : dev_op_status)
    (required_size : Nat) (media_tags : List String) (n s : Nat)
    (itr dev : dev_descr) (hidx : devices[n]? = some itr) (hs : devices[s]? = some dev)
    (hge : dev_free_space dev ≤ dev_free_space itr)
    (hi : best_fit_inv cfg devices op_st required_size media_tags n (some s)) :
    best_fit_inv cfg devices op_st required_size media_tags (n + 1) (some s) := by
  obtain ⟨dev', h1, h2, h3, h4⟩ := hi
  have h1' := h1
  rw [hs] at h1'
  cases h1'
  refine ⟨dev, h1, by omega, h3, ?_⟩
  intro j d hj hd hfd
  by_cases hjn : j = n
  · subst hjn
    rw [hidx] at hd
    cases hd
    exact ⟨hge, fun h => absurd h (by omega)⟩
  · exact h4 j d (by omega) hd hfd

theorem best_fit_inv_exact (cfg : lrs_cfg) (devices : List dev_descr) (op_st : dev_op_status)
    (required_size : Nat) (media_tags : List String) (n : Nat)
    (itr : dev_descr) (hidx : devices[n]? = some itr)
    (he : dev_free_space itr = required_size)
    (hi : best_fit_inv cfg devices op_st required_size media_tags (n + 1) (some n)) :
    best_fit_inv cfg devices op_st required_size media_tags devices.length (some n) := by
  obtain ⟨dev, h1, h2, h3, h4⟩ := hi
  have h1' := h1
  rw [hidx] at h1'
  cases h1'
  have hlen : n < devices.length := (List.getElem?_eq_some_iff.1 hidx).1
  refine ⟨itr, h1, hlen, h3, ?_⟩
  intro j d hj hd hfd
  by_cases hjn : j < n + 1
  · exact h4 j d hjn hd hfd
  · obtain ⟨m, _, hm2, hm3⟩ := fits_write_media cfg op_st required_size media_tags d hfd
    exact ⟨by omega, fun h => absurd h (by omega)⟩

theorem best_fit_loop (cfg : lrs_cfg) (devices : List dev_descr) (op_st : dev_op_status)
    (required_size : Nat) (media_tags : List String) :
    ∀ (rest pre : List dev_descr) (selected : Option Nat),
      devices = pre ++ rest →
      best_fit_inv cfg devices op_st required_size media_tags pre.length selected →
      ∃ r, dev_picker_loop cfg devices op_st select_best_fit required_size media_tags none
          true rest pre.length selected = some r ∧
        best_fit_inv cfg devices op_st required_size media_tags devices.length r := by
  intro rest
  induction rest with
  | nil =>
    intro pre selected hd hi
    refine ⟨selected, rfl, ?_⟩
    have hl : devices.length = pre.length := by rw [hd]; simp
    rw [hl]
    exact hi
  | cons itr rest ih =>
    intro pre selected hd hi
    have hidx : devices[pre.length]? = some itr := by
      rw [hd, List.getElem?_append_right (le_refl _)]
      simp
    have hd' : devices = (pre ++ [itr]) ++ rest := by simp [hd]
    have hlen : (pre ++ [itr]).length = pre.length + 1 := by simp
    simp only [dev_picker_loop]
    rw [best_fit_step_spec]
    by_cases hf : fits_write cfg op_st required_size media_tags itr = true
    · rw [if_pos hf]
      obtain ⟨m, hm, hreq, hfree⟩ := fits_write_media cfg op_st required_size media_tags itr hf
      have hnlt : ¬ m.stats.phys_spc_free < required_size := by omega
      cases selected with
      | none =>
        have hnext := best_fit_inv_first cfg devices op_st required_size media_tags pre.length
          itr hidx hf hi
        by_cases he : required_size = m.stats.phys_spc_free
        · refine ⟨some pre.length, ?_, ?_⟩
          · simp [dev_picker_select, select_best_fit, hm, hnlt, he]
          · exact best_fit_inv_exact cfg devices op_st required_size media_tags pre.length itr
              hidx (by omega) hnext
        · have := ih (pre ++ [itr]) (some pre.length) hd' (by rw [hlen]; exact hnext)
          rw [hlen] at this
          simpa [dev_picker_select, select_best_fit, hm, hnlt, he] using this
      | some s =>
        obtain ⟨dev, hs, hslt, hsfit, hsmin⟩ := hi
        obtain ⟨ms, hms, _, hsfree⟩ :=
          fits_write_media cfg op_st required_size media_tags dev hsfit
        have hi' : best_fit_inv cfg devices op_st required_size media_tags pre.length
            (some s) := ⟨dev, hs, hslt, hsfit, hsmin⟩
        by_cases hlt : m.stats.phys_spc_free < ms.stats.phys_spc_free
        · have hnext := best_fit_inv_better cfg devices op_st required_size media_tags
            pre.length s itr dev hidx hs hf (by omega) hi'
          by_cases he : required_size = m.stats.phys_spc_free
          · refine ⟨some pre.length, ?_, ?_⟩
            · simp [dev_picker_select, select_best_fit, hm, hnlt, he, hs, hms, hlt]
            · exact best_fit_inv_exact cfg devices op_st required_size media_tags pre.length
                itr hidx (by omega) hnext
          · have := ih (pre ++ [itr]) (some pre.length) hd' (by rw [hlen]; exact hnext)
            rw [hlen] at this
            simpa [dev_picker_select, select_best_fit, hm, hnlt, he, hs, hms, hlt] using this
        · have hnext := best_fit_inv_keep cfg devices op_st required_size media_tags
            pre.length s itr dev hidx hs (by omega) hi'
          have := ih (pre ++ [itr]) (some s) hd' (by rw [hlen]; exact hnext)
          rw [hlen] at this
          simpa [dev_picker_select, select_best_fit, hm, hnlt, hs, hms, hlt] using this
    · rw [if_neg hf]
      have hnext := best_fit_inv_skip cfg devices op_st required_size media_tags pre.length
        selected itr hidx hf hi
      have := ih (pre ++ [itr]) selected hd' (by rw [hlen]; exact hnext)
      rw [hlen] at this
      exact this

theorem update_dev_length (f : dev_descr → dev_descr) :
    ∀ (l : List dev_descr) (k : Nat), (update_dev l k f).length = l.length := by
  intro l
  induction l with
  | nil => intro k; simp [update_dev]
  | cons a rest ih =>
    intro k
    cases k with
    | zero => simp [update_dev]
    | succ k => simp [update_dev, ih]

theorem update_dev_get_same (f : dev_descr → dev_descr) :
    ∀ (l : List dev_descr) (k : Nat), (update_dev l k f)[k]? = l[k]?.map f := by
  intro l
  induction l with
  | nil => intro k; simp [update_dev]
  | cons a rest ih =>
    intro k
    cases k with
    | zero => simp [update_dev]
    | succ k => simp [update_dev, ih]

theorem update_dev_get_other (f : dev_descr → dev_descr) :
    ∀ (l : List dev_descr) (k s : Nat), s ≠ k → (update_dev l k f)[s]? = l[s]? := by
  intro l
  induction l with
  | nil => intro k s _; simp [update_dev]
  | cons a rest ih =>
    intro k s hs
    cases k with
    | zero =>
      cases s with
      | zero => exact absurd rfl hs
      | succ s => simp [update_dev]
    | succ k =>
      cases s with
      | zero => simp [update_dev]
      | succ s => simp [update_dev]; exact ih k s (by omega)

/-- C15. `dev_picker` with the policy `select_best_fit`, for a write and with
no medium to check the drives against, always returns. It returns no device
exactly when no device fits (idle, not failed, in the requested status, with
a medium that is administratively unlocked, not full, open to puts, carrying
the requested tags and with at least the required free space), and the
devices are then unchanged. Otherwise the device returned fits, no fitting
device has less free space, every fitting device before it has strictly more,
and the devices are unchanged but for the busy flag of the device returned,
which is set. -/
theorem best_fit_picks_smallest_fitting (cfg : lrs_cfg) (devices : List dev_descr)
    (op_st : dev_op_status) (required_size : Nat) (media_tags : List String) :
    ∃ res, dev_picker cfg devices op_st select_best_fit required_size media_tags none true =
        some res ∧
      (res.2 = none ↔
        ∀ d ∈ devices, fits_write cfg op_st required_size media_tags d = false) ∧
      (res.2 = none → res.1 = devices) ∧
      ∀ i, res.2 = some i →
        ∃ dev, devices[i]? = some dev ∧
          fits_write cfg op_st required_size media_tags dev = true ∧
          (∀ j d, devices[j]? = some d →
            fits_write cfg op_st required_size media_tags d = true →
            dev_free_space dev ≤ dev_free_space d ∧
            (j < i → dev_free_space dev < dev_free_space d)) ∧
          res.1.length = devices.length ∧
          res.1[i]? = some { dev with ongoing_io := true } ∧
          ∀ j, j ≠ i → res.1[j]? = devices[j]? := by
  obtain ⟨r, hr, hinv⟩ := best_fit_loop cfg devices op_st required_size media_tags devices []
    none (by simp) (by intro j d hj; simp at hj)
  simp only [List.length_nil] at hr
  cases r with
  | none =>
    refine ⟨(devices, none), by simp [dev_picker, hr], ?_, fun _ => rfl, ?_⟩
    · refine ⟨fun _ => ?_, fun _ => rfl⟩
      intro d hd
      obtain ⟨j, hj, hjd⟩ := List.getElem_of_mem hd
      exact hinv j d hj (by rw [List.getElem?_eq_getElem hj, hjd])
    · intro i hi
      simp at hi
  | some s =>
    obtain ⟨dev, h1, h2, h3, h4⟩ := hinv
    refine ⟨(update_dev devices s (fun d => { d with ongoing_io := true }), some s),
      by simp [dev_picker, hr], ?_, ?_, ?_⟩
    · constructor
      · intro hc
        simp at hc
      intro hc
      have := hc dev (List.getElem?_mem h1)
      rw [this] at h3
      exact absurd h3 (by decide)
    · intro hc
      simp at hc
    · intro i hi
      simp only [Option.some.injEq] at hi
      subst hi
      refine ⟨dev, h1, h3, ?_, update_dev_length _ _ _, ?_, ?_⟩
      · intro j d hd hfd
        have hj : j < devices.length := (List.getElem?_eq_some_iff.1 hd).1
        exact h4 j d hj hd hfd
      · rw [update_dev_get_same, h1]
        rfl
      · intro j hj
        exact update_dev_get_other _ _ _ _ hj

/-! ### Freeing a drive -/

theorem dev_picker_loop_busy (cfg : lrs_cfg) (devices : List dev_descr) (op_st : dev_op_status)
    (select_func : device_select_func_t) (required_size : Nat) (media_tags : List String)
    (pmedia : Option media_info) (is_write : Bool) :
    ∀ (rest : List dev_descr) (i : Nat) (selected : Option Nat),
      (∀ d ∈ rest, d.ongoing_io = true) →
      dev_picker_loop cfg devices op_st select_func required_size media_tags pmedia is_write
        rest i selected = some selected := by
  intro rest
  induction rest with
  | nil => intro i selected _; rfl
  | cons itr rest ih =>
    intro i selected h
    have hb : itr.ongoing_io = true := h itr (List.mem_cons_self _ _)
    simp only [dev_picker_loop, dev_picker_step, hb, if_true]
    exact ih (i + 1) selected (fun d hd => h d (List.mem_cons_of_mem _ hd))

theorem compatible_drive_exists_loop_first (cfg : lrs_cfg) (devices : List dev_descr)
    (pmedia : Option media_info) (n_selected_devs : Nat) (hn : 0 < n_selected_devs) :
    ∀ (rest pre : List dev_descr), devices = pre ++ rest →
      compatible_drive_exists_loop cfg devices pmedia (some 0) n_selected_devs rest
        pre.length = some false := by
  intro rest
  induction rest with
  | nil => intro pre _; rfl
  | cons dev rest ih =>
    intro pre hd
    have hidx : devices[0 + pre.length]? = some dev := by
      rw [hd, Nat.zero_add, List.getElem?_append_right (le_refl _)]
      simp
    have hd' : devices = (pre ++ [dev]) ++ rest := by simp [hd]
    have hlen : (pre ++ [dev]).length = pre.length + 1 := by simp
    have hnext := ih (pre ++ [dev]) hd'
    rw [hlen] at hnext
    have hsel : is_already_selected devices dev pre.length (some 0) n_selected_devs =
        some true := by
      have : n_selected_devs ≠ 0 := by omega
      simp only [is_already_selected, this, if_false, hidx]
      simp
    simp only [compatible_drive_exists_loop, hsel, hnext, ite_self]

/-- C16 (code defect). While the first device selected for a request is the
first device of the scheduler, `compatible_drive_exists` takes every device
for already selected, because it compares each device with
`selected_devs[i]`, which is then the device itself. So when no drive can be
freed because all are busy, `sched_free_one_device` fails with `-ENODEV`,
whatever drives exist. -/
theorem free_one_device_enodev_when_all_busy (cfg : lrs_cfg) (io : dev_descr → empty_outcome)
    (devices : List dev_descr) (pmedia : Option media_info) (n_selected_devs fuel : Nat)
    (hbusy : ∀ d ∈ devices, d.ongoing_io = true) (hn : 0 < n_selected_devs) :
    sched_free_one_device cfg io devices pmedia (some 0) n_selected_devs (fuel + 1) =
      some (-ENODEV, devices, none) := by
  have h1 := dev_picker_loop_busy cfg devices .PHO_DEV_OP_ST_UNSPEC select_drive_to_free 0 []
    pmedia false devices 0 none hbusy
  have h2 := compatible_drive_exists_loop_first cfg devices pmedia n_selected_devs hn devices
    [] (by simp)
  simp only [List.length_nil] at h2
  simp [sched_free_one_device, dev_picker, h1, compatible_drive_exists, h2]

/-- Witness for C16: the drive `d0` is selected for the request and the drive
`d1`, which is not failed, is not selected and can write the tape, is busy:
the answer is `-ENODEV`, where the same call with no device selected yet
answers `-EAGAIN`. -/
theorem free_one_device_enodev_when_all_busy_witness :
    tape_drive_compat test_cfg spare_tape (tape_drive "d1" "t1" 20 true) = (0, true) ∧
    sched_free_one_device test_cfg empty_io_ok two_busy_drives (some spare_tape) (some 0) 1 1 =
      some (-ENODEV, two_busy_drives, none) ∧
    sched_free_one_device test_cfg empty_io_ok two_busy_drives (some spare_tape) none 0 1 =
      some (-EAGAIN, two_busy_drives, none) :=
  ⟨by decide,
   free_one_device_enodev_when_all_busy test_cfg empty_io_ok two_busy_drives (some spare_tape)
     1 0 (by decide) (by decide),
   by decide⟩

/-! ### Update of a medium on release -/

theorem sched_media_update_skip (media : media_info) (media_rc : Int) (io : sync_outcome)
    (hst : media.fs_stat ≠ .PHO_FS_STATUS_EMPTY) (hfree : media.stats.phys_spc_free ≠ 0) :
    sched_media_update media 0 media_rc false io = (0, media, none) := by
  simp [sched_media_update, hst, hfree]

theorem sched_media_update_failed (media : media_info) (size_written : Nat) (media_rc : Int)
    (is_full : Bool) (io : sync_outcome) (h : io.fs_adapter_rc ≠ 0 ∨ io.df_rc ≠ 0) :
    (sched_media_update media size_written media_rc is_full io).2 = (media, none) := by
  unfold sched_media_update
  split
  · rfl
  · split
    · rfl
    · split
      · rfl
      · rename_i h1 h2
        rcases h with h | h
        · exact absurd h h1
        · exact absurd h h2

theorem sched_media_update_done (media : media_info) (size_written : Nat) (media_rc : Int)
    (is_full : Bool) (io : sync_outcome)
    (hfs : io.fs_adapter_rc = 0) (hdf : io.df_rc = 0)
    (htrig : size_written ≠ 0 ∨ media.fs_stat = .PHO_FS_STATUS_EMPTY ∨ is_full = true ∨
      media.stats.phys_spc_free = 0) :
    sched_media_update media size_written media_rc is_full io =
      (io.set_rc,
       { media with stats := updated_stats media size_written media_rc io,
                    fs_stat := updated_fs_status media size_written media_rc is_full io },
       some (updated_fields media size_written media_rc is_full io)) := by
  have hn : ¬ ¬ (size_written ≠ 0 ∨ media.fs_stat = .PHO_FS_STATUS_EMPTY ∨ is_full = true ∨
      media.stats.phys_spc_free = 0) := not_not.2 htrig
  unfold sched_media_update
  rw [if_neg hn]
  simp only [hfs, hdf, ne_eq, not_true_eq_false, if_false]
  by_cases h1 : size_written = 0 <;> by_cases h2 : media_rc = 0 <;>
    by_cases h3 : media.fs_stat = .PHO_FS_STATUS_EMPTY <;> by_cases h4 : is_full = true <;>
    by_cases h5 : media.stats.phys_spc_free = 0 <;> by_cases h6 : io.spc.spc_avail = 0 <;>
    simp [updated_stats, updated_fs_status, updated_fields, h1, h2, h3, h4, h5, h6]

theorem sched_io_complete_synced (g : Int → Bool) (media : media_info) (size_written : Nat)
    (media_rc : Int) (io : sync_outcome) (hio : io.io_adapter_rc = 0)
    (hsync : io.sync_rc = 0) :
    sched_io_complete g media size_written media_rc io =
      sched_media_update media size_written media_rc (g media_rc || g 0) io := by
  simp [sched_io_complete, hio, hsync]

/-- C19. A release flagged `to_sync` reaches `sched_io_complete`; when the
flush, the query of the filesystem and the update of the state index
succeed: with `size_written > 0` the row of the medium gains one object, its
physical used and free space are those the filesystem reports, and its
logical used space grows by `size_written` when the return code of the
client is 0 and is unchanged otherwise. The status of the row becomes full
when the return code is a medium-global error or the free space (refreshed
when `size_written > 0`) is 0; otherwise it becomes used when the medium was
empty, and is unchanged when it was not. With `size_written = 0` on a medium
that is not empty, not flagged full and not out of free space, neither the
row nor the medium information is touched. -/
theorem sync_updates_medium_row (g : Int → Bool) (row media : media_info)
    (size_written : Nat) (media_rc : Int) (io : sync_outcome)
    (hio : io.io_adapter_rc = 0) (hsync : io.sync_rc = 0) (hfs : io.fs_adapter_rc = 0)
    (hdf : io.df_rc = 0) (hset : io.set_rc = 0) :
    (sched_io_complete g media size_written media_rc io).1 = 0 ∧
    (0 < size_written →
      (synced_row g row media size_written media_rc io).stats.nb_obj = row.stats.nb_obj + 1 ∧
      (synced_row g row media size_written media_rc io).stats.phys_spc_used =
        io.spc.spc_used ∧
      (synced_row g row media size_written media_rc io).stats.phys_spc_free =
        io.spc.spc_avail ∧
      (synced_row g row media size_written media_rc io).stats.logc_spc_used =
        row.stats.logc_spc_used + (if media_rc = 0 then size_written else 0)) ∧
    (synced_row g row media size_written media_rc io).fs_stat =
      (if (g media_rc || g 0) = true ∨
          (if size_written ≠ 0 then io.spc.spc_avail else media.stats.phys_spc_free) = 0 then
        .PHO_FS_STATUS_FULL
      else if media.fs_stat = .PHO_FS_STATUS_EMPTY then .PHO_FS_STATUS_USED
      else row.fs_stat) ∧
    (size_written = 0 → media.fs_stat ≠ .PHO_FS_STATUS_EMPTY → (g media_rc || g 0) = false →
      media.stats.phys_spc_free ≠ 0 →
      sched_io_complete g media size_written media_rc io = (0, media, none) ∧
      synced_row g row media size_written media_rc io = row) := by
  have hc := sched_io_complete_synced g media size_written media_rc io hio hsync
  by_cases htrig : size_written ≠ 0 ∨ media.fs_stat = .PHO_FS_STATUS_EMPTY ∨
      (g media_rc || g 0) = true ∨ media.stats.phys_spc_free = 0
  · have hd := sched_media_update_done media size_written media_rc (g media_rc || g 0) io
      hfs hdf htrig
    rw [hset] at hd
    refine ⟨by rw [hc, hd], ?_, ?_, ?_⟩
    · intro hsw
      have hsw' : size_written ≠ 0 := by omega
      simp only [synced_row, hc, hd, row_after_sync, if_true, dss_media_set_update,
        updated_fields, updated_stats, hsw', ne_eq, not_false_eq_true, decide_True,
        if_true, true_and]
      by_cases hrc : media_rc = 0 <;> simp [hrc]
    · simp only [synced_row, hc, hd, row_after_sync, if_true, dss_media_set_update,
        updated_fields, updated_fs_status]
      by_cases h1 : size_written = 0 <;>
        by_cases h3 : media.fs_stat = .PHO_FS_STATUS_EMPTY <;>
        by_cases h4 : (g media_rc || g 0) = true <;>
        by_cases h5 : media.stats.phys_spc_free = 0 <;>
        by_cases h6 : io.spc.spc_avail = 0 <;>
        simp [updated_stats, h1, h3, h4, h5, h6]
    · intro hsw hst hfull hfree
      exfalso
      rcases htrig with h | h | h | h
      · exact h hsw
      · exact hst h
      · rw [hfull] at h; exact absurd h (by decide)
      · exact hfree h
  · have hsw : size_written = 0 := by
      by_contra hc'
      exact htrig (Or.inl hc')
    have hst : media.fs_stat ≠ .PHO_FS_STATUS_EMPTY := fun h => htrig (Or.inr (Or.inl h))
    have hfull : (g media_rc || g 0) = false := by
      cases hb : (g media_rc || g 0) with
      | false => rfl
      | true => exact absurd (Or.inr (Or.inr (Or.inl hb))) htrig
    have hfree : media.stats.phys_spc_free ≠ 0 := fun h => htrig (Or.inr (Or.inr (Or.inr h)))
    have hskip := sched_media_update_skip media media_rc io hst hfree
    subst hsw
    rw [hfull] at hc
    rw [hskip] at hc
    refine ⟨by rw [hc], fun h => absurd h (by omega), ?_, ?_⟩
    · simp [synced_row, hc, row_after_sync, hfull, hfree, hst]
    · intro _ _ _ _
      exact ⟨hc, by simp [synced_row, hc, row_after_sync]⟩

/-- Witness for C19: 10 bytes written with success on an empty medium that
the filesystem then reports with 10 bytes used and 90 bytes free. -/
theorem sync_updates_medium_row_witness :
    synced_row test_global_error
        { test_medium "m" with fs_stat := .PHO_FS_STATUS_EMPTY }
        { test_medium "m" with fs_stat := .PHO_FS_STATUS_EMPTY } 10 0 (sync_ok 10 90) =
      { test_medium "m" with fs_stat := .PHO_FS_STATUS_USED, stats := ⟨1, 10, 10, 90⟩ } ∧
    (synced_row test_global_error
        { test_medium "m" with fs_stat := .PHO_FS_STATUS_EMPTY }
        { test_medium "m" with fs_stat := .PHO_FS_STATUS_EMPTY } 10 0
        (sync_ok 10 90)).stats.nb_obj = 0 + 1 :=
  ⟨by decide,
   ((sync_updates_medium_row test_global_error
      { test_medium "m" with fs_stat := .PHO_FS_STATUS_EMPTY }
      { test_medium "m" with fs_stat := .PHO_FS_STATUS_EMPTY } 10 0 (sync_ok 10 90)
      rfl rfl rfl rfl rfl).2.1 (by decide)).1⟩

/-! ### Two identical releases -/

theorem search_loaded_from_some :
    ∀ (devices : List dev_descr) (name : String) (k i : Nat),
      search_loaded_from devices name k = some i →
      k ≤ i ∧ ∃ dev m, devices[i - k]? = some dev ∧ dev.dss_media_info = some m ∧
        name = m.id.name := by
  intro devices
  induction devices with
  | nil => intro name k i h; simp [search_loaded_from] at h
  | cons d rest ih =>
    intro name k i h
    unfold search_loaded_from at h
    split at h
    · obtain ⟨h1, dev, m, h2, h3⟩ := ih name (k + 1) i h
      refine ⟨by omega, dev, m, ?_, h3⟩
      have : i - k = (i - (k + 1)) + 1 := by omega
      rw [this]
      simpa using h2
    · split at h
      · obtain ⟨h1, dev, m, h2, h3⟩ := ih name (k + 1) i h
        refine ⟨by omega, dev, m, ?_, h3⟩
        have : i - k = (i - (k + 1)) + 1 := by omega
        rw [this]
        simpa using h2
      · rename_i media hm
        split at h
        · rename_i hn
          cases h
          exact ⟨le_refl _, d, media, by simp, hm, hn⟩
        · obtain ⟨h1, dev, m, h2, h3⟩ := ih name (k + 1) i h
          refine ⟨by omega, dev, m, ?_, h3⟩
          have : i - k = (i - (k + 1)) + 1 := by omega
          rw [this]
          simpa using h2

theorem search_loaded_from_update (f : dev_descr → dev_descr) :
    ∀ (devices : List dev_descr) (name : String) (k j : Nat),
      (∀ d, devices[j]? = some d → (f d).op_status = d.op_status ∧
        (f d).dss_media_info.map (fun m => m.id.name) =
          d.dss_media_info.map (fun m => m.id.name)) →
      search_loaded_from (update_dev devices j f) name k =
        search_loaded_from devices name k := by
  intro devices
  induction devices with
  | nil => intro name k j _; rfl
  | cons d rest ih =>
    intro name k j h
    cases j with
    | zero =>
      obtain ⟨h1, h2⟩ := h d (by simp)
      simp only [update_dev, search_loaded_from, h1]
      cases hm : d.dss_media_info with
      | none =>
        rw [hm] at h2
        have : (f d).dss_media_info = none := by simpa using h2
        simp [this]
      | some m =>
        rw [hm] at h2
        cases hm' : (f d).dss_media_info with
        | none => rw [hm'] at h2; simp at h2
        | some m' =>
          rw [hm'] at h2
          have : m'.id.name = m.id.name := by simpa using h2
          simp [this]
    | succ j =>
      simp only [update_dev, search_loaded_from]
      rw [ih name (k + 1) j (fun d hd => h d (by simpa using hd))]

theorem update_dev_twice (f g : dev_descr → dev_descr) :
    ∀ (l : List dev_descr) (k : Nat),
      update_dev (update_dev l k f) k g = update_dev l k (fun d => g (f d)) := by
  intro l
  induction l with
  | nil => intro k; rfl
  | cons a rest ih =>
    intro k
    cases k with
    | zero => rfl
    | succ k => simp [update_dev, ih]

theorem update_dev_congr (f g : dev_descr → dev_descr) :
    ∀ (l : List dev_descr) (k : Nat), (∀ d, l[k]? = some d → f d = g d) →
      update_dev l k f = update_dev l k g := by
  intro l
  induction l with
  | nil => intro k _; rfl
  | cons a rest ih =>
    intro k h
    cases k with
    | zero => simp [update_dev, h a (by simp)]
    | succ k => simp [update_dev, ih k (fun d hd => h d (by simpa using hd))]

theorem sched_media_update_idle (media : media_info) (size_written : Nat) (media_rc : Int)
    (is_full : Bool) (io : sync_outcome)
    (htrig : ¬ (size_written ≠ 0 ∨ media.fs_stat = .PHO_FS_STATUS_EMPTY ∨ is_full = true ∨
      media.stats.phys_spc_free = 0)) :
    sched_media_update media size_written media_rc is_full io = (0, media, none) := by
  unfold sched_media_update
  rw [if_pos htrig]

theorem sched_media_update_id (media : media_info) (size_written : Nat) (media_rc : Int)
    (is_full : Bool) (io : sync_outcome) :
    (sched_media_update media size_written media_rc is_full io).2.1.id = media.id := by
  by_cases htrig : size_written ≠ 0 ∨ media.fs_stat = .PHO_FS_STATUS_EMPTY ∨ is_full = true ∨
      media.stats.phys_spc_free = 0
  · by_cases hfs : io.fs_adapter_rc = 0
    · by_cases hdf : io.df_rc = 0
      · rw [sched_media_update_done media size_written media_rc is_full io hfs hdf htrig]
      · rw [sched_media_update_failed media size_written media_rc is_full io (Or.inr hdf)]
    · rw [sched_media_update_failed media size_written media_rc is_full io (Or.inl hfs)]
  · rw [sched_media_update_idle media size_written media_rc is_full io htrig]

theorem sched_io_complete_id (g : Int → Bool) (media : media_info) (size_written : Nat)
    (media_rc : Int) (io : sync_outcome) :
    (sched_io_complete g media size_written media_rc io).2.1.id = media.id := by
  unfold sched_io_complete
  split
  · rfl
  · split
    · rfl
    · exact sched_media_update_id _ _ _ _ _

theorem search_loaded_media_some (devices : List dev_descr) (name : String) (i : Nat)
    (h : search_loaded_media devices name = some i) :
    ∃ dev m, devices[i]? = some dev ∧ dev.dss_media_info = some m ∧ name = m.id.name := by
  obtain ⟨_, dev, m, h1, h2, h3⟩ := search_loaded_from_some devices name 0 i h
  exact ⟨dev, m, by simpa using h1, h2, h3⟩

theorem medium_release_not_loaded {ω : Type} (ops : sched_ops ω) (st : lrs_devs ω)
    (medium : pho_req_release_elt)
    (h : search_loaded_media st.devices medium.med_id.name = none) :
    sched_handle_medium_release ops st medium = (-ENOENT, st) := by
  simp [sched_handle_medium_release, h]

theorem medium_release_no_sync {ω : Type} (ops : sched_ops ω) (st : lrs_devs ω)
    (medium : pho_req_release_elt) (i : Nat)
    (h : search_loaded_media st.devices medium.med_id.name = some i)
    (hs : medium.to_sync = false) :
    sched_handle_medium_release ops st medium =
      (0, lrs_devs.mk (update_dev st.devices i (fun d => { d with ongoing_io := false }))
        st.world) := by
  obtain ⟨dev, m, h1, _, _⟩ := search_loaded_media_some st.devices _ i h
  simp [sched_handle_medium_release, h, h1, hs]

theorem medium_release_sync (g : Int → Bool) (io : String → sync_outcome)
    (ops : sched_ops (List media_info)) (st : lrs_devs (List media_info))
    (medium : pho_req_release_elt) (i : Nat) (dev : dev_descr) (m : media_info)
    (hops : ops.sched_io_complete = sched_io_complete_op g io)
    (h : search_loaded_media st.devices medium.med_id.name = some i)
    (h1 : st.devices[i]? = some dev) (h2 : dev.dss_media_info = some m)
    (hs : medium.to_sync = true) :
    sched_handle_medium_release ops st medium =
      ((sched_io_complete g m medium.size_written medium.rc (io dev.mnt_path)).1,
       synced_state g io st medium i dev m) := by
  obtain ⟨dev', m', h1', h2', h3'⟩ := search_loaded_media_some st.devices _ i h
  rw [h1] at h1'
  cases h1'
  rw [h2] at h2'
  cases h2'
  have h' : search_loaded_media st.devices m.id.name = some i := by rw [← h3']; exact h
  simp only [sched_handle_medium_release, h, h1, h2, hs, if_true, hops, sched_io_complete_op,
    h', update_dev_twice]
  rfl

theorem row_after_two_syncs_same (g : Int → Bool) (row m : media_info) (rc : Int)
    (o : sync_outcome) :
    row_after_sync (row_after_sync row (sched_io_complete g m 0 rc o))
        (sched_io_complete g (sched_io_complete g m 0 rc o).2.1 0 rc o) =
      row_after_sync row (sched_io_complete g m 0 rc o) := by
  by_cases hio : o.io_adapter_rc = 0
  · by_cases hsync : o.sync_rc = 0
    · by_cases hfs : o.fs_adapter_rc = 0
      · by_cases hdf : o.df_rc = 0
        · by_cases h1 : o.set_rc = 0 <;> by_cases h2 : (g rc || g 0) = true <;>
            by_cases h3 : m.fs_stat = .PHO_FS_STATUS_EMPTY <;>
            by_cases h4 : m.stats.phys_spc_free = 0 <;>
            simp [sched_io_complete, sched_media_update, row_after_sync, dss_media_set_update,
              hio, hsync, hfs, hdf, h1, h2, h3, h4]
        · simp [sched_io_complete, sched_media_update, row_after_sync, hio, hsync, hfs, hdf]
          split_ifs <;> simp
      · simp [sched_io_complete, sched_media_update, row_after_sync, hio, hsync, hfs]
        split_ifs <;> simp
    · simp [sched_io_complete, row_after_sync, hio, hsync]
  · simp [sched_io_complete, row_after_sync, hio]

theorem row_after_two_syncs_counts (g : Int → Bool) (row m : media_info) (size_written : Nat)
    (rc : Int) (o : sync_outcome) (hsw : 0 < size_written)
    (hio : o.io_adapter_rc = 0) (hsync : o.sync_rc = 0) (hfs : o.fs_adapter_rc = 0)
    (hdf : o.df_rc = 0) (hset : o.set_rc = 0) :
    row_after_sync (row_after_sync row (sched_io_complete g m size_written rc o))
        (sched_io_complete g (sched_io_complete g m size_written rc o).2.1 size_written rc o) =
      count_object (row_after_sync row (sched_io_complete g m size_written rc o))
        (if rc = 0 then size_written else 0) := by
  have hsw' : size_written ≠ 0 := by omega
  rw [sched_io_complete_synced g m size_written rc o hio hsync,
    sched_io_complete_synced g _ size_written rc o hio hsync]
  generalize (g rc || g 0) = full
  rw [sched_media_update_done m size_written rc full o hfs hdf (Or.inl hsw'),
    sched_media_update_done _ size_written rc full o hfs hdf (Or.inl hsw')]
  by_cases h1 : rc = 0 <;> by_cases h2 : full = true <;>
    by_cases h3 : m.fs_stat = .PHO_FS_STATUS_EMPTY <;>
    by_cases h4 : o.spc.spc_avail = 0 <;>
    simp [row_after_sync, dss_media_set_update, count_object, updated_stats,
      updated_fs_status, updated_fields, hset, hsw', h1, h2, h3, h4]

theorem row_after_sync_id (row : media_info) (r : Int × media_info × Option media_fields) :
    (row_after_sync row r).id = row.id := by
  unfold row_after_sync
  split
  · split <;> rfl
  · rfl

theorem map_update_dev_congr {β : Type} (p : dev_descr → β) (f f' : dev_descr → dev_descr)
    (h : ∀ d, p (f d) = p (f' d)) :
    ∀ (l : List dev_descr) (k : Nat),
      (update_dev l k f).map p = (update_dev l k f').map p := by
  intro l
  induction l with
  | nil => intro k; rfl
  | cons a rest ih =>
    intro k
    cases k with
    | zero => simp [update_dev, h]
    | succ k => simp [update_dev, ih k]

/-- C20 (amended). Handling a release request a second time leaves the busy
flag of every device as the first handling left it. It leaves the table of
the state index as the first handling left it when the medium is not to be
synced or nothing was written. When the medium is to be synced,
`size_written > 0` and the calls of both handlings succeed, the second
handling counts the write again: the row of the medium gains one more object
and, when the return code of the client is 0, `size_written` more bytes of
logical space; its physical space and its status are as after the first
handling. -/
theorem second_release_counts_again (g : Int → Bool) (io : String → sync_outcome)
    (ops : sched_ops (List media_info)) (st : lrs_devs (List media_info))
    (medium : pho_req_release_elt)
    (hops : ops.sched_io_complete = sched_io_complete_op g io) :
    (released_twice ops st medium).devices.map (fun d => d.ongoing_io) =
      (released_once ops st medium).devices.map (fun d => d.ongoing_io) ∧
    ((medium.to_sync = false ∨ medium.size_written = 0) →
      (released_twice ops st medium).world = (released_once ops st medium).world) ∧
    (∀ i dev m, search_loaded_media st.devices medium.med_id.name = some i →
      st.devices[i]? = some dev → dev.dss_media_info = some m →
      medium.to_sync = true → 0 < medium.size_written →
      (io dev.mnt_path).io_adapter_rc = 0 → (io dev.mnt_path).sync_rc = 0 →
      (io dev.mnt_path).fs_adapter_rc = 0 → (io dev.mnt_path).df_rc = 0 →
      (io dev.mnt_path).set_rc = 0 →
      (released_twice ops st medium).world =
        (released_once ops st medium).world.map (fun row =>
          if row.id = m.id then
            count_object row (if medium.rc = 0 then medium.size_written else 0)
          else row)) := by
  cases hsearch : search_loaded_media st.devices medium.med_id.name with
  | none =>
    have h1 := medium_release_not_loaded ops st medium hsearch
    have ho : released_once ops st medium = st := by simp [released_once, h1]
    have ht : released_twice ops st medium = st := by
      simp [released_twice, ho, h1]
    rw [ho, ht]
    refine ⟨rfl, fun _ => rfl, ?_⟩
    intro i dev m hc
    simp at hc
  | some i =>
    obtain ⟨dev, m, hd, hm, hname⟩ := search_loaded_media_some st.devices _ i hsearch
    cases hs : medium.to_sync with
    | false =>
      have h1 := medium_release_no_sync ops st medium i hsearch hs
      have ho : released_once ops st medium =
          lrs_devs.mk (update_dev st.devices i (fun d => { d with ongoing_io := false }))
            st.world := by simp [released_once, h1]
      have hsearch' : search_loaded_media (released_once ops st medium).devices
          medium.med_id.name = some i := by
        rw [ho]
        simp only [search_loaded_media]
        rw [search_loaded_from_update (fun d => { d with ongoing_io := false }) st.devices _ 0
          i (fun d _ => ⟨rfl, rfl⟩)]
        exact hsearch
      have h2 := medium_release_no_sync ops (released_once ops st medium) medium i hsearch' hs
      have ht : released_twice ops st medium =
          lrs_devs.mk (update_dev (released_once ops st medium).devices i
            (fun d => { d with ongoing_io := false })) (released_once ops st medium).world := by
        simp [released_twice, h2]
      refine ⟨?_, ?_, ?_⟩
      · rw [ht, ho]
        simp only [update_dev_twice]
      · intro _
        rw [ht]
      · intro i' dev' m' _ _ _ hc
        exact absurd hc (by simp)
    | true =>
      have h1 := medium_release_sync g io ops st medium i dev m hops hsearch hd hm hs
      have ho : released_once ops st medium = synced_state g io st medium i dev m := by
        simp only [released_once]
        rw [h1]
      have hid := sched_io_complete_id g m medium.size_written medium.rc (io dev.mnt_path)
      have hd' : (released_once ops st medium).devices[i]? = some (released_device
          (sched_io_complete g m medium.size_written medium.rc (io dev.mnt_path)).2.1
          dev) := by
        rw [ho]
        simp only [synced_state]
        rw [update_dev_get_same, hd]
        rfl
      have hsearch' : search_loaded_media (released_once ops st medium).devices
          medium.med_id.name = some i := by
        rw [ho]
        simp only [search_loaded_media, synced_state]
        rw [search_loaded_from_update (released_device
          (sched_io_complete g m medium.size_written medium.rc (io dev.mnt_path)).2.1)
          st.devices _ 0 i (by
          intro d hdd
          rw [hd] at hdd
          cases hdd
          refine ⟨rfl, ?_⟩
          simp [released_device, hm, hid])]
        exact hsearch
      have h2 := medium_release_sync g io ops (released_once ops st medium) medium i _ _ hops
        hsearch' hd' rfl hs
      have ht : released_twice ops st medium =
          synced_state g io (synced_state g io st medium i dev m) medium i
            (released_device
              (sched_io_complete g m medium.size_written medium.rc (io dev.mnt_path)).2.1 dev)
            (sched_io_complete g m medium.size_written medium.rc (io dev.mnt_path)).2.1 := by
        simp only [released_twice]
        rw [h2, ho]
      refine ⟨?_, ?_, ?_⟩
      · rw [ht, ho]
        simp only [synced_state, update_dev_twice]
        apply map_update_dev_congr (fun d => d.ongoing_io)
        intro d
        rfl
      · intro hcase
        have hsw : medium.size_written = 0 := by
          rcases hcase with hc | hc
          · exact absurd hc (by decide)
          · exact hc
        rw [ht, ho]
        simp only [synced_state, List.map_map]
        apply List.map_congr_left
        intro row _
        have hmnt : (released_device
            (sched_io_complete g m medium.size_written medium.rc (io dev.mnt_path)).2.1
            dev).mnt_path = dev.mnt_path := rfl
        simp only [Function.comp, hid, hmnt]
        by_cases hrow : row.id = m.id
        · simp only [hrow, if_true, row_after_sync_id]
          rw [hsw]
          exact row_after_two_syncs_same g row m medium.rc (io dev.mnt_path)
        · simp [hrow]
      · intro i' dev' m' hi' hdev' hm' _ hsw h1 h2 h3 h4 h5
        cases hi'
        rw [hd] at hdev'
        cases hdev'
        rw [hm] at hm'
        cases hm'
        rw [ht, ho]
        simp only [synced_state, List.map_map]
        apply List.map_congr_left
        intro row _
        have hmnt : (released_device
            (sched_io_complete g m medium.size_written medium.rc (io dev.mnt_path)).2.1
            dev).mnt_path = dev.mnt_path := rfl
        simp only [Function.comp, hid, hmnt]
        by_cases hrow : row.id = m.id
        · simp only [hrow, if_true, row_after_sync_id]
          exact row_after_two_syncs_counts g row m medium.size_written medium.rc
            (io dev.mnt_path) hsw h1 h2 h3 h4 h5
        · simp [hrow]

/-- Witness for C20 (amended): the release of 10 bytes written with success,
handled twice. -/
theorem second_release_counts_again_witness :
    (released_twice (release_ops test_global_error (fun _ => sync_ok 10 90)) release_scene
        written_release).world =
      (released_once (release_ops test_global_error (fun _ => sync_ok 10 90)) release_scene
        written_release).world.map (fun row =>
          if row.id = (test_medium "/tmp/test.pho.1").id then
            count_object row (if written_release.rc = 0 then written_release.size_written
              else 0)
          else row) :=
  (second_release_counts_again test_global_error (fun _ => sync_ok 10 90)
    (release_ops test_global_error (fun _ => sync_ok 10 90)) release_scene written_release
    rfl).2.2 0 { test_device with ongoing_io := true } (test_medium "/tmp/test.pho.1")
    (by decide) rfl rfl rfl (by decide) rfl rfl rfl rfl rfl

/-- C20 (counterexample). A release of 10 bytes written with success on the
medium of `test_device`, whose row counts no object: after one handling the
row counts 1 object and 10 bytes of logical space, after two identical
handlings it counts 2 objects and 20 bytes, so the state index is not in the
state that one handling leaves. The busy flag of the device is cleared in
both. -/
theorem two_releases_count_two_objects :
    (released_once (release_ops test_global_error (fun _ => sync_ok 10 90)) release_scene
        written_release).world.map (fun r => r.stats) = [⟨1, 10, 10, 90⟩] ∧
    (released_twice (release_ops test_global_error (fun _ => sync_ok 10 90)) release_scene
        written_release).world.map (fun r => r.stats) = [⟨2, 20, 10, 90⟩] ∧
    (released_twice (release_ops test_global_error (fun _ => sync_ok 10 90)) release_scene
        written_release).world ≠
      (released_once (release_ops test_global_error (fun _ => sync_ok 10 90)) release_scene
        written_release).world ∧
    (released_twice (release_ops test_global_error (fun _ => sync_ok 10 90)) release_scene
        written_release).devices.map (fun d => d.ongoing_io) = [false] := by
  decide

/-! ### Rollback of a write allocation -/

theorem same_but_idle_refl (d : dev_descr) : same_but_idle d d := Or.inl rfl

theorem same_but_idle_trans (a b c : dev_descr) (h1 : same_but_idle a b)
    (h2 : same_but_idle b c) : same_but_idle a c := by
  rcases h1 with h1 | h1 <;> rcases h2 with h2 | h2
  · left; rw [h2, h1]
  · right; rw [h2, h1]
  · right; rw [h2, h1]
  · right; rw [h2, h1]

theorem same_but_idle_keeps_idle (a b : dev_descr) (h : same_but_idle a b)
    (ha : a.ongoing_io = false) : b.ongoing_io = false := by
  rcases h with h | h
  · rw [h]; exact ha
  · rw [h]

theorem update_dev_idle (i : Nat) :
    ∀ (l : List dev_descr),
      List.Forall₂ same_but_idle l (update_dev l i (fun d => { d with ongoing_io := false })) := by
  intro l
  induction l generalizing i with
  | nil => simp [update_dev]
  | cons a rest ih =>
    cases i with
    | zero =>
      simp only [update_dev]
      exact List.Forall₂.cons (Or.inr rfl) (List.forall₂_same.2 (fun d _ => Or.inl rfl))
    | succ i =>
      simp only [update_dev]
      exact List.Forall₂.cons (Or.inl rfl) (ih i)

theorem end_ongoing_io_idle (devices : List dev_descr) (name : String) :
    List.Forall₂ same_but_idle devices (end_ongoing_io devices name) := by
  unfold end_ongoing_io
  split
  · exact List.forall₂_same.2 (fun d _ => Or.inl rfl)
  · exact update_dev_idle _ _

theorem forall₂_same_but_idle_trans :
    ∀ (a b c : List dev_descr), List.Forall₂ same_but_idle a b →
      List.Forall₂ same_but_idle b c → List.Forall₂ same_but_idle a c := by
  intro a
  induction a with
  | nil =>
    intro b c h1 h2
    cases h1
    cases h2
    exact List.Forall₂.nil
  | cons x xs ih =>
    intro b c h1 h2
    cases h1 with
    | cons hx hxs =>
      cases h2 with
      | cons hy hys =>
        exact List.Forall₂.cons (same_but_idle_trans _ _ _ hx hy) (ih _ _ hxs hys)

theorem rollback_media_idle (names : List String) :
    ∀ (devices : List dev_descr),
      List.Forall₂ same_but_idle devices (rollback_media devices names) := by
  induction names with
  | nil => intro devices; exact List.forall₂_same.2 (fun d _ => Or.inl rfl)
  | cons n rest ih =>
    intro devices
    simp only [rollback_media]
    exact forall₂_same_but_idle_trans _ _ _ (end_ongoing_io_idle devices n) (ih _)

theorem forall₂_get {a b : List dev_descr} (h : List.Forall₂ same_but_idle a b) :
    ∀ (k : Nat) (d : dev_descr), a[k]? = some d →
      ∃ d', b[k]? = some d' ∧ same_but_idle d d' := by
  induction h with
  | nil => intro k d hd; simp at hd
  | cons hx _ ih =>
    intro k d hd
    cases k with
    | zero =>
      simp only [List.getElem?_cons_zero, Option.some.injEq] at hd
      subst hd
      exact ⟨_, by simp, hx⟩
    | succ k =>
      simp only [List.getElem?_cons_succ] at hd ⊢
      exact ih k d hd

theorem search_end_ongoing_io (devices : List dev_descr) (n name : String) :
    search_loaded_media (end_ongoing_io devices n) name = search_loaded_media devices name := by
  unfold end_ongoing_io
  split
  · rfl
  · simp only [search_loaded_media]
    exact search_loaded_from_update (fun d => { d with ongoing_io := false }) devices name 0 _
      (fun d _ => ⟨rfl, rfl⟩)

theorem rollback_media_released (names : List String) :
    ∀ (devices : List dev_descr) (name : String) (k : Nat), name ∈ names →
      search_loaded_media devices name = some k →
      ∃ d, (rollback_media devices names)[k]? = some d ∧ d.ongoing_io = false := by
  induction names with
  | nil => intro devices name k h; simp at h
  | cons n rest ih =>
    intro devices name k hmem hs
    simp only [rollback_media]
    by_cases hn : name = n
    · subst hn
      obtain ⟨dev, m, hd, _, _⟩ := search_loaded_media_some devices name k hs
      have h1 : (end_ongoing_io devices name)[k]? =
          some { dev with ongoing_io := false } := by
        simp only [end_ongoing_io, hs]
        rw [update_dev_get_same, hd]
        rfl
      obtain ⟨d', hd', hsame⟩ := forall₂_get (rollback_media_idle rest _) k _ h1
      exact ⟨d', hd', same_but_idle_keeps_idle _ _ hsame rfl⟩
    · have hmem' : name ∈ rest := by
        rcases List.mem_cons.1 hmem with h | h
        · exact absurd h hn
        · exact h
      exact ih _ name k hmem' (by rw [search_end_ongoing_io]; exact hs)

theorem write_alloc_loop_length {ω : Type} (ops : sched_ops ω)
    (media : List pho_req_write_elt) :
    ∀ (st : lrs_devs ω) (devs : List Nat) (done : List pho_resp_write_elt) (i : Nat),
      devs.length = done.length →
      (write_alloc_devs ops st media devs i).length =
        (write_alloc_loop ops st media devs done i).2.2.length ∧
      ((write_alloc_loop ops st media devs done i).1 ≠ 0 →
        (write_alloc_loop ops st media devs done i).2.2.length < done.length + media.length) := by
  induction media with
  | nil =>
    intro st devs done i h
    simp [write_alloc_devs, write_alloc_loop, h]
  | cons m rest ih =>
    intro st devs done i h
    by_cases hrc : (ops.sched_write_prepare st m.size m.tags devs i).1 = 0
    · simp only [write_alloc_devs, write_alloc_loop, hrc, ne_eq, not_true_eq_false, if_false]
      obtain ⟨h1, h2⟩ := ih (ops.sched_write_prepare st m.size m.tags devs i).2.1
        (devs ++ [(ops.sched_write_prepare st m.size m.tags devs i).2.2])
        (done ++ [write_elt_of_dev
          (ops.sched_write_prepare st m.size m.tags devs i).2.1.devices[
            (ops.sched_write_prepare st m.size m.tags devs i).2.2]?]) (i + 1) (by simp [h])
      refine ⟨h1, fun hne => ?_⟩
      have := h2 hne
      simp at this ⊢
      omega
    · simp [write_alloc_devs, write_alloc_loop, hrc, h]

/-- C13. When the allocation loop of `sched_handle_write_alloc` fails (return
code not 0), fewer media than requested were acquired and the handler
returns no write response: it returns `-EAGAIN` with a freed response, or 0
with an error response that carries the return code of the failed
preparation. The devices are those the failed preparation left, each of them
unchanged or with only its busy flag cleared, so op_status, mount path and
medium are kept. Every device where a medium acquired is found loaded has its
busy flag cleared; these are the devices acquired when each medium acquired
is found in the device that was selected for it, which the source asserts. -/
theorem failed_write_alloc_rolls_back {ω : Type} (ops : sched_ops ω) (st : lrs_devs ω)
    (req : pho_req) (media : List pho_req_write_elt)
    (hfail : (write_alloc_loop ops st media [] [] 0).1 ≠ 0) :
    (write_alloc_loop ops st media [] [] 0).2.2.length < media.length ∧
    (write_alloc_devs ops st media [] 0).length =
      (write_alloc_loop ops st media [] [] 0).2.2.length ∧
    (((sched_handle_write_alloc ops st req media).1 = -EAGAIN ∧
        (sched_handle_write_alloc ops st req media).2.2.body = .unset) ∨
      ((sched_handle_write_alloc ops st req media).1 = 0 ∧
        (sched_handle_write_alloc ops st req media).2.2.body =
          .error (write_alloc_loop ops st media [] [] 0).1 .RQ_WRITE)) ∧
    List.Forall₂ same_but_idle (write_alloc_loop ops st media [] [] 0).2.1.devices
      (sched_handle_write_alloc ops st req media).2.1.devices ∧
    (∀ e ∈ (write_alloc_loop ops st media [] [] 0).2.2, ∀ k,
      search_loaded_media (write_alloc_loop ops st media [] [] 0).2.1.devices e.med_id.name =
        some k →
      ∃ d, (sched_handle_write_alloc ops st req media).2.1.devices[k]? = some d ∧
        d.ongoing_io = false) ∧
    ((∀ (j : Nat) (e : pho_resp_write_elt) (k : Nat),
        (write_alloc_loop ops st media [] [] 0).2.2[j]? = some e →
        (write_alloc_devs ops st media [] 0)[j]? = some k →
        search_loaded_media (write_alloc_loop ops st media [] [] 0).2.1.devices
          e.med_id.name = some k) →
      ∀ k ∈ write_alloc_devs ops st media [] 0,
        ∃ d d', (write_alloc_loop ops st media [] [] 0).2.1.devices[k]? = some d ∧
          (sched_handle_write_alloc ops st req media).2.1.devices[k]? = some d' ∧
          d' = { d with ongoing_io := false }) := by
  obtain ⟨hlen, hlt⟩ := write_alloc_loop_length ops media st [] [] 0 rfl
  have hdevs : (sched_handle_write_alloc ops st req media).2.1.devices =
      rollback_media (write_alloc_loop ops st media [] [] 0).2.1.devices
        ((write_alloc_loop ops st media [] [] 0).2.2.map (fun e => e.med_id.name)) := by
    simp only [sched_handle_write_alloc, hfail, ne_eq, not_false_eq_true, if_true]
    split <;> rfl
  have hrel : ∀ e ∈ (write_alloc_loop ops st media [] [] 0).2.2, ∀ k,
      search_loaded_media (write_alloc_loop ops st media [] [] 0).2.1.devices e.med_id.name =
        some k →
      ∃ d, (sched_handle_write_alloc ops st req media).2.1.devices[k]? = some d ∧
        d.ongoing_io = false := by
    intro e he k hk
    rw [hdevs]
    exact rollback_media_released _ _ e.med_id.name k
      (List.mem_map.2 ⟨e, he, rfl⟩) hk
  have hframe : List.Forall₂ same_but_idle (write_alloc_loop ops st media [] [] 0).2.1.devices
      (sched_handle_write_alloc ops st req media).2.1.devices := by
    rw [hdevs]
    exact rollback_media_idle _ _
  refine ⟨by simpa using hlt hfail, hlen, ?_, hframe, hrel, ?_⟩
  · by_cases hag : (write_alloc_loop ops st media [] [] 0).1 = -EAGAIN
    · left
      have h3 : EAGAIN ≠ 0 := by decide
      simp [sched_handle_write_alloc, hag, pho_srl_response_free, h3]
    · right
      simp [sched_handle_write_alloc, hfail, hag]
  · intro hfound k hk
    obtain ⟨j, hj, hjk⟩ := List.getElem_of_mem hk
    have hj' : j < (write_alloc_loop ops st media [] [] 0).2.2.length := by rw [← hlen]; exact hj
    have he : (write_alloc_loop ops st media [] [] 0).2.2[j]? =
        some ((write_alloc_loop ops st media [] [] 0).2.2[j]) := List.getElem?_eq_getElem hj'
    have hkk : (write_alloc_devs ops st media [] 0)[j]? = some k := by
      rw [List.getElem?_eq_getElem hj, hjk]
    have hs := hfound j _ k he hkk
    obtain ⟨dev, m, hd, _, _⟩ := search_loaded_media_some _ _ k hs
    obtain ⟨d', hd', hsame⟩ := forall₂_get hframe k dev hd
    obtain ⟨d'', hd'', hidle⟩ := hrel _ (List.getElem_mem hj') k hs
    rw [hd'] at hd''
    cases hd''
    refine ⟨dev, d', hd, hd', ?_⟩
    rcases hsame with h | h
    · rw [h] at hidle ⊢
      cases dev
      simp_all
    · exact h

/-- Witness for C13: a request for 2 media whose first medium is acquired on
`test_device` and whose second medium finds no space: the response is an
error response with `-ENOSPC` and the device, busy after the loop, is idle
again, still mounted with its medium. -/
theorem failed_write_alloc_rolls_back_witness :
    (write_alloc_loop rollback_ops test_sched_unit [⟨10, []⟩, ⟨10, []⟩] [] []
        0).2.1.devices.map (fun d => d.ongoing_io) = [true] ∧
    (sched_handle_write_alloc rollback_ops test_sched_unit ⟨3, .walloc 1 []⟩
        [⟨10, []⟩, ⟨10, []⟩]).2.1.devices = [test_device] ∧
    (sched_handle_write_alloc rollback_ops test_sched_unit ⟨3, .walloc 1 []⟩
        [⟨10, []⟩, ⟨10, []⟩]).2.2.body = .error (-ENOSPC) .RQ_WRITE ∧
    ∃ d, (sched_handle_write_alloc rollback_ops test_sched_unit ⟨3, .walloc 1 []⟩
        [⟨10, []⟩, ⟨10, []⟩]).2.1.devices[0]? = some d ∧ d.ongoing_io = false :=
  ⟨by decide, by decide, by decide,
   (failed_write_alloc_rolls_back rollback_ops test_sched_unit ⟨3, .walloc 1 []⟩
      [⟨10, []⟩, ⟨10, []⟩] (by decide)).2.2.2.2.1
      ⟨⟨1, "/tmp/test.pho.1"⟩, 100, "/tmp/test.pho.1", 0, 0⟩ (by decide) 0 (by decide)⟩

/-! ### Media and devices of a write allocation -/

theorem update_dev_get (f : dev_descr → dev_descr) (devices : List dev_descr) (k : Nat)
    (d : dev_descr) (hk : devices[k]? = some d) (i : Nat) :
    (update_dev devices k f)[i]? = if i = k then some (f d) else devices[i]? := by
  by_cases h : i = k
  · subst h; rw [update_dev_get_same, hk]; simp
  · rw [update_dev_get_other _ _ _ _ h]; simp [h]

theorem consistent_update_dev (family : Nat) (devices : List dev_descr) (k : Nat)
    (f : dev_descr → dev_descr) (d : dev_descr) (hk : devices[k]? = some d)
    (hc : devices_consistent family devices)
    (hnew : ∀ id, loaded_medium (f d) = some id →
      id.family = family ∧
        ∀ (j : Nat) (dj : dev_descr), j ≠ k → devices[j]? = some dj →
          loaded_medium dj ≠ some id) :
    devices_consistent family (update_dev devices k f) := by
  obtain ⟨hf, hu⟩ := hc
  constructor
  · intro i x id hx hl
    rw [update_dev_get f devices k d hk] at hx
    by_cases h : i = k
    · simp [h] at hx; subst hx; exact (hnew id hl).1
    · simp [h] at hx; exact hf i x id hx hl
  · intro i j x y id hx hy hlx hly
    rw [update_dev_get f devices k d hk] at hx hy
    by_cases hi : i = k <;> by_cases hj : j = k
    · omega
    · simp [hi] at hx; simp [hj] at hy; subst hx
      exact absurd hly ((hnew id hlx).2 j y hj hy)
    · simp [hi] at hx; simp [hj] at hy; subst hy
      exact absurd hlx ((hnew id hly).2 i x hi hx)
    · simp [hi] at hx; simp [hj] at hy; exact hu i j x y id hx hy hlx hly

theorem consistent_update_same (family : Nat) (devices : List dev_descr) (k : Nat)
    (f : dev_descr → dev_descr) (d : dev_descr) (hk : devices[k]? = some d)
    (hc : devices_consistent family devices)
    (hsame : loaded_medium (f d) = none ∨ loaded_medium (f d) = loaded_medium d) :
    devices_consistent family (update_dev devices k f) := by
  apply consistent_update_dev family devices k f d hk hc
  intro id hid
  have hd : loaded_medium d = some id := by
    rcases hsame with h | h
    · rw [h] at hid; cases hid
    · rw [← h]; exact hid
  refine ⟨hc.1 k d id hk hd, ?_⟩
  intro j dj hj hdj hl
  exact hj (hc.2 j k dj d id hdj hk hl hd)

theorem devices_step_refl (devs : List Nat) (devices : List dev_descr) :
    devices_step devs devices devices :=
  ⟨fun _ _ => rfl, fun _ d' _ h1 h2 => ⟨d', h1, h2⟩⟩

theorem devices_step_trans (devs : List Nat) (a b c : List dev_descr)
    (h1 : devices_step devs a b) (h2 : devices_step devs b c) : devices_step devs a c := by
  refine ⟨fun j hj => (h2.1 j hj).trans (h1.1 j hj), ?_⟩
  intro i d' id hd hl
  obtain ⟨d, hd1, hl1⟩ := h2.2 i d' id hd hl
  exact h1.2 i d id hd1 hl1

theorem devices_step_update (devs : List Nat) (devices : List dev_descr) (k : Nat)
    (f : dev_descr → dev_descr) (d : dev_descr) (hk : devices[k]? = some d)
    (hout : k ∉ devs)
    (hsame : loaded_medium (f d) = none ∨ loaded_medium (f d) = loaded_medium d) :
    devices_step devs devices (update_dev devices k f) := by
  constructor
  · intro j hj
    have : j ≠ k := fun h => hout (h ▸ hj)
    exact update_dev_get_other f devices k j this
  · intro i d' id hd hl
    rw [update_dev_get f devices k d hk] at hd
    by_cases h : i = k
    · simp [h] at hd; subst hd
      refine ⟨d, h ▸ hk, ?_⟩
      rcases hsame with h1 | h1
      · rw [h1] at hl; cases hl
      · rw [← h1]; exact hl
    · simp [h] at hd; exact ⟨d', hd, hl⟩

theorem devices_step_consistent (family : Nat) (devs : List Nat)
    (devices devices' : List dev_descr) (hs : devices_step devs devices devices')
    (hc : devices_consistent family devices) : devices_consistent family devices' := by
  constructor
  · intro i d' id hd hl
    obtain ⟨d, hd1, hl1⟩ := hs.2 i d' id hd hl
    exact hc.1 i d id hd1 hl1
  · intro i j x y id hx hy hlx hly
    obtain ⟨x0, hx0, hlx0⟩ := hs.2 i x id hx hlx
    obtain ⟨y0, hy0, hly0⟩ := hs.2 j y id hy hly
    exact hc.2 i j x0 y0 id hx0 hy0 hlx0 hly0

theorem search_loaded_from_held :
    ∀ (devices : List dev_descr) (name : String) (k i : Nat),
      search_loaded_from devices name k = some i →
      k ≤ i ∧ ∃ d id, devices[i - k]? = some d ∧ loaded_medium d = some id ∧
        id.name = name := by
  intro devices
  induction devices with
  | nil => intro name k i h; simp [search_loaded_from] at h
  | cons a rest ih =>
    intro name k i h
    have hrec : search_loaded_from rest name (k + 1) = some i →
        k ≤ i ∧ ∃ d id, (a :: rest)[i - k]? = some d ∧ loaded_medium d = some id ∧
          id.name = name := by
      intro h1
      obtain ⟨hle, d, id, hd, hl, hn⟩ := ih name (k + 1) i h1
      refine ⟨by omega, d, id, ?_, hl, hn⟩
      have : i - k = (i - (k + 1)) + 1 := by omega
      rw [this]; simpa using hd
    unfold search_loaded_from at h
    by_cases hst : a.op_status ≠ .PHO_DEV_OP_ST_MOUNTED ∧ a.op_status ≠ .PHO_DEV_OP_ST_LOADED
    · rw [if_pos hst] at h; exact hrec h
    · rw [if_neg hst] at h
      cases hm : a.dss_media_info with
      | none => rw [hm] at h; exact hrec h
      | some m =>
        rw [hm] at h
        by_cases hn : name = m.id.name
        · simp only [hn, if_true] at h
          have hi : i = k := by cases h; rfl
          subst hi
          refine ⟨le_refl _, a, m.id, by simp, ?_, hn.symm⟩
          have hst2 : a.op_status = .PHO_DEV_OP_ST_MOUNTED ∨
              a.op_status = .PHO_DEV_OP_ST_LOADED := by
            by_contra hc
            exact hst ⟨fun h1 => hc (Or.inl h1), fun h1 => hc (Or.inr h1)⟩
          simp [loaded_medium, hst2, hm]
        · simp only [hn, if_false] at h; exact hrec h

theorem search_loaded_from_unheld :
    ∀ (devices : List dev_descr) (name : String) (k : Nat),
      search_loaded_from devices name k = none →
      ∀ (j : Nat) (dj : dev_descr) (id : pho_id), devices[j]? = some dj →
        loaded_medium dj = some id → id.name ≠ name := by
  intro devices
  induction devices with
  | nil => intro name k _ j dj id hj; simp at hj
  | cons a rest ih =>
    intro name k h j dj id hj hl
    unfold search_loaded_from at h
    have hrec : search_loaded_from rest name (k + 1) = none → 0 < j → id.name ≠ name := by
      intro h1 hpos
      obtain ⟨j', rfl⟩ : ∃ j', j = j' + 1 := ⟨j - 1, by omega⟩
      exact ih name (k + 1) h1 j' dj id (by simpa using hj) hl
    by_cases hst : a.op_status ≠ .PHO_DEV_OP_ST_MOUNTED ∧ a.op_status ≠ .PHO_DEV_OP_ST_LOADED
    · rw [if_pos hst] at h
      cases j with
      | zero =>
        simp at hj; subst hj
        have : loaded_medium a = none := by
          simp [loaded_medium, hst.1, hst.2]
        rw [this] at hl; cases hl
      | succ j' => exact hrec h (by omega)
    · rw [if_neg hst] at h
      cases hm : a.dss_media_info with
      | none =>
        rw [hm] at h
        cases j with
        | zero =>
          simp at hj; subst hj
          have : loaded_medium a = none := by simp [loaded_medium, hm]
          rw [this] at hl; cases hl
        | succ j' => exact hrec h (by omega)
      | some m =>
        rw [hm] at h
        by_cases hn : name = m.id.name
        · simp [hn] at h
        · simp only [hn, if_false] at h
          cases j with
          | zero =>
            simp at hj; subst hj
            have hid : id = m.id := by
              simp only [loaded_medium, hm, Option.map_some'] at hl
              split at hl
              · cases hl; rfl
              · cases hl
            rw [hid]; exact fun h1 => hn h1.symm
          | succ j' => exact hrec h (by omega)

theorem search_loaded_media_held (devices : List dev_descr) (name : String) (k : Nat)
    (h : search_loaded_media devices name = some k) :
    ∃ d id, devices[k]? = some d ∧ loaded_medium d = some id ∧ id.name = name := by
  obtain ⟨_, d, id, h1, h2, h3⟩ := search_loaded_from_held devices name 0 k h
  exact ⟨d, id, by simpa using h1, h2, h3⟩

theorem search_loaded_media_unheld (devices : List dev_descr) (name : String)
    (h : search_loaded_media devices name = none) (j : Nat) (dj : dev_descr) (id : pho_id)
    (hj : devices[j]? = some dj) (hl : loaded_medium dj = some id) : id.name ≠ name :=
  search_loaded_from_unheld devices name 0 h j dj id hj hl

theorem sched_mount_done (dev : dev_descr) (io : mount_outcome)
    (h : (sched_mount dev io).1 = 0) :
    (sched_mount dev io).2.op_status = .PHO_DEV_OP_ST_MOUNTED ∧
    (sched_mount dev io).2.dss_media_info = dev.dss_media_info ∧
    (sched_mount dev io).2.ongoing_io = dev.ongoing_io := by
  have hm : ENOMEM ≠ 0 := by decide
  have hi : EINVAL ≠ 0 := by decide
  by_cases h1 : io.fs_adapter_rc = 0
  · by_cases h2 : io.mounted_rc = 0
    · simp [sched_mount, h1, h2]
    · cases hb : io.basename with
      | none => simp [sched_mount, h1, h2, hb, hi] at h
      | some b =>
        cases hp : io.mount_point with
        | none => simp [sched_mount, h1, h2, hb, hp, hm] at h
        | some mnt_root =>
          by_cases h3 : io.mount_rc = 0
          · simp [sched_mount, h1, h2, hb, hp, h3]
          · simp [sched_mount, h1, h2, hb, hp, h3] at h
  · simp [sched_mount, h1] at h

theorem loaded_medium_device_release (dev : dev_descr) (io : empty_outcome) :
    loaded_medium (sched_device_release dev io) = loaded_medium dev ∧
    (sched_device_release dev io).ongoing_io = dev.ongoing_io := by
  unfold sched_device_release
  split <;> exact ⟨rfl, rfl⟩

theorem sched_umount_held (dev : dev_descr) (io : empty_outcome) :
    ((sched_umount dev io).1 ≠ 0 → loaded_medium (sched_umount dev io).2 = none) ∧
    ((sched_umount dev io).1 = 0 →
      (sched_umount dev io).2.op_status = .PHO_DEV_OP_ST_LOADED ∧
      (sched_umount dev io).2.dss_media_info = dev.dss_media_info ∧
      (sched_umount dev io).2.ongoing_io = dev.ongoing_io) := by
  by_cases h : (if io.fs_adapter_rc ≠ 0 then io.fs_adapter_rc else io.umount_rc) ≠ 0
  · have e : sched_umount dev io =
        ((if io.fs_adapter_rc ≠ 0 then io.fs_adapter_rc else io.umount_rc),
          sched_device_release
            { dev with
              op_status := .PHO_DEV_OP_ST_FAILED, ongoing_io := false
              dss_media_info := release_loaded_medium
                { dev with op_status := .PHO_DEV_OP_ST_FAILED, ongoing_io := false } io } io) := by
      unfold sched_umount
      rw [if_pos h]
    rw [e]
    refine ⟨fun _ => ?_, fun h0 => absurd h0 h⟩
    rw [(loaded_medium_device_release _ io).1]
    simp [loaded_medium]
  · have e : sched_umount dev io =
        (0, { dev with op_status := .PHO_DEV_OP_ST_LOADED, mnt_path := "" }) := by
      unfold sched_umount
      rw [if_neg h]
    rw [e]
    exact ⟨fun h0 => absurd rfl h0, fun _ => ⟨rfl, rfl, rfl⟩⟩

theorem sched_unload_medium_held (dev : dev_descr) (io : empty_outcome) :
    loaded_medium (sched_unload_medium dev io).2 = none ∧
    ((sched_unload_medium dev io).1 = 0 →
      (sched_unload_medium dev io).2.ongoing_io = dev.ongoing_io) := by
  by_cases h1 : io.lib_open_rc = 0 <;> by_cases h2 : io.move_rc = 0 <;>
    by_cases h3 : io.lib_close_rc = 0 <;> by_cases h4 : io.medium_unlock_rc = 0 <;>
    by_cases h5 : io.device_unlock_rc = 0 <;>
    simp [sched_unload_medium, sched_device_release, loaded_medium, h1, h2, h3, h4, h5]

theorem sched_empty_dev_held (dev : dev_descr) (io : empty_outcome) :
    (loaded_medium (sched_empty_dev dev io).2 = none ∨
      loaded_medium (sched_empty_dev dev io).2 = loaded_medium dev) ∧
    ((sched_empty_dev dev io).1 = 0 →
      (sched_empty_dev dev io).2.ongoing_io = dev.ongoing_io) := by
  by_cases hm : dev.op_status = .PHO_DEV_OP_ST_MOUNTED
  · by_cases hu : (sched_umount dev io).1 = 0
    · obtain ⟨h1, h2, h3⟩ := (sched_umount_held dev io).2 hu
      have e : sched_empty_dev dev io = sched_unload_medium (sched_umount dev io).2 io := by
        unfold sched_empty_dev
        simp only [hm, if_true, hu, h1, ne_eq, not_true_eq_false, if_false]
      rw [e]
      exact ⟨Or.inl (sched_unload_medium_held _ io).1,
        fun h => ((sched_unload_medium_held _ io).2 h).trans h3⟩
    · have e : sched_empty_dev dev io = sched_umount dev io := by
        unfold sched_empty_dev
        simp only [hm, if_true, hu, ne_eq, not_false_eq_true]
      rw [e]
      exact ⟨Or.inl ((sched_umount_held dev io).1 hu), fun h => absurd h hu⟩
  · by_cases hl : dev.op_status = .PHO_DEV_OP_ST_LOADED
    · have e : sched_empty_dev dev io = sched_unload_medium dev io := by
        unfold sched_empty_dev
        simp [hl]
      rw [e]
      exact ⟨Or.inl (sched_unload_medium_held _ io).1,
        fun h => (sched_unload_medium_held _ io).2 h⟩
    · have e : sched_empty_dev dev io = (0, dev) := by
        unfold sched_empty_dev
        simp only [hm, if_false, hl, ne_eq, not_true_eq_false]
      rw [e]
      exact ⟨Or.inr rfl, fun _ => rfl⟩

theorem sched_load_media_done (dev : dev_descr) (media : media_info) (lib : lib_outcome)
    (h : (sched_load_media dev media lib).1 = 0) :
    (sched_load_media dev media lib).2.1 =
      { dev with op_status := .PHO_DEV_OP_ST_LOADED, dss_media_info := some media } := by
  have he : EAGAIN ≠ 0 := by decide
  have hb : EBUSY ≠ 0 := by decide
  by_cases h1 : dev.op_status = .PHO_DEV_OP_ST_EMPTY
  · cases h2 : dev.dss_media_info with
    | some m => simp [sched_load_media, h1, h2, he] at h
    | none =>
      by_cases h3 : lib.open_rc = 0
      · by_cases h4 : lib.lookup_rc = 0
        · by_cases h5 : lib.move_rc = 0
          · by_cases h6 : lib.close_rc = 0
            · have h7 : ¬ ((0 : Int) = -EINVAL) := by decide
              simp [sched_load_media, h1, h2, h3, h4, h5, h6, h7]
            · have h7 : ¬ ((0 : Int) = -EINVAL) := by decide
              simp [sched_load_media, h1, h2, h3, h4, h5, h6, h7] at h
          · by_cases h6 : lib.close_rc = 0 <;>
              by_cases h7 : lib.move_rc = -EINVAL ∧ lib.media_lia_type = .MED_LOC_DRIVE ∧
                dev.lia_type = .MED_LOC_DRIVE <;>
              simp [sched_load_media, h1, h2, h3, h4, h5, h6, h7, hb] at h
        · by_cases h6 : lib.close_rc = 0 <;>
            simp [sched_load_media, h1, h2, h3, h4, h6] at h
      · simp [sched_load_media, h1, h2, h3] at h
  · simp [sched_load_media, h1, he] at h

theorem dev_picker_select_cases (devices : List dev_descr) (select_func : device_select_func_t)
    (required_size : Nat) (itr : dev_descr) (i : Nat) (selected s' : Option Nat)
    (h : dev_picker_select devices select_func required_size itr i selected = .next s' ∨
      dev_picker_select devices select_func required_size itr i selected = .stop s') :
    s' = selected ∨ s' = none ∨ s' = some i := by
  unfold dev_picker_select at h
  cases hf : select_func required_size itr (selected.bind (fun s => devices[s]?)) with
  | none => rw [hf] at h; simp at h
  | some r =>
    obtain ⟨rc, stored⟩ := r
    rw [hf] at h
    simp only at h
    by_cases h1 : rc < 0
    · simp only [h1, if_true] at h
      rcases h with h | h
      · cases h
      · injection h with h; exact Or.inr (Or.inl h.symm)
    · simp only [h1, if_false] at h
      have hsel : ∀ x : Option Nat, x = (if stored = true then some i else selected) →
          x = selected ∨ x = none ∨ x = some i := by
        intro x hx
        cases stored
        · simp at hx; exact Or.inl hx
        · simp at hx; exact Or.inr (Or.inr hx)
      by_cases h2 : rc = 0
      · simp only [h2, if_true] at h
        rcases h with h | h
        · cases h
        · injection h with h; exact hsel s' h.symm
      · simp only [h2, if_false] at h
        rcases h with h | h
        · injection h with h; exact hsel s' h.symm
        · cases h

theorem dev_picker_step_idle (cfg : lrs_cfg) (devices : List dev_descr) (op_st : dev_op_status)
    (select_func : device_select_func_t) (required_size : Nat) (media_tags : List String)
    (pmedia : Option media_info) (is_write : Bool) (itr : dev_descr) (i : Nat)
    (selected s' : Option Nat)
    (h : dev_picker_step cfg devices op_st select_func required_size media_tags pmedia
          is_write itr i selected = .next s' ∨
      dev_picker_step cfg devices op_st select_func required_size media_tags pmedia
          is_write itr i selected = .stop s') :
    s' = selected ∨ s' = none ∨
      (s' = some i ∧ itr.ongoing_io = false ∧
        (op_st ≠ .PHO_DEV_OP_ST_UNSPEC → itr.op_status = op_st)) := by
  have hkeep : ∀ x : Option Nat,
      ((picker_step.next selected = .next x) ∨ (picker_step.next selected = .stop x)) →
      x = selected := by
    intro x hx
    rcases hx with hx | hx
    · injection hx with hx; exact hx.symm
    · cases hx
  have hnone : ∀ x : Option Nat,
      ((picker_step.stop none = .next x) ∨ (picker_step.stop none = .stop x)) →
      x = none := by
    intro x hx
    rcases hx with hx | hx
    · cases hx
    · injection hx with hx; exact hx.symm
  unfold dev_picker_step at h
  by_cases h1 : itr.ongoing_io = true
  · simp only [h1, if_true] at h; exact Or.inl (hkeep s' h)
  · simp only [h1, if_false] at h
    by_cases h2 : itr.op_status = .PHO_DEV_OP_ST_FAILED ∨
        (op_st ≠ .PHO_DEV_OP_ST_UNSPEC ∧ itr.op_status ≠ op_st)
    · rw [if_pos h2] at h; exact Or.inl (hkeep s' h)
    · rw [if_neg h2] at h
      have hidle : itr.ongoing_io = false ∧
          (op_st ≠ .PHO_DEV_OP_ST_UNSPEC → itr.op_status = op_st) := by
        refine ⟨by simpa using h1, fun hu => ?_⟩
        by_contra hc
        exact h2 (Or.inr ⟨hu, hc⟩)
      have hsel : (dev_picker_select devices select_func required_size itr i selected =
            .next s' ∨
          dev_picker_select devices select_func required_size itr i selected = .stop s') →
          s' = selected ∨ s' = none ∨
            (s' = some i ∧ itr.ongoing_io = false ∧
              (op_st ≠ .PHO_DEV_OP_ST_UNSPEC → itr.op_status = op_st)) := by
        intro hs
        rcases dev_picker_select_cases devices select_func required_size itr i selected s' hs
          with h3 | h3 | h3
        · exact Or.inl h3
        · exact Or.inr (Or.inl h3)
        · exact Or.inr (Or.inr ⟨h3, hidle⟩)
      by_cases h3 : is_write = true ∧
          (itr.dss_media_info.any (fun m => medium_not_writable cfg m media_tags)) = true
      · rw [if_pos h3] at h; exact Or.inl (hkeep s' h)
      · rw [if_neg h3] at h
        cases pmedia with
        | none => exact hsel h
        | some tape =>
          simp only at h
          by_cases h4 : (tape_drive_compat cfg tape itr).1 ≠ 0
          · rw [if_pos h4] at h; exact Or.inr (Or.inl (hnone s' h))
          · rw [if_neg h4] at h
            by_cases h5 : (tape_drive_compat cfg tape itr).2 = false
            · rw [if_pos h5] at h; exact Or.inl (hkeep s' h)
            · rw [if_neg h5] at h; exact hsel h

theorem dev_picker_loop_idle (cfg : lrs_cfg) (devices : List dev_descr) (op_st : dev_op_status)
    (select_func : device_select_func_t) (required_size : Nat) (media_tags : List String)
    (pmedia : Option media_info) (is_write : Bool) :
    ∀ (rest pre : List dev_descr) (selected r : Option Nat),
      devices = pre ++ rest →
      (∀ k, selected = some k → ∃ d, devices[k]? = some d ∧ d.ongoing_io = false ∧
        (op_st ≠ .PHO_DEV_OP_ST_UNSPEC → d.op_status = op_st)) →
      dev_picker_loop cfg devices op_st select_func required_size media_tags pmedia is_write
        rest pre.length selected = some r →
      (∀ k, r = some k → ∃ d, devices[k]? = some d ∧ d.ongoing_io = false ∧
        (op_st ≠ .PHO_DEV_OP_ST_UNSPEC → d.op_status = op_st)) := by
  intro rest
  induction rest with
  | nil =>
    intro pre selected r _ hinv h
    simp only [dev_picker_loop] at h
    cases h; exact hinv
  | cons itr rest ih =>
    intro pre selected r hdev hinv h
    have hidx : devices[pre.length]? = some itr := by
      rw [hdev, List.getElem?_append_right (le_refl _)]; simp
    have hstep : ∀ s', (dev_picker_step cfg devices op_st select_func required_size
          media_tags pmedia is_write itr pre.length selected = .next s' ∨
        dev_picker_step cfg devices op_st select_func required_size
          media_tags pmedia is_write itr pre.length selected = .stop s') →
        (∀ k, s' = some k → ∃ d, devices[k]? = some d ∧ d.ongoing_io = false ∧
          (op_st ≠ .PHO_DEV_OP_ST_UNSPEC → d.op_status = op_st)) := by
      intro s' hs k hk
      rcases dev_picker_step_idle cfg devices op_st select_func required_size media_tags
        pmedia is_write itr pre.length selected s' hs with h1 | h1 | h1
      · exact hinv k (h1 ▸ hk)
      · rw [h1] at hk; cases hk
      · obtain ⟨h2, h3, h4⟩ := h1
        rw [h2] at hk; cases hk
        exact ⟨itr, hidx, h3, h4⟩
    unfold dev_picker_loop at h
    cases hs : dev_picker_step cfg devices op_st select_func required_size media_tags pmedia
        is_write itr pre.length selected with
    | fault => rw [hs] at h; cases h
    | stop s' =>
      rw [hs] at h; simp only at h
      cases h
      exact hstep _ (Or.inr hs)
    | next s' =>
      rw [hs] at h; simp only at h
      have hlen : (pre ++ [itr]).length = pre.length + 1 := by simp
      rw [← hlen] at h
      exact ih (pre ++ [itr]) s' r (by simp [hdev]) (hstep s' (Or.inl hs)) h

theorem dev_picker_picked (cfg : lrs_cfg) (devices : List dev_descr) (op_st : dev_op_status)
    (select_func : device_select_func_t) (required_size : Nat) (media_tags : List String)
    (pmedia : Option media_info) (is_write : Bool) (devices' : List dev_descr)
    (r : Option Nat)
    (h : dev_picker cfg devices op_st select_func required_size media_tags pmedia is_write =
      some (devices', r)) :
    (r = none → devices' = devices) ∧
    (∀ k, r = some k →
      devices' = update_dev devices k (fun d => { d with ongoing_io := true }) ∧
      ∃ d, devices[k]? = some d ∧ d.ongoing_io = false ∧
        (op_st ≠ .PHO_DEV_OP_ST_UNSPEC → d.op_status = op_st)) := by
  unfold dev_picker at h
  cases hl : dev_picker_loop cfg devices op_st select_func required_size media_tags pmedia
      is_write devices 0 none with
  | none => rw [hl] at h; cases h
  | some s =>
    have hinv := dev_picker_loop_idle cfg devices op_st select_func required_size media_tags
      pmedia is_write devices [] none s rfl (fun k hk => by cases hk) hl
    rw [hl] at h
    cases s with
    | none =>
      simp only at h
      cases h
      exact ⟨fun _ => rfl, fun k hk => by cases hk⟩
    | some i =>
      simp only at h
      cases h
      refine ⟨fun hk => (by cases hk), fun k hk => ?_⟩
      cases hk
      exact ⟨rfl, hinv i rfl⟩

theorem sched_free_one_device_step (cfg : lrs_cfg) (io : dev_descr → empty_outcome)
    (pmedia : Option media_info) (selected_devs : Option Nat) (n_selected_devs : Nat)
    (devs : List Nat) :
    ∀ (fuel : Nat) (devices : List dev_descr) (rc : Int) (devices' : List dev_descr)
      (r : Option Nat),
      (∀ j ∈ devs, ∃ d, devices[j]? = some d ∧ d.ongoing_io = true) →
      sched_free_one_device cfg io devices pmedia selected_devs n_selected_devs fuel =
        some (rc, devices', r) →
      devices_step devs devices devices' ∧
      (∀ k, r = some k → k ∉ devs ∧ ∃ d, devices'[k]? = some d ∧ d.ongoing_io = true) ∧
      (r = none → rc ≠ 0) := by
  intro fuel
  induction fuel with
  | zero => intro devices rc devices' r _ h; simp [sched_free_one_device] at h
  | succ fuel ih =>
    intro devices rc devices' r hbusy h
    unfold sched_free_one_device at h
    cases hp : dev_picker cfg devices .PHO_DEV_OP_ST_UNSPEC select_drive_to_free 0 [] pmedia
        false with
    | none => rw [hp] at h; cases h
    | some res =>
      obtain ⟨devs1, sel⟩ := res
      rw [hp] at h
      obtain ⟨hnone, hsome⟩ := dev_picker_picked _ _ _ _ _ _ _ _ _ _ hp
      cases sel with
      | none =>
        simp only at h
        have e1 : devs1 = devices := hnone rfl
        cases hc : compatible_drive_exists cfg devs1 pmedia selected_devs n_selected_devs with
        | none => rw [hc] at h; cases h
        | some b =>
          rw [hc] at h
          cases b <;> simp only at h <;> cases h <;> rw [e1] <;>
            exact ⟨devices_step_refl devs devices, fun k hk => (by cases hk),
              fun _ => (by decide)⟩
      | some i =>
        simp only at h
        obtain ⟨e1, d, hd, hidle, _⟩ := hsome i rfl
        have hout : i ∉ devs := by
          intro hi
          obtain ⟨d2, hd2, hb2⟩ := hbusy i hi
          rw [hd] at hd2; cases hd2
          rw [hidle] at hb2; cases hb2
        have hget1 : devs1[i]? = some { d with ongoing_io := true } := by
          rw [e1, update_dev_get _ devices i d hd]; simp
        rw [hget1] at h
        simp only at h
        have hs1 : devices_step devs devices devs1 := by
          rw [e1]
          exact devices_step_update devs devices i _ d hd hout (Or.inr rfl)
        have hs2 : devices_step devs devs1
            (update_dev devs1 i
              (fun _ => (sched_empty_dev { d with ongoing_io := true }
                (io { d with ongoing_io := true })).2)) :=
          devices_step_update devs devs1 i _ _ hget1 hout
            (sched_empty_dev_held _ _).1
        have hs := devices_step_trans devs _ _ _ hs1 hs2
        by_cases hrc : (sched_empty_dev { d with ongoing_io := true }
            (io { d with ongoing_io := true })).1 ≠ 0
        · rw [if_pos hrc] at h
          have hbusy2 : ∀ j ∈ devs, ∃ x, (update_dev devs1 i
              (fun _ => (sched_empty_dev { d with ongoing_io := true }
                (io { d with ongoing_io := true })).2))[j]? = some x ∧
              x.ongoing_io = true := by
            intro j hj
            rw [hs.1 j hj]; exact hbusy j hj
          obtain ⟨h1, h2⟩ := ih _ rc devices' r hbusy2 h
          exact ⟨devices_step_trans devs _ _ _ hs h1, h2⟩
        · rw [if_neg hrc] at h
          cases h
          refine ⟨hs, fun k hk => ?_, fun hk => (by cases hk)⟩
          cases hk
          refine ⟨hout, (sched_empty_dev { d with ongoing_io := true }
            (io { d with ongoing_io := true })).2, ?_, ?_⟩
          · rw [update_dev_get _ devs1 i _ hget1]; simp
          · have h0 : (sched_empty_dev { d with ongoing_io := true }
                (io { d with ongoing_io := true })).1 = 0 := by simpa using hrc
            rw [(sched_empty_dev_held _ _).2 h0]

theorem set_candidate_lock_ids (lock : Option pho_lock) :
    ∀ (l : List media_info) (i : Nat),
      (set_candidate_lock l i lock).map (fun m => m.id) = l.map (fun m => m.id) := by
  intro l
  induction l with
  | nil => intro i; simp [set_candidate_lock]
  | cons a rest ih =>
    intro i
    cases i with
    | zero => simp [set_candidate_lock]
    | succ i => simp [set_candidate_lock, ih i]

theorem medium_in_devices_id (pho_id_equal : pho_id → pho_id → Bool)
    (devices : List dev_descr) (m m' : media_info) (devs : List Nat) (h : m.id = m'.id) :
    medium_in_devices pho_id_equal devices m devs =
      medium_in_devices pho_id_equal devices m' devs := by
  unfold medium_in_devices
  rw [h]

theorem candidate_of_ids (l l0 : List media_info)
    (h : l.map (fun m => m.id) = l0.map (fun m => m.id)) (i : Nat) (m : media_info)
    (hm : l[i]? = some m) : ∃ m0, l0[i]? = some m0 ∧ m0.id = m.id := by
  have h1 : (l.map (fun m => m.id))[i]? = some m.id := by
    rw [List.getElem?_map, hm]; rfl
  rw [h, List.getElem?_map] at h1
  cases h0 : l0[i]? with
  | none => rw [h0] at h1; cases h1
  | some m0 =>
    rw [h0] at h1
    exact ⟨m0, rfl, by simpa using h1⟩

theorem select_media_step_shape {ω : Type} (env : lrs_env ω) (st : lrs_devs ω)
    (required_size : Nat) (devs : List Nat) (s : select_state) (curr : media_info) (i : Nat) :
    (medium_in_devices env.pho_id_equal st.devices curr devs = true →
      select_media_step env st required_size devs s curr i = s) ∧
    (medium_in_devices env.pho_id_equal st.devices curr devs = false →
      (select_media_step env st required_size devs s curr i).pmedia_res.map (fun m => m.id) =
        s.pmedia_res.map (fun m => m.id) ∧
      ((select_media_step env st required_size devs s curr i).split_media_best =
          s.split_media_best ∨
        (select_media_step env st required_size devs s curr i).split_media_best = some i) ∧
      ((select_media_step env st required_size devs s curr i).whole_media_best =
          s.whole_media_best ∨
        (select_media_step env st required_size devs s curr i).whole_media_best = some i)) := by
  constructor
  · intro h
    simp only [select_media_step, h, if_true]
  · intro h
    simp only [select_media_step, h]
    split_ifs <;> simp [set_candidate_lock_ids]

theorem select_media_step_inv {ω : Type} (env : lrs_env ω) (st : lrs_devs ω)
    (required_size : Nat) (devs : List Nat) (l0 : List media_info) (s : select_state)
    (curr : media_info) (i : Nat) (hcurr : s.pmedia_res[i]? = some curr)
    (hinv : select_inv env.pho_id_equal st.devices devs l0 s) :
    select_inv env.pho_id_equal st.devices devs l0
      (select_media_step env st required_size devs s curr i) := by
  cases hin : medium_in_devices env.pho_id_equal st.devices curr devs with
  | true => rw [(select_media_step_shape env st required_size devs s curr i).1 hin]; exact hinv
  | false =>
    obtain ⟨h1, h2, h3⟩ := (select_media_step_shape env st required_size devs s curr i).2 hin
    obtain ⟨hi1, hi2, hi3⟩ := hinv
    obtain ⟨m0, hm0, hid⟩ := candidate_of_ids s.pmedia_res l0 hi1 i curr hcurr
    have hnew : ∃ m0, l0[i]? = some m0 ∧
        medium_in_devices env.pho_id_equal st.devices m0 devs = false :=
      ⟨m0, hm0, (medium_in_devices_id _ _ _ _ _ hid).trans hin⟩
    refine ⟨h1.trans hi1, ?_, ?_⟩
    · intro k hk
      rcases h2 with h2 | h2
      · exact hi2 k (h2 ▸ hk)
      · rw [h2] at hk; cases hk; exact hnew
    · intro k hk
      rcases h3 with h3 | h3
      · exact hi3 k (h3 ▸ hk)
      · rw [h3] at hk; cases hk; exact hnew

theorem select_media_loop_inv {ω : Type} (env : lrs_env ω) (st : lrs_devs ω)
    (required_size : Nat) (devs : List Nat) (l0 : List media_info) :
    ∀ (fuel : Nat) (s : select_state) (i : Nat),
      select_inv env.pho_id_equal st.devices devs l0 s →
      select_inv env.pho_id_equal st.devices devs l0
        (select_media_loop env st required_size devs s i fuel) := by
  intro fuel
  induction fuel with
  | zero => intro s i h; exact h
  | succ fuel ih =>
    intro s i h
    unfold select_media_loop
    cases hc : s.pmedia_res[i]? with
    | none => exact h
    | some curr =>
      exact ih _ (i + 1) (select_media_step_inv env st required_size devs l0 s curr i hc h)

theorem select_media_retry_free {ω : Type} (env : lrs_env ω) (st : lrs_devs ω)
    (required_size : Nat) (devs : List Nat) (family : Nat) :
    ∀ (fuel : Nat) (l : List media_info) (rc : Int) (pmedia : media_info),
      (∀ x ∈ l.map (fun m => m.id), x.family = family) →
      select_media_retry env st required_size devs l fuel = some (rc, some pmedia) →
      medium_in_devices env.pho_id_equal st.devices pmedia devs = false ∧
        pmedia.id.family = family := by
  intro fuel
  induction fuel with
  | zero => intro l rc pmedia _ h; simp [select_media_retry] at h
  | succ fuel ih =>
    intro l rc pmedia hfam h
    have hinv := select_media_loop_inv env st required_size devs l l.length
      { pmedia_res := l, avail_size := 0, split_media_best := none, whole_media_best := none }
      0 ⟨rfl, fun k hk => (by cases hk), fun k hk => (by cases hk)⟩
    unfold select_media_retry at h
    generalize select_media_loop env st required_size devs
      { pmedia_res := l, avail_size := 0, split_media_best := none, whole_media_best := none }
      0 l.length = s at h hinv
    simp only at h
    by_cases hav : s.avail_size < required_size
    · rw [if_pos hav] at h; cases h
    · rw [if_neg hav] at h
      cases hch : (if s.whole_media_best.isSome = true then s.whole_media_best
          else s.split_media_best).bind
          (fun k => (s.pmedia_res[k]?).map (fun m => (k, m))) with
      | none => rw [hch] at h; cases h
      | some km =>
        obtain ⟨k, cm⟩ := km
        rw [hch] at h
        simp only at h
        obtain ⟨hi1, hi2, hi3⟩ := hinv
        have hk : (s.whole_media_best = some k ∨ s.split_media_best = some k) ∧
            s.pmedia_res[k]? = some cm := by
          cases hw : s.whole_media_best with
          | some w =>
            rw [hw] at hch
            simp only [Option.isSome_some, if_true, Option.some_bind] at hch
            cases hg : s.pmedia_res[w]? with
            | none => rw [hg] at hch; cases hch
            | some m =>
              rw [hg] at hch
              simp only [Option.map_some', Option.some.injEq, Prod.mk.injEq] at hch
              obtain ⟨e1, e2⟩ := hch
              subst e1; subst e2
              exact ⟨Or.inl rfl, hg⟩
          | none =>
            rw [hw] at hch
            simp only [Option.isSome_none, Bool.false_eq_true, if_false] at hch
            cases hsp : s.split_media_best with
            | none => rw [hsp] at hch; cases hch
            | some w =>
              rw [hsp] at hch
              simp only [Option.some_bind] at hch
              cases hg : s.pmedia_res[w]? with
              | none => rw [hg] at hch; cases hch
              | some m =>
                rw [hg] at hch
                simp only [Option.map_some', Option.some.injEq, Prod.mk.injEq] at hch
                obtain ⟨e1, e2⟩ := hch
                subst e1; subst e2
                exact ⟨Or.inr rfl, hg⟩
        obtain ⟨hbest, hcm⟩ := hk
        obtain ⟨m0, hm0, hid⟩ := candidate_of_ids s.pmedia_res l hi1 k cm hcm
        have hfree : medium_in_devices env.pho_id_equal st.devices cm devs = false := by
          rcases hbest with hb | hb
          · obtain ⟨m1, hm1, hf1⟩ := hi3 k hb
            rw [hm0] at hm1; cases hm1
            exact (medium_in_devices_id _ _ _ _ _ hid.symm).trans hf1
          · obtain ⟨m1, hm1, hf1⟩ := hi2 k hb
            rw [hm0] at hm1; cases hm1
            exact (medium_in_devices_id _ _ _ _ _ hid.symm).trans hf1
        have hcfam : cm.id.family = family := by
          apply hfam
          rw [← hid]
          exact List.mem_map.2 ⟨m0, List.getElem?_mem hm0, rfl⟩
        by_cases hlock : cm.lock.isNone = true
        · rw [if_pos hlock] at h
          by_cases ht : (env.take_and_update_lock st.world cm).1 ≠ 0
          · rw [if_pos ht] at h
            apply ih _ rc pmedia _ h
            rw [set_candidate_lock_ids, hi1]
            exact hfam
          · rw [if_neg ht] at h
            cases h
            exact ⟨(medium_in_devices_id _ _ _ _ _ rfl).trans hfree, hcfam⟩
        · rw [if_neg hlock] at h
          cases h
          exact ⟨hfree, hcfam⟩

theorem select_media_retry_failed {ω : Type} (env : lrs_env ω) (st : lrs_devs ω)
    (required_size : Nat) (devs : List Nat) :
    ∀ (fuel : Nat) (l : List media_info) (rc : Int),
      select_media_retry env st required_size devs l fuel = some (rc, none) → rc ≠ 0 := by
  intro fuel
  induction fuel with
  | zero => intro l rc h; simp [select_media_retry] at h
  | succ fuel ih =>
    intro l rc h
    unfold select_media_retry at h
    generalize select_media_loop env st required_size devs
      { pmedia_res := l, avail_size := 0, split_media_best := none, whole_media_best := none }
      0 l.length = s at h
    simp only at h
    by_cases hav : s.avail_size < required_size
    · rw [if_pos hav] at h
      simp only [Option.some.injEq, Prod.mk.injEq, and_true] at h
      rw [← h]; decide
    · rw [if_neg hav] at h
      cases hch : (if s.whole_media_best.isSome = true then s.whole_media_best
          else s.split_media_best).bind
          (fun k => (s.pmedia_res[k]?).map (fun m => (k, m))) with
      | none =>
        rw [hch] at h
        simp only [Option.some.injEq, Prod.mk.injEq, and_true] at h
        rw [← h]; decide
      | some km =>
        obtain ⟨k, cm⟩ := km
        rw [hch] at h
        simp only at h
        by_cases hlock : cm.lock.isNone = true
        · rw [if_pos hlock] at h
          by_cases ht : (env.take_and_update_lock st.world cm).1 ≠ 0
          · rw [if_pos ht] at h
            exact ih _ rc h
          · rw [if_neg ht] at h
            simp at h
        · rw [if_neg hlock] at h
          simp at h

theorem sched_select_media_failed {ω : Type} (env : lrs_env ω) (st : lrs_devs ω)
    (required_size : Nat) (tags : List String) (devs : List Nat) (fuel : Nat) (rc : Int)
    (h : sched_select_media env st required_size tags devs fuel = some (rc, none)) :
    rc ≠ 0 := by
  unfold sched_select_media at h
  by_cases h1 : env.filter_build_rc st.world ≠ 0
  · rw [if_pos h1] at h
    simp only [Option.some.injEq, Prod.mk.injEq, and_true] at h
    rw [← h]; exact h1
  · rw [if_neg h1] at h
    simp only at h
    by_cases h2 : (env.dss_media_get st.world env.family tags).1 ≠ 0
    · rw [if_pos h2] at h
      simp only [Option.some.injEq, Prod.mk.injEq, and_true] at h
      rw [← h]; exact h2
    · rw [if_neg h2] at h
      exact select_media_retry_failed env st required_size devs fuel _ rc h

theorem sched_select_media_free {ω : Type} (env : lrs_env ω) (st : lrs_devs ω)
    (required_size : Nat) (tags : List String) (devs : List Nat) (fuel : Nat) (rc : Int)
    (pmedia : media_info)
    (hfam : ∀ (w : ω) (tags : List String),
      ∀ c ∈ (env.dss_media_get w env.family tags).2, c.id.family = env.family)
    (h : sched_select_media env st required_size tags devs fuel = some (rc, some pmedia)) :
    medium_in_devices env.pho_id_equal st.devices pmedia devs = false ∧
      pmedia.id.family = env.family := by
  unfold sched_select_media at h
  by_cases h1 : env.filter_build_rc st.world ≠ 0
  · rw [if_pos h1] at h; cases h
  · rw [if_neg h1] at h
    simp only at h
    by_cases h2 : (env.dss_media_get st.world env.family tags).1 ≠ 0
    · rw [if_pos h2] at h; cases h
    · rw [if_neg h2] at h
      apply select_media_retry_free env st required_size devs env.family fuel _ rc pmedia _ h
      intro x hx
      obtain ⟨c, hc, rfl⟩ := List.mem_map.1 hx
      exact hfam st.world tags c hc

theorem mount_device_done {ω : Type} (env : lrs_env ω) (st st' : lrs_devs ω) (k : Nat)
    (r : Option Nat) (h : mount_device env st k = some (0, st', r)) :
    r = some k ∧ ∃ d d1, st.devices[k]? = some d ∧
      st'.devices = update_dev st.devices k (fun _ => d1) ∧
      d1.op_status = .PHO_DEV_OP_ST_MOUNTED ∧ d1.dss_media_info = d.dss_media_info ∧
      d1.ongoing_io = d.ongoing_io := by
  unfold mount_device at h
  cases hd : st.devices[k]? with
  | none => rw [hd] at h; cases h
  | some d =>
    rw [hd] at h
    simp only [Option.some.injEq, Prod.mk.injEq] at h
    obtain ⟨h1, h2, h3⟩ := h
    obtain ⟨m1, m2, m3⟩ := sched_mount_done d (env.mount_io st.world d) h1
    refine ⟨h3.symm, d, (sched_mount d (env.mount_io st.world d)).2, rfl, ?_, m1, m2, m3⟩
    rw [← h2]

theorem load_and_mount_done {ω : Type} (env : lrs_env ω) (st st' : lrs_devs ω) (k : Nat)
    (pmedia : media_info) (r : Option Nat)
    (h : load_and_mount env st k pmedia = some (0, st', r)) :
    r = some k ∧ ∃ d d1, st.devices[k]? = some d ∧
      st'.devices = update_dev st.devices k (fun _ => d1) ∧
      d1.op_status = .PHO_DEV_OP_ST_MOUNTED ∧ d1.dss_media_info = some pmedia ∧
      d1.ongoing_io = d.ongoing_io := by
  unfold load_and_mount at h
  cases hd : st.devices[k]? with
  | none => rw [hd] at h; cases h
  | some d =>
    rw [hd] at h
    simp only at h
    by_cases hrc : (sched_load_media d pmedia (env.load_io st.world d pmedia)).1 ≠ 0
    · rw [if_pos hrc] at h
      simp only [Option.some.injEq, Prod.mk.injEq] at h
      exact absurd h.1 hrc
    · rw [if_neg hrc] at h
      have h0 : (sched_load_media d pmedia (env.load_io st.world d pmedia)).1 = 0 := by
        simpa using hrc
      have hl := sched_load_media_done d pmedia _ h0
      obtain ⟨e, d2, d1, hd2, hst, m1, m2, m3⟩ := mount_device_done env _ st' k r h
      simp only at hd2 hst
      rw [update_dev_get _ st.devices k d hd] at hd2
      simp only [if_true, Option.some.injEq] at hd2
      rw [hl] at hd2
      refine ⟨e, d, d1, rfl, ?_, m1, ?_, ?_⟩
      · rw [hst, update_dev_twice]
      · rw [m2, ← hd2]
      · rw [m3, ← hd2]

theorem write_res_ok_of_step (family : Nat) (devs : List Nat)
    (devices0 devices : List dev_descr) (k : Nat) (f : dev_descr → dev_descr) (d : dev_descr)
    (hc : devices_consistent family devices0)
    (hs : devices_step devs devices0 devices)
    (hk : devices[k]? = some d) (hout : k ∉ devs)
    (hm : (f d).op_status = .PHO_DEV_OP_ST_MOUNTED) (hb : (f d).ongoing_io = true)
    (hnew : ∀ id, loaded_medium (f d) = some id →
      loaded_medium d = some id ∨
        (id.family = family ∧
          ∀ (j : Nat) (dj : dev_descr), devices[j]? = some dj → loaded_medium dj ≠ some id)) :
    write_res_ok family devs devices0 (update_dev devices k f) k := by
  have hc1 := devices_step_consistent family devs devices0 devices hs hc
  refine ⟨?_, hout, ?_, f d, ?_, hb, hm⟩
  · apply consistent_update_dev family devices k f d hk hc1
    intro id hid
    rcases hnew id hid with h1 | h1
    · refine ⟨hc1.1 k d id hk h1, ?_⟩
      intro j dj hj hdj hl
      exact hj (hc1.2 j k dj d id hdj hk hl h1)
    · exact ⟨h1.1, fun j dj _ hdj => h1.2 j dj hdj⟩
  · intro j hj
    have : j ≠ k := fun h => hout (h ▸ hj)
    rw [update_dev_get_other f devices k j this]
    exact hs.1 j hj
  · rw [update_dev_get f devices k d hk]; simp

theorem medium_in_devices_false (pho_id_equal : pho_id → pho_id → Bool)
    (devices : List dev_descr) (m : media_info) (devs : List Nat)
    (h : medium_in_devices pho_id_equal devices m devs = false) (k : Nat) (hk : k ∈ devs)
    (d : dev_descr) (hd : devices[k]? = some d) (m' : media_info)
    (hm : d.dss_media_info = some m') : pho_id_equal m.id m'.id = false := by
  unfold medium_in_devices at h
  rw [List.any_eq_false] at h
  have := h k hk
  rw [hd] at this
  simp only [hm] at this
  simpa using this

theorem loaded_medium_info (d : dev_descr) (id : pho_id) (h : loaded_medium d = some id) :
    (d.op_status = .PHO_DEV_OP_ST_MOUNTED ∨ d.op_status = .PHO_DEV_OP_ST_LOADED) ∧
    ∃ m, d.dss_media_info = some m ∧ m.id = id := by
  unfold loaded_medium at h
  by_cases hs : d.op_status = .PHO_DEV_OP_ST_MOUNTED ∨ d.op_status = .PHO_DEV_OP_ST_LOADED
  · rw [if_pos hs] at h
    cases hm : d.dss_media_info with
    | none => rw [hm] at h; cases h
    | some m =>
      rw [hm] at h
      exact ⟨hs, m, rfl, by simpa using h⟩
  · rw [if_neg hs] at h; cases h

theorem loaded_medium_mounted (d : dev_descr) (h : d.op_status = .PHO_DEV_OP_ST_MOUNTED) :
    loaded_medium d = d.dss_media_info.map (fun m => m.id) := by
  simp [loaded_medium, h]

theorem get_write_res_for_done {ω : Type} (env : lrs_env ω) (st st' : lrs_devs ω)
    (devs : List Nat) (pmedia : media_info) (fuel : Nat) (r : Option Nat)
    (hid : ∀ a, env.pho_id_equal a a = true)
    (hc : devices_consistent env.family st.devices)
    (hbusy : ∀ j ∈ devs, ∃ d, st.devices[j]? = some d ∧ d.ongoing_io = true)
    (hfree : medium_in_devices env.pho_id_equal st.devices pmedia devs = false)
    (hfam : pmedia.id.family = env.family)
    (h : get_write_res_for env st devs pmedia fuel = some (0, st', r)) :
    ∃ k, r = some k ∧ write_res_ok env.family devs st.devices st'.devices k := by
  unfold get_write_res_for at h
  cases hs : search_loaded_media st.devices pmedia.id.name with
  | some k =>
    rw [hs] at h
    simp only at h
    obtain ⟨D, id, hD, hl, hn⟩ := search_loaded_media_held st.devices _ k hs
    obtain ⟨hst, m, hm, hmid⟩ := loaded_medium_info D id hl
    have hideq : id = pmedia.id := by
      have h1 := hc.1 k D id hD hl
      cases id with
      | mk fam name =>
        cases hp : pmedia.id with
        | mk fam2 name2 =>
          rw [hp] at hn hfam
          simp only at h1 hn hfam
          rw [h1, hn, hfam]
    have hout : k ∉ devs := by
      intro hk
      have h1 := medium_in_devices_false _ _ _ _ hfree k hk D hD m hm
      rw [hmid, hideq, hid] at h1
      cases h1
    have hget : (update_dev st.devices k (fun d => { d with ongoing_io := true }))[k]? =
        some { D with ongoing_io := true } := by
      rw [update_dev_get _ st.devices k D hD]; simp
    rw [hget] at h
    simp only [Option.any_some] at h
    have hstep : devices_step devs st.devices
        (update_dev st.devices k (fun d => { d with ongoing_io := true })) :=
      devices_step_update devs st.devices k _ D hD hout (Or.inr rfl)
    by_cases hmnt : D.op_status = .PHO_DEV_OP_ST_MOUNTED
    · have hcond : (decide (D.op_status ≠ .PHO_DEV_OP_ST_MOUNTED)) = false := by
        simp [hmnt]
      simp only [hcond, Bool.false_eq_true, if_false, Option.some.injEq, Prod.mk.injEq,
        true_and] at h
      obtain ⟨h1, h2⟩ := h
      refine ⟨k, h2.symm, ?_⟩
      rw [← h1]
      exact write_res_ok_of_step env.family devs st.devices st.devices k _ D hc
        (devices_step_refl devs st.devices) hD hout hmnt rfl (fun x hx => Or.inl hx)
    · have hcond : (decide (D.op_status ≠ .PHO_DEV_OP_ST_MOUNTED)) = true := by
        simp [hmnt]
      simp only [hcond, if_true] at h
      obtain ⟨e, d2, d1, hd2, hst', m1, m2, m3⟩ := mount_device_done env _ st' k r h
      simp only at hd2 hst'
      rw [hget] at hd2
      cases hd2
      refine ⟨k, e, ?_⟩
      rw [hst']
      apply write_res_ok_of_step env.family devs st.devices _ k (fun _ => d1)
        { D with ongoing_io := true } hc hstep hget hout m1 (by rw [m3])
      intro x hx
      left
      rw [loaded_medium_mounted d1 m1, m2] at hx
      have hl2 : loaded_medium { D with ongoing_io := true } = some id := hl
      rw [hl2]
      have hl3 : loaded_medium D = D.dss_media_info.map (fun m => m.id) := by
        simp [loaded_medium, hst]
      rw [← hl, hl3]
      exact hx
  | none =>
    rw [hs] at h
    simp only at h
    have hunheld : ∀ (devices : List dev_descr), devices_step devs st.devices devices →
        ∀ (j : Nat) (dj : dev_descr), devices[j]? = some dj →
          loaded_medium dj ≠ some pmedia.id := by
      intro devices hstep j dj hj hl
      obtain ⟨d0, hd0, hl0⟩ := hstep.2 j dj _ hj hl
      exact search_loaded_media_unheld st.devices _ hs j d0 _ hd0 hl0 rfl
    have hfinish : ∀ (devices : List dev_descr) (k : Nat) (d : dev_descr),
        devices_step devs st.devices devices → devices[k]? = some d → k ∉ devs →
        d.ongoing_io = true →
        load_and_mount env { st with devices := devices } k pmedia = some (0, st', r) →
        ∃ k, r = some k ∧ write_res_ok env.family devs st.devices st'.devices k := by
      intro devices k d hstep hd hout hb hlm
      obtain ⟨e, d2, d1, hd2, hst', m1, m2, m3⟩ := load_and_mount_done env _ st' k pmedia r hlm
      simp only at hd2 hst'
      rw [hd] at hd2
      cases hd2
      refine ⟨k, e, ?_⟩
      rw [hst']
      apply write_res_ok_of_step env.family devs st.devices devices k (fun _ => d1) d hc
        hstep hd hout m1 (by rw [m3]; exact hb)
      intro x hx
      right
      rw [loaded_medium_mounted d1 m1, m2] at hx
      simp only [Option.map_some', Option.some.injEq] at hx
      rw [← hx]
      exact ⟨hfam, hunheld devices hstep⟩
    cases hp : dev_picker env.cfg st.devices .PHO_DEV_OP_ST_EMPTY select_any 0 []
        (some pmedia) true with
    | none => rw [hp] at h; cases h
    | some res =>
      obtain ⟨devs1, sel⟩ := res
      rw [hp] at h
      obtain ⟨hnone, hsome⟩ := dev_picker_picked _ _ _ _ _ _ _ _ _ _ hp
      cases sel with
      | some k =>
        simp only at h
        obtain ⟨e1, d, hd, hidle, _⟩ := hsome k rfl
        have hout : k ∉ devs := by
          intro hi
          obtain ⟨d2, hd2, hb2⟩ := hbusy k hi
          rw [hd] at hd2; cases hd2
          rw [hidle] at hb2; cases hb2
        have hget1 : devs1[k]? = some { d with ongoing_io := true } := by
          rw [e1, update_dev_get _ st.devices k d hd]; simp
        have hs1 : devices_step devs st.devices devs1 := by
          rw [e1]
          exact devices_step_update devs st.devices k _ d hd hout (Or.inr rfl)
        exact hfinish devs1 k _ hs1 hget1 hout rfl h
      | none =>
        simp only at h
        have e1 : devs1 = st.devices := hnone rfl
        cases hf : sched_free_one_device env.cfg (env.empty_io st.world) devs1 (some pmedia)
            devs.head? devs.length fuel with
        | none => rw [hf] at h; cases h
        | some res2 =>
          obtain ⟨rc2, devs2, sel2⟩ := res2
          rw [hf] at h
          rw [e1] at hf
          obtain ⟨hs2, hk2, hrc2⟩ := sched_free_one_device_step _ _ _ _ _ devs fuel
            st.devices rc2 devs2 sel2 hbusy hf
          cases sel2 with
          | none =>
            simp only [Option.some.injEq, Prod.mk.injEq] at h
            exact absurd h.1 (hrc2 rfl)
          | some k =>
            simp only at h
            obtain ⟨hout, d3, hd3, hb3⟩ := hk2 k rfl
            exact hfinish devs2 k d3 hs2 hd3 hout hb3 h

theorem sched_load_dev_state_done {ω : Type} (env : lrs_env ω) (st : lrs_devs ω)
    (h : (sched_load_dev_state env st).1 = 0) :
    (sched_load_dev_state env st).2.devices =
      st.devices.map (fun dev => apply_probe dev (env.fill_dev_info st.world dev)) := by
  have hx : (- ENXIO) ≠ 0 := by decide
  by_cases h1 : st.devices.length = 0
  · simp [sched_load_dev_state, h1, hx] at h
  · by_cases h2 : env.lib_open_rc st.world = 0
    · by_cases h3 : env.lib_close_rc (env.after_load st.world) = 0
      · by_cases h4 : (st.devices.any
            (fun dev => decide ((env.fill_dev_info st.world dev).rc = 0))) = false
        · simp [sched_load_dev_state, h1, h2, h3, h4, hx] at h
        · simp [sched_load_dev_state, h1, h2, h3, h4]
      · simp [sched_load_dev_state, h1, h2, h3] at h
    · simp [sched_load_dev_state, h1, h2] at h

theorem booked_of_frame (devices devices' : List dev_descr) (j : Nat) (id : pho_id)
    (h : devices'[j]? = devices[j]?) (hb : booked devices j id) : booked devices' j id := by
  obtain ⟨d, hd, h1, h2⟩ := hb
  exact ⟨d, h.trans hd, h1, h2⟩

theorem booked_after_load {ω : Type} (env : lrs_env ω) (w : ω) (devices : List dev_descr)
    (j : Nat) (id : pho_id)
    (hprobe_busy : ∀ (w : ω) (d : dev_descr) (id : pho_id), d.ongoing_io = true →
      loaded_medium d = some id →
      loaded_medium (apply_probe d (env.fill_dev_info w d)) = some id)
    (hb : booked devices j id) :
    booked (devices.map (fun dev => apply_probe dev (env.fill_dev_info w dev))) j id := by
  obtain ⟨d, hd, h1, h2⟩ := hb
  refine ⟨apply_probe d (env.fill_dev_info w d), ?_, h1, hprobe_busy w d id h1 h2⟩
  rw [List.getElem?_map, hd]; rfl

theorem sched_get_write_res_done {ω : Type} (env : lrs_env ω) (st st' : lrs_devs ω)
    (size : Nat) (tags : List String) (devs : List Nat) (fuel : Nat) (r : Option Nat)
    (hid : ∀ a, env.pho_id_equal a a = true)
    (hfam : ∀ (w : ω) (tags : List String),
      ∀ c ∈ (env.dss_media_get w env.family tags).2, c.id.family = env.family)
    (hprobe_inv : ∀ (w : ω) (devices : List dev_descr),
      devices_consistent env.family devices →
      devices_consistent env.family
        (devices.map (fun d => apply_probe d (env.fill_dev_info w d))))
    (hprobe_busy : ∀ (w : ω) (d : dev_descr) (id : pho_id), d.ongoing_io = true →
      loaded_medium d = some id →
      loaded_medium (apply_probe d (env.fill_dev_info w d)) = some id)
    (hc : devices_consistent env.family st.devices)
    (hbooked : ∀ j ∈ devs, ∃ id, booked st.devices j id)
    (h : sched_get_write_res env st size tags devs fuel = some (0, st', r)) :
    ∃ k, r = some k ∧ devices_consistent env.family st'.devices ∧ k ∉ devs ∧
      (∀ j ∈ devs, ∀ id, booked st.devices j id → booked st'.devices j id) ∧
      ∃ d, st'.devices[k]? = some d ∧ d.ongoing_io = true ∧
        d.op_status = .PHO_DEV_OP_ST_MOUNTED := by
  unfold sched_get_write_res at h
  simp only at h
  by_cases hl : (sched_load_dev_state env st).1 ≠ 0
  · rw [if_pos hl] at h
    simp only [Option.some.injEq, Prod.mk.injEq] at h
    exact absurd h.1 hl
  · rw [if_neg hl] at h
    have hdev := sched_load_dev_state_done env st (by simpa using hl)
    generalize (sched_load_dev_state env st).2 = stL at h hdev
    have hcL : devices_consistent env.family stL.devices := by
      rw [hdev]; exact hprobe_inv st.world st.devices hc
    have hbL : ∀ j ∈ devs, ∀ id, booked st.devices j id → booked stL.devices j id := by
      intro j _ id hb
      rw [hdev]; exact booked_after_load env st.world st.devices j id hprobe_busy hb
    have hbusyL : ∀ j ∈ devs, ∃ d, stL.devices[j]? = some d ∧ d.ongoing_io = true := by
      intro j hj
      obtain ⟨id, hb⟩ := hbooked j hj
      obtain ⟨d, hd, h1, _⟩ := hbL j hj id hb
      exact ⟨d, hd, h1⟩
    suffices hmain : ∃ k, r = some k ∧ write_res_ok env.family devs stL.devices st'.devices k by
      obtain ⟨k, hr, hc', hout, hframe, hd⟩ := hmain
      refine ⟨k, hr, hc', hout, ?_, hd⟩
      intro j hj id hb
      exact booked_of_frame stL.devices st'.devices j id (hframe j hj) (hbL j hj id hb)
    have hpick : ∀ (op_st : dev_op_status) (f : device_select_func_t) (devs1 : List dev_descr)
        (k : Nat), op_st ≠ .PHO_DEV_OP_ST_UNSPEC →
        dev_picker env.cfg stL.devices op_st f size tags none true = some (devs1, some k) →
        k ∉ devs ∧ devices_step devs stL.devices devs1 ∧
        ∃ d, stL.devices[k]? = some d ∧ d.op_status = op_st ∧
          devs1 = update_dev stL.devices k (fun d => { d with ongoing_io := true }) := by
      intro op_st f devs1 k hop hp
      obtain ⟨_, hsome⟩ := dev_picker_picked _ _ _ _ _ _ _ _ _ _ hp
      obtain ⟨e1, d, hd, hidle, hst⟩ := hsome k rfl
      have hout : k ∉ devs := by
        intro hi
        obtain ⟨d2, hd2, hb2⟩ := hbusyL k hi
        rw [hd] at hd2; cases hd2
        rw [hidle] at hb2; cases hb2
      refine ⟨hout, ?_, d, hd, hst hop, e1⟩
      rw [e1]
      exact devices_step_update devs stL.devices k _ d hd hout (Or.inr rfl)
    cases hpol : env.cfg.policy with
    | none =>
      rw [hpol] at h
      simp only [Option.some.injEq, Prod.mk.injEq] at h
      exact absurd h.1 (by decide)
    | some policy =>
      rw [hpol] at h
      simp only at h
      cases hp1 : dev_picker env.cfg stL.devices .PHO_DEV_OP_ST_MOUNTED policy size tags none
          true with
      | none => rw [hp1] at h; cases h
      | some res1 =>
        obtain ⟨devs1, sel1⟩ := res1
        rw [hp1] at h
        cases sel1 with
        | some k =>
          simp only [Option.some.injEq, Prod.mk.injEq, true_and] at h
          obtain ⟨h1, h2⟩ := h
          obtain ⟨hout, _, d, hd, hst, e1⟩ := hpick _ _ _ _ (by decide) hp1
          refine ⟨k, h2.symm, ?_⟩
          rw [← h1]
          simp only
          rw [e1]
          exact write_res_ok_of_step env.family devs stL.devices stL.devices k _ d hcL
            (devices_step_refl devs stL.devices) hd hout hst rfl (fun x hx => Or.inl hx)
        | none =>
          simp only at h
          cases hp2 : dev_picker env.cfg stL.devices .PHO_DEV_OP_ST_LOADED policy size tags
              none true with
          | none => rw [hp2] at h; cases h
          | some res2 =>
            obtain ⟨devs2, sel2⟩ := res2
            rw [hp2] at h
            cases sel2 with
            | some k =>
              simp only at h
              obtain ⟨hout, hstep, d, hd, hst, e1⟩ := hpick _ _ _ _ (by decide) hp2
              obtain ⟨e, d2, d1, hd2, hst', m1, m2, m3⟩ := mount_device_done env _ st' k r h
              simp only at hd2 hst'
              have hget : devs2[k]? = some { d with ongoing_io := true } := by
                rw [e1, update_dev_get _ stL.devices k d hd]; simp
              rw [hget] at hd2
              cases hd2
              refine ⟨k, e, ?_⟩
              rw [hst']
              apply write_res_ok_of_step env.family devs stL.devices devs2 k (fun _ => d1)
                { d with ongoing_io := true } hcL hstep hget hout m1 (by rw [m3])
              intro x hx
              left
              rw [loaded_medium_mounted d1 m1, m2] at hx
              have hl3 : loaded_medium { d with ongoing_io := true } =
                  d.dss_media_info.map (fun m => m.id) := by
                simp [loaded_medium, hst]
              rw [hl3]
              exact hx
            | none =>
              simp only at h
              cases hsel : sched_select_media env stL size tags devs fuel with
              | none => rw [hsel] at h; cases h
              | some res3 =>
                obtain ⟨rc3, pm⟩ := res3
                rw [hsel] at h
                cases pm with
                | none =>
                  simp only [Option.some.injEq, Prod.mk.injEq] at h
                  exact absurd h.1 (sched_select_media_failed env stL size tags devs fuel rc3
                    hsel)
                | some pmedia =>
                  simp only at h
                  by_cases hrc3 : rc3 ≠ 0
                  · rw [if_pos hrc3] at h
                    simp only [Option.some.injEq, Prod.mk.injEq] at h
                    exact absurd h.1 hrc3
                  · rw [if_neg hrc3] at h
                    obtain ⟨hfree, hpf⟩ := sched_select_media_free env stL size tags devs fuel
                      rc3 pmedia hfam hsel
                    exact get_write_res_for_done env stL st' devs pmedia fuel r hid hcL
                      hbusyL hfree hpf h

theorem sched_write_prepare_done {ω : Type} (env : lrs_env ω) (size : Nat)
    (tags : List String) (devs : List Nat)
    (hid : ∀ a, env.pho_id_equal a a = true)
    (hfam : ∀ (w : ω) (tags : List String),
      ∀ c ∈ (env.dss_media_get w env.family tags).2, c.id.family = env.family)
    (hprobe_inv : ∀ (w : ω) (devices : List dev_descr),
      devices_consistent env.family devices →
      devices_consistent env.family
        (devices.map (fun d => apply_probe d (env.fill_dev_info w d))))
    (hprobe_busy : ∀ (w : ω) (d : dev_descr) (id : pho_id), d.ongoing_io = true →
      loaded_medium d = some id →
      loaded_medium (apply_probe d (env.fill_dev_info w d)) = some id) :
    ∀ (fuel : Nat) (st st' : lrs_devs ω) (k : Nat),
      devices_consistent env.family st.devices →
      (∀ j ∈ devs, ∃ id, booked st.devices j id) →
      sched_write_prepare env st size tags devs fuel = some (0, st', k) →
      devices_consistent env.family st'.devices ∧ k ∉ devs ∧
      (∀ j ∈ devs, ∀ id, booked st.devices j id → booked st'.devices j id) ∧
      ∃ id, booked st'.devices k id := by
  intro fuel
  induction fuel with
  | zero => intro st st' k _ _ h; simp [sched_write_prepare] at h
  | succ fuel ih =>
    intro st st' k hc hbooked h
    unfold sched_write_prepare at h
    cases hg : sched_get_write_res env st size tags devs (fuel + 1) with
    | none => rw [hg] at h; cases h
    | some res =>
      obtain ⟨rc, st1, new⟩ := res
      rw [hg] at h
      simp only at h
      by_cases hrc : rc ≠ 0
      · rw [if_pos hrc] at h
        simp only [Option.some.injEq, Prod.mk.injEq] at h
        exact absurd h.1 hrc
      · rw [if_neg hrc] at h
        have hrc0 : rc = 0 := by simpa using hrc
        subst hrc0
        obtain ⟨k1, hnew, hc1, hout, hframe, d, hd, hb, hm⟩ :=
          sched_get_write_res_done env st st1 size tags devs (fuel + 1) new hid hfam
            hprobe_inv hprobe_busy hc hbooked hg
        subst hnew
        simp only at h
        rw [hd] at h
        simp only [Option.some_bind] at h
        cases hmed : d.dss_media_info with
        | none => rw [hmed] at h; cases h
        | some m =>
          rw [hmed] at h
          simp only [Option.map_some'] at h
          have hld : loaded_medium d = some m.id := by
            rw [loaded_medium_mounted d hm, hmed]; rfl
          by_cases hw : env.mount_is_writable st1.world d.mnt_path m.fs_type = true
          · rw [if_pos hw] at h
            simp only [Option.some.injEq, Prod.mk.injEq, true_and] at h
            obtain ⟨h1, h2⟩ := h
            subst h1; subst h2
            exact ⟨hc1, hout, hframe, m.id, d, hd, hb, hld⟩
          · rw [if_neg hw] at h
            by_cases hset : env.media_set_rc st1.world
                { m with fs_stat := .PHO_FS_STATUS_FULL } ≠ 0
            · rw [if_pos hset] at h
              simp only [Option.some.injEq, Prod.mk.injEq] at h
              exact absurd h.1 hset
            · rw [if_neg hset] at h
              have hsame : loaded_medium
                  { d with
                    dss_media_info := some { m with fs_stat := .PHO_FS_STATUS_FULL }
                    ongoing_io := false } = loaded_medium d := by
                rw [hld]
                simp [loaded_medium, hm]
              have hstep : devices_step devs st1.devices
                  (update_dev st1.devices k1 (fun _ =>
                    { d with
                      dss_media_info := some { m with fs_stat := .PHO_FS_STATUS_FULL }
                      ongoing_io := false })) :=
                devices_step_update devs st1.devices k1 _ d hd hout (Or.inr hsame)
              have hc2 := devices_step_consistent env.family devs _ _ hstep hc1
              have hframe2 : ∀ j ∈ devs, ∀ id, booked st.devices j id →
                  booked (update_dev st1.devices k1 (fun _ =>
                    { d with
                      dss_media_info := some { m with fs_stat := .PHO_FS_STATUS_FULL }
                      ongoing_io := false })) j id := by
                intro j hj id hbk
                exact booked_of_frame _ _ j id (hstep.1 j hj) (hframe j hj id hbk)
              have hbooked2 : ∀ j ∈ devs, ∃ id, booked (update_dev st1.devices k1 (fun _ =>
                    { d with
                      dss_media_info := some { m with fs_stat := .PHO_FS_STATUS_FULL }
                      ongoing_io := false })) j id := by
                intro j hj
                obtain ⟨id, hbk⟩ := hbooked j hj
                exact ⟨id, hframe2 j hj id hbk⟩
              obtain ⟨r1, r2, r3, r4⟩ := ih _ st' k hc2 hbooked2 h
              exact ⟨r1, r2, fun j hj id hbk => r3 j hj id (hframe2 j hj id hbk), r4⟩

theorem write_prepare_op_done {ω : Type} (env : lrs_env ω) (fuel : Nat) (st : lrs_devs ω)
    (size : Nat) (tags : List String) (devs : List Nat) (i : Nat)
    (h : (write_prepare_op env fuel st size tags devs i).1 = 0) :
    sched_write_prepare env st size tags devs fuel =
      some (0, (write_prepare_op env fuel st size tags devs i).2.1,
        (write_prepare_op env fuel st size tags devs i).2.2) := by
  unfold write_prepare_op at h ⊢
  cases hp : sched_write_prepare env st size tags devs fuel with
  | none =>
    rw [hp] at h
    simp only at h
    exact absurd h (by decide)
  | some r =>
    rw [hp] at h
    simp only at h ⊢
    obtain ⟨rc, st', k⟩ := r
    simp only at h
    rw [h]

theorem booked_write_elt (devices : List dev_descr) (k : Nat) (id : pho_id)
    (h : booked devices k id) : (write_elt_of_dev devices[k]?).med_id = id := by
  obtain ⟨d, hd, _, hl⟩ := h
  obtain ⟨_, m, hm, hmid⟩ := loaded_medium_info d id hl
  rw [hd]
  simp [write_elt_of_dev, hm, hmid]

theorem booked_unique (family : Nat) (devices : List dev_descr) (i j : Nat) (id : pho_id)
    (hc : devices_consistent family devices) (hi : booked devices i id)
    (hj : booked devices j id) : i = j := by
  obtain ⟨d, hd, _, hl⟩ := hi
  obtain ⟨d', hd', _, hl'⟩ := hj
  exact hc.2 i j d d' id hd hd' hl hl'

theorem booked_ids_nodup (family : Nat) (devices : List dev_descr) (devs : List Nat)
    (done : List pho_resp_write_elt) (hc : devices_consistent family devices)
    (hn : devs.Nodup) (hlen : devs.length = done.length)
    (hb : ∀ (j k : Nat) (e : pho_resp_write_elt), devs[j]? = some k → done[j]? = some e →
      booked devices k e.med_id) :
    (done.map (fun e => e.med_id)).Nodup := by
  rw [List.nodup_iff_getElem?_ne_getElem?]
  intro i j hij hj heq
  rw [List.length_map] at hj
  have hi : i < done.length := by omega
  rw [List.getElem?_map, List.getElem?_map, List.getElem?_eq_getElem hi,
    List.getElem?_eq_getElem hj] at heq
  simp only [Option.map_some', Option.some.injEq] at heq
  have hdi : i < devs.length := by omega
  have hdj : j < devs.length := by omega
  have hbi := hb i devs[i] done[i] (List.getElem?_eq_getElem hdi)
    (List.getElem?_eq_getElem hi)
  have hbj := hb j devs[j] done[j] (List.getElem?_eq_getElem hdj)
    (List.getElem?_eq_getElem hj)
  rw [heq] at hbi
  have hk := booked_unique family devices _ _ _ hc hbi hbj
  have := (List.nodup_iff_getElem?_ne_getElem?.1 hn) i j hij (by omega)
  apply this
  rw [List.getElem?_eq_getElem hdi, List.getElem?_eq_getElem hdj, hk]

theorem write_alloc_loop_booked {ω : Type} (env : lrs_env ω) (ops : sched_ops ω)
    (fuel : Nat) (hops : ops.sched_write_prepare = write_prepare_op env fuel)
    (hid : ∀ a, env.pho_id_equal a a = true)
    (hfam : ∀ (w : ω) (tags : List String),
      ∀ c ∈ (env.dss_media_get w env.family tags).2, c.id.family = env.family)
    (hprobe_inv : ∀ (w : ω) (devices : List dev_descr),
      devices_consistent env.family devices →
      devices_consistent env.family
        (devices.map (fun d => apply_probe d (env.fill_dev_info w d))))
    (hprobe_busy : ∀ (w : ω) (d : dev_descr) (id : pho_id), d.ongoing_io = true →
      loaded_medium d = some id →
      loaded_medium (apply_probe d (env.fill_dev_info w d)) = some id)
    (media : List pho_req_write_elt) :
    ∀ (st : lrs_devs ω) (devs : List Nat) (done : List pho_resp_write_elt) (i : Nat),
      devices_consistent env.family st.devices →
      devs.length = done.length →
      devs.Nodup →
      (∀ (j k : Nat) (e : pho_resp_write_elt), devs[j]? = some k → done[j]? = some e →
        booked st.devices k e.med_id) →
      (write_alloc_loop ops st media devs done i).1 = 0 →
      devices_consistent env.family (write_alloc_loop ops st media devs done i).2.1.devices ∧
      (write_alloc_devs ops st media devs i).length = devs.length + media.length ∧
      (write_alloc_loop ops st media devs done i).2.2.length = done.length + media.length ∧
      (write_alloc_devs ops st media devs i).Nodup ∧
      (∀ (j k : Nat) (e : pho_resp_write_elt),
        (write_alloc_devs ops st media devs i)[j]? = some k →
        (write_alloc_loop ops st media devs done i).2.2[j]? = some e →
        booked (write_alloc_loop ops st media devs done i).2.1.devices k e.med_id) := by
  induction media with
  | nil =>
    intro st devs done i hc hlen hn hb _
    simp only [write_alloc_loop, write_alloc_devs, List.length_nil, Nat.add_zero]
    exact ⟨hc, trivial, trivial, hn, hb⟩
  | cons m rest ih =>
    intro st devs done i hc hlen hn hb h
    have hr : ops.sched_write_prepare st m.size m.tags devs i =
        write_prepare_op env fuel st m.size m.tags devs i := by rw [hops]
    by_cases hrc : (ops.sched_write_prepare st m.size m.tags devs i).1 = 0
    · simp only [write_alloc_devs, write_alloc_loop, hrc, ne_eq, not_true_eq_false,
        if_false] at h ⊢
      generalize ops.sched_write_prepare st m.size m.tags devs i = r at hr hrc h ⊢
      have hp := write_prepare_op_done env fuel st m.size m.tags devs i (hr ▸ hrc)
      rw [← hr] at hp
      have hbooked : ∀ j ∈ devs, ∃ id, booked st.devices j id := by
        intro j hj
        obtain ⟨n, hn1, hn2⟩ := List.getElem_of_mem hj
        have hd : n < done.length := by omega
        exact ⟨_, hb n j done[n] (by rw [List.getElem?_eq_getElem hn1, hn2])
          (List.getElem?_eq_getElem hd)⟩
      obtain ⟨hc1, hout, hframe, id, hbk⟩ := sched_write_prepare_done env m.size m.tags devs
        hid hfam hprobe_inv hprobe_busy fuel st r.2.1 r.2.2 hc hbooked hp
      have hn' : (devs ++ [r.2.2]).Nodup := by
        rw [List.nodup_append]
        refine ⟨hn, List.nodup_singleton _, ?_⟩
        intro a ha hb'
        simp only [List.mem_singleton] at hb'
        exact hout (hb' ▸ ha)
      have hb' : ∀ (j k : Nat) (e : pho_resp_write_elt), (devs ++ [r.2.2])[j]? = some k →
          (done ++ [write_elt_of_dev r.2.1.devices[r.2.2]?])[j]? = some e →
          booked r.2.1.devices k e.med_id := by
        intro j k e hj he
        by_cases hlt : j < devs.length
        · rw [List.getElem?_append_left hlt] at hj
          rw [List.getElem?_append_left (by omega)] at he
          exact hframe k (List.getElem?_mem hj) _ (hb j k e hj he)
        · by_cases heq : j = devs.length
          · have hj2 := hj
            rw [heq, List.getElem?_append_right (le_refl _)] at hj2
            simp only [Nat.sub_self, List.getElem?_cons_zero, Option.some.injEq] at hj2
            rw [heq, hlen, List.getElem?_append_right (le_refl _)] at he
            simp only [Nat.sub_self, List.getElem?_cons_zero, Option.some.injEq] at he
            rw [← hj2, ← he, booked_write_elt _ _ _ hbk]
            exact hbk
          · have : (devs ++ [r.2.2])[j]? = none := by
              apply List.getElem?_eq_none
              simp only [List.length_append, List.length_singleton]
              omega
            rw [this] at hj; cases hj
      obtain ⟨r1, r2, r3, r4, r5⟩ := ih r.2.1 (devs ++ [r.2.2])
        (done ++ [write_elt_of_dev r.2.1.devices[r.2.2]?]) (i + 1) hc1 (by simp [hlen]) hn'
        hb' h
      simp only [List.length_append, List.length_singleton, List.length_cons,
        List.length_nil] at r2 r3 ⊢
      exact ⟨r1, by omega, by omega, r4, r5⟩
    · simp only [write_alloc_loop, hrc, ne_eq, not_false_eq_true, if_true] at h

theorem apply_keep_probe (d : dev_descr) : apply_probe d (keep_probe d) = d := by
  cases d; rfl

theorem keep_probe_map (devices : List dev_descr) :
    devices.map (fun d => apply_probe d (keep_probe d)) = devices := by
  induction devices with
  | nil => rfl
  | cons a rest ih => simp [apply_keep_probe]

theorem quiet_state_consistent : devices_consistent 2 quiet_state.devices := by
  have h1 : ∀ (i : Nat) (d : dev_descr) (id : pho_id), quiet_state.devices[i]? = some d →
      loaded_medium d = some id → i = 0 ∧ id = ⟨2, "t0"⟩ := by
    intro i d id hd hl
    match i with
    | 0 =>
      simp only [quiet_state, List.getElem?_cons_zero, Option.some.injEq] at hd
      subst hd
      simp [loaded_medium, tape_drive] at hl
      exact ⟨rfl, hl.symm⟩
    | 1 =>
      simp only [quiet_state, List.getElem?_cons_succ, List.getElem?_cons_zero,
        Option.some.injEq] at hd
      subst hd
      simp [loaded_medium, empty_tape_drive] at hl
    | n + 2 => simp [quiet_state] at hd
  constructor
  · intro i d id hd hl
    rw [(h1 i d id hd hl).2]
  · intro i j d d' id hd hd' hl hl'
    rw [(h1 i d id hd hl).1, (h1 j d' id hd' hl').1]

/-- C14. In a positive response of `sched_handle_write_alloc`, the media are
as many as requested and their identifiers are pairwise distinct, the devices
that `sched_write_prepare` selected for them are pairwise distinct, and each
medium of the response is the one held by its device, busy, when the handler
returns. This holds when the devices show a consistent library at the call
(every medium held is of the family of the scheduler, no medium is held by
two devices), and the world stays so: a load of the device states keeps the
library consistent and keeps the medium of a busy device, the state index
lists candidates of the family of the scheduler, and `pho_id_equal` holds for
equal identifiers. -/
theorem write_alloc_media_and_devices_distinct {ω : Type} (env : lrs_env ω)
    (ops : sched_ops ω) (fuel : Nat) (st : lrs_devs ω) (req : pho_req)
    (media : List pho_req_write_elt) (elts : List pho_resp_write_elt)
    (hops : ops.sched_write_prepare = write_prepare_op env fuel)
    (hid : ∀ a, env.pho_id_equal a a = true)
    (hfam : ∀ (w : ω) (tags : List String),
      ∀ c ∈ (env.dss_media_get w env.family tags).2, c.id.family = env.family)
    (hprobe_inv : ∀ (w : ω) (devices : List dev_descr),
      devices_consistent env.family devices →
      devices_consistent env.family
        (devices.map (fun d => apply_probe d (env.fill_dev_info w d))))
    (hprobe_busy : ∀ (w : ω) (d : dev_descr) (id : pho_id), d.ongoing_io = true →
      loaded_medium d = some id →
      loaded_medium (apply_probe d (env.fill_dev_info w d)) = some id)
    (hinit : devices_consistent env.family st.devices)
    (hresp : (sched_handle_write_alloc ops st req media).2.2.body = .walloc elts) :
    elts.length = media.length ∧
    (elts.map (fun e => e.med_id)).Nodup ∧
    (write_alloc_devs ops st media [] 0).length = media.length ∧
    (write_alloc_devs ops st media [] 0).Nodup ∧
    (∀ (j k : Nat) (e : pho_resp_write_elt),
      (write_alloc_devs ops st media [] 0)[j]? = some k → elts[j]? = some e →
      booked (sched_handle_write_alloc ops st req media).2.1.devices k e.med_id) := by
  by_cases hrc : (write_alloc_loop ops st media [] [] 0).1 = 0
  · have hbody : (sched_handle_write_alloc ops st req media).2.2.body =
        .walloc (write_alloc_loop ops st media [] [] 0).2.2 := by
      simp [sched_handle_write_alloc, hrc]
    have hst : (sched_handle_write_alloc ops st req media).2.1 =
        (write_alloc_loop ops st media [] [] 0).2.1 := by
      simp [sched_handle_write_alloc, hrc]
    rw [hbody] at hresp
    injection hresp with hresp
    rw [hst, ← hresp]
    obtain ⟨r1, r2, r3, r4, r5⟩ := write_alloc_loop_booked env ops fuel hops hid hfam
      hprobe_inv hprobe_busy media st [] [] 0 hinit rfl List.nodup_nil
      (fun j k e hj _ => by simp at hj) hrc
    refine ⟨by simpa using r3, ?_, by simpa using r2, r4, r5⟩
    exact booked_ids_nodup env.family _ _ _ r1 r4 (by rw [r2, r3]; rfl) r5
  · exfalso
    have h3 : EAGAIN ≠ 0 := by decide
    by_cases he : (write_alloc_loop ops st media [] [] 0).1 = -EAGAIN
    · simp [sched_handle_write_alloc, hrc, he, pho_srl_response_free, h3] at hresp
    · simp [sched_handle_write_alloc, hrc, he, pho_srl_response_error_alloc] at hresp

theorem write_alloc_media_and_devices_distinct_witness :
    (sched_handle_write_alloc quiet_ops quiet_state ⟨7, .walloc 2 two_media_request⟩
        two_media_request).2.2.body =
      .walloc [⟨⟨2, "t0"⟩, 50, "/mnt/d0", 0, 0⟩, ⟨⟨2, "t2"⟩, 100, "/mnt/d1", 0, 0⟩] ∧
    write_alloc_devs quiet_ops quiet_state two_media_request [] 0 = [0, 1] ∧
    (([⟨⟨2, "t0"⟩, 50, "/mnt/d0", 0, 0⟩, ⟨⟨2, "t2"⟩, 100, "/mnt/d1", 0, 0⟩] :
        List pho_resp_write_elt).map (fun e => e.med_id)).Nodup :=
  ⟨by decide, by decide,
    (write_alloc_media_and_devices_distinct quiet_env quiet_ops 2 quiet_state
      ⟨7, .walloc 2 two_media_request⟩ two_media_request
      [⟨⟨2, "t0"⟩, 50, "/mnt/d0", 0, 0⟩, ⟨⟨2, "t2"⟩, 100, "/mnt/d1", 0, 0⟩] rfl
      (fun a => by simp [quiet_env])
      (fun w tags c hc => by
        simp only [quiet_env, List.mem_cons, List.mem_singleton, List.not_mem_nil,
          or_false] at hc
        rcases hc with rfl | rfl <;> rfl)
      (fun w devices hc => by
        simp only [quiet_env]
        rw [keep_probe_map]; exact hc)
      (fun w d id _ hl => by
        simp only [quiet_env]
        rw [apply_keep_probe]; exact hl)
      quiet_state_consistent (by decide)).2.1⟩

/-! ### Release of a medium that is not loaded -/

theorem media_release_keeps_failure {ω : Type} (ops : sched_ops ω)
    (media : List pho_req_release_elt) :
    ∀ (st : lrs_devs ω) (rc : Int), rc ≠ 0 →
      (sched_handle_media_release ops st media rc).1 = rc := by
  induction media with
  | nil => intro st rc _; rfl
  | cons m rest ih =>
    intro st rc h
    simp only [sched_handle_media_release, h, ne_eq, not_false_eq_true, if_true]
    exact ih _ rc h

/-- C21 (code defect). A release request whose first medium is flagged
`to_sync` and is not loaded in any device is answered with an error response
of kind release whose `rc` is `-ENOENT`, the value that
`sched_handle_medium_release` returns for a medium that is not loaded, and not
the `-ENODEV` that `test_bad_release` awaits. The response is pushed to the
response queue of the scheduler and the loop goes on with the next release
request. -/
theorem release_of_unloaded_medium_answers_enoent {ω : Type} (ops : sched_ops ω)
    (st : lrs_devs ω) (reqc : req_container) (m : pho_req_release_elt)
    (rest : List pho_req_release_elt) (pending : List req_container)
    (rq : List resp_container)
    (hb : reqc.req.body = .release (m :: rest)) (hs : m.to_sync = true)
    (hn : search_loaded_media st.devices m.med_id.name = none) :
    (∃ st', release_loop ops st (reqc :: pending) rq =
      release_loop ops st' pending
        (rq ++ [{ socket_id := reqc.socket_id,
                  resp := { req_id := ops.init_req_id,
                            body := .error (-ENOENT) .RQ_RELEASE } }])) ∧
    (-ENOENT : Int) ≠ -ENODEV := by
  refine ⟨?_, by decide⟩
  have he : ENOENT ≠ 0 := by decide
  have h1 : (sched_handle_media_release ops st (m :: rest) 0).1 = -ENOENT := by
    simp only [sched_handle_media_release, medium_release_not_loaded ops st m hn, ne_eq,
      not_true_eq_false, if_false]
    exact media_release_keeps_failure ops rest st (-ENOENT) (by decide)
  have h2 : (to_sync_media (m :: rest)).length ≠ 0 := by
    simp [to_sync_media, List.filter_cons, hs]
  refine ⟨(sched_handle_media_release ops st (m :: rest) 0).2, ?_⟩
  rw [release_loop]
  simp only [hb, h2, if_false, h1, pho_srl_response_error_alloc, g_queue_push_tail]
  simp [he]

theorem release_of_unloaded_medium_answers_enoent_witness :
    (release_loop test_ops test_sched.devs [bad_release_request] []).2.2.2 =
      [{ socket_id := 7, resp := { req_id := 0, body := .error (-ENOENT) .RQ_RELEASE } }] := by
  obtain ⟨st', h⟩ := (release_of_unloaded_medium_answers_enoent test_ops test_sched.devs
    bad_release_request ⟨⟨1, "/tmp/not/a/med"⟩, 0, 0, true⟩ [] [] [] rfl rfl (by decide)).1
  rw [h]
  rfl

/-! ### Renewal of a lock -/

/-- C22. `check_renew_lock` on a lock held by another host returns
`-EALREADY`, makes no call to the state index and leaves the lock as it is.
On a lock of the host and owner of the scheduler it returns 0, with no call
and the lock unchanged. On a lock of the host of the scheduler with another
owner its first call is a forced `dss_unlock`; when that fails it returns the
failure and makes no other call, otherwise it calls `dss_lock` then
`dss_lock_status`, and when both succeed it returns 0 and the lock is the one
that the state index reports. -/
theorem check_renew_lock_never_steals (lock_hostname : String) (lock_owner : Int)
    (dss : dss_lock_outcome) (lock : pho_lock) :
    (lock.hostname ≠ lock_hostname →
      check_renew_lock lock_hostname lock_owner dss lock = (-EALREADY, some lock, [])) ∧
    (lock.hostname = lock_hostname → lock.owner = lock_owner →
      check_renew_lock lock_hostname lock_owner dss lock = (0, some lock, [])) ∧
    (lock.hostname = lock_hostname → lock.owner ≠ lock_owner →
      (dss.unlock_rc true ≠ 0 →
        check_renew_lock lock_hostname lock_owner dss lock =
          (dss.unlock_rc true, some lock, [.dss_unlock true])) ∧
      (dss.unlock_rc true = 0 →
        (check_renew_lock lock_hostname lock_owner dss lock).2.2.take 3 =
          [.dss_unlock true, .dss_lock, .dss_lock_status] ∧
        (dss.lock_rc = 0 → dss.status_rc = 0 →
          check_renew_lock lock_hostname lock_owner dss lock =
            (0, dss.status_lock, [.dss_unlock true, .dss_lock, .dss_lock_status])))) := by
  refine ⟨?_, ?_, ?_⟩
  · intro h
    simp [check_renew_lock, h]
  · intro h1 h2
    simp [check_renew_lock, check_renew_owner, h1, h2]
  · intro h1 h2
    refine ⟨?_, ?_⟩
    · intro h3
      simp [check_renew_lock, check_renew_owner, h1, h2, h3]
    · intro h3
      refine ⟨?_, ?_⟩
      · by_cases h4 : dss.status_rc = 0 <;> by_cases h5 : dss.lock_rc = 0 <;>
          simp [check_renew_lock, check_renew_owner, take_and_update_lock, h1, h2, h3, h4, h5]
      · intro h4 h5
        simp [check_renew_lock, check_renew_owner, take_and_update_lock, h1, h2, h3, h4, h5]

theorem check_renew_lock_never_steals_witness :
    check_renew_lock "host" 42 quiet_lock_dss ⟨"other", 42⟩ =
      (-EALREADY, some ⟨"other", 42⟩, []) ∧
    check_renew_lock "host" 42 quiet_lock_dss ⟨"host", 7⟩ =
      (0, some ⟨"host", 42⟩, [.dss_unlock true, .dss_lock, .dss_lock_status]) :=
  ⟨(check_renew_lock_never_steals "host" 42 quiet_lock_dss ⟨"other", 42⟩).1 (by decide),
   ((check_renew_lock_never_steals "host" 42 quiet_lock_dss ⟨"host", 7⟩).2.2 rfl
      (by decide)).2 rfl |>.2 rfl rfl⟩

/-! ### Failed transitions of a device -/

/-- C23 (code defect). A failed `sched_load_media` clears the busy flag of the
device and releases the medium, but it never marks the device failed and
never releases its lock: the lock of the device is unchanged, and a device
that was not failed is not failed afterwards (`failure_on_dev` is never set).
A failed `sched_umount` does what is claimed: the device is failed and idle,
and the locks of the medium and of the device are cleaned when the state
index unlocks them. So does a `sched_mount` that fails after `basename`
answered. A failed `sched_unload_medium` marks the device failed, detaches the
medium and releases the device, but leaves the busy flag as it was. -/
theorem load_failure_leaves_device_unfailed (dev : dev_descr) (media : media_info)
    (lib : lib_outcome) (io : empty_outcome) (mio : mount_outcome) :
    ((sched_load_media dev media lib).1 ≠ 0 →
      (sched_load_media dev media lib).2.1.ongoing_io = false ∧
      (sched_load_media dev media lib).2.1.dev_lock = dev.dev_lock ∧
      (dev.op_status ≠ .PHO_DEV_OP_ST_FAILED →
        (sched_load_media dev media lib).2.1.op_status ≠ .PHO_DEV_OP_ST_FAILED) ∧
      (lib.unlock_rc = 0 → (sched_load_media dev media lib).2.2.lock = none)) ∧
    ((sched_umount dev io).1 ≠ 0 →
      (sched_umount dev io).2.op_status = .PHO_DEV_OP_ST_FAILED ∧
      (sched_umount dev io).2.ongoing_io = false ∧
      (io.medium_unlock_rc = 0 →
        ∀ m, (sched_umount dev io).2.dss_media_info = some m → m.lock = none) ∧
      (io.device_unlock_rc = 0 → (sched_umount dev io).2.dev_lock = none)) ∧
    ((sched_mount dev mio).1 ≠ 0 → (mio.fs_adapter_rc = 0 → mio.basename ≠ none) →
      (sched_mount dev mio).2.op_status = .PHO_DEV_OP_ST_FAILED ∧
      (sched_mount dev mio).2.ongoing_io = false ∧
      (sched_mount dev mio).2.dss_media_info = none ∧
      (mio.unload.device_unlock_rc = 0 → (sched_mount dev mio).2.dev_lock = none)) ∧
    ((sched_unload_medium dev io).1 ≠ 0 →
      (sched_unload_medium dev io).2.op_status = .PHO_DEV_OP_ST_FAILED ∧
      (sched_unload_medium dev io).2.ongoing_io = dev.ongoing_io ∧
      (sched_unload_medium dev io).2.dss_media_info = none ∧
      (io.device_unlock_rc = 0 → (sched_unload_medium dev io).2.dev_lock = none)) := by
  have hunload : ∀ (d : dev_descr) (o : empty_outcome),
      (sched_unload_medium d o).2.ongoing_io = d.ongoing_io ∧
      (sched_unload_medium d o).2.dss_media_info = none ∧
      ((sched_unload_medium d o).1 ≠ 0 →
        (sched_unload_medium d o).2.op_status = .PHO_DEV_OP_ST_FAILED ∧
        (o.device_unlock_rc = 0 → (sched_unload_medium d o).2.dev_lock = none)) := by
    intro d o
    by_cases h1 : o.lib_open_rc = 0 <;> by_cases h2 : o.move_rc = 0 <;>
      by_cases h3 : o.lib_close_rc = 0 <;> by_cases h4 : o.medium_unlock_rc = 0 <;>
      by_cases h5 : o.device_unlock_rc = 0 <;>
      simp [sched_unload_medium, sched_device_release, h1, h2, h3, h4, h5]
  refine ⟨?_, ?_, ?_, ?_⟩
  · intro h
    have he : EAGAIN ≠ 0 := by decide
    have hi : EINVAL ≠ 0 := by decide
    have hb : EBUSY ≠ 0 := by decide
    by_cases h1 : dev.op_status = .PHO_DEV_OP_ST_EMPTY
    · cases h2 : dev.dss_media_info with
      | some m =>
        by_cases h8 : lib.unlock_rc = 0 <;> simp [sched_load_media, h1, h2, h8]
      | none =>
        by_cases h3 : lib.open_rc = 0 <;> by_cases h4 : lib.lookup_rc = 0 <;>
          by_cases h5 : lib.move_rc = 0 <;> by_cases h6 : lib.close_rc = 0 <;>
          by_cases h7 : lib.move_rc = -EINVAL ∧ lib.media_lia_type = .MED_LOC_DRIVE ∧
            dev.lia_type = .MED_LOC_DRIVE <;>
          by_cases h8 : lib.unlock_rc = 0 <;>
          simp [sched_load_media, h1, h2, h3, h4, h5, h6, h7, h8, hi, hb] at h ⊢
    · by_cases h8 : lib.unlock_rc = 0 <;> simp [sched_load_media, h1, h8]
  · intro h
    by_cases h1 : io.fs_adapter_rc = 0 <;> by_cases h2 : io.umount_rc = 0 <;>
      by_cases h4 : io.medium_unlock_rc = 0 <;> by_cases h5 : io.device_unlock_rc = 0 <;>
      simp [sched_umount, sched_device_release, release_loaded_medium, h1, h2, h4, h5] at h ⊢
  · intro h hb
    obtain ⟨u1, u2, u3⟩ := hunload dev mio.unload
    have hfailed : ∀ (d : dev_descr),
        (let u := sched_unload_medium d mio.unload
         ({ (if u.1 = 0 then
              sched_device_release { u.2 with op_status := .PHO_DEV_OP_ST_FAILED } mio.unload
            else u.2) with ongoing_io := false } : dev_descr)).op_status =
            .PHO_DEV_OP_ST_FAILED ∧
        (let u := sched_unload_medium d mio.unload
         ({ (if u.1 = 0 then
              sched_device_release { u.2 with op_status := .PHO_DEV_OP_ST_FAILED } mio.unload
            else u.2) with ongoing_io := false } : dev_descr)).dss_media_info = none ∧
        (mio.unload.device_unlock_rc = 0 →
          (let u := sched_unload_medium d mio.unload
           ({ (if u.1 = 0 then
                sched_device_release { u.2 with op_status := .PHO_DEV_OP_ST_FAILED }
                  mio.unload
              else u.2) with ongoing_io := false } : dev_descr)).dev_lock = none) := by
      intro d
      obtain ⟨v1, v2, v3⟩ := hunload d mio.unload
      by_cases hu : (sched_unload_medium d mio.unload).1 = 0
      · by_cases h5 : mio.unload.device_unlock_rc = 0 <;>
          simp [hu, sched_device_release, h5, v2]
      · obtain ⟨w1, w2⟩ := v3 hu
        simp only [hu, if_false]
        exact ⟨w1, v2, w2⟩
    by_cases h1 : mio.fs_adapter_rc = 0
    · by_cases h2 : mio.mounted_rc = 0
      · simp [sched_mount, h1, h2] at h
      · cases hbn : mio.basename with
        | none => exact absurd hbn (hb h1)
        | some b =>
          cases hp : mio.mount_point with
          | none =>
            obtain ⟨f1, f2, f3⟩ := hfailed { dev with mnt_path := mio.mounted_path }
            simp only [sched_mount, h1, h2, hbn, hp, ne_eq, not_true_eq_false, if_false]
            exact ⟨f1, trivial, f2, f3⟩
          | some mnt_root =>
            by_cases h3 : mio.mount_rc = 0
            · simp [sched_mount, h1, h2, hbn, hp, h3] at h
            · obtain ⟨f1, f2, f3⟩ := hfailed { dev with mnt_path := mio.mounted_path }
              simp only [sched_mount, h1, h2, hbn, hp, h3, ne_eq, not_true_eq_false,
                if_false, not_false_eq_true, if_true]
              exact ⟨f1, trivial, f2, f3⟩
    · obtain ⟨f1, f2, f3⟩ := hfailed dev
      simp only [sched_mount, h1, ne_eq, not_false_eq_true, if_true]
      exact ⟨f1, trivial, f2, f3⟩
  · intro h
    obtain ⟨u1, u2, u3⟩ := hunload dev io
    obtain ⟨w1, w2⟩ := u3 h
    exact ⟨w1, u1, u2, w2⟩

theorem load_failure_leaves_device_unfailed_witness :
    (sched_load_media locked_empty_drive spare_tape move_failed).1 = - EIO ∧
    (sched_load_media locked_empty_drive spare_tape move_failed).2.1.op_status =
      .PHO_DEV_OP_ST_EMPTY ∧
    (sched_load_media locked_empty_drive spare_tape move_failed).2.1.dev_lock =
      some ⟨"host", 42⟩ ∧
    (sched_load_media locked_empty_drive spare_tape move_failed).2.1.ongoing_io = false :=
  ⟨by decide, by decide,
   ((load_failure_leaves_device_unfailed locked_empty_drive spare_tape move_failed
      (empty_io_ok locked_empty_drive)
      ⟨0, 0, "", none, none, 0, empty_io_ok locked_empty_drive⟩).1 (by decide)).2.1,
   ((load_failure_leaves_device_unfailed locked_empty_drive spare_tape move_failed
      (empty_io_ok locked_empty_drive)
      ⟨0, 0, "", none, none, 0, empty_io_ok locked_empty_drive⟩).1 (by decide)).1⟩

/-! ### Errors of the database -/

theorem strncmp_eq_starts_with :
    ∀ (p s : List Char), strncmp_eq p s p.length = starts_with p s := by
  intro p
  induction p with
  | nil => intro s; simp [strncmp_eq, starts_with]
  | cons x p ih =>
    intro s
    cases s with
    | nil => simp [strncmp_eq, starts_with]
    | cons y s =>
      by_cases h : x = y
      · simp [strncmp_eq, starts_with, h, ih]
      · simp [strncmp_eq, starts_with, h]

theorem psql_state2errno_closed (s : List Char) :
    psql_state2errno (some s) = some
      (if starts_with ['0', '0', '0', '0', '0'] s = true then 0
       else if starts_with ['2', '2'] s = true then -EINVAL
       else if starts_with ['2', '3'] s = true then -EEXIST
       else if starts_with ['4', '2'] s = true then -EINVAL
       else if starts_with ['5', '3', '1', '0', '0'] s = true then -ENOSPC
       else if starts_with ['5', '3', '2', '0', '0'] s = true then -ENOMEM
       else if starts_with ['5', '3', '3', '0', '0'] s = true then -EUSERS
       else if starts_with ['5', '3'] s = true then - EIO
       else -ECOMM) := by
  simp only [psql_state2errno, sqlerr_map, psql_state2errno_loop, strncmp_eq_starts_with]
  split_ifs <;> first | rfl | simp_all [starts_with]

theorem starts_with_append :
    ∀ (p s : List Char), starts_with p s = true → ∃ t, s = p ++ t := by
  intro p
  induction p with
  | nil => intro s _; exact ⟨s, rfl⟩
  | cons x p ih =>
    intro s h
    cases s with
    | nil => simp [starts_with] at h
    | cons y s =>
      simp only [starts_with, Bool.and_eq_true, decide_eq_true_eq] at h
      obtain ⟨t, ht⟩ := ih s h.2
      exact ⟨t, by rw [h.1, ht]; rfl⟩

/-- C24. `psql_state2errno` is total: every SQL state has an errno and
`UNREACHED()` is not reached. A state that starts with `00000` maps to 0, a
state of class 22 or 42 to `-EINVAL`, of class 23 to `-EEXIST`, a state that
starts with `53100` to `-ENOSPC`, with `53200` to `-ENOMEM`, with `53300` to
`-EUSERS`, any other state of class 53 to `-EIO`, and a state of none of
these classes to `-ECOMM`. -/
theorem psql_state2errno_total (s : List Char) :
    (∃ rc, psql_state2errno (some s) = some rc) ∧
    (starts_with ['0', '0', '0', '0', '0'] s = true → psql_state2errno (some s) = some 0) ∧
    (starts_with ['2', '2'] s = true ∨ starts_with ['4', '2'] s = true →
      psql_state2errno (some s) = some (-EINVAL)) ∧
    (starts_with ['2', '3'] s = true → psql_state2errno (some s) = some (-EEXIST)) ∧
    (starts_with ['5', '3', '1', '0', '0'] s = true →
      psql_state2errno (some s) = some (-ENOSPC)) ∧
    (starts_with ['5', '3', '2', '0', '0'] s = true →
      psql_state2errno (some s) = some (-ENOMEM)) ∧
    (starts_with ['5', '3', '3', '0', '0'] s = true →
      psql_state2errno (some s) = some (-EUSERS)) ∧
    (starts_with ['5', '3'] s = true →
      starts_with ['5', '3', '1', '0', '0'] s = false →
      starts_with ['5', '3', '2', '0', '0'] s = false →
      starts_with ['5', '3', '3', '0', '0'] s = false →
      psql_state2errno (some s) = some (- EIO)) ∧
    (starts_with ['0', '0', '0', '0', '0'] s = false → starts_with ['2', '2'] s = false →
      starts_with ['2', '3'] s = false → starts_with ['4', '2'] s = false →
      starts_with ['5', '3'] s = false →
      psql_state2errno (some s) = some (-ECOMM)) := by
  have hc := psql_state2errno_closed s
  refine ⟨⟨_, hc⟩, ?_, ?_, ?_, ?_, ?_, ?_, ?_, ?_⟩
  · intro h; rw [hc]; simp [h]
  · intro h
    rcases h with h | h
    · obtain ⟨t, rfl⟩ := starts_with_append _ _ h
      rw [hc]; simp [starts_with]
    · obtain ⟨t, rfl⟩ := starts_with_append _ _ h
      rw [hc]; simp [starts_with]
  · intro h
    obtain ⟨t, rfl⟩ := starts_with_append _ _ h
    rw [hc]; simp [starts_with]
  · intro h
    obtain ⟨t, rfl⟩ := starts_with_append _ _ h
    rw [hc]; simp [starts_with]
  · intro h
    obtain ⟨t, rfl⟩ := starts_with_append _ _ h
    rw [hc]; simp [starts_with]
  · intro h
    obtain ⟨t, rfl⟩ := starts_with_append _ _ h
    rw [hc]; simp [starts_with]
  · intro h h1 h2 h3
    obtain ⟨t, rfl⟩ := starts_with_append _ _ h
    rw [hc]; simp [starts_with] at h1 h2 h3 ⊢; simp [h1, h2, h3]
  · intro h0 h1 h2 h3 h4
    have h5 : starts_with ['5', '3', '1', '0', '0'] s = false := by
      cases hx : starts_with ['5', '3', '1', '0', '0'] s with
      | false => rfl
      | true =>
        obtain ⟨t, rfl⟩ := starts_with_append _ _ hx
        simp [starts_with] at h4
    have h6 : starts_with ['5', '3', '2', '0', '0'] s = false := by
      cases hx : starts_with ['5', '3', '2', '0', '0'] s with
      | false => rfl
      | true =>
        obtain ⟨t, rfl⟩ := starts_with_append _ _ hx
        simp [starts_with] at h4
    have h7 : starts_with ['5', '3', '3', '0', '0'] s = false := by
      cases hx : starts_with ['5', '3', '3', '0', '0'] s with
      | false => rfl
      | true =>
        obtain ⟨t, rfl⟩ := starts_with_append _ _ hx
        simp [starts_with] at h4
    rw [hc]; simp [h0, h1, h2, h3, h4, h5, h6, h7]

theorem psql_state2errno_total_witness :
    psql_state2errno (some ['2', '3', '5', '0', '5']) = some (-EEXIST) ∧
    psql_state2errno (some ['5', '3', '4', '0', '0']) = some (- EIO) ∧
    psql_state2errno (some ['0', '8', '0', '0', '6']) = some (-ECOMM) :=
  ⟨(psql_state2errno_total ['2', '3', '5', '0', '5']).2.2.2.1 (by decide),
   (psql_state2errno_total ['5', '3', '4', '0', '0']).2.2.2.2.2.2.2.1 (by decide) (by decide)
     (by decide) (by decide),
   (psql_state2errno_total ['0', '8', '0', '0', '6']).2.2.2.2.2.2.2.2 (by decide) (by decide)
     (by decide) (by decide) (by decide)⟩

/-! ### Statistics of a medium as JSON -/

theorem digit_value_digitChar (d : Nat) (h : d < 10) :
    digit_value (Nat.digitChar d) = some d := by
  interval_cases d <;> rfl

theorem digit_value_bounds (c : Char) (d : Nat) (h : digit_value c = some d) :
    48 ≤ c.toNat ∧ c.toNat ≤ 57 := by
  unfold digit_value at h
  by_cases hc : 48 ≤ c.toNat ∧ c.toNat ≤ 57
  · exact hc
  · rw [if_neg hc] at h; cases h

theorem strtoull_digits_cons (c : Char) (d : Nat) (rest : List Char) (acc : Nat)
    (h : digit_value c = some d) :
    strtoull_digits (c :: rest) acc = strtoull_digits rest (acc * 10 + d) := by
  simp [strtoull_digits, h]

theorem toDigitsCore_digits :
    ∀ (fuel n : Nat) (ds : List Char), n < fuel →
      ∃ X : List Char, Nat.toDigitsCore 10 fuel n ds = X ++ ds ∧
        (∃ c d tl, X = c :: tl ∧ digit_value c = some d) ∧
        (X.length = 1 ∨ 10 ^ (X.length - 1) ≤ n) ∧
        (∀ (acc : Nat) (rest : List Char),
          strtoull_digits (X ++ rest) acc = strtoull_digits rest (acc * 10 ^ X.length + n)) := by
  intro fuel
  induction fuel with
  | zero => intro n ds h; omega
  | succ fuel ih =>
    intro n ds h
    have hd : digit_value (Nat.digitChar (n % 10)) = some (n % 10) :=
      digit_value_digitChar _ (Nat.mod_lt _ (by decide))
    by_cases h0 : n / 10 = 0
    · refine ⟨[Nat.digitChar (n % 10)], ?_, ⟨_, _, [], rfl, hd⟩, Or.inl rfl, ?_⟩
      · simp [Nat.toDigitsCore, h0]
      · intro acc rest
        have hn : n % 10 = n := by
          apply Nat.mod_eq_of_lt
          by_contra hc
          have : 1 ≤ n / 10 := (Nat.one_le_div_iff (by decide)).2 (by omega)
          omega
        simp only [List.singleton_append, List.length_singleton, pow_one]
        rw [strtoull_digits_cons _ _ _ _ hd, hn]
    · have hlt : n / 10 < fuel := by
        have : n / 10 < n := Nat.div_lt_self (by
          by_contra hc
          have : n = 0 := by omega
          simp [this] at h0) (by decide)
        omega
      obtain ⟨X, hX, ⟨c, d, tl, hc, hcd⟩, hlen, hparse⟩ :=
        ih (n / 10) (Nat.digitChar (n % 10) :: ds) hlt
      refine ⟨X ++ [Nat.digitChar (n % 10)], ?_, ⟨c, d, tl ++ [Nat.digitChar (n % 10)], ?_, hcd⟩,
        Or.inr ?_, ?_⟩
      · simp [Nat.toDigitsCore, h0, hX]
      · rw [hc]; rfl
      · simp only [List.length_append, List.length_singleton, Nat.add_sub_cancel]
        have h10 : 10 ≤ n := by
          by_contra hc2
          exact h0 (Nat.div_eq_of_lt (by omega))
        rcases hlen with h1 | h1
        · rw [h1]; simpa using h10
        · have hpos : 0 < X.length := by rw [hc]; simp
          have : 10 ^ X.length = 10 ^ (X.length - 1) * 10 := by
            rw [← pow_succ]; congr 1; omega
          rw [this]
          calc 10 ^ (X.length - 1) * 10 ≤ n / 10 * 10 := Nat.mul_le_mul_right _ h1
            _ ≤ n := Nat.div_mul_le_self n 10
      · intro acc rest
        rw [List.append_assoc, hparse]
        simp only [List.singleton_append, List.length_append, List.length_singleton]
        rw [strtoull_digits_cons _ _ _ _ hd]
        congr 1
        have := Nat.div_add_mod n 10
        rw [pow_succ]
        nlinarith [this]

theorem strtoull_snprintf_zu (n : Nat) (h : n < SIZE_MAX1) : strtoull (snprintf_zu n) = n := by
  obtain ⟨X, hX, ⟨c, d, tl, hc, hcd⟩, hlen, hparse⟩ :=
    toDigitsCore_digits (n + 1) n [] (by omega)
  have hdig : Nat.toDigits 10 n = X := by
    simp only [Nat.toDigits]; rw [hX]; simp
  have hshort : X.length ≤ 31 := by
    by_contra hc2
    rcases hlen with h1 | h1
    · omega
    · have h20 : (10 : Nat) ^ 20 ≤ 10 ^ (X.length - 1) :=
        Nat.pow_le_pow_right (by decide) (by omega)
      have : SIZE_MAX1 < 10 ^ 20 := by decide
      omega
  have hsn : snprintf_zu n = c :: tl := by
    simp only [snprintf_zu, hdig]
    rw [List.take_of_length_le hshort, hc]
  obtain ⟨hb1, hb2⟩ := digit_value_bounds c d hcd
  have hsp : isspace c = false := by
    simp only [isspace, Bool.or_eq_false_iff, Bool.and_eq_false_iff, decide_eq_false_iff_not]
    omega
  have hminus : c ≠ '-' := by
    intro hm; rw [hm] at hb1; revert hb1; decide
  have hplus : c ≠ '+' := by
    intro hm; rw [hm] at hb1; revert hb1; decide
  have hv : strtoull_digits (c :: tl) 0 = n := by
    have := hparse 0 []
    rw [List.append_nil, hc] at this
    rw [this]; simp [strtoull_digits]
  simp only [strtoull, hsn, List.dropWhile_cons, hsp, Bool.false_eq_true, if_false, hminus,
    hplus, hv]
  simp [Nat.not_le.2 h]

theorem snprintf_zu_decimal (n : Nat) (h : n < SIZE_MAX1) :
    snprintf_zu n = Nat.toDigits 10 n := by
  obtain ⟨X, hX, _, hlen, _⟩ := toDigitsCore_digits (n + 1) n [] (by omega)
  have hdig : Nat.toDigits 10 n = X := by
    simp only [Nat.toDigits]; rw [hX]; simp
  have hshort : X.length ≤ 31 := by
    by_contra hc2
    rcases hlen with h1 | h1
    · omega
    · have h20 : (10 : Nat) ^ 20 ≤ 10 ^ (X.length - 1) :=
        Nat.pow_le_pow_right (by decide) (by omega)
      have : SIZE_MAX1 < 10 ^ 20 := by decide
      omega
  simp only [snprintf_zu, hdig]
  exact List.take_of_length_le hshort

theorem json_dict2uint64_err (obj : List (String × json_value)) (key : String) (err : Nat) :
    err ≤ (json_dict2uint64 obj key err).2 ∧
    ((json_object_get obj key = none ∨ json_object_get obj key = some .other) →
      err < (json_dict2uint64 obj key err).2) := by
  unfold json_dict2uint64
  cases h : json_object_get obj key with
  | none => simp
  | some v =>
    cases v with
    | string val => simp
    | other => simp

theorem media_stats_json_members (s : media_stats) :
    media_stats_json s =
      [("nb_obj", .string (snprintf_zu s.nb_obj)),
       ("logc_spc_used", .string (snprintf_zu s.logc_spc_used)),
       ("phys_spc_used", .string (snprintf_zu s.phys_spc_used)),
       ("phys_spc_free", .string (snprintf_zu s.phys_spc_free))] := by
  simp [media_stats_json, json_object_set_new]

/-- C25. `dss_media_stats_encode` prints the JSON object whose four members
`nb_obj`, `logc_spc_used`, `phys_spc_used` and `phys_spc_free` are the decimal
strings of the counters, when these fit 64 bits. When the parser of jansson
gives back that object from the text printed, `dss_media_stats_decode`
returns 0 and the statistics encoded. On any object where one of the four
members is missing or is not a string, `dss_media_stats_decode` returns
`-EINVAL`. -/
theorem media_stats_json_round_trip (json_dumps : json_root → Option (List Char))
    (json_loads : List Char → Option json_root) (s s0 : media_stats) (txt : List Char)
    (root : List (String × json_value)) :
    (s.nb_obj < SIZE_MAX1 → s.logc_spc_used < SIZE_MAX1 → s.phys_spc_used < SIZE_MAX1 →
      s.phys_spc_free < SIZE_MAX1 →
      dss_media_stats_encode json_dumps s =
        (json_dumps (.object
          [("nb_obj", .string (Nat.toDigits 10 s.nb_obj)),
           ("logc_spc_used", .string (Nat.toDigits 10 s.logc_spc_used)),
           ("phys_spc_used", .string (Nat.toDigits 10 s.phys_spc_used)),
           ("phys_spc_free", .string (Nat.toDigits 10 s.phys_spc_free))]), 0) ∧
      ((dss_media_stats_encode json_dumps s).1 = some txt →
        json_loads txt = some (.object (media_stats_json s)) →
        dss_media_stats_decode json_loads s0 txt = (0, s))) ∧
    (json_loads txt = some (.object root) →
      (∃ key ∈ ["nb_obj", "logc_spc_used", "phys_spc_used", "phys_spc_free"],
        json_object_get root key = none ∨ json_object_get root key = some .other) →
      (dss_media_stats_decode json_loads s0 txt).1 = -EINVAL) := by
  constructor
  · intro h1 h2 h3 h4
    constructor
    · simp only [dss_media_stats_encode, media_stats_json_members, snprintf_zu_decimal _ h1,
        snprintf_zu_decimal _ h2, snprintf_zu_decimal _ h3, snprintf_zu_decimal _ h4]
    · intro _ hl
      simp only [dss_media_stats_decode, hl, media_stats_json_members]
      simp [json_dict2uint64, json_object_get, strtoull_snprintf_zu _ h1,
        strtoull_snprintf_zu _ h2, strtoull_snprintf_zu _ h3, strtoull_snprintf_zu _ h4]
  · intro hl hkey
    have e1 := json_dict2uint64_err root "nb_obj" 0
    have e2 := json_dict2uint64_err root "logc_spc_used" (json_dict2uint64 root "nb_obj" 0).2
    have e3 := json_dict2uint64_err root "phys_spc_used"
      (json_dict2uint64 root "logc_spc_used" (json_dict2uint64 root "nb_obj" 0).2).2
    have e4 := json_dict2uint64_err root "phys_spc_free"
      (json_dict2uint64 root "phys_spc_used"
        (json_dict2uint64 root "logc_spc_used" (json_dict2uint64 root "nb_obj" 0).2).2).2
    have hpos : (json_dict2uint64 root "phys_spc_free"
        (json_dict2uint64 root "phys_spc_used"
          (json_dict2uint64 root "logc_spc_used" (json_dict2uint64 root "nb_obj" 0).2).2).2).2
        > 0 := by
      obtain ⟨key, hk, hmiss⟩ := hkey
      simp only [List.mem_cons, List.mem_singleton, List.not_mem_nil, or_false] at hk
      rcases hk with rfl | rfl | rfl | rfl
      · have := e1.2 hmiss; omega
      · have := e2.2 hmiss; omega
      · have := e3.2 hmiss; omega
      · have := e4.2 hmiss; omega
    simp only [dss_media_stats_decode, hl]
    rw [if_pos hpos]

theorem media_stats_json_round_trip_witness :
    dss_media_stats_decode (fun _ => some (.object (media_stats_json example_stats)))
        ⟨0, 0, 0, 0⟩ ['x'] = (0, example_stats) ∧
    (dss_media_stats_decode (fun _ => some (.object [("nb_obj", .string ['3'])]))
        ⟨0, 0, 0, 0⟩ ['x']).1 = -EINVAL :=
  ⟨((media_stats_json_round_trip (fun _ => some ['x'])
      (fun _ => some (.object (media_stats_json example_stats))) example_stats ⟨0, 0, 0, 0⟩
      ['x'] []).1 (by decide) (by decide) (by decide) (by decide)).2 rfl rfl,
   (media_stats_json_round_trip (fun _ => some ['x'])
      (fun _ => some (.object [("nb_obj", .string ['3'])])) example_stats ⟨0, 0, 0, 0⟩
      ['x'] [("nb_obj", .string ['3'])]).2 rfl
      ⟨"logc_spc_used", by simp, Or.inl (by decide)⟩⟩

/-! ### Packed messages -/

/-- C26. A packed request is one byte, the protocol version, followed by the
packed body: its size is the size of the body plus 1. Unpacking a buffer
whose first byte is not the protocol version gives no request and does not
hand the body to the unpacker. When the protocol version is at most 127 and
the unpacker reads back what the packer wrote, unpacking a packed request
gives the request. -/
theorem packed_message_round_trip {α : Type} (version : Nat) (pack : α → List Nat)
    (unpack : List Nat → Option α) (req : α) (buf : pho_buff) (first : Nat)
    (rest : List Nat) :
    ((pho_srl_tlc_request_pack version pack req).size = (pack req).length + 1 ∧
      (pho_srl_tlc_request_pack version pack req).buff.length =
        (pho_srl_tlc_request_pack version pack req).size ∧
      (pho_srl_tlc_request_pack version pack req).buff.drop 1 = pack req ∧
      (version < 256 →
        (pho_srl_tlc_request_pack version pack req).buff.head? = some version)) ∧
    (buf.buff = first :: rest → char_value first ≠ (version : Int) →
      pho_srl_tlc_request_unpack version unpack buf = some (none, false)) ∧
    (version ≤ 127 → unpack (pack req) = some req →
      pho_srl_tlc_request_unpack version unpack (pho_srl_tlc_request_pack version pack req) =
        some (some req, true)) := by
  refine ⟨⟨rfl, ?_, rfl, ?_⟩, ?_, ?_⟩
  · simp [pho_srl_tlc_request_pack, PHO_TLC_PROTOCOL_VERSION_SIZE]
  · intro h
    simp [pho_srl_tlc_request_pack, Nat.mod_eq_of_lt h]
  · intro h1 h2
    simp [pho_srl_tlc_request_unpack, h1, h2]
  · intro h1 h2
    have hm : version % 256 = version := Nat.mod_eq_of_lt (by omega)
    have hc : char_value (version % 256) = (version : Int) := by
      simp only [char_value, hm]
      rw [if_pos (by omega)]
    simp [pho_srl_tlc_request_unpack, pho_srl_tlc_request_pack, hc,
      PHO_TLC_PROTOCOL_VERSION_SIZE, h2]

theorem packed_message_round_trip_witness :
    pho_srl_tlc_request_unpack 1 bytes_unpack ⟨3, [2, 10, 20]⟩ = some (none, false) ∧
    pho_srl_tlc_request_unpack 1 bytes_unpack (pho_srl_tlc_request_pack 1 bytes_pack [10, 20]) =
      some (some [10, 20], true) :=
  ⟨(packed_message_round_trip 1 bytes_pack bytes_unpack [10, 20] ⟨3, [2, 10, 20]⟩ 2
      [10, 20]).2.1 rfl (by decide),
   (packed_message_round_trip 1 bytes_pack bytes_unpack [10, 20] ⟨3, [2, 10, 20]⟩ 2
      [10, 20]).2.2 (by decide) rfl⟩

/-! ### Scores of the candidate hosts -/

theorem get_best_hosts (ol : object_location) :
    (get_best_object_location ol).2.2.hosts =
      ol.hosts.map (fun x => add_unreachable
        (unreachable_in (ol.splits.take ol.split_count) x.hostname) x) := by
  cases hh : ol.hosts with
  | nil => simp [get_best_object_location, hh]
  | cons a l =>
    simp only [get_best_object_location, hh, update_unreachable_spec]
    simp

theorem scan_fitted (dss : pho_id → Int × Option String) (layout : layout_info) (r n : Nat)
    (ol : object_location)
    (hinv : scan_inv n ol (reported_hosts dss layout r n)
      (fun s => (split_hosts dss layout r s, split_has_unlocked dss layout r s)))
    (name : String) :
    fitted_in ol.splits name = host_fitted_splits dss layout r n name ∧
    unreachable_in ol.splits name = host_unreachable_splits dss layout r n name := by
  obtain ⟨a1, a2, a3, a4, a5, a6, a7, a8⟩ := hinv
  constructor
  · unfold fitted_in host_fitted_splits
    rw [countP_eq_count_splits _
      (fun s => decide (name ∈ split_hosts dss layout r s)) ol.splits, a1]
    intro s sp hs
    have hsn : s < n := by rw [← a1]; exact (List.getElem?_eq_some_iff.1 hs).1
    obtain ⟨sp', h1, h2, _⟩ := a3 s hsn
    rw [hs] at h1
    injection h1 with h1
    subst h1
    simp only [decide_eq_decide]
    exact h2 name
  · unfold unreachable_in host_unreachable_splits
    rw [countP_eq_count_splits _
      (fun s => !split_has_unlocked dss layout r s &&
        decide (name ∉ split_hosts dss layout r s)) ol.splits, a1]
    intro s sp hs
    have hsn : s < n := by rw [← a1]; exact (List.getElem?_eq_some_iff.1 hs).1
    obtain ⟨sp', h1, h2, h3⟩ := a3 s hsn
    rw [hs] at h1
    injection h1 with h1
    subst h1
    simp only [] at h3
    rw [h3]
    congr 1
    simp only [decide_eq_decide]
    exact not_congr (h2 name)

/-- C27. When each of the `n` splits has a medium that the state index finds,
the scan of `layout_raid1_locate` succeeds and, after
`get_best_object_location`, the candidate hosts are the hostnames reported by
the state index, each of them once, and for every candidate `h`:
`nb_fitted_split` is the number of splits where `h` holds the lock of at least
one medium, and `nb_unreachable_split` is the number of splits that have no
unlocked medium and where `h` holds no medium. -/
theorem locate_scores_count_splits (dss : pho_id → Int × Option String)
    (layout : layout_info) (r n : Nat)
    (hloc : ∀ s, s < n → ∃ e ∈ split_extents layout r s, located dss e = true) :
    ∃ ol, locate_splits dss layout r (init_object_location n r) 0 n = .ok ol ∧
      ((get_best_object_location ol).2.2.hosts.map (fun x => x.hostname)).Nodup ∧
      (∀ h, h ∈ (get_best_object_location ol).2.2.hosts.map (fun x => x.hostname) ↔
        h ∈ reported_hosts dss layout r n) ∧
      ∀ host ∈ (get_best_object_location ol).2.2.hosts,
        host.nb_fitted_split = host_fitted_splits dss layout r n host.hostname ∧
        host.nb_unreachable_split =
          host_unreachable_splits dss layout r n host.hostname := by
  obtain ⟨ol, hol, hinv⟩ := scan_inv_splits dss layout r n hloc n 0
    (init_object_location n r) (by omega)
    (scan_inv_congr n _ _ _ _ (by intro s _; simp) (scan_inv_init n r))
  have hsc := scan_fitted dss layout r n ol hinv
  obtain ⟨a1, a2, a3, a4, a5, a6, a7, a8⟩ := hinv
  have htake : ol.splits.take ol.split_count = ol.splits := by
    rw [a2, ← a1]; exact List.take_length _
  have hnames : (get_best_object_location ol).2.2.hosts.map (fun x => x.hostname) =
      ol.hosts.map (fun x => x.hostname) := by
    rw [get_best_hosts, List.map_map]
    rfl
  refine ⟨ol, hol, by rw [hnames]; exact a6, fun h => by rw [hnames]; exact a5 h, ?_⟩
  intro host hhost
  rw [get_best_hosts, htake] at hhost
  obtain ⟨x, hx, hxc⟩ := List.mem_map.1 hhost
  obtain ⟨u1, u2⟩ := a7 x hx
  subst hxc
  refine ⟨?_, ?_⟩
  · simp only [add_unreachable, u2]
    exact (hsc _).1
  · simp only [add_unreachable, u1, Nat.zero_add]
    exact (hsc _).2

theorem locate_scores_count_splits_witness :
    ∃ ol, locate_splits locate_example_dss locate_example_layout 2
        (init_object_location 2 2) 0 2 = .ok ol ∧
      ((get_best_object_location ol).2.2.hosts.map (fun x => x.hostname)).Nodup ∧
      (∀ h, h ∈ (get_best_object_location ol).2.2.hosts.map (fun x => x.hostname) ↔
        h ∈ reported_hosts locate_example_dss locate_example_layout 2 2) ∧
      ∀ host ∈ (get_best_object_location ol).2.2.hosts,
        host.nb_fitted_split =
          host_fitted_splits locate_example_dss locate_example_layout 2 2 host.hostname ∧
        host.nb_unreachable_split =
          host_unreachable_splits locate_example_dss locate_example_layout 2 2
            host.hostname :=
  locate_scores_count_splits locate_example_dss locate_example_layout 2 2
    (fun s hs => by
      interval_cases s
      · exact ⟨⟨0, 5, ⟨1, "m0"⟩⟩, by decide, by decide⟩
      · exact ⟨⟨2, 3, ⟨1, "m2"⟩⟩, by decide, by decide⟩)

/-! ### Choice of a medium for a write -/

theorem set_candidate_lock_length (lock : Option pho_lock) :
    ∀ (l : List media_info) (i : Nat), (set_candidate_lock l i lock).length = l.length := by
  intro l
  induction l with
  | nil => intro i; simp [set_candidate_lock]
  | cons a rest ih =>
    intro i
    cases i with
    | zero => simp [set_candidate_lock]
    | succ i => simp [set_candidate_lock, ih i]

theorem set_candidate_lock_get (lock : Option pho_lock) :
    ∀ (l : List media_info) (i j : Nat),
      (set_candidate_lock l i lock)[j]? =
        if j = i then (l[j]?).map (fun m => { m with lock := lock }) else l[j]? := by
  intro l
  induction l with
  | nil => intro i j; simp [set_candidate_lock]
  | cons a rest ih =>
    intro i j
    cases i with
    | zero =>
      cases j with
      | zero => simp [set_candidate_lock]
      | succ j => simp [set_candidate_lock]
    | succ i =>
      cases j with
      | zero => simp [set_candidate_lock]
      | succ j => simp [set_candidate_lock, ih i j]

theorem candidate_free_of (l : List media_info) (k : Nat) (m : media_info)
    (h : l[k]? = some m) : candidate_free l (some k) = m.stats.phys_spc_free := by
  simp [candidate_free, h]

theorem candidate_free_set_lock (lock : Option pho_lock) (l : List media_info) (i : Nat)
    (k : Option Nat) : candidate_free (set_candidate_lock l i lock) k = candidate_free l k := by
  cases k with
  | none => rfl
  | some k =>
    simp only [candidate_free, Option.some_bind, set_candidate_lock_get]
    by_cases h : k = i
    · simp only [h, if_true]
      cases l[i]? <;> rfl
    · simp only [h, if_false]

theorem select_media_step_closed {ω : Type} (env : lrs_env ω) (st : lrs_devs ω)
    (required_size : Nat) (devs : List Nat) (s : select_state) (curr : media_info) (i : Nat) :
    select_media_step env st required_size devs s curr i =
      { pmedia_res :=
          if select_free env st devs curr = true ∧ curr.lock.isSome = true then
            set_candidate_lock s.pmedia_res i (env.check_renew_lock st.world curr).2
          else s.pmedia_res
        avail_size :=
          if select_free env st devs curr = true then
            (s.avail_size + curr.stats.phys_spc_free) % SIZE_MAX1
          else s.avail_size
        split_media_best :=
          if select_usable env st devs curr = true ∧
              (s.split_media_best.isNone = true ∨
                curr.stats.phys_spc_free > candidate_free s.pmedia_res s.split_media_best) then
            some i
          else s.split_media_best
        whole_media_best :=
          if select_usable env st devs curr = true ∧
              required_size ≤ curr.stats.phys_spc_free ∧
              (s.whole_media_best.isNone = true ∨
                curr.stats.phys_spc_free < candidate_free s.pmedia_res s.whole_media_best) then
            some i
          else s.whole_media_best } := by
  have hin : (match search_loaded_media st.devices curr.id.name with
      | some k => (st.devices[k]?).any (fun d => d.ongoing_io)
      | none => false) = loaded_in_busy_device st.devices curr.id.name := rfl
  unfold select_media_step
  simp only [hin, select_usable, select_free]
  by_cases hb : medium_in_devices env.pho_id_equal st.devices curr devs = true
  · simp [hb]
  · have hiff : curr.lock.isNone = !curr.lock.isSome := by
      cases curr.lock <;> rfl
    by_cases hlk : curr.lock.isSome = true <;>
      by_cases hr : (env.check_renew_lock st.world curr).1 = 0 <;>
      by_cases hu : loaded_in_busy_device st.devices curr.id.name = true <;>
      by_cases hf : curr.stats.phys_spc_free < required_size <;>
      by_cases hs1 : s.split_media_best = none <;>
      by_cases hs2 : candidate_free s.pmedia_res s.split_media_best <
        curr.stats.phys_spc_free <;>
      by_cases hw1 : s.whole_media_best = none <;>
      by_cases hw2 : curr.stats.phys_spc_free <
        candidate_free s.pmedia_res s.whole_media_best <;>
      simp [hiff, hb, hlk, hr, hu, hf, hs1, hs2, hw1, hw2, candidate_free_set_lock,
        Nat.not_le.2, Nat.le_of_not_lt]

theorem select_avail_take_succ {ω : Type} (env : lrs_env ω) (st : lrs_devs ω)
    (devs : List Nat) (l : List media_info) (n : Nat) (curr : media_info)
    (h : l[n]? = some curr) :
    select_avail env st devs (l.take (n + 1)) =
      if select_free env st devs curr = true then
        (select_avail env st devs (l.take n) + curr.stats.phys_spc_free) % SIZE_MAX1
      else select_avail env st devs (l.take n) := by
  have e : select_total env st devs (l.take (n + 1)) =
      select_total env st devs (l.take n) +
        (if select_free env st devs curr = true then curr.stats.phys_spc_free else 0) := by
    simp [select_total, List.take_succ, h]
  unfold select_avail
  rw [e]
  split
  · rw [Nat.mod_add_mod]
  · rw [Nat.add_zero]

theorem select_pass_inv_step {ω : Type} (env : lrs_env ω) (st : lrs_devs ω) (devs : List Nat)
    (required_size : Nat) (l : List media_info) (n : Nat) (s : select_state)
    (curr : media_info) (hcurr : l[n]? = some curr)
    (hinv : select_pass_inv env st devs required_size l n s) :
    select_pass_inv env st devs required_size l (n + 1)
      (select_media_step env st required_size devs s curr n) := by
  obtain ⟨i1, i2, i3, i4, i5⟩ := hinv
  have hfree_of : ∀ (k : Nat) (mk : media_info), l[k]? = some mk →
      candidate_free s.pmedia_res (some k) = mk.stats.phys_spc_free := by
    intro k mk hk
    have hklt : k < s.pmedia_res.length := by
      rw [i1]; exact (List.getElem?_eq_some_iff.1 hk).1
    have hsk : s.pmedia_res[k]? = some s.pmedia_res[k] := List.getElem?_eq_getElem hklt
    rw [candidate_free_of _ _ _ hsk, (i2 k mk _ hk hsk).1]
  have hlast : ∀ (j : Nat) (m : media_info), j < n + 1 → l[j]? = some m → ¬ j < n →
      m = curr := by
    intro j m hj hm hnj
    have : j = n := by omega
    subst this
    rw [hcurr] at hm; cases hm; rfl
  rw [select_media_step_closed]
  refine ⟨?_, ?_, ?_, ?_, ?_⟩
  · simp only
    split
    · rw [set_candidate_lock_length]; exact i1
    · exact i1
  · intro i m m' hm hm'
    simp only at hm'
    split at hm'
    · rw [set_candidate_lock_get] at hm'
      by_cases hin : i = n
      · simp only [hin, if_true] at hm'
        subst hin
        cases hsi : s.pmedia_res[i]? with
        | none => rw [hsi] at hm'; cases hm'
        | some x =>
          rw [hsi] at hm'
          simp only [Option.map_some', Option.some.injEq] at hm'
          obtain ⟨e1, e2, _⟩ := i2 i m x hm hsi
          subst hm'
          exact ⟨e1, e2, fun h => by omega⟩
      · simp only [hin, if_false] at hm'
        obtain ⟨e1, e2, e3⟩ := i2 i m m' hm hm'
        exact ⟨e1, e2, fun h => e3 (by omega)⟩
    · obtain ⟨e1, e2, e3⟩ := i2 i m m' hm hm'
      exact ⟨e1, e2, fun h => e3 (by omega)⟩
  · simp only
    rw [select_avail_take_succ env st devs l n curr hcurr, i3]
  · simp only
    cases hw : s.whole_media_best with
    | none =>
      rw [hw] at i4
      simp only at i4
      by_cases hc : select_usable env st devs curr = true ∧
          required_size ≤ curr.stats.phys_spc_free
      · have hcond : select_usable env st devs curr = true ∧
            required_size ≤ curr.stats.phys_spc_free ∧
            ((none : Option Nat).isNone = true ∨
              curr.stats.phys_spc_free < candidate_free s.pmedia_res none) :=
          ⟨hc.1, hc.2, Or.inl rfl⟩
        rw [if_pos hcond]
        refine ⟨curr, hcurr, by omega, hc.1, hc.2, ?_⟩
        intro j m hj hm hu hr
        by_cases hjn : j < n
        · have := i4 j m hjn hm hu; omega
        · have := hlast j m hj hm hjn
          subst this
          exact ⟨le_refl _, fun h => by omega⟩
      · have hcond : ¬ (select_usable env st devs curr = true ∧
            required_size ≤ curr.stats.phys_spc_free ∧
            ((none : Option Nat).isNone = true ∨
              curr.stats.phys_spc_free < candidate_free s.pmedia_res none)) :=
          fun h => hc ⟨h.1, h.2.1⟩
        rw [if_neg hcond]
        intro j m hj hm hu
        by_cases hjn : j < n
        · exact i4 j m hjn hm hu
        · have := hlast j m hj hm hjn
          subst this
          by_contra hlt
          exact hc ⟨hu, by omega⟩
    | some k =>
      rw [hw] at i4
      obtain ⟨mk, w1, w2, w3, w4, w5⟩ := i4
      have hcf := hfree_of k mk w1
      by_cases hc : select_usable env st devs curr = true ∧
          required_size ≤ curr.stats.phys_spc_free ∧
          curr.stats.phys_spc_free < mk.stats.phys_spc_free
      · have hcond : select_usable env st devs curr = true ∧
            required_size ≤ curr.stats.phys_spc_free ∧
            ((some k : Option Nat).isNone = true ∨
              curr.stats.phys_spc_free < candidate_free s.pmedia_res (some k)) :=
          ⟨hc.1, hc.2.1, Or.inr (by rw [hcf]; exact hc.2.2)⟩
        rw [if_pos hcond]
        refine ⟨curr, hcurr, by omega, hc.1, hc.2.1, ?_⟩
        intro j m hj hm hu hr
        by_cases hjn : j < n
        · have := w5 j m hjn hm hu hr
          exact ⟨by omega, fun _ => by omega⟩
        · have := hlast j m hj hm hjn
          subst this
          exact ⟨le_refl _, fun h => by omega⟩
      · have hcond : ¬ (select_usable env st devs curr = true ∧
            required_size ≤ curr.stats.phys_spc_free ∧
            ((some k : Option Nat).isNone = true ∨
              curr.stats.phys_spc_free < candidate_free s.pmedia_res (some k))) := by
          intro h
          rcases h.2.2 with h3 | h3
          · simp at h3
          · rw [hcf] at h3; exact hc ⟨h.1, h.2.1, h3⟩
        rw [if_neg hcond]
        refine ⟨mk, w1, by omega, w3, w4, ?_⟩
        intro j m hj hm hu hr
        by_cases hjn : j < n
        · exact w5 j m hjn hm hu hr
        · have := hlast j m hj hm hjn
          subst this
          refine ⟨?_, fun h => by omega⟩
          by_contra hlt
          exact hc ⟨hu, hr, by omega⟩
  · simp only
    cases hw : s.split_media_best with
    | none =>
      rw [hw] at i5
      simp only at i5
      by_cases hc : select_usable env st devs curr = true
      · have hcond : select_usable env st devs curr = true ∧
            ((none : Option Nat).isNone = true ∨
              curr.stats.phys_spc_free > candidate_free s.pmedia_res none) :=
          ⟨hc, Or.inl rfl⟩
        rw [if_pos hcond]
        refine ⟨curr, hcurr, by omega, hc, ?_⟩
        intro j m hj hm hu
        by_cases hjn : j < n
        · have := i5 j m hjn hm
          rw [this] at hu; cases hu
        · have := hlast j m hj hm hjn
          subst this
          exact ⟨le_refl _, fun h => by omega⟩
      · have hcond : ¬ (select_usable env st devs curr = true ∧
            ((none : Option Nat).isNone = true ∨
              curr.stats.phys_spc_free > candidate_free s.pmedia_res none)) :=
          fun h => hc h.1
        rw [if_neg hcond]
        intro j m hj hm
        by_cases hjn : j < n
        · exact i5 j m hjn hm
        · have := hlast j m hj hm hjn
          subst this
          simpa using hc
    | some k =>
      rw [hw] at i5
      obtain ⟨mk, w1, w2, w3, w5⟩ := i5
      have hcf := hfree_of k mk w1
      by_cases hc : select_usable env st devs curr = true ∧
          mk.stats.phys_spc_free < curr.stats.phys_spc_free
      · have hcond : select_usable env st devs curr = true ∧
            ((some k : Option Nat).isNone = true ∨
              curr.stats.phys_spc_free > candidate_free s.pmedia_res (some k)) :=
          ⟨hc.1, Or.inr (by rw [hcf]; exact hc.2)⟩
        rw [if_pos hcond]
        refine ⟨curr, hcurr, by omega, hc.1, ?_⟩
        intro j m hj hm hu
        by_cases hjn : j < n
        · have := w5 j m hjn hm hu
          exact ⟨by omega, fun _ => by omega⟩
        · have := hlast j m hj hm hjn
          subst this
          exact ⟨le_refl _, fun h => by omega⟩
      · have hcond : ¬ (select_usable env st devs curr = true ∧
            ((some k : Option Nat).isNone = true ∨
              curr.stats.phys_spc_free > candidate_free s.pmedia_res (some k))) := by
          intro h
          rcases h.2 with h3 | h3
          · simp at h3
          · rw [hcf] at h3; exact hc ⟨h.1, h3⟩
        rw [if_neg hcond]
        refine ⟨mk, w1, by omega, w3, ?_⟩
        intro j m hj hm hu
        by_cases hjn : j < n
        · exact w5 j m hjn hm hu
        · have := hlast j m hj hm hjn
          subst this
          refine ⟨?_, fun h => by omega⟩
          by_contra hlt
          exact hc ⟨hu, by omega⟩

theorem select_pass_inv_loop {ω : Type} (env : lrs_env ω) (st : lrs_devs ω) (devs : List Nat)
    (required_size : Nat) (l : List media_info) :
    ∀ (fuel n : Nat) (s : select_state), n + fuel = l.length →
      select_pass_inv env st devs required_size l n s →
      select_pass_inv env st devs required_size l l.length
        (select_media_loop env st required_size devs s n fuel) := by
  intro fuel
  induction fuel with
  | zero =>
    intro n s hn h
    have : n = l.length := by omega
    subst this
    exact h
  | succ fuel ih =>
    intro n s hn h
    have hlt : n < l.length := by omega
    have hl : l[n]? = some l[n] := List.getElem?_eq_getElem hlt
    have hslt : n < s.pmedia_res.length := by rw [h.1]; exact hlt
    have hs : s.pmedia_res[n]? = some s.pmedia_res[n] := List.getElem?_eq_getElem hslt
    have heq : s.pmedia_res[n] = l[n] := (h.2.1 n _ _ hl hs).2.2 (le_refl _)
    unfold select_media_loop
    rw [hs]
    simp only
    rw [heq]
    exact ih (n + 1) _ (by omega) (select_pass_inv_step env st devs required_size l n s _ hl h)

theorem select_pass_inv_init {ω : Type} (env : lrs_env ω) (st : lrs_devs ω) (devs : List Nat)
    (required_size : Nat) (l : List media_info) :
    select_pass_inv env st devs required_size l 0
      { pmedia_res := l, avail_size := 0, split_media_best := none,
        whole_media_best := none } := by
  refine ⟨rfl, ?_, by simp [select_avail, select_total], ?_, ?_⟩
  · intro i m m' h1 h2
    simp only at h2
    rw [h1] at h2; cases h2
    exact ⟨rfl, rfl, fun _ => rfl⟩
  · intro j m hj; omega
  · intro j m hj; omega

theorem select_media_loop_candidates {ω : Type} (env : lrs_env ω) (st : lrs_devs ω)
    (devs : List Nat) (required_size : Nat) (l : List media_info) :
    ∀ (fuel n : Nat) (s : select_state), n + fuel = l.length →
      (∀ i : Nat, s.pmedia_res[i]? =
        if i < n then (l[i]?).map (renew_candidate env st devs) else l[i]?) →
      ∀ i : Nat, (select_media_loop env st required_size devs s n fuel).pmedia_res[i]? =
        (l[i]?).map (renew_candidate env st devs) := by
  intro fuel
  induction fuel with
  | zero =>
    intro n s hn h i
    have hn2 : n = l.length := by omega
    subst hn2
    simp only [select_media_loop]
    rw [h i]
    by_cases hi : i < l.length
    · simp [hi]
    · have : l[i]? = none := List.getElem?_eq_none (by omega)
      simp [hi, this]
  | succ fuel ih =>
    intro n s hn h i
    have hlt : n < l.length := by omega
    have hl : l[n]? = some l[n] := List.getElem?_eq_getElem hlt
    have hs : s.pmedia_res[n]? = some l[n] := by
      rw [h n]; simp [hl]
    unfold select_media_loop
    rw [hs]
    simp only
    apply ih (n + 1) _ (by omega)
    intro j
    rw [select_media_step_closed]
    simp only
    by_cases hc : select_free env st devs l[n] = true ∧ l[n].lock.isSome = true
    · rw [if_pos hc, set_candidate_lock_get]
      by_cases hj : j = n
      · subst hj
        simp [hs, hl, renew_candidate, hc]
      · have e : (j < n + 1) = (j < n) := by
          apply propext; constructor <;> intro h1 <;> omega
        simp only [hj, if_false, e]
        exact h j
    · rw [if_neg hc]
      by_cases hj : j = n
      · subst hj
        simp [hs, hl, renew_candidate, hc]
      · have e : (j < n + 1) = (j < n) := by
          apply propext; constructor <;> intro h1 <;> omega
        simp only [e]
        exact h j

theorem select_media_loop_renewed {ω : Type} (env : lrs_env ω) (st : lrs_devs ω)
    (devs : List Nat) (required_size : Nat) (l : List media_info) :
    (select_media_loop env st required_size devs
      { pmedia_res := l, avail_size := 0, split_media_best := none,
        whole_media_best := none } 0 l.length).pmedia_res =
      l.map (renew_candidate env st devs) := by
  apply List.ext_getElem?
  intro i
  rw [select_media_loop_candidates env st devs required_size l l.length 0 _ (by omega)
    (fun i => by simp) i]
  simp

theorem whole_fit_choice_unique (usable : media_info → Bool) (required_size : Nat)
    (l : List media_info) (n k k' : Nat) (mk mk' : media_info)
    (h : whole_fit_choice usable required_size l n k mk)
    (h' : whole_fit_choice usable required_size l n k' mk') : k = k' := by
  obtain ⟨a1, a2, a3, a4, a5⟩ := h
  obtain ⟨b1, b2, b3, b4, b5⟩ := h'
  have x := a5 k' mk' b2 b1 b3 b4
  have y := b5 k mk a2 a1 a3 a4
  by_contra hne
  rcases Nat.lt_or_gt_of_ne hne with hlt | hgt
  · have := y.2 hlt; omega
  · have := x.2 hgt; omega

theorem split_choice_unique (usable : media_info → Bool)
    (l : List media_info) (n k k' : Nat) (mk mk' : media_info)
    (h : split_choice usable l n k mk)
    (h' : split_choice usable l n k' mk') : k = k' := by
  obtain ⟨a1, a2, a3, a5⟩ := h
  obtain ⟨b1, b2, b3, b5⟩ := h'
  have x := a5 k' mk' b2 b1 b3
  have y := b5 k mk a2 a1 a3
  by_contra hne
  rcases Nat.lt_or_gt_of_ne hne with hlt | hgt
  · have := y.2 hlt; omega
  · have := x.2 hgt; omega

theorem select_media_retry_pass {ω : Type} (env : lrs_env ω) (st : lrs_devs ω)
    (required_size : Nat) (devs : List Nat) (l : List media_info) (fuel : Nat) :
    (select_avail env st devs l < required_size →
      select_media_retry env st required_size devs l (fuel + 1) = some (-ENOSPC, none)) ∧
    (required_size ≤ select_avail env st devs l →
      (∀ m, m ∈ l → select_usable env st devs m = false) →
      select_media_retry env st required_size devs l (fuel + 1) = some (-EAGAIN, none)) ∧
    (required_size ≤ select_avail env st devs l → ∀ (k : Nat) (mk : media_info),
      (whole_fit_choice (select_usable env st devs) required_size l l.length k mk ∨
        (no_whole_fit (select_usable env st devs) required_size l l.length ∧
          split_choice (select_usable env st devs) l l.length k mk)) →
      select_media_retry env st required_size devs l (fuel + 1) =
        if (renew_candidate env st devs mk).lock.isSome = true then
          some (0, some (renew_candidate env st devs mk))
        else if (env.take_and_update_lock st.world (renew_candidate env st devs mk)).1 = 0 then
          some (0, some { renew_candidate env st devs mk with
            lock := (env.take_and_update_lock st.world (renew_candidate env st devs mk)).2 })
        else
          select_media_retry env st required_size devs
            (set_candidate_lock (l.map (renew_candidate env st devs)) k
              (env.take_and_update_lock st.world (renew_candidate env st devs mk)).2) fuel) := by
  have hinv := select_pass_inv_loop env st devs required_size l l.length 0 _ (by omega)
    (select_pass_inv_init env st devs required_size l)
  have hren := select_media_loop_renewed env st devs required_size l
  generalize hs : select_media_loop env st required_size devs
      { pmedia_res := l, avail_size := 0, split_media_best := none,
        whole_media_best := none } 0 l.length = s at hinv hren
  obtain ⟨i1, i2, i3, i4, i5⟩ := hinv
  rw [List.take_length] at i3
  have hstep : select_media_retry env st required_size devs l (fuel + 1) =
      if s.avail_size < required_size then some (-ENOSPC, none)
      else
        match (if s.whole_media_best.isSome then s.whole_media_best
            else s.split_media_best).bind
              (fun k => (s.pmedia_res[k]?).map (fun m => (k, m))) with
        | none => some (-EAGAIN, none)
        | some (k, chosen_media) =>
          if chosen_media.lock.isNone then
            if (env.take_and_update_lock st.world chosen_media).1 ≠ 0 then
              select_media_retry env st required_size devs
                (set_candidate_lock s.pmedia_res k
                  (env.take_and_update_lock st.world chosen_media).2) fuel
            else some (0, some { chosen_media with
              lock := (env.take_and_update_lock st.world chosen_media).2 })
          else some (0, some chosen_media) := by
    rw [select_media_retry]
    simp only [hs]
  have hcase : ∀ (k : Nat) (mk : media_info), l[k]? = some mk →
      select_usable env st devs mk = true →
      required_size ≤ select_avail env st devs l →
      (if s.whole_media_best.isSome then s.whole_media_best else s.split_media_best) =
        some k →
      select_media_retry env st required_size devs l (fuel + 1) =
        if (renew_candidate env st devs mk).lock.isSome = true then
          some (0, some (renew_candidate env st devs mk))
        else if (env.take_and_update_lock st.world (renew_candidate env st devs mk)).1 = 0 then
          some (0, some { renew_candidate env st devs mk with
            lock := (env.take_and_update_lock st.world (renew_candidate env st devs mk)).2 })
        else
          select_media_retry env st required_size devs
            (set_candidate_lock (l.map (renew_candidate env st devs)) k
              (env.take_and_update_lock st.world (renew_candidate env st devs mk)).2) fuel := by
    intro k mk hk hu hsz hch
    have hget : s.pmedia_res[k]? = some (renew_candidate env st devs mk) := by
      rw [hren]; simp [hk]
    rw [hstep, if_neg (by rw [i3]; omega), hch]
    simp only [Option.some_bind, hget, Option.map_some']
    cases hlk : (renew_candidate env st devs mk).lock with
    | none =>
      by_cases ht : (env.take_and_update_lock st.world (renew_candidate env st devs mk)).1 = 0
      · simp [ht, hren]
      · simp [ht, hren]
    | some lk => simp
  refine ⟨?_, ?_, ?_⟩
  · intro h
    rw [hstep, if_pos (by rw [i3]; exact h)]
  · intro hsz hnone
    have hw : s.whole_media_best = none := by
      cases hw : s.whole_media_best with
      | none => rfl
      | some k =>
        rw [hw] at i4
        obtain ⟨mk, w1, _, w3, _⟩ := i4
        rw [hnone mk (List.getElem?_mem w1)] at w3; cases w3
    have hsp : s.split_media_best = none := by
      cases hsp : s.split_media_best with
      | none => rfl
      | some k =>
        rw [hsp] at i5
        obtain ⟨mk, w1, _, w3, _⟩ := i5
        rw [hnone mk (List.getElem?_mem w1)] at w3; cases w3
    rw [hstep, if_neg (by rw [i3]; omega), hw, hsp]
    rfl
  · intro hsz k mk hchoice
    rcases hchoice with hwf | ⟨hno, hsc⟩
    · apply hcase k mk hwf.1 hwf.2.2.1 hsz
      cases hw : s.whole_media_best with
      | none =>
        rw [hw] at i4
        have := i4 k mk hwf.2.1 hwf.1 hwf.2.2.1
        have := hwf.2.2.2.1
        omega
      | some k' =>
        rw [hw] at i4
        obtain ⟨mk', hc'⟩ := i4
        have := whole_fit_choice_unique _ _ _ _ _ _ _ _ hwf hc'
        subst this
        rfl
    · apply hcase k mk hsc.1 hsc.2.2.1 hsz
      have hw : s.whole_media_best = none := by
        cases hw : s.whole_media_best with
        | none => rfl
        | some k' =>
          rw [hw] at i4
          obtain ⟨mk', w1, w2, w3, w4, _⟩ := i4
          have := hno k' mk' w2 w1 w3
          omega
      rw [hw]
      cases hsp : s.split_media_best with
      | none =>
        rw [hsp] at i5
        have := i5 k mk hsc.2.1 hsc.1
        rw [hsc.2.2.1] at this; cases this
      | some k' =>
        rw [hsp] at i5
        obtain ⟨mk', hc'⟩ := i5
        have := split_choice_unique _ _ _ _ _ _ _ hsc hc'
        subst this
        rfl

/-- C28. `sched_select_media`, once the state index has listed the candidates
`l`, looks at those that are not booked for the allocation. The sum of their
free space is held in a `size_t`: `select_avail` is that sum modulo `2 ^ 64`,
and it is the sum itself, `select_total`, when the sum is below `2 ^ 64`.
The function returns `-ENOSPC` when `select_avail` is below `required_size`;
when the space suffices and no candidate is usable (unlocked, or locked by
this daemon and not loaded in a busy device) it returns `-EAGAIN`; otherwise it
aims at the usable candidate with the least free space that holds
`required_size` (the first of them in the list) and, when no usable candidate
holds it, at the usable candidate with the most free space (the first of
them). The medium aimed at is returned with the lock it holds or, when it is
unlocked, with the lock taken on it; when that lock cannot be taken the
selection starts again with the lock it has seen. -/
theorem sched_select_media_best_fit {ω : Type} (env : lrs_env ω) (st : lrs_devs ω)
    (required_size : Nat) (tags : List String) (devs : List Nat) (l : List media_info)
    (fuel : Nat)
    (hf : env.filter_build_rc st.world = 0)
    (hg : env.dss_media_get st.world env.family tags = (0, l)) :
    (select_total env st devs l < SIZE_MAX1 →
      select_avail env st devs l = select_total env st devs l) ∧
    (select_avail env st devs l < required_size →
      sched_select_media env st required_size tags devs (fuel + 1) = some (-ENOSPC, none)) ∧
    (required_size ≤ select_avail env st devs l →
      (∀ m, m ∈ l → select_usable env st devs m = false) →
      sched_select_media env st required_size tags devs (fuel + 1) = some (-EAGAIN, none)) ∧
    (required_size ≤ select_avail env st devs l → ∀ (k : Nat) (mk : media_info),
      (whole_fit_choice (select_usable env st devs) required_size l l.length k mk ∨
        (no_whole_fit (select_usable env st devs) required_size l l.length ∧
          split_choice (select_usable env st devs) l l.length k mk)) →
      sched_select_media env st required_size tags devs (fuel + 1) =
        if (renew_candidate env st devs mk).lock.isSome = true then
          some (0, some (renew_candidate env st devs mk))
        else if (env.take_and_update_lock st.world (renew_candidate env st devs mk)).1 = 0 then
          some (0, some { renew_candidate env st devs mk with
            lock := (env.take_and_update_lock st.world (renew_candidate env st devs mk)).2 })
        else
          select_media_retry env st required_size devs
            (set_candidate_lock (l.map (renew_candidate env st devs)) k
              (env.take_and_update_lock st.world (renew_candidate env st devs mk)).2) fuel) := by
  have e : sched_select_media env st required_size tags devs (fuel + 1) =
      select_media_retry env st required_size devs l (fuel + 1) := by
    simp [sched_select_media, hf, hg]
  rw [e]
  exact ⟨fun h => Nat.mod_eq_of_lt h, select_media_retry_pass env st required_size devs l fuel⟩

theorem three_candidates_whole_fit :
    whole_fit_choice (select_usable three_candidates_env quiet_state []) 30 three_candidates
      three_candidates.length 1
      { spare_tape with id := ⟨2, "t1"⟩, stats := ⟨0, 0, 0, 40⟩ } := by
  refine ⟨rfl, by decide, by decide, by decide, ?_⟩
  intro j m hj hm hu hr
  have hj3 : j < 3 := hj
  interval_cases j
  · have : m = { spare_tape with id := ⟨2, "t0"⟩, stats := ⟨0, 0, 0, 50⟩ } := by
      simpa [three_candidates] using hm.symm
    subst this
    exact ⟨by decide, fun _ => by decide⟩
  · have : m = { spare_tape with id := ⟨2, "t1"⟩, stats := ⟨0, 0, 0, 40⟩ } := by
      simpa [three_candidates] using hm.symm
    subst this
    exact ⟨by decide, fun h => by omega⟩
  · have : m = spare_tape := by
      simpa [three_candidates] using hm.symm
    subst this
    exact ⟨by decide, fun h => by omega⟩

theorem sched_select_media_best_fit_witness :
    three_candidates_env.filter_build_rc quiet_state.world = 0 ∧
    three_candidates_env.dss_media_get quiet_state.world three_candidates_env.family [] =
      (0, three_candidates) ∧
    select_total three_candidates_env quiet_state [] three_candidates = 190 ∧
    sched_select_media three_candidates_env quiet_state 30 [] [] 1 =
      some (0, some { spare_tape with
        id := ⟨2, "t1"⟩, stats := ⟨0, 0, 0, 40⟩, lock := some ⟨"host", 1⟩ }) :=
  ⟨rfl, rfl, by decide,
    ((sched_select_media_best_fit three_candidates_env quiet_state 30 [] [] three_candidates 0
      rfl rfl).2.2.2 (by decide) 1 _ (Or.inl three_candidates_whole_fit)).trans (by decide)⟩

/-- Where the free space of the candidates adds up to `2 ^ 64` the sum held
in `avail_size` is 0, and a request for 10 bytes is answered `-ENOSPC`. -/
theorem sched_select_media_sum_wraps :
    select_total wrapping_candidates_env quiet_state [] wrapping_candidates = 2 ^ 64 ∧
    select_avail wrapping_candidates_env quiet_state [] wrapping_candidates = 0 ∧
    sched_select_media wrapping_candidates_env quiet_state 10 [] [] 1 =
      some (-ENOSPC, none) := by
  refine ⟨by decide, by decide, by decide⟩

/-! ### States of a device -/

theorem mount_point_ne_empty (mnt_cfg : Option String) (id p : String)
    (hcfg : mnt_cfg ≠ some "") (h : mount_point mnt_cfg id = some p) : p ≠ "" := by
  cases mnt_cfg with
  | none => simp [mount_point] at h
  | some pre =>
    simp only [mount_point, Option.map_some', Option.some.injEq] at h
    intro hp
    apply hcfg
    rw [hp] at h
    have hl : (pre ++ id).length = 0 := by rw [h]; rfl
    rw [String.length_append] at hl
    have h0 : pre.length = 0 := by omega
    have : pre = "" := by
      apply String.ext
      exact List.length_eq_zero.1 h0
    rw [this]

theorem sched_load_media_inv (dev : dev_descr) (media : media_info) (lib : lib_outcome)
    (hinv : dev_state_inv dev) : dev_state_inv (sched_load_media dev media lib).2.1 := by
  have hkeep : ∀ b, dev_state_inv { dev with ongoing_io := b } := fun _ => hinv
  have hload : ∀ b, dev_state_inv { dev with
      op_status := .PHO_DEV_OP_ST_LOADED, dss_media_info := some media, ongoing_io := b } :=
    fun _ => by simp [dev_state_inv]
  have hcases : (sched_load_media dev media lib).2.1 = { dev with ongoing_io := false } ∨
      (sched_load_media dev media lib).2.1 = { dev with
        op_status := .PHO_DEV_OP_ST_LOADED, dss_media_info := some media,
        ongoing_io := false } ∨
      (sched_load_media dev media lib).2.1 = { dev with
        op_status := .PHO_DEV_OP_ST_LOADED, dss_media_info := some media,
        ongoing_io := dev.ongoing_io } := by
    have hb : EBUSY ≠ 0 := by decide
    have hi : EINVAL ≠ 0 := by decide
    by_cases c1 : dev.op_status = .PHO_DEV_OP_ST_EMPTY
    · by_cases c2 : dev.dss_media_info.isSome = true
      · left; simp [sched_load_media, c1, c2]
      · by_cases c3 : lib.open_rc = 0
        · by_cases c4 : lib.lookup_rc = 0
          · by_cases c5 : lib.move_rc = -EINVAL ∧ lib.media_lia_type = .MED_LOC_DRIVE ∧
                dev.lia_type = .MED_LOC_DRIVE
            · left
              by_cases c7 : lib.close_rc = 0 <;>
                simp [sched_load_media, c1, c2, c3, c4, c5, c7, hb]
            · by_cases c6 : lib.move_rc = 0
              · by_cases c7 : lib.close_rc = 0
                · right; right
                  simp [sched_load_media, c1, c2, c3, c4, c5, c6, c7, hi]
                · right; left
                  simp [sched_load_media, c1, c2, c3, c4, c5, c6, c7, hi]
              · left
                by_cases c7 : lib.close_rc = 0 <;>
                  simp [sched_load_media, c1, c2, c3, c4, c5, c6, c7]
          · left
            by_cases c7 : lib.close_rc = 0 <;>
              simp [sched_load_media, c1, c2, c3, c4, c7]
        · left; simp [sched_load_media, c1, c2, c3]
    · left; simp [sched_load_media, c1]
  rcases hcases with h | h | h <;> rw [h]
  · exact hkeep _
  · exact hload _
  · exact hload _

theorem sched_unload_medium_inv (dev : dev_descr) (io : empty_outcome) :
    dev_state_inv (sched_unload_medium dev io).2 := by
  by_cases c1 : io.lib_open_rc = 0 <;> by_cases c2 : io.move_rc = 0 <;>
    by_cases c3 : io.lib_close_rc = 0 <;> by_cases c4 : io.medium_unlock_rc = 0 <;>
    by_cases c5 : io.device_unlock_rc = 0 <;>
    simp [sched_unload_medium, sched_device_release, c1, c2, c3, c4, c5, dev_state_inv]

theorem sched_umount_inv (dev : dev_descr) (io : empty_outcome)
    (hmed : dev.dss_media_info.isSome = true) : dev_state_inv (sched_umount dev io).2 := by
  by_cases c1 : io.fs_adapter_rc = 0 <;> by_cases c2 : io.umount_rc = 0 <;>
    by_cases c5 : io.device_unlock_rc = 0 <;>
    simp [sched_umount, sched_device_release, c1, c2, c5, dev_state_inv, hmed]

theorem sched_empty_dev_inv (dev : dev_descr) (io : empty_outcome)
    (hinv : dev_state_inv dev) : dev_state_inv (sched_empty_dev dev io).2 := by
  by_cases c1 : dev.op_status = .PHO_DEV_OP_ST_MOUNTED
  · have hmed := hinv.1 (Or.inl c1)
    have hu := sched_umount_inv dev io hmed
    by_cases c2 : (sched_umount dev io).1 = 0
    · by_cases c3 : (sched_umount dev io).2.op_status = .PHO_DEV_OP_ST_LOADED
      · have e : sched_empty_dev dev io = sched_unload_medium (sched_umount dev io).2 io := by
          simp [sched_empty_dev, c1, c2, c3]
        rw [e]
        exact sched_unload_medium_inv _ io
      · have e : sched_empty_dev dev io = (0, (sched_umount dev io).2) := by
          simp [sched_empty_dev, c1, c2, c3]
        rw [e]
        exact hu
    · have e : sched_empty_dev dev io = sched_umount dev io := by
        simp [sched_empty_dev, c1, c2]
      rw [e]
      exact hu
  · by_cases c3 : dev.op_status = .PHO_DEV_OP_ST_LOADED
    · have e : sched_empty_dev dev io = sched_unload_medium dev io := by
        simp [sched_empty_dev, c1, c3]
      rw [e]
      exact sched_unload_medium_inv _ io
    · have e : sched_empty_dev dev io = (0, dev) := by
        simp [sched_empty_dev, c1, c3]
      rw [e]
      exact hinv

theorem sched_mount_inv (dev : dev_descr) (io : mount_outcome) (mnt_cfg : Option String)
    (hinv : dev_state_inv dev)
    (hmed : dev.dss_media_info.isSome = true)
    (hst : dev.op_status ≠ .PHO_DEV_OP_ST_MOUNTED)
    (hmounted : io.mounted_rc = 0 → io.mounted_path ≠ "")
    (hpoint : ∀ p, io.mount_point = some p → ∃ id, mount_point mnt_cfg id = some p)
    (hcfg : mnt_cfg ≠ some "") :
    dev_state_inv (sched_mount dev io).2 := by
  have hfail : ∀ (d : dev_descr),
      dev_state_inv
        { (if (sched_unload_medium d io.unload).1 = 0 then
            sched_device_release
              { (sched_unload_medium d io.unload).2 with
                op_status := .PHO_DEV_OP_ST_FAILED } io.unload
          else (sched_unload_medium d io.unload).2) with ongoing_io := false } := by
    intro d
    have hu := sched_unload_medium_inv d io.unload
    by_cases c : (sched_unload_medium d io.unload).1 = 0
    · by_cases c5 : io.unload.device_unlock_rc = 0 <;>
        simp [c, c5, sched_device_release, dev_state_inv]
    · simp only [c, if_false]
      exact hu
  by_cases c1 : io.fs_adapter_rc = 0
  · by_cases c2 : io.mounted_rc = 0
    · have e : sched_mount dev io =
          (0, { dev with op_status := .PHO_DEV_OP_ST_MOUNTED, mnt_path := io.mounted_path }) := by
        simp [sched_mount, c1, c2]
      rw [e]
      exact ⟨fun _ => hmed, fun _ => hmounted c2, fun h => by cases h⟩
    · cases hb : io.basename with
      | none =>
        have e : sched_mount dev io = (-EINVAL, { dev with mnt_path := io.mounted_path }) := by
          simp [sched_mount, c1, c2, hb]
        rw [e]
        exact ⟨fun _ => hmed, fun h => absurd h hst, hinv.2.2⟩
      | some id =>
        cases hp : io.mount_point with
        | none =>
          have e : sched_mount dev io = (-ENOMEM,
              { (if (sched_unload_medium { dev with mnt_path := io.mounted_path } io.unload).1 = 0
                then sched_device_release
                  { (sched_unload_medium { dev with mnt_path := io.mounted_path } io.unload).2 with
                    op_status := .PHO_DEV_OP_ST_FAILED } io.unload
                else (sched_unload_medium { dev with mnt_path := io.mounted_path } io.unload).2)
                with ongoing_io := false }) := by
            simp [sched_mount, c1, c2, hb, hp]
          rw [e]
          exact hfail _
        | some p =>
          by_cases c3 : io.mount_rc = 0
          · have e : sched_mount dev io =
                (0, { dev with op_status := .PHO_DEV_OP_ST_MOUNTED, mnt_path := p }) := by
              simp [sched_mount, c1, c2, hb, hp, c3]
            rw [e]
            obtain ⟨id', hid⟩ := hpoint p hp
            exact ⟨fun _ => hmed, fun _ => mount_point_ne_empty mnt_cfg id' p hcfg hid,
              fun h => by cases h⟩
          · have e : sched_mount dev io = (io.mount_rc,
                { (if (sched_unload_medium { dev with mnt_path := io.mounted_path } io.unload).1 = 0
                  then sched_device_release
                    { (sched_unload_medium { dev with mnt_path := io.mounted_path } io.unload).2 with
                      op_status := .PHO_DEV_OP_ST_FAILED } io.unload
                  else (sched_unload_medium { dev with mnt_path := io.mounted_path } io.unload).2)
                  with ongoing_io := false }) := by
              simp [sched_mount, c1, c2, hb, hp, c3]
            rw [e]
            exact hfail _
  · have e : sched_mount dev io = (io.fs_adapter_rc,
        { (if (sched_unload_medium dev io.unload).1 = 0
          then sched_device_release
            { (sched_unload_medium dev io.unload).2 with
              op_status := .PHO_DEV_OP_ST_FAILED } io.unload
          else (sched_unload_medium dev io.unload).2)
          with ongoing_io := false }) := by
      simp [sched_mount, c1]
    rw [e]
    exact hfail _

/-- C29. The invariant of the state of a device (a mounted or loaded device
has a medium, a mounted device has a non-empty mount path, an empty device has
no medium) holds after `sched_load_media`, `sched_mount`, `sched_umount`,
`sched_unload_medium` and `sched_empty_dev` when it holds before, whatever the
outcome of the calls they make: `sched_mount` and `sched_umount` are taken on
a device that has a medium, which they dereference, and `sched_mount` on a
device that is not mounted yet; `ldm_fs_mounted` reports a non-empty path when
it returns 0, and the mount point is the one `mount_point` builds from a
mount prefix that is not empty. -/
theorem device_state_invariant_preserved (dev : dev_descr) (media : media_info)
    (lib : lib_outcome) (eio : empty_outcome) (mio : mount_outcome) (mnt_cfg : Option String)
    (hinv : dev_state_inv dev)
    (hmounted : mio.mounted_rc = 0 → mio.mounted_path ≠ "")
    (hpoint : ∀ p, mio.mount_point = some p → ∃ id, mount_point mnt_cfg id = some p)
    (hcfg : mnt_cfg ≠ some "") :
    dev_state_inv (sched_load_media dev media lib).2.1 ∧
    (dev.dss_media_info.isSome = true → dev.op_status ≠ .PHO_DEV_OP_ST_MOUNTED →
      dev_state_inv (sched_mount dev mio).2) ∧
    (dev.dss_media_info.isSome = true → dev_state_inv (sched_umount dev eio).2) ∧
    dev_state_inv (sched_unload_medium dev eio).2 ∧
    dev_state_inv (sched_empty_dev dev eio).2 :=
  ⟨sched_load_media_inv dev media lib hinv,
    fun hmed hst => sched_mount_inv dev mio mnt_cfg hinv hmed hst hmounted hpoint hcfg,
    fun hmed => sched_umount_inv dev eio hmed,
    sched_unload_medium_inv dev eio,
    sched_empty_dev_inv dev eio hinv⟩

theorem loaded_tape_drive_inv : dev_state_inv loaded_tape_drive := by
  simp [dev_state_inv, loaded_tape_drive, tape_drive]

theorem device_state_invariant_preserved_witness :
    dev_state_inv loaded_tape_drive ∧
    (sched_mount loaded_tape_drive (quiet_env.mount_io () loaded_tape_drive)).2.op_status =
      .PHO_DEV_OP_ST_MOUNTED ∧
    dev_state_inv (sched_mount loaded_tape_drive (quiet_env.mount_io () loaded_tape_drive)).2 ∧
    (sched_empty_dev loaded_tape_drive (empty_io_ok loaded_tape_drive)).2.op_status =
      .PHO_DEV_OP_ST_EMPTY ∧
    dev_state_inv (sched_empty_dev loaded_tape_drive (empty_io_ok loaded_tape_drive)).2 :=
  ⟨loaded_tape_drive_inv, by decide,
    (device_state_invariant_preserved loaded_tape_drive spare_tape move_failed
      (empty_io_ok loaded_tape_drive) (quiet_env.mount_io () loaded_tape_drive) (some "/mnt/")
      loaded_tape_drive_inv (fun h => absurd h (by decide)) (fun _ hp => ⟨"d0", hp⟩)
      (by decide)).2.1 rfl (by decide),
    by decide,
    (device_state_invariant_preserved loaded_tape_drive spare_tape move_failed
      (empty_io_ok loaded_tape_drive) (quiet_env.mount_io () loaded_tape_drive) (some "/mnt/")
      loaded_tape_drive_inv (fun h => absurd h (by decide)) (fun _ hp => ⟨"d0", hp⟩)
      (by decide)).2.2.2.2⟩

/-! ### Allocation requests of a put -/

theorem limit_extent_size_pos (media : List pho_resp_write_elt) (n : Nat) (hn : 0 < n)
    (h : ∀ m ∈ media, 1 ≤ m.avail_size) : 0 < limit_extent_size n media := by
  rcases limit_extent_size_attained media n with e | ⟨m, hm, e⟩
  · rw [e]; exact hn
  · rw [e]; exact h m hm

theorem mark_released_requested (raid1 : raid1_encoder) (a : String) :
    (mark_written_medium_released raid1 a).2.requested_alloc = raid1.requested_alloc := by
  cases hl : release_lookup raid1.to_release_media a with
  | none => simp [mark_written_medium_released, hl]
  | some v =>
    by_cases hv : v = 1
    · simp [mark_written_medium_released, hl, hv]
    · simp [mark_written_medium_released, hl, hv]

theorem mark_all_released_requested (med_ids : List pho_id) :
    ∀ (raid1 : raid1_encoder) (rc : Int),
      (mark_all_released raid1 med_ids rc).2.requested_alloc = raid1.requested_alloc := by
  induction med_ids with
  | nil => intro raid1 rc; simp [mark_all_released]
  | cons a rest ih =>
    intro raid1 rc
    simp only [mark_all_released]
    rw [ih, mark_released_requested]

theorem release_resp_alloc (r : Nat) (enc : pho_encoder) (ids : List pho_id)
    (hinv : alloc_inv r enc) :
    alloc_inv r (raid1_enc_handle_release_resp enc ids).2 ∧
    (raid1_enc_handle_release_resp enc ids).2.priv_enc.to_write = enc.priv_enc.to_write ∧
    (raid1_enc_handle_release_resp enc ids).2.priv_enc.requested_alloc =
      enc.priv_enc.requested_alloc := by
  obtain ⟨a1, a2, a3, a4, a5⟩ := hinv
  obtain ⟨f1, f2, f3, f4⟩ := mark_all_released_frame ids enc.priv_enc 0
  have f5 := mark_all_released_requested ids enc.priv_enc 0
  unfold raid1_enc_handle_release_resp
  simp only []
  split
  · rename_i hc
    refine ⟨⟨a1, ?_, a3, fun _ => Or.inl rfl, ?_⟩, ?_, ?_⟩
    · simp only [f3]; exact a2
    · simp only [f5, f2]; exact a5
    · simp only [f2]
    · simp only [f5]
  · refine ⟨⟨a1, ?_, a3, ?_, ?_⟩, ?_, ?_⟩
    · simp only [f3]; exact a2
    · simp only [f1, f2]; exact a4
    · simp only [f5, f2]; exact a5
    · simp only [f2]
    · simp only [f5]

theorem walloc_resp_alloc (r : Nat) (hr : 0 < r) (enc : pho_encoder) (id : Nat)
    (media : List pho_resp_write_elt) (io : step_io) (hinv : alloc_inv r enc)
    (hs : io.chunk.setup_rc = 0) (hrc : io.chunk.rc = 0) (hlen : media.length = r) :
    (raid1_enc_handle_resp enc ⟨id, .walloc media⟩ io).1 = 0 ∧
    alloc_inv r (raid1_enc_handle_resp enc ⟨id, .walloc media⟩ io).2.1 ∧
    (raid1_enc_handle_resp enc ⟨id, .walloc media⟩ io).2.1.priv_enc.requested_alloc = false ∧
    (raid1_enc_handle_resp enc ⟨id, .walloc media⟩ io).2.1.priv_enc.to_write =
      enc.priv_enc.to_write - limit_extent_size enc.priv_enc.to_write media ∧
    (raid1_enc_handle_resp enc ⟨id, .walloc media⟩ io).2.2.countP is_write_alloc = 0 := by
  obtain ⟨a1, a2, a3, a4, a5⟩ := hinv
  have hlen2 : media.length = enc.priv_enc.repl_count := by rw [a2]; exact hlen
  obtain ⟨c1, c2, c3⟩ := write_chunk_ok
    { enc with priv_enc := { enc.priv_enc with requested_alloc := false } } media
    (release_elts_of_walloc media) io.chunk hlen2 a3 hs hrc
  have e : raid1_enc_handle_resp enc ⟨id, .walloc media⟩ io =
      ((multiple_enc_write_chunk
          { enc with priv_enc := { enc.priv_enc with requested_alloc := false } } media
          (release_elts_of_walloc media) io.chunk).1,
        (multiple_enc_write_chunk
          { enc with priv_enc := { enc.priv_enc with requested_alloc := false } } media
          (release_elts_of_walloc media) io.chunk).2.1,
        [{ id := 0, body := .release (multiple_enc_write_chunk
          { enc with priv_enc := { enc.priv_enc with requested_alloc := false } } media
          (release_elts_of_walloc media) io.chunk).2.2 }]) := by
    simp [raid1_enc_handle_resp, a1, hlen2]
  rw [e]
  simp only [c1, c2]
  obtain ⟨f1, f2, f3, f4, f5, f6⟩ := add_written_extents_frame
    (prepare_extents { enc.priv_enc with requested_alloc := false } media
      (limit_extent_size enc.priv_enc.to_write media) 0)
    { enc.priv_enc with
      requested_alloc := false
      to_write := enc.priv_enc.to_write - limit_extent_size enc.priv_enc.to_write media }
  refine ⟨trivial, ⟨a1, ?_, a3, ?_, ?_⟩, ?_, ?_, ?_⟩
  · simp only [f3]; exact a2
  · intro _
    right
    simp only [f1, List.length_append, prepare_extents_length]
    omega
  · simp only [f5]; intro h; cases h
  · simp only [f5]
  · simp only [f2]
  · simp [is_write_alloc]

theorem handle_resp_alloc (r : Nat) (hr : 0 < r) (enc : pho_encoder) (resp : pho_resp)
    (io : step_io) (hinv : alloc_inv r enc) (hok : write_event_ok r (some resp, io) = true) :
    alloc_inv r (raid1_enc_handle_resp enc resp io).2.1 ∧
    (raid1_enc_handle_resp enc resp io).2.2.countP is_write_alloc = 0 ∧
    (raid1_enc_handle_resp enc resp io).2.1.priv_enc.to_write + outstanding_alloc enc ≤
      enc.priv_enc.to_write + outstanding_alloc (raid1_enc_handle_resp enc resp io).2.1 ∧
    outstanding_alloc enc ≤ (if is_write_alloc_resp (some resp) = true then 1 else 0) +
      outstanding_alloc (raid1_enc_handle_resp enc resp io).2.1 ∧
    (raid1_enc_handle_resp enc resp io).2.1.priv_enc.to_write ≤ enc.priv_enc.to_write := by
  have hinv0 := hinv
  obtain ⟨a1, a2, a3, a4, a5⟩ := hinv
  obtain ⟨id, body⟩ := resp
  have hflag : outstanding_alloc enc ≤ 1 := by
    unfold outstanding_alloc; split <;> omega
  cases body with
  | walloc media =>
    simp only [write_event_ok, Bool.and_eq_true, decide_eq_true_eq, List.all_eq_true] at hok
    obtain ⟨⟨hs, hrc⟩, hlen, havail⟩ := hok
    obtain ⟨w1, w2, w3, w4, w5⟩ :=
      walloc_resp_alloc r hr enc id media io hinv0 hs hrc hlen
    refine ⟨w2, w5, ?_, ?_, ?_⟩
    · rw [w4]
      have hle := limit_extent_size_le media enc.priv_enc.to_write
      by_cases hreq : enc.priv_enc.requested_alloc = true
      · have hpos := limit_extent_size_pos media _ (a5 hreq) havail
        have : outstanding_alloc enc = 1 := by simp [outstanding_alloc, hreq]
        omega
      · have : outstanding_alloc enc = 0 := by simp [outstanding_alloc, hreq]
        omega
    · simp only [is_write_alloc_resp, if_true]
      omega
    · rw [w4]; omega
  | ralloc media => simp [write_event_ok] at hok
  | release ids =>
    obtain ⟨r1, r2, r3⟩ := release_resp_alloc r enc ids hinv0
    have e : raid1_enc_handle_resp enc ⟨id, .release ids⟩ io =
        ((raid1_enc_handle_release_resp enc ids).1,
          (raid1_enc_handle_release_resp enc ids).2, []) := by
      simp [raid1_enc_handle_resp, a1]
    rw [e]
    have ho : outstanding_alloc (raid1_enc_handle_release_resp enc ids).2 =
        outstanding_alloc enc := by
      simp only [outstanding_alloc, r3]
    refine ⟨r1, by simp, ?_, ?_, ?_⟩
    · simp only [r2, ho]; omega
    · simp only [ho]; omega
    · simp only [r2]; omega
  | error rc kind =>
    have e : raid1_enc_handle_resp enc ⟨id, .error rc kind⟩ io =
        (0, { enc with xd_rc := rc, done := true }, []) := by
      simp [raid1_enc_handle_resp]
    rw [e]
    exact ⟨⟨a1, a2, a3, fun _ => Or.inl rfl, a5⟩, by simp, le_refl _,
      by simp [outstanding_alloc], le_refl _⟩
  | format med_id =>
    have e : raid1_enc_handle_resp enc ⟨id, .format med_id⟩ io = (-EPROTO, enc, []) := by
      simp [raid1_enc_handle_resp]
    rw [e]
    exact ⟨hinv0, by simp, le_refl _, Nat.le_add_left _ _, le_refl _⟩
  | notify rsrc_id =>
    have e : raid1_enc_handle_resp enc ⟨id, .notify rsrc_id⟩ io = (-EPROTO, enc, []) := by
      simp [raid1_enc_handle_resp]
    rw [e]
    exact ⟨hinv0, by simp, le_refl _, Nat.le_add_left _ _, le_refl _⟩
  | unset =>
    have e : raid1_enc_handle_resp enc ⟨id, .unset⟩ io = (-EPROTO, enc, []) := by
      simp [raid1_enc_handle_resp]
    rw [e]
    exact ⟨hinv0, by simp, le_refl _, Nat.le_add_left _ _, le_refl _⟩

theorem next_alloc_emitted (r : Nat) (family : Nat) (tags : List String)
    (h : Int × pho_encoder × List pho_req) (T F W : Nat) (hinv : alloc_inv r h.2.1)
    (hreqs : h.2.2.countP is_write_alloc = 0)
    (k3 : h.2.1.priv_enc.to_write + F ≤ T + outstanding_alloc h.2.1)
    (k4 : F ≤ W + outstanding_alloc h.2.1)
    (k5 : h.2.1.priv_enc.to_write ≤ T) :
    alloc_inv r (if h.1 ≠ 0 ∨ h.2.1.priv_enc.requested_alloc = true ∨ no_more_alloc h.2.1 = true then
        (h.1, h.2.1, h.2.2)
      else
        (0, { h.2.1 with priv_enc := { h.2.1.priv_enc with requested_alloc := true } },
          h.2.2 ++ [if h.2.1.is_decoder then raid1_dec_next_read_req h.2.1
                   else raid1_enc_next_write_req h.2.1 family tags])).2.1 ∧
    (if h.1 ≠ 0 ∨ h.2.1.priv_enc.requested_alloc = true ∨ no_more_alloc h.2.1 = true then
        (h.1, h.2.1, h.2.2)
      else
        (0, { h.2.1 with priv_enc := { h.2.1.priv_enc with requested_alloc := true } },
          h.2.2 ++ [if h.2.1.is_decoder then raid1_dec_next_read_req h.2.1
                   else raid1_enc_next_write_req h.2.1 family tags])).2.2.countP is_write_alloc +
        (if h.1 ≠ 0 ∨ h.2.1.priv_enc.requested_alloc = true ∨ no_more_alloc h.2.1 = true then
        (h.1, h.2.1, h.2.2)
      else
        (0, { h.2.1 with priv_enc := { h.2.1.priv_enc with requested_alloc := true } },
          h.2.2 ++ [if h.2.1.is_decoder then raid1_dec_next_read_req h.2.1
                   else raid1_enc_next_write_req h.2.1 family tags])).2.1.priv_enc.to_write + F ≤
      T + outstanding_alloc (if h.1 ≠ 0 ∨ h.2.1.priv_enc.requested_alloc = true ∨ no_more_alloc h.2.1 = true then
        (h.1, h.2.1, h.2.2)
      else
        (0, { h.2.1 with priv_enc := { h.2.1.priv_enc with requested_alloc := true } },
          h.2.2 ++ [if h.2.1.is_decoder then raid1_dec_next_read_req h.2.1
                   else raid1_enc_next_write_req h.2.1 family tags])).2.1 ∧
    (if h.1 ≠ 0 ∨ h.2.1.priv_enc.requested_alloc = true ∨ no_more_alloc h.2.1 = true then
        (h.1, h.2.1, h.2.2)
      else
        (0, { h.2.1 with priv_enc := { h.2.1.priv_enc with requested_alloc := true } },
          h.2.2 ++ [if h.2.1.is_decoder then raid1_dec_next_read_req h.2.1
                   else raid1_enc_next_write_req h.2.1 family tags])).2.2.countP is_write_alloc + F ≤
      W + outstanding_alloc (if h.1 ≠ 0 ∨ h.2.1.priv_enc.requested_alloc = true ∨ no_more_alloc h.2.1 = true then
        (h.1, h.2.1, h.2.2)
      else
        (0, { h.2.1 with priv_enc := { h.2.1.priv_enc with requested_alloc := true } },
          h.2.2 ++ [if h.2.1.is_decoder then raid1_dec_next_read_req h.2.1
                   else raid1_enc_next_write_req h.2.1 family tags])).2.1 ∧
    (if h.1 ≠ 0 ∨ h.2.1.priv_enc.requested_alloc = true ∨ no_more_alloc h.2.1 = true then
        (h.1, h.2.1, h.2.2)
      else
        (0, { h.2.1 with priv_enc := { h.2.1.priv_enc with requested_alloc := true } },
          h.2.2 ++ [if h.2.1.is_decoder then raid1_dec_next_read_req h.2.1
                   else raid1_enc_next_write_req h.2.1 family tags])).2.1.priv_enc.to_write ≤ T ∧
    (T = 0 → (if h.1 ≠ 0 ∨ h.2.1.priv_enc.requested_alloc = true ∨ no_more_alloc h.2.1 = true then
        (h.1, h.2.1, h.2.2)
      else
        (0, { h.2.1 with priv_enc := { h.2.1.priv_enc with requested_alloc := true } },
          h.2.2 ++ [if h.2.1.is_decoder then raid1_dec_next_read_req h.2.1
                   else raid1_enc_next_write_req h.2.1 family tags])).2.2.countP is_write_alloc = 0) := by
  obtain ⟨a1, a2, a3, a4, a5⟩ := hinv
  by_cases hc : h.1 ≠ 0 ∨ h.2.1.priv_enc.requested_alloc = true ∨ no_more_alloc h.2.1 = true
  · simp only [if_pos hc]
    refine ⟨⟨a1, a2, a3, a4, a5⟩, ?_, ?_, k5, fun _ => hreqs⟩
    · rw [hreqs]; omega
    · rw [hreqs]; omega
  · simp only [if_neg hc]
    have hreq : h.2.1.priv_enc.requested_alloc = false := by
      cases hq : h.2.1.priv_enc.requested_alloc with
      | false => rfl
      | true => exact absurd (Or.inr (Or.inl hq)) hc
    have hnm : no_more_alloc h.2.1 = false := by
      cases hq : no_more_alloc h.2.1 with
      | false => rfl
      | true => exact absurd (Or.inr (Or.inr hq)) hc
    have hpos : 0 < h.2.1.priv_enc.to_write := by
      by_contra hz
      have hz0 : h.2.1.priv_enc.to_write = 0 := by omega
      rcases a4 hz0 with hd | hw
      · simp [no_more_alloc, hd] at hnm
      · simp [no_more_alloc, hz0, a1, hw] at hnm
    have hcount : (h.2.2 ++ [if h.2.1.is_decoder then raid1_dec_next_read_req h.2.1
        else raid1_enc_next_write_req h.2.1 family tags]).countP is_write_alloc = 1 := by
      simp [List.countP_append, hreqs, a1, raid1_enc_next_write_req, is_write_alloc]
    have hout0 : outstanding_alloc h.2.1 = 0 := by simp [outstanding_alloc, hreq]
    rw [hout0] at k3 k4
    refine ⟨⟨a1, a2, a3, fun hz => ?_, fun _ => hpos⟩, ?_, ?_, k5, ?_⟩
    · simp only at hz; omega
    · rw [hcount]
      simp only [outstanding_alloc, if_true]
      omega
    · rw [hcount]
      simp only [outstanding_alloc, if_true]
      omega
    · intro hz; omega

theorem raid1_encoder_step_alloc (r : Nat) (hr : 0 < r) (family : Nat) (tags : List String)
    (enc : pho_encoder) (ev : Option pho_resp × step_io) (hinv : alloc_inv r enc)
    (hok : write_event_ok r ev = true) :
    alloc_inv r (raid1_encoder_step enc ev.1 ev.2 family tags).2.1 ∧
    (raid1_encoder_step enc ev.1 ev.2 family tags).2.2.countP is_write_alloc +
        (raid1_encoder_step enc ev.1 ev.2 family tags).2.1.priv_enc.to_write +
        outstanding_alloc enc ≤
      enc.priv_enc.to_write +
        outstanding_alloc (raid1_encoder_step enc ev.1 ev.2 family tags).2.1 ∧
    (raid1_encoder_step enc ev.1 ev.2 family tags).2.2.countP is_write_alloc +
        outstanding_alloc enc ≤
      (if is_write_alloc_resp ev.1 = true then 1 else 0) +
        outstanding_alloc (raid1_encoder_step enc ev.1 ev.2 family tags).2.1 ∧
    (raid1_encoder_step enc ev.1 ev.2 family tags).2.1.priv_enc.to_write ≤
      enc.priv_enc.to_write ∧
    (enc.priv_enc.to_write = 0 →
      (raid1_encoder_step enc ev.1 ev.2 family tags).2.2.countP is_write_alloc = 0) := by
  obtain ⟨resp, io⟩ := ev
  cases resp with
  | none =>
    exact next_alloc_emitted r family tags (0, enc, []) _ _ _ hinv rfl (le_refl _)
      (Nat.le_add_left _ _) (le_refl _)
  | some resp =>
    obtain ⟨h1, h2, h3, h4, h5⟩ := handle_resp_alloc r hr enc resp io hinv hok
    exact next_alloc_emitted r family tags (raid1_enc_handle_resp enc resp io) _ _ _
      h1 h2 h3 h4 h5

theorem handle_resp_length (enc : pho_encoder) (resp : pho_resp) (io : step_io) :
    (raid1_enc_handle_resp enc resp io).2.2.length ≤ 1 := by
  obtain ⟨id, body⟩ := resp
  cases body with
  | walloc media =>
    by_cases h1 : enc.is_decoder = true
    · simp [raid1_enc_handle_resp, h1]
    · by_cases h2 : media.length = enc.priv_enc.repl_count
      · simp [raid1_enc_handle_resp, h1, h2]
      · simp [raid1_enc_handle_resp, h1, h2]
  | ralloc media =>
    by_cases h1 : enc.is_decoder = true
    · match media with
      | [] => simp [raid1_enc_handle_resp, h1]
      | [m] => simp [raid1_enc_handle_resp, h1]
      | _ :: _ :: _ => simp [raid1_enc_handle_resp, h1]
    · simp [raid1_enc_handle_resp, h1]
  | release ids =>
    by_cases h1 : enc.is_decoder = true
    · simp [raid1_enc_handle_resp, h1]
    · simp [raid1_enc_handle_resp, h1]
  | error rc kind => simp [raid1_enc_handle_resp]
  | format med_id => simp [raid1_enc_handle_resp]
  | notify rsrc_id => simp [raid1_enc_handle_resp]
  | unset => simp [raid1_enc_handle_resp]

theorem raid1_encoder_step_length (enc : pho_encoder) (resp : Option pho_resp) (io : step_io)
    (family : Nat) (tags : List String) :
    (raid1_encoder_step enc resp io family tags).2.2.length ≤ 2 := by
  have aux : ∀ (h : Int × pho_encoder × List pho_req), h.2.2.length ≤ 1 →
      (if h.1 ≠ 0 ∨ h.2.1.priv_enc.requested_alloc = true ∨ no_more_alloc h.2.1 = true then
        (h.1, h.2.1, h.2.2)
      else
        (0, { h.2.1 with priv_enc := { h.2.1.priv_enc with requested_alloc := true } },
          h.2.2 ++ [if h.2.1.is_decoder then raid1_dec_next_read_req h.2.1
                   else raid1_enc_next_write_req h.2.1 family tags])).2.2.length ≤ 2 := by
    intro h hl
    split
    · simp only; omega
    · simp only [List.length_append, List.length_singleton]; omega
  cases resp with
  | none => exact aux (0, enc, []) (by simp)
  | some resp => exact aux (raid1_enc_handle_resp enc resp io) (handle_resp_length enc resp io)

theorem write_round_decreases (r : Nat) (hr : 0 < r) (family : Nat) (tags : List String)
    (enc : pho_encoder) (id : Nat) (media : List pho_resp_write_elt) (io : step_io)
    (hinv : alloc_inv r enc) (hpos : 0 < enc.priv_enc.to_write)
    (hok : write_event_ok r (some ⟨id, .walloc media⟩, io) = true) :
    (raid1_encoder_step enc (some ⟨id, .walloc media⟩) io family tags).1 = 0 ∧
    (raid1_encoder_step enc (some ⟨id, .walloc media⟩) io family tags).2.1.priv_enc.to_write <
      enc.priv_enc.to_write := by
  have hok0 := hok
  simp only [write_event_ok, Bool.and_eq_true, decide_eq_true_eq, List.all_eq_true] at hok
  obtain ⟨⟨hs, hrc⟩, hlen, havail⟩ := hok
  obtain ⟨w1, w2, w3, w4, w5⟩ := walloc_resp_alloc r hr enc id media io hinv hs hrc hlen
  have hlt : (raid1_enc_handle_resp enc ⟨id, .walloc media⟩ io).2.1.priv_enc.to_write <
      enc.priv_enc.to_write := by
    rw [w4]
    have := limit_extent_size_pos media _ hpos havail
    omega
  have hrc0 : ∀ (h : Int × pho_encoder × List pho_req), h.1 = 0 →
      (if h.1 ≠ 0 ∨ h.2.1.priv_enc.requested_alloc = true ∨ no_more_alloc h.2.1 = true then
        (h.1, h.2.1, h.2.2)
      else
        (0, { h.2.1 with priv_enc := { h.2.1.priv_enc with requested_alloc := true } },
          h.2.2 ++ [if h.2.1.is_decoder then raid1_dec_next_read_req h.2.1
                   else raid1_enc_next_write_req h.2.1 family tags])).1 = 0 := by
    intro h h0
    split
    · exact h0
    · rfl
  refine ⟨hrc0 (raid1_enc_handle_resp enc ⟨id, .walloc media⟩ io) w1, ?_⟩
  have hle := (next_alloc_emitted r family tags
    (raid1_enc_handle_resp enc ⟨id, .walloc media⟩ io)
    (raid1_enc_handle_resp enc ⟨id, .walloc media⟩ io).2.1.priv_enc.to_write 0 0 w2 w5
    (by omega) (by omega) (le_refl _)).2.2.2.1
  exact Nat.lt_of_le_of_lt hle hlt

theorem raid1_run_alloc (r : Nat) (hr : 0 < r) (family : Nat) (tags : List String) :
    ∀ (events : List (Option pho_resp × step_io)) (enc : pho_encoder), alloc_inv r enc →
      (∀ ev ∈ events, write_event_ok r ev = true) →
      alloc_inv r (raid1_run enc events family tags) ∧
      (raid1_run_requests enc events family tags).countP is_write_alloc +
          (raid1_run enc events family tags).priv_enc.to_write + outstanding_alloc enc ≤
        enc.priv_enc.to_write + outstanding_alloc (raid1_run enc events family tags) ∧
      (raid1_run_requests enc events family tags).countP is_write_alloc +
          outstanding_alloc enc ≤
        events.countP (fun ev => is_write_alloc_resp ev.1) +
          outstanding_alloc (raid1_run enc events family tags) ∧
      (enc.priv_enc.to_write = 0 →
        (raid1_run_requests enc events family tags).countP is_write_alloc = 0) := by
  intro events
  induction events with
  | nil =>
    intro enc hinv _
    simp only [raid1_run, raid1_run_requests, List.countP_nil]
    exact ⟨hinv, by omega, by omega, fun _ => trivial⟩
  | cons ev rest ih =>
    intro enc hinv hev
    by_cases hd : enc.done = true
    · simp only [raid1_run, raid1_run_requests, hd, if_true, List.countP_nil]
      exact ⟨hinv, by omega, by omega, fun _ => trivial⟩
    · obtain ⟨s1, s2, s3, s4, s5⟩ := raid1_encoder_step_alloc r hr family tags enc ev hinv
        (hev ev (List.mem_cons_self _ _))
      obtain ⟨i1, i2, i3, i4⟩ := ih (raid1_encoder_step enc ev.1 ev.2 family tags).2.1 s1
        (fun e he => hev e (List.mem_cons_of_mem _ he))
      have hrun : raid1_run enc (ev :: rest) family tags =
          raid1_run (raid1_encoder_step enc ev.1 ev.2 family tags).2.1 rest family tags := by
        simp [raid1_run, hd]
      have hreqs : raid1_run_requests enc (ev :: rest) family tags =
          (raid1_encoder_step enc ev.1 ev.2 family tags).2.2 ++
            raid1_run_requests (raid1_encoder_step enc ev.1 ev.2 family tags).2.1 rest
              family tags := by
        simp [raid1_run_requests, hd]
      rw [hrun, hreqs, List.countP_append, List.countP_cons]
      refine ⟨i1, by omega, ?_, ?_⟩
      · by_cases hw : is_write_alloc_resp ev.1 = true
        · simp only [hw, if_true] at s3 ⊢
          omega
        · simp only [hw] at s3 ⊢
          simp only [Bool.false_eq_true, if_false] at s3 ⊢
          omega
      · intro hz
        have := s5 hz
        have := i4 (by omega)
        omega

theorem fresh_encoder_alloc_inv (attr : Option Nat) (fd : Int) (r S : Nat) (hfd : 0 ≤ fd)
    (hS : 0 < S) : alloc_inv r (fresh_encoder attr fd r S) :=
  ⟨rfl, rfl, hfd, fun h => by simp [fresh_encoder] at h; omega,
    fun h => by simp [fresh_encoder] at h⟩

/-- C30. A put of `size > 0` bytes on an open descriptor, where every write
allocation response offers as many media as there are copies, each with room
for one byte at least, no read allocation response comes, and every chunk
I/O succeeds: a write allocation response handled while something is left to
write succeeds and strictly decreases `to_write`, which holds in every state
of the run; along the run the encoder emits at most `size` write allocation
requests; at any time it has emitted at most one more than the write
allocation responses it received; a step emits at most two requests; and
once `to_write` is 0 no write allocation request is emitted any more. -/
theorem raid1_write_terminates (size : Int) (attr : Option Nat) (fd : Int)
    (enc0 : pho_encoder) (events : List (Option pho_resp × step_io)) (family : Nat)
    (tags : List String)
    (h0 : layout_raid1_encode size attr fd = .ok enc0) (hsize : 0 < size) (hfd : 0 ≤ fd)
    (hev : ∀ ev ∈ events, write_event_ok enc0.priv_enc.repl_count ev = true) :
    (∀ n, alloc_inv enc0.priv_enc.repl_count (raid1_run enc0 (events.take n) family tags)) ∧
    (∀ (enc : pho_encoder) (id : Nat) (media : List pho_resp_write_elt) (io : step_io),
      alloc_inv enc0.priv_enc.repl_count enc → 0 < enc.priv_enc.to_write →
      write_event_ok enc0.priv_enc.repl_count (some ⟨id, .walloc media⟩, io) = true →
      (raid1_encoder_step enc (some ⟨id, .walloc media⟩) io family tags).1 = 0 ∧
      (raid1_encoder_step enc (some ⟨id, .walloc media⟩) io family tags).2.1.priv_enc.to_write <
        enc.priv_enc.to_write) ∧
    (raid1_run_requests enc0 events family tags).countP is_write_alloc ≤ size.toNat ∧
    (∀ n, (raid1_run_requests enc0 (events.take n) family tags).countP is_write_alloc ≤
      (events.take n).countP (fun ev => is_write_alloc_resp ev.1) + 1) ∧
    (∀ (enc : pho_encoder) (resp : Option pho_resp) (io : step_io),
      (raid1_encoder_step enc resp io family tags).2.2.length ≤ 2) ∧
    (∀ n, (raid1_run enc0 (events.take n) family tags).priv_enc.to_write = 0 →
      (raid1_run_requests (raid1_run enc0 (events.take n) family tags) (events.drop n)
        family tags).countP is_write_alloc = 0) := by
  obtain ⟨_, hr, he⟩ := layout_raid1_encode_ok size attr fd enc0 h0
  have hS : 0 < size.toNat := by omega
  have hinv0 : alloc_inv enc0.priv_enc.repl_count enc0 := by
    have := fresh_encoder_alloc_inv attr fd enc0.priv_enc.repl_count size.toNat hfd hS
    rw [← he] at this
    exact this
  have hout0 : outstanding_alloc enc0 = 0 := by
    rw [he]; rfl
  have htw0 : enc0.priv_enc.to_write = size.toNat := by
    rw [he]; rfl
  have hflag : ∀ e : pho_encoder, outstanding_alloc e ≤ 1 := by
    intro e; unfold outstanding_alloc; split <;> omega
  have htake : ∀ n, ∀ ev ∈ events.take n,
      write_event_ok enc0.priv_enc.repl_count ev = true :=
    fun n ev hm => hev ev (List.mem_of_mem_take hm)
  have hdrop : ∀ n, ∀ ev ∈ events.drop n,
      write_event_ok enc0.priv_enc.repl_count ev = true :=
    fun n ev hm => hev ev (List.mem_of_mem_drop hm)
  refine ⟨?_, ?_, ?_, ?_, ?_, ?_⟩
  · intro n
    exact (raid1_run_alloc _ hr family tags (events.take n) enc0 hinv0 (htake n)).1
  · intro enc id media io hinv hpos hok
    exact write_round_decreases _ hr family tags enc id media io hinv hpos hok
  · obtain ⟨r1, r2, r3, r4⟩ := raid1_run_alloc _ hr family tags events enc0 hinv0 hev
    rw [hout0, htw0] at r2
    by_cases hq : (raid1_run enc0 events family tags).priv_enc.requested_alloc = true
    · have := r1.2.2.2.2 hq
      have := hflag (raid1_run enc0 events family tags)
      omega
    · have : outstanding_alloc (raid1_run enc0 events family tags) = 0 := by
        simp [outstanding_alloc, hq]
      omega
  · intro n
    obtain ⟨r1, r2, r3, r4⟩ :=
      raid1_run_alloc _ hr family tags (events.take n) enc0 hinv0 (htake n)
    have := hflag (raid1_run enc0 (events.take n) family tags)
    omega
  · intro enc resp io
    exact raid1_encoder_step_length enc resp io family tags
  · intro n hz
    have hinvn := (raid1_run_alloc _ hr family tags (events.take n) enc0 hinv0 (htake n)).1
    exact (raid1_run_alloc _ hr family tags (events.drop n) _ hinvn (hdrop n)).2.2.2 hz

theorem two_round_put_ok : ∀ ev ∈ two_round_put, write_event_ok 2 ev = true :=
  List.all_eq_true.1 (by rfl : two_round_put.all (write_event_ok 2) = true)

theorem raid1_write_terminates_witness :
    layout_raid1_encode 3 (some 2) 3 = .ok (fresh_encoder (some 2) 3 2 3) ∧
    (raid1_run (fresh_encoder (some 2) 3 2 3) two_round_put 0 []).done = true ∧
    (raid1_run_requests (fresh_encoder (some 2) 3 2 3) two_round_put 0 []).countP
      is_write_alloc = 2 ∧
    (raid1_run_requests (fresh_encoder (some 2) 3 2 3) two_round_put 0 []).countP
      is_write_alloc ≤ (3 : Int).toNat :=
  ⟨rfl, by decide, by decide,
    (raid1_write_terminates 3 (some 2) 3 (fresh_encoder (some 2) 3 2 3) two_round_put 0 []
      rfl (by decide) (by decide) two_round_put_ok).2.2.1⟩

/-! ### Extents of a layout through the state index -/

theorem reindex_get : ∀ (l : List extent) (i k : Nat),
    (reindex l i)[k]? = (l[k]?).map (fun e => { e with layout_idx := i + k }) := by
  intro l
  induction l with
  | nil => intro i k; simp [reindex]
  | cons e rest ih =>
    intro i k
    cases k with
    | zero => simp [reindex]
    | succ k =>
      simp only [reindex, List.getElem?_cons_succ, ih]
      rw [show i + 1 + k = i + (k + 1) by omega]

theorem reindex_media (l : List extent) (k : Nat) :
    ((reindex l 0)[k]?).map (fun e => e.media) = (l[k]?).map (fun e => e.media) := by
  rw [reindex_get]
  cases l[k]? <;> rfl

end Phobos
